import Mathlib

/-! # geoz: coordinate kernel, line intersector and monotone chains

A shallow embedding of the coordinate kernel of `simoncochrane/geoz`
(`coord/coords.go`, `coord/orientation.go`, `coord/envelope.go`,
`coord/distance.go`) and of the line intersector and the monotone chains of its
graph package (`graph/quadrant.go`, `graph/monotone.go`,
`graph/lineintersector.go`), together with theorems about them.

Modelling conventions.

* A finite `float64` (a coordinate, a bound of an envelope, a distance) is the
  rational number (`ℚ`) it stands for; a coordinate is finite.  Comparisons, `min`
  and `max` are those of `ℚ`.
* In `coord/orientation.go` every arithmetic operation rounds as it does in the
  source: a `float64` operation of the filter to the nearest `float64`, ties to
  even, with gradual underflow, infinities and NaN (the type `F64`); an operation
  on a `big.Float` variable to the 53 significant bits of its receiver, ties to
  even (`round53`).
* The arithmetic of the other files (the centre of an envelope, the point that
  `RobustLineIntersector.intersection` computes, the distance along an edge) is
  that of `ℚ`: it is exact where the source rounds to a `float64`.
* A Go `int` index is a `Nat`; a decrement that Go follows with
  `if i < 0 { i = nPts }` is written as one step that wraps at `0`.
* A `*Envelope` is an `Option Envelope`, the nil pointer being `none`.
* A Go result `(bool, error)` is a pair `Bool × Option String`, the nil error
  being `none`.  Loops whose termination depends on the input take a fuel
  argument and return an `Option`; an index out of range (a Go panic) is
  `none` too.
-/

namespace Geoz

namespace Coord

/-! ## `coord/coords.go` -/

/-- A coordinate `(X, Y, Z)`. -/
structure Coordinate where
  X : ℚ
  Y : ℚ
  Z : ℚ
  deriving DecidableEq, Repr

/-- A coordinate sequence (`type Coordinates []Coordinate`). -/
abbrev Coordinates := List Coordinate

/-- Embeds `func (c Coordinate) Equals(other Coordinate) bool`. -/
def Coordinate.Equals (c other : Coordinate) : Bool :=
  c.X == other.X && c.Y == other.Y && c.Z == other.Z

/-- Embeds `func (c Coordinate) Equals2D(other Coordinate) bool`, as written in the
source: both comparisons are `!=`. -/
def Coordinate.Equals2D (c other : Coordinate) : Bool :=
  c.X != other.X && c.Y != other.Y

/-! ## `coord/orientation.go` -/

/-- The constant `DPSafeEpsilon = 1e-15`. -/
def DPSafeEpsilon : ℚ := 1 / 1000000000000000

/-! ### Rounding

The coordinates are rational numbers: a `float64` that is finite is one.  The
operations of `OrientationIndex` round: the `float64` operations of the filter to
the nearest `float64`, and the operations on the `big.Float` variables to 53
significant bits, the precision that `SetFloat64` gives a variable whose precision
is still 0 and that `Add`, `Mul` and `Sub` keep for their receiver. -/

/-- The integer nearest to `x`; of the two nearest ones the even one, when `x` lies
half way between two integers. -/
def roundHalfEven (x : ℚ) : ℤ :=
  if x - ⌊x⌋ < 1 / 2 then ⌊x⌋
  else if 1 / 2 < x - ⌊x⌋ then ⌊x⌋ + 1
  else if ⌊x⌋ % 2 = 0 then ⌊x⌋
  else ⌊x⌋ + 1

/-- The binary number with 53 significant bits nearest to `x`, the one with the
even last bit on a tie: the rounding of a `big.Float` of precision 53 in its mode
`ToNearestEven`, and of a `float64` in its normal range.  For `x ≠ 0` the exponent
is `e = Int.log 2 |x|`, that is `2^e ≤ |x| < 2^(e+1)`, and the result is a multiple
of `2^(e-52)`. -/
def round53 (x : ℚ) : ℚ :=
  if x = 0 then 0
  else roundHalfEven (x / 2 ^ (Int.log 2 |x| - 52)) * 2 ^ (Int.log 2 |x| - 52)

/-- A value of the type `float64`: a finite number, an infinity with its sign, or
not a number.  The two zeros are one value here: the code embedded only adds,
subtracts, multiplies and compares, which does not tell them apart. -/
inductive F64 where
  | fin (x : ℚ)
  | inf (negative : Bool)
  | nan
  deriving DecidableEq

/-- The `float64` that an operation gives whose exact result is `x`: below `2^-1022`
the result is a multiple of `2^-1074` (gradual underflow), above it has 53
significant bits, and a result that reaches `2^1024` is an infinity. -/
def F64.round (x : ℚ) : F64 :=
  let y : ℚ :=
    if |x| < 2 ^ (-1022 : ℤ) then roundHalfEven (x / 2 ^ (-1074 : ℤ)) * 2 ^ (-1074 : ℤ)
    else round53 x
  if (2 : ℚ) ^ (1024 : ℕ) ≤ |y| then .inf (decide (x < 0)) else .fin y

/-- The `float64` operation `-a`. -/
def F64.neg : F64 → F64
  | .fin x => .fin (-x)
  | .inf s => .inf (!s)
  | .nan => .nan

/-- The `float64` operation `a + b`. -/
def F64.add : F64 → F64 → F64
  | .fin a, .fin b => F64.round (a + b)
  | .fin _, .inf s => .inf s
  | .inf s, .fin _ => .inf s
  | .inf s, .inf t => if s = t then .inf s else .nan
  | _, _ => .nan

/-- The `float64` operation `a - b`. -/
def F64.sub (a b : F64) : F64 := F64.add a (F64.neg b)

/-- The `float64` operation `a * b`. -/
def F64.mul : F64 → F64 → F64
  | .fin a, .fin b => F64.round (a * b)
  | .fin a, .inf s => if a = 0 then .nan else .inf (xor s (decide (a < 0)))
  | .inf s, .fin b => if b = 0 then .nan else .inf (xor s (decide (b < 0)))
  | .inf s, .inf t => .inf (xor s t)
  | _, _ => .nan

/-- The `float64` comparison `a < b`; it is false when one side is not a number. -/
def F64.lt : F64 → F64 → Bool
  | .fin a, .fin b => decide (a < b)
  | .fin _, .inf s => !s
  | .inf s, .fin _ => s
  | .inf s, .inf t => s && !t
  | _, _ => false

/-- The `float64` comparison `a <= b`; it is false when one side is not a number. -/
def F64.le : F64 → F64 → Bool
  | .fin a, .fin b => decide (a ≤ b)
  | .fin _, .inf s => !s
  | .inf s, .fin _ => s
  | .inf s, .inf t => s || !t
  | _, _ => false

/-- Embeds `func signum(x float64) int`. -/
def signum (x : F64) : Int :=
  if F64.lt (.fin 0) x then 1
  else if F64.lt x (.fin 0) then -1
  else 0

/-- Embeds `func orientationIndexFilter(pa, pb, pc Coordinate) int`; the value `2`
means that the filter could not decide.  Every `float64` operation rounds by
itself (no fused multiply-add); the constant `DPSafeEpsilon` is converted to the
nearest `float64` where it is used. -/
def orientationIndexFilter (pa pb pc : Coordinate) : Int :=
  let detleft := F64.mul (F64.sub (.fin pa.X) (.fin pc.X)) (F64.sub (.fin pb.Y) (.fin pc.Y))
  let detright := F64.mul (F64.sub (.fin pa.Y) (.fin pc.Y)) (F64.sub (.fin pb.X) (.fin pc.X))
  let det := F64.sub detleft detright
  if F64.lt (.fin 0) detleft then
    if F64.le detright (.fin 0) then signum det
    else
      let detsum := F64.add detleft detright
      let errbound := F64.mul (F64.round DPSafeEpsilon) detsum
      if F64.le errbound det || F64.le errbound (F64.neg det) then signum det else 2
  else if F64.lt detleft (.fin 0) then
    if F64.le (.fin 0) detright then signum det
    else
      let detsum := F64.sub (F64.neg detleft) detright
      let errbound := F64.mul (F64.round DPSafeEpsilon) detsum
      if F64.le errbound det || F64.le errbound (F64.neg det) then signum det else 2
  else signum det

/-- Embeds `(*big.Float).Sign`: `-1`, `0` or `+1`. -/
def bigSign (x : ℚ) : Int :=
  if x < 0 then -1
  else if x > 0 then 1
  else 0

/-- The path of `OrientationIndex` after the filter, on the `big.Float` variables:
`dx1 = p2.X + (-p1.X)`, `dy1 = p2.Y + (-p1.Y)`, `dx2 = q.X + (-p2.X)`,
`dy2 = q.Y + (-p2.Y)`, then `dx1 = dx1 * dy2`, `dy1 = dy1 * dx2`,
`dx1 = dx1 - dy1`, and the sign of `dx1`.  Each of the seven operations rounds its
result to the precision 53 of its receiver. -/
def orientationIndexExact (p1 p2 q : Coordinate) : Int :=
  let dx1 := round53 (p2.X + (-p1.X))
  let dy1 := round53 (p2.Y + (-p1.Y))
  let dx2 := round53 (q.X + (-p2.X))
  let dy2 := round53 (q.Y + (-p2.Y))
  let dx1 := round53 (dx1 * dy2)
  let dy1 := round53 (dy1 * dx2)
  bigSign (round53 (dx1 - dy1))

/-- Embeds `func OrientationIndex(p1, p2, q Coordinate) int`. -/
def OrientationIndex (p1 p2 q : Coordinate) : Int :=
  let index := orientationIndexFilter p1 p2 q
  if index ≤ 1 then index
  else orientationIndexExact p1 p2 q

/-- The cross product `(p2 - p1) × (q - p1)` of the specification. -/
def cross (p1 p2 q : Coordinate) : ℚ :=
  (p2.X - p1.X) * (q.Y - p1.Y) - (p2.Y - p1.Y) * (q.X - p1.X)

/-- The sign of a rational number as an integer in `{-1, 0, +1}`. -/
def sgn (x : ℚ) : Int :=
  if 0 < x then 1 else if x < 0 then -1 else 0

/-- The message of the error `IsCCW` returns. -/
def errRingTooShort : String :=
  "ring must have at least 3 points to determine orientation"

/-- The first loop of `IsCCW`, `for i, coord := range ring`, run over the
remaining coordinates `coord :: rest` from index `i`: the pair
`(highest, highestIdx)` is replaced whenever `coord.Y > highest.Y`. -/
def highestLoop : Coordinates → Nat → Coordinate → Nat → Coordinate × Nat
  | [], _, highest, highestIdx => (highest, highestIdx)
  | coord :: rest, i, highest, highestIdx =>
    if coord.Y > highest.Y then highestLoop rest (i + 1) coord i
    else highestLoop rest (i + 1) highest highestIdx

/-- One step back of `iPrev`: `iPrev--; if iPrev < 0 { iPrev = nPts }`. -/
def decWrap (iPrev nPts : Nat) : Nat :=
  if iPrev = 0 then nPts else iPrev - 1

/-- The loop `for ring[iPrev].Equals2D(highest) && iPrev != highestIdx` of
`IsCCW`, started at `iPrev`; `none` when the fuel runs out or an index is out of
range. -/
def prevLoop (ring : Coordinates) (highest : Coordinate) (highestIdx nPts : Nat) :
    Nat → Nat → Option Nat
  | 0, _ => none
  | fuel + 1, iPrev =>
    match ring[iPrev]? with
    | none => none
    | some c =>
      if c.Equals2D highest && iPrev != highestIdx then
        prevLoop ring highest highestIdx nPts fuel (decWrap iPrev nPts)
      else some iPrev

/-- The loop `for ring[iNext].Equals2D(highest) && iNext != highestIdx` of
`IsCCW`, started at `iNext`; `none` when the fuel runs out or an index is out of
range. -/
def nextLoop (ring : Coordinates) (highest : Coordinate) (highestIdx nPts : Nat) :
    Nat → Nat → Option Nat
  | 0, _ => none
  | fuel + 1, iNext =>
    match ring[iNext]? with
    | none => none
    | some c =>
      if c.Equals2D highest && iNext != highestIdx then
        nextLoop ring highest highestIdx nPts fuel ((iNext + 1) % nPts)
      else some iNext

/-- Embeds `func IsCCW(ring Coordinates) (bool, error)`.  Each of the two search loops
runs with the given fuel.  `nPts` is `len(ring) - 1` in natural numbers: for the
empty sequence Go has `-1`, here `0`, and both are below `3`. -/
def IsCCW (fuel : Nat) (ring : Coordinates) : Option (Bool × Option String) :=
  let nPts := ring.length - 1
  if nPts < 3 then some (false, some errRingTooShort)
  else
    match ring[0]? with
    | none => none
    | some first =>
      let hi := highestLoop ring 0 first 0
      let highest := hi.1
      let highestIdx := hi.2
      match prevLoop ring highest highestIdx nPts fuel (decWrap highestIdx nPts) with
      | none => none
      | some iPrev =>
        match nextLoop ring highest highestIdx nPts fuel ((highestIdx + 1) % nPts) with
        | none => none
        | some iNext =>
          match ring[iPrev]?, ring[iNext]? with
          | some prev, some next =>
            if prev.Equals2D highest || next.Equals2D highest || prev.Equals2D next then
              some (false, none)
            else
              let disc := OrientationIndex prev highest next
              if disc = 0 then some (decide (prev.X > next.X), none)
              else some (decide (disc > 0), none)
          | _, _ => none

/-! ## `coord/envelope.go` -/

/-- The struct `Envelope`. -/
structure Envelope where
  MinX : ℚ
  MaxX : ℚ
  MinY : ℚ
  MaxY : ℚ
  deriving DecidableEq, Repr

/-- Embeds `func NewEnvelope(minX, maxX, minY, maxY float64) *Envelope`; the pointer it
returns is never nil. -/
def NewEnvelope (minX maxX minY maxY : ℚ) : Envelope :=
  { MinX := if minX < maxX then minX else maxX
    MaxX := if minX < maxX then maxX else minX
    MinY := if minY < maxY then minY else maxY
    MaxY := if minY < maxY then maxY else minY }

/-- Embeds `func NewEnvelopeFromCoords(p1, p2 Coordinate) *Envelope`, with the
arguments in the order of the source. -/
def NewEnvelopeFromCoords (p1 p2 : Coordinate) : Envelope :=
  NewEnvelope p1.X p1.Y p2.X p2.Y

/-- Embeds `func (e *Envelope) Intersects(other *Envelope) bool`. -/
def Envelope.Intersects (e other : Option Envelope) : Bool :=
  match e, other with
  | some e, some other =>
    !(decide (other.MinX > e.MaxX) || decide (other.MaxX < e.MinX) ||
      decide (other.MinY > e.MaxY) || decide (other.MaxY < e.MinY))
  | _, _ => false

/-- Embeds `func (e *Envelope) IntersectsXY(x, y float64) bool`. -/
def Envelope.IntersectsXY (e : Option Envelope) (x y : ℚ) : Bool :=
  match e with
  | none => false
  | some e =>
    !(decide (x > e.MaxX) || decide (x < e.MinX) || decide (y > e.MaxY) || decide (y < e.MinY))

/-- Embeds `func (e *Envelope) IntersectsPoint(point Coordinate) bool`. -/
def Envelope.IntersectsPoint (e : Option Envelope) (point : Coordinate) : Bool :=
  Envelope.IntersectsXY e point.X point.Y

/-- Embeds `func (e *Envelope) Contains(x, y float64) bool`. -/
def Envelope.Contains (e : Option Envelope) (x y : ℚ) : Bool :=
  match e with
  | none => false
  | some e =>
    decide (x ≥ e.MinX) && decide (x ≤ e.MaxX) && decide (y ≥ e.MinY) && decide (y ≤ e.MaxY)

/-- Embeds `func (e *Envelope) ContainsCoord(p Coordinate) bool`. -/
def Envelope.ContainsCoord (e : Option Envelope) (p : Coordinate) : Bool :=
  Envelope.Contains e p.X p.Y

/-- Embeds `func (e *Envelope) Expand(c Coordinate)` on a receiver that is not nil:
the envelope after the call. -/
def Envelope.Expand (e : Envelope) (c : Coordinate) : Envelope :=
  let e := if c.X < e.MinX then { e with MinX := c.X } else e
  let e := if c.X > e.MaxX then { e with MaxX := c.X } else e
  let e := if c.Y < e.MinY then { e with MinY := c.Y } else e
  let e := if c.Y > e.MaxY then { e with MaxY := c.Y } else e
  e

/-- Embeds `func (e *Envelope) ExpandCoords(cs Coordinates)`. -/
def Envelope.ExpandCoords (e : Envelope) (cs : Coordinates) : Envelope :=
  cs.foldl Envelope.Expand e

/-- Embeds `func (e *Envelope) ExpandEnvelope(other *Envelope)` on a receiver and an
argument that are not nil: the envelope after the call. -/
def Envelope.ExpandEnvelope (e other : Envelope) : Envelope :=
  let e := if other.MinX < e.MinX then { e with MinX := other.MinX } else e
  let e := if other.MaxX > e.MaxX then { e with MaxX := other.MaxX } else e
  let e := if other.MinY < e.MinY then { e with MinY := other.MinY } else e
  let e := if other.MaxY > e.MaxY then { e with MaxY := other.MaxY } else e
  e

/-- Embeds `func EnvelopeIntersects(p1, p2, q1, q2 Coordinate) bool`; `math.Min` and
`math.Max` are `min` and `max`. -/
def EnvelopeIntersects (p1 p2 q1 q2 : Coordinate) : Bool :=
  let minp := min p1.X p2.X
  let maxp := max p1.X p2.X
  let minq := min q1.X q2.X
  let maxq := max q1.X q2.X
  if minp > maxq then false
  else if maxp < minq then false
  else
    let minp := min p1.Y p2.Y
    let maxp := max p1.Y p2.Y
    let minq := min q1.Y q2.Y
    let maxq := max q1.Y q2.Y
    if minp > maxq then false
    else if maxp < minq then false
    else true

/-- Embeds `func EnvelopeIntersectsPoint(p1, p2, q Coordinate) bool`. -/
def EnvelopeIntersectsPoint (p1 p2 q : Coordinate) : Bool :=
  let minpx := min p1.X p2.X
  let maxpx := max p1.X p2.X
  let minpy := min p1.Y p2.Y
  let maxpy := max p1.Y p2.Y
  if q.X ≥ minpx ∧ q.X ≤ maxpx ∧ q.Y ≥ minpy ∧ q.Y ≤ maxpy then true
  else false

/-! ## `coord/distance.go`

`Coordinate.Distance` and `DistancePointToSegment` return square roots.  Every
value they return is the square root of a rational number, and the only use made
of them here is the comparison `dist < minDist` of `nearestEndpoint`; between
non-negative numbers that comparison is the comparison of the squares.  The
embedding therefore carries the squares. -/

/-- The square of `c.Distance(other)`: `dx*dx + dy*dy`. -/
def Coordinate.DistanceSq (c other : Coordinate) : ℚ :=
  let dx := c.X - other.X
  let dy := c.Y - other.Y
  dx * dx + dy * dy

/-- The square of `DistancePointToSegment(p, a, b)`; the last branch of the source
returns `math.Abs(s) * math.Sqrt(len2)`, whose square is `s * s * len2`. -/
def DistancePointToSegmentSq (p a b : Coordinate) : ℚ :=
  if a.X = b.X ∧ a.Y = b.Y then p.DistanceSq a
  else
    let len2 := (b.X - a.X) * (b.X - a.X) + (b.Y - a.Y) * (b.Y - a.Y)
    let r := ((p.X - a.X) * (b.X - a.X) + (p.Y - a.Y) * (b.Y - a.Y)) / len2
    if r ≤ 0 then p.DistanceSq a
    else if r ≥ 1 then p.DistanceSq b
    else
      let s := ((a.Y - p.Y) * (b.X - a.X) - (a.X - p.X) * (b.Y - a.Y)) / len2
      s * s * len2

/-- The point `(x, y)` lies in the bounding box of the segment from `a` to `b`. -/
def InBox (a b : Coordinate) (x y : ℚ) : Prop :=
  min a.X b.X ≤ x ∧ x ≤ max a.X b.X ∧ min a.Y b.Y ≤ y ∧ y ≤ max a.Y b.Y

/-! ## Inputs used in the statements -/

/-- The coordinate `(x, y)` with `Z = 0`. -/
def pt (x y : ℚ) : Coordinate := { X := x, Y := y, Z := 0 }

/-- The ring `[(x0,y0),(x1,y0),(x1,y1),(x0,y1),(x0,y0)]`. -/
def rectRing (x0 y0 x1 y1 : ℚ) : Coordinates :=
  [pt x0 y0, pt x1 y0, pt x1 y1, pt x0 y1, pt x0 y0]


end Coord

namespace Graph

open Coord

/-! ## `graph/quadrant.go` -/

/-- The type `Quadrant` with its four constants `QuadrantNE = 0`, `QuadrantNW = 1`,
`QuadrantSW = 2`, `QuadrantSE = 3`. -/
inductive Quadrant where
  | NE
  | NW
  | SW
  | SE
  deriving DecidableEq, Repr

/-- The message of the error of `QuadrantCoord`, without the formatted point that
the source appends. -/
def errIdenticalPoints : String :=
  "Cannot compute quadrant for two identical points"

/-- Embeds `func QuadrantCoord(p0, p1 coord.Coordinate) (Quadrant, error)`. -/
def QuadrantCoord (p0 p1 : Coordinate) : Except String Quadrant :=
  if p0.X = p1.X ∧ p0.Y = p1.Y then .error errIdenticalPoints
  else if p1.X ≥ p0.X then
    if p1.Y ≥ p0.Y then .ok Quadrant.NE
    else .ok Quadrant.SE
  else
    if p1.Y ≥ p0.Y then .ok Quadrant.NW
    else .ok Quadrant.SW

/-! ## `graph/monotone.go` -/

/-- Embeds `errors.Wrap(err, msg)`: the message `msg: err`. -/
def wrapErr (err msg : String) : String :=
  msg ++ ": " ++ err

/-- The loop `for last < len(pts)` of `findChainEnd`, from the value `last`.  The
body of the source compares quadrants and breaks; it does not change `last`.
The result is `none` when the fuel runs out or an index is out of range. -/
def findChainEndLoop (pts : Coordinates) (chainQuad : Quadrant) :
    Nat → Nat → Option (Except String Nat)
  | 0, _ => none
  | fuel + 1, last =>
    if last < pts.length then
      match pts[last - 1]?, pts[last]? with
      | some a, some b =>
        match QuadrantCoord a b with
        | .error err => some (.error (wrapErr err "failed to get Quadrant for coord"))
        | .ok quad =>
          if quad ≠ chainQuad then some (.ok (last - 1))
          else findChainEndLoop pts chainQuad fuel last
      | _, _ => none
    else some (.ok (last - 1))

/-- Embeds `func findChainEnd(pts coord.Coordinates, start int) (int, error)`. -/
def findChainEnd (fuel : Nat) (pts : Coordinates) (start : Nat) :
    Option (Except String Nat) :=
  match pts[start]?, pts[start + 1]? with
  | some a, some b =>
    match QuadrantCoord a b with
    | .error err => some (.error (wrapErr err "failed to get Quadrant for coord"))
    | .ok chainQuad => findChainEndLoop pts chainQuad fuel (start + 1)
  | _, _ => none

/-- The loop `for start < len(pts)-1` of `chainStartIndexes`, from the values `start`
and `startIndices`; every call of `findChainEnd` runs with the fuel `inner`. -/
def chainStartLoop (inner : Nat) (pts : Coordinates) :
    Nat → Nat → List Nat → Option (Except String (List Nat))
  | 0, _, _ => none
  | fuel + 1, start, startIndices =>
    if start < pts.length - 1 then
      match findChainEnd inner pts start with
      | none => none
      | some (.error err) => some (.error (wrapErr err "failed to find chain end"))
      | some (.ok last) => chainStartLoop inner pts fuel last (startIndices ++ [last])
    else some (.ok startIndices)

/-- Embeds `func chainStartIndexes(pts coord.Coordinates) ([]int, error)`.  The
bound `len(pts) - 1` is taken in natural numbers: for the empty sequence Go has
`-1`, here `0`, and `0` is below neither. -/
def chainStartIndexes (fuel : Nat) (pts : Coordinates) : Option (Except String (List Nat)) :=
  chainStartLoop fuel pts fuel 0 [0]

/-- Embeds `func (mce *MonotoneChainEdge) Overlaps(start0, end0, other, start1, end1)`
on the point sequences of the two edges; `none` when an index is out of range. -/
def Overlaps (pts0 : Coordinates) (start0 end0 : Nat) (pts1 : Coordinates)
    (start1 end1 : Nat) : Option Bool :=
  match pts0[start0]?, pts0[end0]?, pts1[start1]?, pts1[end1]? with
  | some a, some b, some c, some d => some (EnvelopeIntersects a b c d)
  | _, _, _, _ => none

/-- Embeds `func computeIntersectionsForChain(mce0, start0, end0, mce1, start1, end1, si)`.
The result is the list of the pairs `(segIndex0, segIndex1)` on which this call
invokes `si.AddIntersections`, in the order of the calls.  The test
`mce0.Overlaps(start0, end0, mce1, start1, end1)` is the argument `overlaps`.  The
result is `none` when the fuel runs out. -/
def computeIntersectionsForChain (overlaps : Nat → Nat → Nat → Nat → Bool) :
    Nat → Nat → Nat → Nat → Nat → Option (List (Nat × Nat))
  | 0, _, _, _, _ => none
  | fuel + 1, start0, end0, start1, end1 =>
    if end0 - start0 = 1 ∧ end1 - start1 = 1 then some [(start0, start1)]
    else if overlaps start0 end0 start1 end1 = false then some []
    else
      let mid0 := (start0 + end0) / 2
      let mid1 := (start1 + end1) / 2
      do
        let lo ←
          (if start0 < mid0 then
            (do
              let a ←
                (if start1 < mid1 then
                  computeIntersectionsForChain overlaps fuel start0 mid0 start1 mid1
                else some [])
              let b ←
                (if mid1 < end1 then
                  computeIntersectionsForChain overlaps fuel start0 mid0 mid1 end1
                else some [])
              some (a ++ b))
          else some [])
        let hi ←
          (if mid0 < end0 then
            (do
              let a ←
                (if start1 < mid1 then
                  computeIntersectionsForChain overlaps fuel mid0 end0 start1 mid1
                else some [])
              let b ←
                (if mid1 < end1 then
                  computeIntersectionsForChain overlaps fuel mid0 end0 mid1 end1
                else some [])
              some (a ++ b))
          else some [])
        some (lo ++ hi)

/-- The bounding box of segment `i` of a point sequence overlaps that of segment `j`
of another: `EnvelopeIntersects` on the four end points. -/
def segmentBoxesOverlap (pts0 : Coordinates) (i : Nat) (pts1 : Coordinates) (j : Nat) : Prop :=
  Overlaps pts0 i (i + 1) pts1 j (j + 1) = some true

/-- The points `pts[start] .. pts[end]` form a monotone chain of quadrant `q`: every
segment `k` with `start ≤ k < end` has `QuadrantCoord(pts[k], pts[k+1]) = q`. -/
def IsMonotoneRun (pts : Coordinates) (start stop : Nat) (q : Quadrant) : Prop :=
  ∀ k, start ≤ k → k < stop →
    ∃ a b, pts[k]? = some a ∧ pts[k + 1]? = some b ∧ QuadrantCoord a b = .ok q

/-- The step from `a` to `b` lies weakly in quadrant `q`: `X` does not decrease
towards the east and does not increase towards the west, `Y` does not decrease
towards the north and does not increase towards the south. -/
def Quadrant.Weakly (q : Quadrant) (a b : Coordinate) : Prop :=
  match q with
  | .NE => a.X ≤ b.X ∧ a.Y ≤ b.Y
  | .NW => b.X ≤ a.X ∧ a.Y ≤ b.Y
  | .SW => b.X ≤ a.X ∧ b.Y ≤ a.Y
  | .SE => a.X ≤ b.X ∧ b.Y ≤ a.Y

/-! ## `graph/lineintersector.go`

The body of this file stands inside a block comment in the source tree, and the
line intersector that the rest of the package calls (`coord.LineIntersector`) is
not part of the tree.  The definitions below follow the text of the file. -/

/-- The type `LineIntersectionResult` with its constants `LineIntersectionNone = 0`,
`LineIntersectionPoint = 1`, `LineIntersectionCollinear = 2`. -/
inductive LineIntersectionResult where
  | None
  | Point
  | Collinear
  deriving DecidableEq, Repr

/-- The conversion `int(result)`. -/
def LineIntersectionResult.toNat : LineIntersectionResult → Nat
  | .None => 0
  | .Point => 1
  | .Collinear => 2

/-- The struct `RobustLineIntersector`; the arrays `inputLines [2][2]` and
`intPts [2]` are pairs. -/
structure RobustLineIntersector where
  result : LineIntersectionResult
  isProper : Bool
  inputLines : (Coordinate × Coordinate) × (Coordinate × Coordinate)
  intPts : Coordinate × Coordinate
  deriving DecidableEq, Repr

/-- Embeds `func NewRobustLineIntersector() *RobustLineIntersector`: all fields zero. -/
def NewRobustLineIntersector : RobustLineIntersector :=
  { result := .None
    isProper := false
    inputLines := ((⟨0, 0, 0⟩, ⟨0, 0, 0⟩), (⟨0, 0, 0⟩, ⟨0, 0, 0⟩))
    intPts := (⟨0, 0, 0⟩, ⟨0, 0, 0⟩) }

/-- Embeds `func (rli *RobustLineIntersector) HasIntersection() bool`. -/
def RobustLineIntersector.HasIntersection (rli : RobustLineIntersector) : Bool :=
  rli.result != .None

/-- Embeds `func (rli *RobustLineIntersector) NumIntersections() int`. -/
def RobustLineIntersector.NumIntersections (rli : RobustLineIntersector) : Nat :=
  rli.result.toNat

/-- Embeds `func (rli *RobustLineIntersector) IsProper() bool`. -/
def RobustLineIntersector.IsProper (rli : RobustLineIntersector) : Bool :=
  rli.HasIntersection && rli.isProper

/-- The intersection points that the intersector reports: `IntersectionAt(i)` for
`i < NumIntersections()`. -/
def RobustLineIntersector.reported (rli : RobustLineIntersector) : List Coordinate :=
  match rli.result with
  | .None => []
  | .Point => [rli.intPts.1]
  | .Collinear => [rli.intPts.1, rli.intPts.2]

/-- Embeds `func (rli *RobustLineIntersector) computeCollinearIntersection`: the
intersector after the call, its field `result` holding the value returned. -/
def RobustLineIntersector.computeCollinearIntersection (rli : RobustLineIntersector)
    (p1 p2 q1 q2 : Coordinate) : RobustLineIntersector :=
  let p1q1p2 := EnvelopeIntersectsPoint p1 p2 q1
  let p1q2p2 := EnvelopeIntersectsPoint p1 p2 q2
  let q1p1q2 := EnvelopeIntersectsPoint q1 q2 p1
  let q1p2q2 := EnvelopeIntersectsPoint q1 q2 p2
  if p1q1p2 && p1q2p2 then
    { rli with intPts := (q1, q2), result := .Collinear }
  else if q1p1q2 && q1p2q2 then
    { rli with intPts := (p1, p2), result := .Collinear }
  else if p1q1p2 && q1p1q2 then
    if q1.Equals p1 && !p1q2p2 && !q1p2q2 then
      { rli with intPts := (q1, p1), result := .Point }
    else { rli with intPts := (q1, p1), result := .Collinear }
  else if p1q1p2 && q1p2q2 then
    if q1.Equals p2 && !p1q2p2 && !q1p1q2 then
      { rli with intPts := (q1, p2), result := .Point }
    else { rli with intPts := (q1, p2), result := .Collinear }
  else if p1q2p2 && q1p1q2 then
    if q2.Equals p1 && !p1q1p2 && !q1p2q2 then
      { rli with intPts := (q2, p1), result := .Point }
    else { rli with intPts := (q2, p1), result := .Collinear }
  else if p1q2p2 && q1p2q2 then
    if q2.Equals p2 && !p1q1p2 && !q1p1q2 then
      { rli with intPts := (q2, p2), result := .Point }
    else { rli with intPts := (q2, p2), result := .Collinear }
  else { rli with result := .None }

/-- Embeds `func hcoordinateIntersection(p1, p2, q1, q2) (coord.Coordinate, error)`.
The error is returned when `x / w` or `y / w` is NaN or infinite, which in exact
arithmetic is the case `w = 0`; `none` stands for the error. -/
def hcoordinateIntersection (p1 p2 q1 q2 : Coordinate) : Option Coordinate :=
  let px := p1.Y - p2.Y
  let py := p2.X - p1.X
  let pw := p1.X * p2.Y - p2.X * p1.Y
  let qx := q1.Y - q2.Y
  let qy := q2.X - q1.X
  let qw := q1.X * q2.Y - q2.X * q1.Y
  let x := py * qw - qy * pw
  let y := qx * pw - px * qw
  let w := px * qy - qx * py
  if w = 0 then none
  else some { X := x / w, Y := y / w, Z := 0 }

/-- Embeds `func nearestEndpoint(p1, p2, q1, q2 coord.Coordinate) coord.Coordinate`, on
squared distances. -/
def nearestEndpoint (p1 p2 q1 q2 : Coordinate) : Coordinate :=
  let s0 : Coordinate × ℚ := (p1, DistancePointToSegmentSq p1 q1 q2)
  let d1 := DistancePointToSegmentSq p2 q1 q2
  let s1 := if d1 < s0.2 then (p2, d1) else s0
  let d2 := DistancePointToSegmentSq q1 p1 p2
  let s2 := if d2 < s1.2 then (q1, d2) else s1
  let d3 := DistancePointToSegmentSq q2 p1 p2
  let s3 := if d3 < s2.2 then (q2, d3) else s2
  s3.1

/-- Embeds `func (rli *RobustLineIntersector) safeHCoordinateIntersection`. -/
def safeHCoordinateIntersection (p1 p2 q1 q2 : Coordinate) : Coordinate :=
  match hcoordinateIntersection p1 p2 q1 q2 with
  | some intPt => intPt
  | none => nearestEndpoint p1 p2 q1 q2

/-- Embeds `func normalizeToEnvCentre(p1, p2, q1, q2) (n00, n01, n10, n11, normPt)`. -/
def normalizeToEnvCentre (p1 p2 q1 q2 : Coordinate) :
    Coordinate × Coordinate × Coordinate × Coordinate × Coordinate :=
  let minX0 := min p1.X p2.X
  let minY0 := min p1.Y p2.Y
  let maxX0 := max p1.X p2.X
  let maxY0 := max p1.Y p2.Y
  let minX1 := min q1.X q2.X
  let minY1 := min q1.Y q2.Y
  let maxX1 := max q1.X q2.X
  let maxY1 := max q1.Y q2.Y
  let intMinX := max minX0 minX1
  let intMaxX := min maxX0 maxX1
  let intMinY := max minY0 minY1
  let intMaxY := min maxY0 maxY1
  let intMidX := (intMinX + intMaxX) / 2
  let intMidY := (intMinY + intMaxY) / 2
  let normPt : Coordinate := { X := intMidX, Y := intMidY, Z := 0 }
  ({ X := p1.X - normPt.X, Y := p1.Y - normPt.Y, Z := 0 },
   { X := p2.X - normPt.X, Y := p2.Y - normPt.Y, Z := 0 },
   { X := q1.X - normPt.X, Y := q1.Y - normPt.Y, Z := 0 },
   { X := q2.X - normPt.X, Y := q2.Y - normPt.Y, Z := 0 },
   normPt)

/-- Embeds `func (rli *RobustLineIntersector) intersectionWithNormalization`.  The
point is computed in `ℚ`: where the source rounds to a `float64` (the point
`(1/3, 2/3)` is not a `float64`), the point here is the exact one. -/
def intersectionWithNormalization (p1 p2 q1 q2 : Coordinate) : Coordinate :=
  let n := normalizeToEnvCentre p1 p2 q1 q2
  let intPt := safeHCoordinateIntersection n.1 n.2.1 n.2.2.1 n.2.2.2.1
  let normPt := n.2.2.2.2
  { intPt with X := intPt.X + normPt.X, Y := intPt.Y + normPt.Y }

/-- Embeds `func (rli *RobustLineIntersector) isInSegmentEnvelopes(intPt) bool`. -/
def RobustLineIntersector.isInSegmentEnvelopes (rli : RobustLineIntersector)
    (intPt : Coordinate) : Bool :=
  let env0 := NewEnvelopeFromCoords rli.inputLines.1.1 rli.inputLines.1.2
  let env1 := NewEnvelopeFromCoords rli.inputLines.2.1 rli.inputLines.2.2
  Envelope.ContainsCoord (some env0) intPt && Envelope.ContainsCoord (some env1) intPt

/-- Embeds `func (rli *RobustLineIntersector) intersection(p1, p2, q1, q2)`. -/
def RobustLineIntersector.intersection (rli : RobustLineIntersector)
    (p1 p2 q1 q2 : Coordinate) : Coordinate :=
  let intPt := intersectionWithNormalization p1 p2 q1 q2
  if !rli.isInSegmentEnvelopes intPt then nearestEndpoint p1 p2 q1 q2
  else intPt

/-- Embeds `func (rli *RobustLineIntersector) computeIntersectionResult`: the
intersector after the call, its field `result` holding the value returned.
(`ComputeIntersection` stores the returned value in `result`, and nothing else
reads `result` in between.) -/
def RobustLineIntersector.computeIntersectionResult (rli : RobustLineIntersector)
    (p1 p2 q1 q2 : Coordinate) : RobustLineIntersector :=
  let rli := { rli with isProper := false }
  if !EnvelopeIntersects p1 p2 q1 q2 then { rli with result := .None }
  else
    let pq1 := OrientationIndex p1 p2 q1
    let pq2 := OrientationIndex p1 p2 q2
    if (pq1 > 0 ∧ pq2 > 0) ∨ (pq1 < 0 ∧ pq2 < 0) then { rli with result := .None }
    else
      let qp1 := OrientationIndex q1 q2 p1
      let qp2 := OrientationIndex q1 q2 p2
      if (qp1 > 0 ∧ qp2 > 0) ∨ (qp1 < 0 ∧ qp2 < 0) then { rli with result := .None }
      else if pq1 = 0 ∧ pq2 = 0 ∧ qp1 = 0 ∧ qp2 = 0 then
        rli.computeCollinearIntersection p1 p2 q1 q2
      else if pq1 = 0 ∨ pq2 = 0 ∨ qp1 = 0 ∨ qp2 = 0 then
        let rli := { rli with isProper := false }
        if p1.Equals2D q1 || p1.Equals2D q2 then
          { rli with intPts := (p1, rli.intPts.2), result := .Point }
        else if p2.Equals2D q1 || p2.Equals2D q2 then
          { rli with intPts := (p2, rli.intPts.2), result := .Point }
        else if pq1 = 0 then { rli with intPts := (q1, rli.intPts.2), result := .Point }
        else if pq2 = 0 then { rli with intPts := (q2, rli.intPts.2), result := .Point }
        else if qp1 = 0 then { rli with intPts := (p1, rli.intPts.2), result := .Point }
        else if qp2 = 0 then { rli with intPts := (p2, rli.intPts.2), result := .Point }
        else { rli with result := .Point }
      else
        let rli := { rli with isProper := true }
        let intPt := rli.intersection p1 p2 q1 q2
        { rli with intPts := (intPt, rli.intPts.2), result := .Point }

/-- Embeds `func (rli *RobustLineIntersector) ComputeIntersection(p1, p2, q1, q2)`. -/
def RobustLineIntersector.ComputeIntersection (rli : RobustLineIntersector)
    (p1 p2 q1 q2 : Coordinate) : RobustLineIntersector :=
  let rli := { rli with inputLines := ((p1, p2), (q1, q2)) }
  rli.computeIntersectionResult p1 p2 q1 q2

/-- The point `(x, y)` lies on the closed segment from `a` to `b`: it is
`a + t * (b - a)` for some `0 ≤ t ≤ 1`. -/
def OnSegment (a b : Coordinate) (x y : ℚ) : Prop :=
  ∃ t : ℚ, 0 ≤ t ∧ t ≤ 1 ∧ x = a.X + t * (b.X - a.X) ∧ y = a.Y + t * (b.Y - a.Y)


end Graph

namespace Coord

/-- Embeds `func (c Coordinate) Envelope() *Envelope`. -/
def Coordinate.Envelope (c : Coordinate) : Envelope :=
  { MinX := c.X, MaxX := c.X, MinY := c.Y, MaxY := c.Y }

/-- Embeds `func (cs Coordinates) Envelope() *Envelope`; `none` is the run-time
panic of `cs[0]` on an empty sequence. -/
def Coordinates.Envelope (cs : Coordinates) : Option Envelope :=
  match cs with
  | [] => none
  | c :: _ =>
    some (Envelope.ExpandCoords { MinX := c.X, MaxX := c.X, MinY := c.Y, MaxY := c.Y } cs)

/-! ## `coord/location.go` -/

/-- The type `Location` with its four constants `LocationNone = -1`,
`LocationInterior = 0`, `LocationBoundary = 1`, `LocationExterior = 2`. -/
inductive Location where
  | None
  | Interior
  | Boundary
  | Exterior
  deriving DecidableEq, Repr

/-- The integer value of a location constant. -/
def Location.toInt : Location → Int
  | .None => -1
  | .Interior => 0
  | .Boundary => 1
  | .Exterior => 2

end Coord

namespace Geom

open Coord

/-! ## `geom/geometry.go` -/

/-- The constant `TypePoint` (`iota` = 0). -/
def TypePoint : Int := 0
/-- The constant `TypeMultiPoint`. -/
def TypeMultiPoint : Int := 1
/-- The constant `TypeLineString`. -/
def TypeLineString : Int := 2
/-- The constant `TypeMultiLineString`. -/
def TypeMultiLineString : Int := 3
/-- The constant `TypePolygon`. -/
def TypePolygon : Int := 4
/-- The constant `TypeMultiPolygon`. -/
def TypeMultiPolygon : Int := 5
/-- The constant `TypeCollection`. -/
def TypeCollection : Int := 6

/-- The struct `Geometry`: the field `Type` is called `Typ` here, and the cache
field `envelope` is left out (it only memoises `Envelope()`). -/
inductive Geometry where
  | mk (Typ : Int) (Coord : Coordinate) (Line : Coordinates) (MultiLine : List Coordinates)
      (Collection : List Geometry)

/-- The field `Type`. -/
def Geometry.Typ : Geometry → Int
  | .mk t _ _ _ _ => t

/-- The field `Coord`. -/
def Geometry.Coord : Geometry → Coordinate
  | .mk _ c _ _ _ => c

/-- The field `Line`. -/
def Geometry.Line : Geometry → Coordinates
  | .mk _ _ l _ _ => l

/-- The field `MultiLine`. -/
def Geometry.MultiLine : Geometry → List Coordinates
  | .mk _ _ _ ml _ => ml

/-- The field `Collection`. -/
def Geometry.Collection : Geometry → List Geometry
  | .mk _ _ _ _ col => col

/-- Embeds `func NewPoint(point Coordinate)`: the other fields are zero. -/
def NewPoint (point : Coordinate) : Geometry :=
  .mk TypePoint point [] [] []

/-- Embeds `func NewLineString(line Coordinates)`. -/
def NewLineString (line : Coordinates) : Geometry :=
  .mk TypeLineString ⟨0, 0, 0⟩ line [] []

/-- Embeds `func NewPolygon(shell Coordinates, interior MultiLine)`. -/
def NewPolygon (shell : Coordinates) (interior : List Coordinates) : Geometry :=
  .mk TypePolygon ⟨0, 0, 0⟩ shell interior []

/-- Embeds `func NewCollection(collection []*Geometry)`. -/
def NewCollection (collection : List Geometry) : Geometry :=
  .mk TypeCollection ⟨0, 0, 0⟩ [] [] collection

/-- Embeds `func NewMultiPoint(points []*Geometry)`; `none` is the error for a
child that is not a point. -/
def NewMultiPoint (points : List Geometry) : Option Geometry :=
  if points.all (fun point => decide (point.Typ = TypePoint)) then
    some (.mk TypeMultiPoint ⟨0, 0, 0⟩ [] [] points)
  else none

/-- Embeds `func NewMultiLineString(lines []*Geometry)`; `none` is the error for a
child that is not a line string. -/
def NewMultiLineString (lines : List Geometry) : Option Geometry :=
  if lines.all (fun line => decide (line.Typ = TypeLineString)) then
    some (.mk TypeMultiLineString ⟨0, 0, 0⟩ [] [] lines)
  else none

/-- Embeds `func NewMultiPolygon(polygons []*Geometry)`; `none` is the error for a
child that is not a polygon. -/
def NewMultiPolygon (polygons : List Geometry) : Option Geometry :=
  if polygons.all (fun poly => decide (poly.Typ = TypePolygon)) then
    some (.mk TypeMultiPolygon ⟨0, 0, 0⟩ [] [] polygons)
  else none

/-- Embeds `func (g *Geometry) IsMulti() bool`.  A Go `case` with an empty body
does not fall through: control leaves the `switch` and reaches `return false`. -/
def Geometry.IsMulti (g : Geometry) : Bool :=
  if g.Typ = TypeMultiPoint then false
  else if g.Typ = TypeMultiLineString then false
  else if g.Typ = TypeMultiPolygon then false
  else if g.Typ = TypeCollection then true
  else false

/-- Embeds `func (g *Geometry) IsRings() bool`; `case TypePolygon:` has an empty
body. -/
def Geometry.IsRings (g : Geometry) : Bool :=
  if g.Typ = TypePolygon then false
  else if g.Typ = TypeMultiPolygon then true
  else false

mutual
/-- Embeds `func (g *Geometry) Dimension() int`; `none` is the panic
`Unknown geometry type`, which `case TypeMultiPolygon:` (empty body) reaches too. -/
def Geometry.Dimension : Geometry → Option Int
  | .mk t _ _ _ col =>
    if t = TypePoint then some 0
    else if t = TypeMultiPoint then some 0
    else if t = TypeLineString then some 1
    else if t = TypeMultiLineString then some 1
    else if t = TypePolygon then some 2
    else if t = TypeMultiPolygon then none
    else if t = TypeCollection then dimensionLoop col (-1)
    else none
/-- The loop `for _, col := range g.Collection` of `Dimension`, with the running
maximum `dim`. -/
def dimensionLoop : List Geometry → Int → Option Int
  | [], dim => some dim
  | c :: rest, dim =>
    match c.Dimension with
    | none => none
    | some d => dimensionLoop rest (if d > dim then d else dim)
end

mutual
/-- Embeds `func (g *Geometry) IsEmpty() bool`; `none` is the panic
`Unknown geometry type`, reached by every type whose `case` has an empty body. -/
def Geometry.IsEmpty : Geometry → Option Bool
  | .mk t _ line _ col =>
    if t = TypePoint then some false
    else if t = TypeLineString then none
    else if t = TypePolygon then some (line.length == 0)
    else if t = TypeMultiPoint then none
    else if t = TypeMultiLineString then none
    else if t = TypeMultiPolygon then none
    else if t = TypeCollection then isEmptyLoop col
    else none
/-- The loop `for _, c := range g.Collection` of `IsEmpty`. -/
def isEmptyLoop : List Geometry → Option Bool
  | [] => some true
  | c :: rest =>
    match c.IsEmpty with
    | none => none
    | some false => some false
    | some true => isEmptyLoop rest
end

/-- Embeds `func (g *Geometry) IsClosed() bool`; `none` is a panic (of `IsEmpty`,
or of `g.Line[0]` on an empty line). -/
def Geometry.IsClosed (g : Geometry) : Option Bool :=
  match g.IsEmpty with
  | none => none
  | some true => some false
  | some false =>
    if g.Typ = TypeLineString then
      match g.Line.head?, g.Line.getLast? with
      | some first, some last => some (first.Equals2D last)
      | _, _ => none
    else if g.Typ = TypePolygon then some true
    else some false

mutual
/-- Embeds `func (g *Geometry) BoundaryDimension() int`; `none` is a panic. -/
def Geometry.BoundaryDimension : Geometry → Option Int
  | .mk t c line ml col =>
    if t = TypePoint then some (-1)
    else if t = TypeMultiPoint then some (-1)
    else if t = TypeLineString then
      match (Geometry.mk t c line ml col).IsClosed with
      | none => none
      | some closed => if closed then some (-1) else some 0
    else if t = TypeMultiLineString then
      match (Geometry.mk t c line ml col).IsClosed with
      | none => none
      | some closed => if closed then some (-1) else some 0
    else if t = TypePolygon then some 1
    else if t = TypeMultiPolygon then none
    else if t = TypeCollection then boundaryDimensionLoop col (-1)
    else none
/-- The loop `for _, col := range g.Collection` of `BoundaryDimension`. -/
def boundaryDimensionLoop : List Geometry → Int → Option Int
  | [], dim => some dim
  | c :: rest, dim =>
    match c.BoundaryDimension with
    | none => none
    | some d => boundaryDimensionLoop rest (if d > dim then d else dim)
end

mutual
/-- Embeds `func (g *Geometry) Envelope() *coord.Envelope`.  The outer `none` is
a panic, the inner `none` the nil pointer.  `case TypeLineString:` has an empty
body, so a line string keeps the nil envelope.  The field `g.envelope`, in which
the source keeps a result that is not nil for the next call, is left out: the
value is computed at each call (a geometry that `ExpandEnvelope` has changed
through the pointer a former call returned is not modelled). -/
def Geometry.Envelope : Geometry → Option (Option Envelope)
  | .mk t c line ml col =>
    match (if (Geometry.mk t c line ml col).IsMulti then envelopeLoop col true none
           else some none) with
    | none => none
    | some env =>
      if t = TypePoint then some (some c.Envelope)
      else if t = TypeLineString then some env
      else if t = TypePolygon then
        match line.Envelope with
        | none => none
        | some e => some (some e)
      else some env
/-- The loop `for i, col := range g.Collection` of `Envelope`: `first` says
whether `i == 0`; `env.ExpandEnvelope(col.Envelope())` panics when either pointer
is nil. -/
def envelopeLoop : List Geometry → Bool → Option Envelope → Option (Option Envelope)
  | [], _, env => some env
  | col :: rest, first, env =>
    match col.Envelope with
    | none => none
    | some ce =>
      if first then envelopeLoop rest false ce
      else
        match env, ce with
        | some e, some o => envelopeLoop rest false (some (e.ExpandEnvelope o))
        | _, _ => none
end

end Geom

namespace Graph

open Coord Geom

set_option linter.dupNamespace false

/-! ## How a call ends -/

/-- The ways a call of the graph package can end. -/
inductive Outcome (α : Type) where
  /-- The call returns `a` (and a nil error where there is one). -/
  | ok (a : α)
  /-- The call returns a non-nil error with this message. -/
  | err (msg : String)
  /-- The call panics at run time. -/
  | panic (msg : String)
  /-- A loop of `IsCCW` gave no result within the fuel. -/
  | timeout
  /-- The body of the function ends without a `return` statement. -/
  | noReturn
  deriving DecidableEq, Repr

/-- The run-time panic of a write into a nil map. -/
def panicNilMap : String := "assignment to entry in nil map"

/-- The run-time panic of an array index out of range. -/
def panicIndex : String := "index out of range"

/-- A Go map as an association list: `mapGet m k` is the lookup `m[k]`. -/
def mapGet {κ ν : Type} [DecidableEq κ] : List (κ × ν) → κ → Option ν
  | [], _ => none
  | (k', v) :: rest, k => if k' = k then some v else mapGet rest k

/-- The assignment `m[k] = v` on an association list: the entry of `k` is
replaced, or a new entry is added. -/
def mapPut {κ ν : Type} [DecidableEq κ] : List (κ × ν) → κ → ν → List (κ × ν)
  | [], k, v => [(k, v)]
  | (k', v') :: rest, k, v =>
    if k' = k then (k, v) :: rest else (k', v') :: mapPut rest k v

/-! ## `graph/edgesetintersector.go`: sweep-line events -/

/-- The type `EventType` with its constants `EventTypeInsert = 1` and
`EventTypeDelete = 2`. -/
inductive EventType where
  | Insert
  | Delete
  deriving DecidableEq, Repr

/-- The integer value of an event type. -/
def EventType.toInt : EventType → Int
  | .Insert => 1
  | .Delete => 2

/-- The dynamic value of the field `Label interface{}` of a sweep-line event.
`addEdge` only ever stores its argument `edgeSet` there, which is the nil
interface (`addEdgesWithEdgeSet(edges, nil)`), the edge itself, a `*Edge`
(`addEdges`), or a slice `[]*Edge` (`addEdgesWithEdgeSet(edges0, edges0)`).
A pointer is the number that identifies the edge. -/
inductive EventLabel where
  | nil
  | edge (id : Nat)
  | edgeSet (edges : List Nat)
  deriving DecidableEq, Repr

/-- The struct `SweepLineEvent`: `Type` (called `Typ` here), `Label`, `X` and
`MonotoneChain`, a nil pointer or the chain, given by the number of its edge and
its `Index`.  The fields `InsertEvent` and `DeleteEventIndex` are written by the
intersector and read nowhere in the code embedded here; they are left out. -/
structure SweepLineEvent where
  Typ : EventType
  Label : EventLabel
  X : ℚ
  MonotoneChain : Option (Nat × Nat)
  deriving DecidableEq, Repr

/-- The body of `Less` on the two events `sles[i]` and `sles[j]`. -/
def lessEvents (a b : SweepLineEvent) : Bool :=
  if a.X < b.X then true
  else if a.X = b.X then decide (a.Typ.toInt < b.Typ.toInt)
  else false

/-- Embeds `func (sles SweepLineEvents) Less(i, j int) bool`; `none` is the
panic of an index out of range. -/
def SweepLineEvents.Less (sles : List SweepLineEvent) (i j : Nat) : Option Bool :=
  match sles[i]?, sles[j]? with
  | some a, some b => some (lessEvents a b)
  | _, _ => none

/-- What `sort.Sort(sli.events)` establishes (the test of `sort.IsSorted`): no
element is `Less` than the one before it. -/
def SweepLineEvents.IsSorted (sles : List SweepLineEvent) : Prop :=
  ∀ i, i + 1 < sles.length → SweepLineEvents.Less sles (i + 1) i = some false

/-! ## `graph/boundaryrule.go` -/

/-- Embeds `func (bnr *Mod2BoundaryNodeRule) InBoundary(boundaryCount int) bool`;
Go's `%` truncates towards zero, which is `Int.tmod`. -/
def InBoundary (boundaryCount : Int) : Bool :=
  Int.tmod boundaryCount 2 == 1

/-! ## `graph/graph.go`: labels and nodes -/

/-- The type `Position` with its constants `PositionOn = 0`, `PositionLeft = 1`,
`PositionRight = 2`. -/
inductive Position where
  | On
  | Left
  | Right
  deriving DecidableEq, Repr

/-- The array type `TopologyLocation [3]coord.Location`. -/
structure TopologyLocation where
  On : Location
  Left : Location
  Right : Location
  deriving DecidableEq, Repr

/-- Embeds `func NewTopologyLocation() TopologyLocation`. -/
def NewTopologyLocation : TopologyLocation :=
  { On := .None, Left := .None, Right := .None }

/-- The element `tl[pos]`. -/
def TopologyLocation.get (tl : TopologyLocation) : Position → Location
  | .On => tl.On
  | .Left => tl.Left
  | .Right => tl.Right

/-- Embeds `func (tl TopologyLocation) IsNil() bool`. -/
def TopologyLocation.IsNil (tl : TopologyLocation) : Bool :=
  tl.On == .None && tl.Left == .None && tl.Right == .None

/-- The array type `Label [2]TopologyLocation`. -/
structure Label where
  loc0 : TopologyLocation
  loc1 : TopologyLocation
  deriving DecidableEq, Repr

/-- Embeds `func NewLabel() *Label`. -/
def NewLabel : Label :=
  { loc0 := NewTopologyLocation, loc1 := NewTopologyLocation }

/-- The element `l[index]`; `none` is the panic of an index out of range. -/
def Label.get (l : Label) (index : Nat) : Option TopologyLocation :=
  if index = 0 then some l.loc0
  else if index = 1 then some l.loc1
  else none

/-- The assignment `l[index] = tl`; `none` is the panic of an index out of range. -/
def Label.set (l : Label) (index : Nat) (tl : TopologyLocation) : Option Label :=
  if index = 0 then some { l with loc0 := tl }
  else if index = 1 then some { l with loc1 := tl }
  else none

/-- Embeds `func (l Label) LocationAt(index int, pos Position) coord.Location`. -/
def Label.LocationAt (l : Label) (index : Nat) (pos : Position) : Option Location :=
  (l.get index).map (fun tl => tl.get pos)

/-- Embeds `func (l *Label) SetLocation(index int, loc coord.Location)`. -/
def Label.SetLocation (l : Label) (index : Nat) (loc : Location) : Option Label :=
  match l.get index with
  | none => none
  | some tl => l.set index { tl with On := loc }

/-- Embeds `func (l *Label) SetLocations(index int, on, left, right coord.Location)`. -/
def Label.SetLocations (l : Label) (index : Nat) (onLoc leftLoc rightLoc : Location) :
    Option Label :=
  l.set index { On := onLoc, Left := leftLoc, Right := rightLoc }

/-- Embeds `func (l *Label) IsNil(index int) bool`. -/
def Label.IsNil (l : Label) (index : Nat) : Option Bool :=
  (l.get index).map TopologyLocation.IsNil

/-- Embeds `func (l *Label) GeometryCount() int`. -/
def Label.GeometryCount (l : Label) : Nat :=
  (if !l.loc0.IsNil then 1 else 0) + (if !l.loc1.IsNil then 1 else 0)

/-- Embeds `func On(location coord.Location) TopologyLocation`. -/
def On (location : Location) : TopologyLocation :=
  { NewTopologyLocation with On := location }

/-- Embeds `func LabelAt(index int, location TopologyLocation) *Label`. -/
def LabelAt (index : Nat) (location : TopologyLocation) : Option Label :=
  NewLabel.set index location

/-- The struct `Node`; the field `Edges` is not read by the code embedded here and
is left out. -/
structure Node where
  Point : Coordinate
  Label : Label
  deriving DecidableEq, Repr

/-- Embeds `func NewNode(point coord.Coordinate, edges *EdgeEndStar) *Node`. -/
def NewNode (point : Coordinate) : Node :=
  { Point := point, Label := NewLabel }

/-- Embeds `func (n *Node) SetLabelBoundary(index int)`. -/
def Node.SetLabelBoundary (n : Node) (index : Nat) : Option Node :=
  match n.Label.LocationAt index .On with
  | none => none
  | some loc =>
    let newLoc : Location :=
      match loc with
      | .Boundary => .Interior
      | .Interior => .Boundary
      | _ => .Boundary
    (n.Label.SetLocation index newLoc).map (fun l => { n with Label := l })

/-- Embeds `func (n *Node) Isolated() bool`. -/
def Node.Isolated (n : Node) : Bool :=
  n.Label.GeometryCount == 1

/-! ## `graph/edge.go` -/

/-- The struct `EdgeIntersection`. -/
structure EdgeIntersection where
  Coordinate : Coordinate
  SegmentIndex : Nat
  Distance : ℚ
  deriving DecidableEq, Repr

/-- The struct `EdgeIntersectionList`: the map `nodeMap` from an `EdgeIntersection`
to the stored entry.  The back pointer `edge` is left out. -/
structure EdgeIntersectionList where
  nodeMap : List (EdgeIntersection × EdgeIntersection)
  deriving DecidableEq, Repr

/-- Embeds `func NewEdgeIntersectionList(edge *Edge) *EdgeIntersectionList`. -/
def NewEdgeIntersectionList : EdgeIntersectionList :=
  { nodeMap := [] }

/-- Embeds `func (eil *EdgeIntersectionList) Add(intPt, segmentIndex, dist)`: the
list after the call and the entry returned. -/
def EdgeIntersectionList.Add (eil : EdgeIntersectionList) (intPt : Coordinate)
    (segmentIndex : Nat) (dist : ℚ) : EdgeIntersectionList × EdgeIntersection :=
  let ei : EdgeIntersection :=
    { Coordinate := intPt, SegmentIndex := segmentIndex, Distance := dist }
  match mapGet eil.nodeMap ei with
  | some stored => (eil, stored)
  | none => ({ eil with nodeMap := mapPut eil.nodeMap ei ei }, ei)

/-- The number of entries `len(eil.nodeMap)`. -/
def EdgeIntersectionList.size (eil : EdgeIntersectionList) : Nat :=
  eil.nodeMap.length

/-- The struct `Edge`; the cache `monotoneChainEdge` is left out. -/
structure Edge where
  Coordinates : Coordinates
  Label : Label
  Isolated : Bool
  eiList : EdgeIntersectionList
  deriving DecidableEq, Repr

/-- Embeds `func NewEdge(coords coord.Coordinates) *Edge`. -/
def NewEdge (coords : Coordinates) : Edge :=
  { Coordinates := coords, Label := NewLabel, Isolated := true,
    eiList := NewEdgeIntersectionList }

/-- Embeds `func (rli *RobustLineIntersector) IntersectionAt(intIndex int)`;
`none` is the panic of an index out of range. -/
def RobustLineIntersector.IntersectionAt (rli : RobustLineIntersector) (intIndex : Nat) :
    Option Coordinate :=
  if intIndex = 0 then some rli.intPts.1
  else if intIndex = 1 then some rli.intPts.2
  else none

/-- Embeds `func (rli *RobustLineIntersector) computeEdgeDistance(p, p0, p1)`;
`none` is the panic `Bad distance calculation`. -/
def computeEdgeDistance (p p0 p1 : Coordinate) : Option ℚ :=
  let dx := |p1.X - p0.X|
  let dy := |p1.Y - p0.Y|
  let dist : ℚ :=
    if p.Equals p0 then 0
    else if p.Equals p1 then (if dx > dy then dx else dy)
    else
      let pdx := |p.X - p0.X|
      let pdy := |p.Y - p0.Y|
      let d := if dx > dy then pdx else pdy
      if d = 0 && !p.Equals p0 then max pdx pdy else d
  if dist = 0 && !p.Equals p0 then none else some dist

/-- Embeds `func (rli *RobustLineIntersector) EdgeDistance(segmentIndex, intIndex int)`. -/
def RobustLineIntersector.EdgeDistance (rli : RobustLineIntersector)
    (segmentIndex intIndex : Nat) : Option ℚ :=
  match rli.IntersectionAt intIndex with
  | none => none
  | some p =>
    if segmentIndex = 0 then computeEdgeDistance p rli.inputLines.1.1 rli.inputLines.1.2
    else if segmentIndex = 1 then computeEdgeDistance p rli.inputLines.2.1 rli.inputLines.2.2
    else none

/-- Embeds `func (e *Edge) AddIntersection(li, segmentIndex, geomIndex, intIndex int)`:
the edge after the call; `none` is a panic inside the line intersector. -/
def Edge.AddIntersection (e : Edge) (li : RobustLineIntersector)
    (segmentIndex geomIndex intIndex : Nat) : Option Edge :=
  match li.IntersectionAt intIndex with
  | none => none
  | some intPt =>
    match li.EdgeDistance geomIndex intIndex with
    | none => none
    | some edgeDist =>
      let nextSegIndex := segmentIndex + 1
      let key : Nat × ℚ :=
        if h : nextSegIndex < e.Coordinates.length then
          let nextPt := e.Coordinates.get ⟨nextSegIndex, h⟩
          if intPt.Equals2D nextPt then (nextSegIndex, 0) else (segmentIndex, edgeDist)
        else (segmentIndex, edgeDist)
      some { e with eiList := (e.eiList.Add intPt key.1 key.2).1 }

/-! ## `graph/graph.go`: the graph builder -/

/-- The struct `Graph`.  `nodes` is `none` for the nil map and `some m` for an
allocated one.  The cache `boundaryNodes` and the map `lineEdgeMap` (written by
the builder and read nowhere) are left out; `boundaryNodeRule` is always the
mod-2 rule. -/
structure Graph where
  nodes : Option (List (Coordinate × Node))
  edges : List Edge
  UseBoundaryDeterminationRule : Bool
  argIndex : Nat
  geometry : Geometry

/-- Embeds `func (gr *Graph) determineBoundary(boundaryCount int) coord.Location`. -/
def determineBoundary (boundaryCount : Int) : Location :=
  if InBoundary boundaryCount then .Boundary else .Interior

/-- Embeds `func (gr *Graph) addNode(point coord.Coordinate) *Node`: the graph
after the call and the node returned; `none` is the panic of the write
`gr.nodes[point] = node` when `gr.nodes` is the nil map (the read before it finds
nothing in a nil map). -/
def Graph.addNode (gr : Graph) (point : Coordinate) : Option (Graph × Node) :=
  match gr.nodes with
  | none => none
  | some m =>
    match mapGet m point with
    | some node => some (gr, node)
    | none =>
      let node := NewNode point
      some ({ gr with nodes := some (mapPut m point node) }, node)

/-- The effect of writing through the pointer `node` that `addNode` returned: the
entry of `point` in `gr.nodes` becomes `node`. -/
def Graph.storeNode (gr : Graph) (point : Coordinate) (node : Node) : Graph :=
  { gr with nodes := gr.nodes.map (fun m => mapPut m point node) }

/-- Embeds `func (gr *Graph) insertPoint(index int, point, location)`: the graph
after the call and how the call ended. -/
def Graph.insertPoint (gr : Graph) (index : Nat) (point : Coordinate) (location : Location) :
    Graph × Outcome Unit :=
  match gr.addNode point with
  | none => (gr, .panic panicNilMap)
  | some (gr1, node) =>
    match node.Label.SetLocation index location with
    | none => (gr1, .panic panicIndex)
    | some l => (gr1.storeNode point { node with Label := l }, .ok ())

/-- Embeds `func (gr *Graph) insertBoundaryPoint(index int, point coord.Coordinate)`. -/
def Graph.insertBoundaryPoint (gr : Graph) (index : Nat) (point : Coordinate) :
    Graph × Outcome Unit :=
  match gr.addNode point with
  | none => (gr, .panic panicNilMap)
  | some (gr1, node) =>
    match node.Label.LocationAt index .On with
    | none => (gr1, .panic panicIndex)
    | some loc =>
      let boundaryCount : Int := if loc = .Boundary then 1 + 1 else 1
      let newLoc := determineBoundary boundaryCount
      match node.Label.SetLocation index newLoc with
      | none => (gr1, .panic panicIndex)
      | some l => (gr1.storeNode point { node with Label := l }, .ok ())

/-- The call `gr.insertBoundaryPoint(index, point)` made `n` times in a row. -/
def Graph.insertBoundaryPointTimes : Nat → Graph → Nat → Coordinate → Graph × Outcome Unit
  | 0, gr, _, _ => (gr, .ok ())
  | n + 1, gr, index, point =>
    match gr.insertBoundaryPoint index point with
    | (gr1, .ok _) => Graph.insertBoundaryPointTimes n gr1 index point
    | (gr1, o) => (gr1, o)

/-- The On-location at `index` of the node stored for `point`
(`gr.nodes[point].Label.LocationAt(index, PositionOn)`); `none` when there is no
such node. -/
def Graph.onLocation (gr : Graph) (index : Nat) (point : Coordinate) : Option Location :=
  match gr.nodes with
  | none => none
  | some m =>
    match mapGet m point with
    | none => none
    | some node => node.Label.LocationAt index .On

/-- Embeds `func (gr *Graph) addPoint(index int, point coord.Coordinate) error`. -/
def Graph.addPoint (gr : Graph) (index : Nat) (point : Coordinate) : Graph × Outcome Unit :=
  gr.insertPoint index point .Interior

/-- The message of the error `addLineString` returns. -/
def errLineTooShort : String := "LineString has too few points for graph operation"

/-- Embeds `func (gr *Graph) addLineString(index int, line coord.Coordinates) error`. -/
def Graph.addLineString (gr : Graph) (index : Nat) (line : Coordinates) :
    Graph × Outcome Unit :=
  if line.length < 2 then (gr, .err errLineTooShort)
  else
    match LabelAt index (On .Interior) with
    | none => (gr, .panic panicIndex)
    | some l =>
      let e : Edge := { NewEdge line with Label := l }
      let gr1 : Graph := { gr with edges := gr.edges ++ [e] }
      match line.head?, line.getLast? with
      | some first, some last =>
        match gr1.insertBoundaryPoint index first with
        | (gr2, .ok _) => gr2.insertBoundaryPoint index last
        | (gr2, o) => (gr2, o)
      | _, _ => (gr1, .panic panicIndex)

/-- The message of the error `insertPolygonRing` returns for a ring of `n` points,
`0 < n < 4`. -/
def errRingTooFew (n : Nat) : String :=
  "Polygon ring has too few points - found " ++ toString n ++ " points"

/-- Embeds `func (gr *Graph) insertPolygonRing(index, points, cwLeft, cwRight) error`.
`IsCCW` runs with the given fuel.  The rendering `%v` of the points is left out
of the message that wraps an error of `IsCCW`. -/
def Graph.insertPolygonRing (fuel : Nat) (gr : Graph) (index : Nat) (points : Coordinates)
    (cwLeft cwRight : Location) : Graph × Outcome Unit :=
  if points.length = 0 then (gr, .ok ())
  else if points.length < 4 then (gr, .err (errRingTooFew points.length))
  else
    match IsCCW fuel points with
    | none => (gr, .timeout)
    | some (_, some err) =>
      (gr, .err (wrapErr err "failed to determine IsCCW for polygon ring"))
    | some (ccw, none) =>
      let left := if ccw then cwRight else cwLeft
      let right := if ccw then cwLeft else cwRight
      match (NewEdge points).Label.SetLocations index .Boundary left right with
      | none => (gr, .panic panicIndex)
      | some l =>
        let e : Edge := { NewEdge points with Label := l }
        let gr1 : Graph := { gr with edges := gr.edges ++ [e] }
        match points.head? with
        | none => (gr1, .panic panicIndex)
        | some first => gr1.insertPoint index first .Boundary

/-- The edge `e` is the one `insertPolygonRing(index, ring, cwLeft, cwRight)` builds
for `ring`: it carries the points of the ring, and its label at `index` is
On = Boundary with `(Left, Right) = (cwRight, cwLeft)` when `IsCCW(ring)` is true
and `(cwLeft, cwRight)` when it is false. -/
def RingEdge (fuel index : Nat) (cwLeft cwRight : Location) (ring : Coordinates) (e : Edge) :
    Prop :=
  e.Coordinates = ring ∧
    ∃ ccw, IsCCW fuel ring = some (ccw, none) ∧
      e.Label.get index =
        some { On := .Boundary, Left := if ccw then cwRight else cwLeft,
               Right := if ccw then cwLeft else cwRight }

/-- The loop `for _, hole := range holes` of `addPolygon`. -/
def Graph.addHoles (fuel : Nat) (gr : Graph) (index : Nat) : List Coordinates →
    Graph × Outcome Unit
  | [] => (gr, .ok ())
  | hole :: rest =>
    match gr.insertPolygonRing fuel index hole .Interior .Exterior with
    | (gr1, .ok _) => Graph.addHoles fuel gr1 index rest
    | (gr1, o) => (gr1, o)

/-- Embeds `func (gr *Graph) addPolygon(index int, shell, holes) error`
(`errors.WithStack` keeps the message). -/
def Graph.addPolygon (fuel : Nat) (gr : Graph) (index : Nat) (shell : Coordinates)
    (holes : List Coordinates) : Graph × Outcome Unit :=
  match gr.insertPolygonRing fuel index shell .Exterior .Interior with
  | (gr1, .ok _) => gr1.addHoles fuel index holes
  | (gr1, o) => (gr1, o)

/-- The message of the error `add` returns: `%v` of a type outside the seven
constants prints `Unknown` (method `Type.String`). -/
def errUnsupportedType : String := "unsupported geometry type for Graph: Unknown"

mutual
/-- Embeds `func (gr *Graph) add(g *geom.Geometry, index int) error`. -/
def Graph.add (fuel : Nat) : Geometry → Graph → Nat → Graph × Outcome Unit
  | .mk t c line ml col, gr, index =>
    if t = TypePoint then gr.addPoint index c
    else if t = TypeMultiPoint then Graph.addCollection fuel col gr index
    else if t = TypeLineString then gr.addLineString index line
    else if t = TypeMultiLineString then Graph.addCollection fuel col gr index
    else if t = TypePolygon then gr.addPolygon fuel index line ml
    else if t = TypeMultiPolygon then
      Graph.addCollection fuel col { gr with UseBoundaryDeterminationRule := false } index
    else if t = TypeCollection then Graph.addCollection fuel col gr index
    else (gr, .err errUnsupportedType)
/-- Embeds `func (gr *Graph) addCollection(g *geom.Geometry, index int) error`, on
the children `g.Collection` (`errors.WithStack` keeps the message). -/
def Graph.addCollection (fuel : Nat) : List Geometry → Graph → Nat → Graph × Outcome Unit
  | [], gr, _ => (gr, .ok ())
  | g :: rest, gr, index =>
    match Graph.add fuel g gr index with
    | (gr1, .ok _) => Graph.addCollection fuel rest gr1 index
    | (gr1, o) => (gr1, o)
end

/-- The struct literal `&Graph{...}` of `NewGraph`: it does not set `nodes`, which
therefore is the nil map. -/
def graphLiteral (parent : Geometry) (index : Nat) (useBoundaryDeterminationRule : Bool) :
    Graph :=
  { nodes := none, edges := [], UseBoundaryDeterminationRule := useBoundaryDeterminationRule,
    argIndex := index, geometry := parent }

/-- Embeds `func NewGraph(parent, index, useBoundaryDeterminationRule) (*Graph, error)`. -/
def NewGraph (fuel : Nat) (parent : Geometry) (index : Nat)
    (useBoundaryDeterminationRule : Bool) : Outcome Graph :=
  match Graph.add fuel parent (graphLiteral parent index useBoundaryDeterminationRule) index with
  | (g1, .ok _) => .ok g1
  | (_, .err e) => .err (wrapErr e "failed to add geometry to graph")
  | (_, .panic msg) => .panic msg
  | (_, .timeout) => .timeout
  | (_, .noReturn) => .noReturn

/-! ## `graph/relates.go` -/

/-- The constant `DimensionFalse = -1`. -/
def DimensionFalse : Int := -1

/-- The array type `IntersectionMatrix [3][3]int`. -/
abbrev IntersectionMatrix := Fin 3 → Fin 3 → Int

/-- The zero value of `IntersectionMatrix`, which `var im IntersectionMatrix`
declares. -/
def zeroMatrix : IntersectionMatrix := fun _ _ => 0

/-- Embeds `func (im IntersectionMatrix) SetAll(dimVal int)`: the value of the
receiver when the method ends.  The receiver is an array passed by value, so this
is the copy of the callee. -/
def IntersectionMatrix.SetAll (_im : IntersectionMatrix) (dimVal : Int) : IntersectionMatrix :=
  fun _ _ => dimVal

/-- Embeds `func (im IntersectionMatrix) Set(row, col, dim int)`: the value of the
receiver when the method ends (the copy of the callee); `none` is the panic of an
index out of range. -/
def IntersectionMatrix.Set (im : IntersectionMatrix) (row col : Int) (dim : Int) :
    Option IntersectionMatrix :=
  if h : (0 ≤ row ∧ row < 3) ∧ (0 ≤ col ∧ col < 3) then
    some (fun i j =>
      if i = ⟨row.toNat, by omega⟩ ∧ j = ⟨col.toNat, by omega⟩ then dim else im i j)
  else none

/-- A call statement `im.M(...)` of a method with the value receiver
`(im IntersectionMatrix)`, or a call that passes `im` as an argument: Go copies
the array into the callee, so after the call the variable of the caller holds what
it held before; a panic of the callee propagates. -/
def afterValueCall (im : IntersectionMatrix) (callee : Option IntersectionMatrix) :
    Option IntersectionMatrix :=
  callee.map (fun _ => im)

/-- Embeds `func NewIntersectionMatrix() IntersectionMatrix`:
`var im IntersectionMatrix; im.SetAll(DimensionFalse); return im`.  The call of
`SetAll` fills the copy of the callee. -/
def NewIntersectionMatrix : IntersectionMatrix :=
  let im : IntersectionMatrix := zeroMatrix
  let _calleeCopy := im.SetAll DimensionFalse
  im

/-- The first two statements of `Relate.IntersectionMatrix`:
`im := NewIntersectionMatrix(); im.Set(coord.LocationExterior, coord.LocationExterior, 2)`;
the value of `im` after them. -/
def initialMatrix : Option IntersectionMatrix :=
  let im := NewIntersectionMatrix
  afterValueCall im (im.Set Location.Exterior.toInt Location.Exterior.toInt 2)

/-- The struct `Relate`: the two graphs and the map `nodes` of the merged nodes,
`none` for the nil map.  The fields `lineIntersector` and `pointLocator` are not
read by the code embedded here and are left out. -/
structure Relate where
  graphs : Graph × Graph
  nodes : Option (List (Coordinate × Node)) := none

/-- Embeds `func NewRelate(a, b *geom.Geometry) (*Relate, error)`. -/
def NewRelate (fuel : Nat) (a b : Geometry) : Outcome Relate :=
  match NewGraph fuel a 0 true with
  | .ok ga =>
    match NewGraph fuel b 1 true with
    | .ok gb => .ok { graphs := (ga, gb), nodes := none }
    | .err e => .err (wrapErr e "failed to create geometry graph for 2nd Geometry")
    | .panic msg => .panic msg
    | .timeout => .timeout
    | .noReturn => .noReturn
  | .err e => .err (wrapErr e "failed to create geometry graph for 1st Geometry")
  | .panic msg => .panic msg
  | .timeout => .timeout
  | .noReturn => .noReturn

/-- The calls `computeDisjointIM` makes on the geometry `g` return: `IsEmpty` does
not panic, and when `g` is not empty neither `Dimension` nor `BoundaryDimension`
does. -/
def DisjointCallsReturn (g : Geometry) : Prop :=
  ∃ b, g.IsEmpty = some b ∧
    (b = false → ∃ d bd, g.Dimension = some d ∧ g.BoundaryDimension = some bd)

/-- Embeds `func (r *Relate) computeDisjointIM(im IntersectionMatrix)`: the value
of the parameter `im` when the function ends; `none` is a panic of `IsEmpty`,
`Dimension` or `BoundaryDimension`.  Every `im.Set(...)` is a call with a value
receiver. -/
def Relate.computeDisjointIM (r : Relate) (im : IntersectionMatrix) :
    Option IntersectionMatrix := do
  let empty0 ← r.graphs.1.geometry.IsEmpty
  let im1 ← (if !empty0 then (do
      let d ← r.graphs.1.geometry.Dimension
      let im01 ← afterValueCall im (im.Set Location.Interior.toInt Location.Exterior.toInt d)
      let bd ← r.graphs.1.geometry.BoundaryDimension
      afterValueCall im01 (im01.Set Location.Boundary.toInt Location.Exterior.toInt bd))
    else some im)
  let empty1 ← r.graphs.2.geometry.IsEmpty
  (if !empty1 then (do
      let d ← r.graphs.2.geometry.Dimension
      let im11 ← afterValueCall im1 (im1.Set Location.Exterior.toInt Location.Interior.toInt d)
      let bd ← r.graphs.2.geometry.BoundaryDimension
      afterValueCall im11 (im11.Set Location.Exterior.toInt Location.Boundary.toInt bd))
    else some im1)

/-- The panic of `Dimension`, `BoundaryDimension` and `IsEmpty`. -/
def panicUnknownType : String := "Unknown geometry type"

/-- Embeds `func (r *Relate) IntersectionMatrix() IntersectionMatrix`.  On the
path of intersecting envelopes the body ends without a `return` statement (what
follows the node labelling is inside a comment); the calls before that point are
not embedded. -/
def Relate.IntersectionMatrix (r : Relate) : Outcome IntersectionMatrix :=
  match initialMatrix with
  | none => .panic panicIndex
  | some im =>
    match r.graphs.1.geometry.Envelope with
    | none => .panic panicIndex
    | some e0 =>
      match r.graphs.2.geometry.Envelope with
      | none => .panic panicIndex
      | some e1 =>
        if !Envelope.Intersects e0 e1 then
          match afterValueCall im (r.computeDisjointIM im) with
          | none => .panic panicUnknownType
          | some im1 => .ok im1
        else .noReturn

/-- The composition `NewRelate(a, b)` followed by `IntersectionMatrix()`. -/
def relate (fuel : Nat) (a b : Geometry) : Outcome IntersectionMatrix :=
  match NewRelate fuel a b with
  | .ok r => r.IntersectionMatrix
  | .err e => .err e
  | .panic msg => .panic msg
  | .timeout => .timeout
  | .noReturn => .noReturn

/-- The transpose of a matrix. -/
def IntersectionMatrix.transpose (im : IntersectionMatrix) : IntersectionMatrix :=
  fun i j => im j i

/-! ## `graph/segmentintersector.go` -/

/-- Embeds `func adjacentSegments(i1, i2 int) bool`.  The indices are segment
indices of a slice, far from the bounds of `int`, so `i1 *= -1` does not wrap. -/
def adjacentSegments (i1 i2 : Int) : Bool :=
  let i1 := if i1 < 0 then i1 * -1 else i1
  let i2 := if i2 < 0 then i2 * -1 else i2
  i1 == i2

/-- Embeds `func (e *Edge) Closed() bool`; `none` is the panic of `e.Coordinates[0]`
on an edge without coordinates. -/
def Edge.Closed (e : Edge) : Option Bool :=
  match e.Coordinates.head?, e.Coordinates.getLast? with
  | some first, some last => some (first.Equals last)
  | _, _ => none

/-- Embeds `func (e *Edge) AddIntersections(li, segmentIndex, geomIndex int)`: the
loop `for i := 0; i < li.NumIntersections(); i++`; `none` is a panic. -/
def Edge.AddIntersections (e : Edge) (li : RobustLineIntersector)
    (segmentIndex geomIndex : Nat) : Option Edge :=
  (List.range li.NumIntersections).foldlM
    (fun edge i => edge.AddIntersection li segmentIndex geomIndex i) e

/-- Embeds `func (rli *RobustLineIntersector) IntersectsPoint(point) bool`: the loop
runs over both entries of the array `intPts`. -/
def RobustLineIntersector.IntersectsPoint (rli : RobustLineIntersector)
    (point : Coordinate) : Bool :=
  rli.intPts.1.Equals2D point || rli.intPts.2.Equals2D point

/-- Embeds `func isBoundaryPointInternal(li, boundaryNodes []*Node) bool`. -/
def isBoundaryPointInternal (li : RobustLineIntersector) (boundaryNodes : List Node) : Bool :=
  boundaryNodes.any (fun node => li.IntersectsPoint node.Point)

/-- Embeds `func isBoundaryPoint(li, boundaryNodes [2][]*Node) bool`; `none` is the
nil slice. -/
def isBoundaryPoint (li : RobustLineIntersector)
    (boundaryNodes : Option (List Node) × Option (List Node)) : Bool :=
  match boundaryNodes.1 with
  | none => false
  | some nodes0 =>
    if isBoundaryPointInternal li nodes0 then true
    else if isBoundaryPointInternal li (boundaryNodes.2.getD []) then true
    else false

/-- The struct `SegmentIntersector`.  The field `lineIntersector` is the state of
the line intersector it points to. -/
structure SegmentIntersector where
  lineIntersector : RobustLineIntersector
  includeProper : Bool
  recordIsolated : Bool
  isDoneWhenProperInt : Bool
  hasIntersection : Bool
  numIntersections : Int
  hasProper : Bool
  hasProperInterior : Bool
  properIntersectionPoint : Coordinate
  isDone : Bool
  boundaryNodes : Option (List Node) × Option (List Node)

/-- Embeds `func NewSegmentIntersector(lineIntersector, includeProper,
recordIsolated, isDoneWhenProperInt)`: the other fields are zero. -/
def NewSegmentIntersector (lineIntersector : RobustLineIntersector)
    (includeProper recordIsolated isDoneWhenProperInt : Bool) : SegmentIntersector :=
  { lineIntersector := lineIntersector
    includeProper := includeProper
    recordIsolated := recordIsolated
    isDoneWhenProperInt := isDoneWhenProperInt
    hasIntersection := false
    numIntersections := 0
    hasProper := false
    hasProperInterior := false
    properIntersectionPoint := ⟨0, 0, 0⟩
    isDone := false
    boundaryNodes := (none, none) }

/-- Embeds `func (si *SegmentIntersector) Done() bool`. -/
def SegmentIntersector.Done (si : SegmentIntersector) : Bool :=
  si.isDone

/-- Embeds `func (si *SegmentIntersector) isTrivialIntersection(e0, segIndex0, e1,
segIndex1)`.  The edges live in the store `edges`, and a pointer `*Edge` is an
index of the store, so `e0 == e1` compares indices; `none` is a panic (a pointer
outside the store, or `Closed` on an edge without coordinates). -/
def SegmentIntersector.isTrivialIntersection (si : SegmentIntersector) (edges : List Edge)
    (e0 : Nat) (segIndex0 : Int) (e1 : Nat) (segIndex1 : Int) : Option Bool :=
  if e0 = e1 then
    if si.lineIntersector.NumIntersections = 1 then
      if adjacentSegments segIndex0 segIndex1 then some true
      else
        match edges[e0]? with
        | none => none
        | some edge0 =>
          match edge0.Closed with
          | none => none
          | some true =>
            let maxSegIndex : Int := (edge0.Coordinates.length : Int) - 1
            if (segIndex0 = 0 ∧ segIndex1 = maxSegIndex) ∨
                (segIndex1 = 0 ∧ segIndex0 = maxSegIndex) then some true
            else some false
          | some false => some false
    else some false
  else some false

/-- The two calls `e0.AddIntersections(li, segIndex0, 0)` and
`e1.AddIntersections(li, segIndex1, 1)` on the store of edges: the second call
reads the edge the first one left (the two pointers may be equal). -/
def recordIntersections (li : RobustLineIntersector) (edges : List Edge)
    (e0 segIndex0 e1 segIndex1 : Nat) : Option (List Edge) :=
  match edges[e0]? with
  | none => none
  | some edge0 =>
    match edge0.AddIntersections li segIndex0 0 with
    | none => none
    | some edge0 =>
      let edges := edges.set e0 edge0
      match edges[e1]? with
      | none => none
      | some edge1 =>
        match edge1.AddIntersections li segIndex1 1 with
        | none => none
        | some edge1 => some (edges.set e1 edge1)

/-- The assignment `e.Isolated = false` through the pointer `e`. -/
def clearIsolated (edges : List Edge) (e : Nat) : List Edge :=
  match edges[e]? with
  | none => edges
  | some edge => edges.set e { edge with Isolated := false }

/-- Embeds `func (si *SegmentIntersector) AddIntersections(e0, segIndex0, e1,
segIndex1)`: the segment intersector and the store of edges after the call;
`none` is a panic.  The type `coord.LineIntersector` of the field is declared in
none of the source files, so its method `ComputeLineIntersection` is the
parameter of that name: it gives the state of the line intersector after the
call. -/
def SegmentIntersector.AddIntersections
    (ComputeLineIntersection :
      RobustLineIntersector → Coordinate → Coordinate → Coordinate → Coordinate →
        RobustLineIntersector)
    (si : SegmentIntersector) (edges : List Edge)
    (e0 : Nat) (segIndex0 : Int) (e1 : Nat) (segIndex1 : Int) :
    Option (SegmentIntersector × List Edge) :=
  if e0 = e1 ∧ segIndex0 = segIndex1 then some (si, edges)
  else if segIndex0 < 0 ∨ segIndex1 < 0 then none
  else
    match edges[e0]?, edges[e1]? with
    | some edge0, some edge1 =>
      match edge0.Coordinates[segIndex0.toNat]?, edge0.Coordinates[segIndex0.toNat + 1]?,
          edge1.Coordinates[segIndex1.toNat]?, edge1.Coordinates[segIndex1.toNat + 1]? with
      | some p00, some p01, some p10, some p11 =>
        let li := ComputeLineIntersection si.lineIntersector p00 p01 p10 p11
        let si := { si with lineIntersector := li }
        if li.HasIntersection then
          let edges :=
            if si.recordIsolated then clearIsolated (clearIsolated edges e0) e1 else edges
          let si := { si with numIntersections := si.numIntersections + 1 }
          match si.isTrivialIntersection edges e0 segIndex0 e1 segIndex1 with
          | none => none
          | some true => some (si, edges)
          | some false =>
            let si := { si with hasIntersection := true }
            match (if si.includeProper || !li.IsProper then
                recordIntersections li edges e0 segIndex0.toNat e1 segIndex1.toNat
              else some edges) with
            | none => none
            | some edges =>
              if li.IsProper then
                let si := { si with properIntersectionPoint := li.intPts.1, hasProper := true }
                let si := if si.isDoneWhenProperInt then { si with isDone := true } else si
                let si :=
                  if !isBoundaryPoint li si.boundaryNodes then
                    { si with hasProperInterior := true }
                  else si
                some (si, edges)
              else some (si, edges)
        else some (si, edges)
      | _, _, _, _ => none
    | _, _ => none

/-- The coordinate `c` is recorded in the intersection list of the edge `e`: the
map `nodeMap` has an entry whose key has this coordinate. -/
def Edge.Recorded (e : Edge) (c : Coordinate) : Prop :=
  ∃ p ∈ e.eiList.nodeMap, p.1.Coordinate = c

/-! ## `graph/edgesetintersector.go`: which chains are compared -/

/-- Embeds `func (sle *SweepLineEvent) HasSameLabel(other *SweepLineEvent) bool`.
`sle.Label == other.Label` compares two interface values: they are equal when both
hold the same pointer; when both hold a slice `[]*Edge` the comparison is the
run-time panic `comparing uncomparable type []*graph.Edge`, which is `none`;
values of different dynamic types are not equal. -/
def SweepLineEvent.HasSameLabel (sle other : SweepLineEvent) : Option Bool :=
  match sle.Label with
  | .nil => some false
  | .edge a =>
    match other.Label with
    | .edge b => some (decide (a = b))
    | _ => some false
  | .edgeSet _ =>
    match other.Label with
    | .edgeSet _ => none
    | _ => some false

/-- Embeds `func (sli *SimpleMCSweepLineIntersector) processOverlaps(start, end,
event, si)`, whose loop runs over all of `sli.events` and reads neither `start`
nor `end`: the pairs of chains for which
`event.MonotoneChain.ComputeIntersections(ev.MonotoneChain, si)` is called, in the
order of the calls; `none` is a panic (of `HasSameLabel`, or of a nil chain). -/
def processOverlaps (event : SweepLineEvent) :
    List SweepLineEvent → Option (List ((Nat × Nat) × (Nat × Nat)))
  | [] => some []
  | ev :: rest =>
    if ev.Typ = .Insert then
      match event.HasSameLabel ev with
      | none => none
      | some true => processOverlaps event rest
      | some false =>
        match event.MonotoneChain, ev.MonotoneChain with
        | some mc, some mc1 => (processOverlaps event rest).map (fun t => (mc, mc1) :: t)
        | _, _ => none
    else processOverlaps event rest

/-- The loop of `computeIntersections` over the events that `prepareEvents` left
in `sli.events` (sorted; `all` is the whole slice): every insert event is passed
to `processOverlaps`, and the loop ends when `si.Done()` holds.  The result is the
list of all pairs of chains compared, `acc` being those compared before.  The
comparisons themselves are not run, so the answer of `si.Done()`, which they
determine, is the parameter `done` applied to the comparisons made so far. -/
def computeIntersectionsLoop (done : List ((Nat × Nat) × (Nat × Nat)) → Bool)
    (all : List SweepLineEvent) :
    List SweepLineEvent → List ((Nat × Nat) × (Nat × Nat)) →
      Option (List ((Nat × Nat) × (Nat × Nat)))
  | [], acc => some acc
  | ev :: rest, acc =>
    match (if ev.Typ = .Insert then processOverlaps ev all else some []) with
    | none => none
    | some t =>
      if done (acc ++ t) then some (acc ++ t)
      else computeIntersectionsLoop done all rest (acc ++ t)

/-- Embeds `func (sli *SimpleMCSweepLineIntersector) computeIntersections(si)` on
the events as `prepareEvents` sorted them. -/
def computeIntersections (done : List ((Nat × Nat) × (Nat × Nat)) → Bool)
    (events : List SweepLineEvent) : Option (List ((Nat × Nat) × (Nat × Nat))) :=
  computeIntersectionsLoop done events events []

/-- The insert event that `addEdge(edge, edgeSet)` creates for the chain `i` of
the edge number `edge`, whose least abscissa is `minX`. -/
def insertEvent (edgeSet : EventLabel) (edge i : Nat) (minX : ℚ) : SweepLineEvent :=
  { Typ := .Insert, Label := edgeSet, X := minX, MonotoneChain := some (edge, i) }

/-- The delete event that `addEdge` creates for a chain whose greatest abscissa is
`maxX`: its label and its chain are nil. -/
def deleteEvent (maxX : ℚ) : SweepLineEvent :=
  { Typ := .Delete, Label := .nil, X := maxX, MonotoneChain := none }

/-- The argument `edgeSet` that `ComputeSelfIntersections(edges, si,
computeAllSegments)` passes to `addEdge` for the edge number `edge`: nil through
`addEdgesWithEdgeSet(edges, nil)`, the edge itself through `addEdges`. -/
def selfIntersectionLabel (computeAllSegments : Bool) (edge : Nat) : EventLabel :=
  if computeAllSegments then .nil else .edge edge

/-- The argument `edgeSet` that `ComputeEdgeIntersections(edges0, edges1, si)`
passes to `addEdge` for the edges of the slice `edges`: the slice. -/
def edgeIntersectionLabel (edges : List Nat) : EventLabel :=
  .edgeSet edges

/-! ## `graph/relates.go`: the merged nodes -/

/-- Embeds `func NewRelateNode(point, edges) *RelateNode`: a copy of a new node. -/
def NewRelateNode (point : Coordinate) : Node :=
  NewNode point

/-- The graph `r.graphs[argIndex]`; `none` is the panic of an index out of range. -/
def Relate.graphAt (r : Relate) (argIndex : Nat) : Option Graph :=
  if argIndex = 0 then some r.graphs.1
  else if argIndex = 1 then some r.graphs.2
  else none

/-- The body of the inner loop of `computeIntersectionNodes` for the edge
intersection `edgeInt` of an edge whose location is `edgeLoc`: the lookup
`r.nodes[edgeInt.Coordinate]`, the creation of the node when there is none, and
the labelling through the pointer `relateNode`.  `none` is a panic: the write
into the nil map, or an index out of range. -/
def Relate.visitIntersection (r : Relate) (argIndex : Nat) (edgeLoc : Location)
    (edgeInt : EdgeIntersection) : Option Relate :=
  match r.nodes with
  | none => none
  | some m =>
    let found := mapGet m edgeInt.Coordinate
    let relateNode : Node :=
      match found with
      | some node => node
      | none => NewRelateNode edgeInt.Coordinate
    let m1 :=
      match found with
      | some _ => m
      | none => mapPut m edgeInt.Coordinate relateNode
    match relateNode.Label.IsNil argIndex with
    | none => none
    | some false => some { r with nodes := some m1 }
    | some true =>
      match (if edgeLoc = .Boundary then relateNode.SetLabelBoundary argIndex
        else (relateNode.Label.SetLocation argIndex .Interior).map
          (fun l => { relateNode with Label := l })) with
      | none => none
      | some node => some { r with nodes := some (mapPut m1 edgeInt.Coordinate node) }

/-- The loop `for _, edgeInt := range edge.eiList.nodeMap` of
`computeIntersectionNodes`, over the entries of the map in the order of the
iteration. -/
def Relate.computeIntersectionNodesEdge (argIndex : Nat) (edgeLoc : Location) :
    List (EdgeIntersection × EdgeIntersection) → Relate → Option Relate
  | [], r => some r
  | p :: rest, r =>
    match r.visitIntersection argIndex edgeLoc p.2 with
    | none => none
    | some r1 => Relate.computeIntersectionNodesEdge argIndex edgeLoc rest r1

/-- The loop `for _, edge := range r.graphs[argIndex].edges` of
`computeIntersectionNodes`. -/
def Relate.computeIntersectionNodesLoop (argIndex : Nat) : List Edge → Relate → Option Relate
  | [], r => some r
  | edge :: rest, r =>
    match edge.Label.LocationAt argIndex .On with
    | none => none
    | some edgeLoc =>
      match Relate.computeIntersectionNodesEdge argIndex edgeLoc edge.eiList.nodeMap r with
      | none => none
      | some r1 => Relate.computeIntersectionNodesLoop argIndex rest r1

/-- Embeds `func (r *Relate) computeIntersectionNodes(argIndex int)`: the receiver
after the call; `none` is a panic. -/
def Relate.computeIntersectionNodes (r : Relate) (argIndex : Nat) : Option Relate :=
  match r.graphAt argIndex with
  | none => none
  | some g => Relate.computeIntersectionNodesLoop argIndex g.edges r

/-- What `computeIntersectionNodes(argIndex)` may do to the map of merged nodes
while it visits the edge intersections `visits`, each given by the location of its
edge and by its coordinate.  The entry of a coordinate stays; or it had the nil
label at `argIndex` (a coordinate without entry counts as a new node) and is now
the same node with the On-location at `argIndex` set, to Boundary for an edge of
location Boundary and to Interior otherwise.  And every coordinate visited has an
entry whose label at `argIndex` is not nil. -/
def LabelledFrom (argIndex : Nat) (visits : List (Location × Coordinate))
    (m m1 : List (Coordinate × Node)) : Prop :=
  (∀ c, mapGet m1 c = mapGet m c ∨
    ∃ loc l, (loc, c) ∈ visits ∧
      ((mapGet m c).getD (NewRelateNode c)).Label.IsNil argIndex = some true ∧
      ((mapGet m c).getD (NewRelateNode c)).Label.SetLocation argIndex
        (if loc = .Boundary then .Boundary else .Interior) = some l ∧
      mapGet m1 c = some { (mapGet m c).getD (NewRelateNode c) with Label := l }) ∧
  (∀ v ∈ visits, ∃ n, mapGet m1 v.2 = some n ∧ n.Label.IsNil argIndex = some false)

/-- The relate of the line string `(0,0), (4,0)` and the point `(9,9)` after the
intersection `(2,0)` was recorded on the one edge of the first graph, with an
allocated, empty map of merged nodes. -/
def crossedRelate : Relate :=
  { graphs :=
      ({ graphLiteral (NewLineString [pt 0 0, pt 4 0]) 0 true with
          edges :=
            [{ Coordinates := [pt 0 0, pt 4 0]
               Label := { loc0 := On .Interior, loc1 := NewTopologyLocation }
               Isolated := false
               eiList := (NewEdgeIntersectionList.Add (pt 2 0) 0 2).1 }] },
       graphLiteral (NewPoint (pt 9 9)) 1 true)
    nodes := some [] }

/-- The node `newNode` that the body of the loop of `copyNodesAndLabels` builds
from the node `node` of the graph; `none` is the panic of an index out of range. -/
def copiedNode (argIndex : Nat) (node : Node) : Option Node :=
  match node.Label.LocationAt argIndex .On with
  | none => none
  | some loc =>
    ((NewNode node.Point).Label.SetLocation argIndex loc).map
      (fun l => { NewNode node.Point with Label := l })

/-- The loop `for _, node := range r.graphs[argIndex].nodes` of
`copyNodesAndLabels`, over the entries of the map in the order of the iteration;
`none` is a panic: an index out of range, or the write `r.nodes[node.Point] =
newNode` into the nil map. -/
def Relate.copyNodesAndLabelsLoop (argIndex : Nat) :
    List (Coordinate × Node) → Relate → Option Relate
  | [], r => some r
  | p :: rest, r =>
    match copiedNode argIndex p.2 with
    | none => none
    | some newNode =>
      match r.nodes with
      | none => none
      | some m =>
        Relate.copyNodesAndLabelsLoop argIndex rest
          { r with nodes := some (mapPut m p.2.Point newNode) }

/-- Embeds `func (r *Relate) copyNodesAndLabels(argIndex int)`: the receiver after
the call; `none` is a panic.  The loop over a nil map has no iteration. -/
def Relate.copyNodesAndLabels (r : Relate) (argIndex : Nat) : Option Relate :=
  match r.graphAt argIndex with
  | none => none
  | some g =>
    match g.nodes with
    | none => some r
    | some gm => Relate.copyNodesAndLabelsLoop argIndex gm r

end Graph


namespace Coord


/-! ## Rounding: auxiliary facts -/

theorem roundHalfEven_intCast (n : ℤ) : roundHalfEven (n : ℚ) = n := by
  simp [roundHalfEven]

theorem roundHalfEven_of_abs_lt (x : ℚ) (n : ℤ) (h : |x - n| < 1 / 2) :
    roundHalfEven x = n := by
  rw [abs_lt] at h
  rcases le_or_lt (n : ℚ) x with hle | hlt
  · have hf : ⌊x⌋ = n := by
      rw [Int.floor_eq_iff]
      constructor
      · exact hle
      · linarith [h.2]
    simp only [roundHalfEven, hf]
    rw [if_pos h.2]
  · have hf : ⌊x⌋ = n - 1 := by
      rw [Int.floor_eq_iff]
      push_cast
      constructor
      · linarith [h.1]
      · linarith
    simp only [roundHalfEven, hf]
    push_cast
    rw [if_neg (by linarith [h.1]), if_pos (by linarith [h.1])]
    ring

theorem roundHalfEven_tie (x : ℚ) (n : ℤ) (h : x = n + 1 / 2) :
    roundHalfEven x = if n % 2 = 0 then n else n + 1 := by
  have hf : ⌊x⌋ = n := by
    rw [Int.floor_eq_iff]
    constructor <;> linarith
  simp only [roundHalfEven, hf]
  rw [if_neg (by linarith), if_neg (by linarith)]

theorem log2_eq (x : ℚ) (e : ℤ) (h1 : (2 : ℚ) ^ e ≤ |x|) (h2 : |x| < 2 ^ (e + 1)) :
    Int.log 2 |x| = e := by
  have hpos : 0 < |x| := lt_of_lt_of_le (by positivity) h1
  have a : e ≤ Int.log 2 |x| := (Int.zpow_le_iff_le_log (by norm_num) hpos).mp (by exact_mod_cast h1)
  have b : Int.log 2 |x| < e + 1 := (Int.lt_zpow_iff_log_lt (by norm_num) hpos).mp (by exact_mod_cast h2)
  omega

theorem round53_eq (x : ℚ) (e n : ℤ) (h1 : (2 : ℚ) ^ e ≤ |x|) (h2 : |x| < 2 ^ (e + 1))
    (hn : roundHalfEven (x / 2 ^ (e - 52)) = n) : round53 x = n * 2 ^ (e - 52) := by
  have hpos : 0 < |x| := lt_of_lt_of_le (by positivity) h1
  have hx : x ≠ 0 := abs_pos.mp hpos
  simp only [round53, hx, if_false, log2_eq x e h1 h2, hn]

theorem round53_dyadic (m k : ℤ) (hm : |m| < 2 ^ 53) :
    round53 ((m : ℚ) * 2 ^ k) = (m : ℚ) * 2 ^ k := by
  by_cases h0 : m = 0
  · simp [h0, round53]
  · have hmq : (m : ℚ) ≠ 0 := by exact_mod_cast h0
    have hx : (m : ℚ) * 2 ^ k ≠ 0 := mul_ne_zero hmq (by positivity)
    have hpos : 0 < |(m : ℚ) * 2 ^ k| := abs_pos.mpr hx
    have habs : |(m : ℚ) * 2 ^ k| = |(m : ℚ)| * 2 ^ k := by
      rw [abs_mul, abs_of_pos (by positivity : (0 : ℚ) < 2 ^ k)]
    have hm1 : (1 : ℚ) ≤ |(m : ℚ)| := by
      have : (1 : ℤ) ≤ |m| := Int.one_le_abs h0
      exact_mod_cast this
    have hm2 : |(m : ℚ)| < 2 ^ (53 : ℤ) := by
      rw [← Int.cast_abs]
      exact_mod_cast hm
    set e := Int.log 2 |(m : ℚ) * 2 ^ k| with he
    have hlo : (2 : ℚ) ^ e ≤ |(m : ℚ) * 2 ^ k| := by
      have := Int.zpow_log_le_self (b := 2) (by norm_num) hpos
      exact_mod_cast this
    have hhi : |(m : ℚ) * 2 ^ k| < (2 : ℚ) ^ (e + 1) := by
      have := Int.lt_zpow_succ_log_self (b := 2) (by norm_num) (|(m : ℚ) * 2 ^ k|)
      exact_mod_cast this
    have hke : k ≤ e := by
      have h : (2 : ℚ) ^ k < 2 ^ (e + 1) := by
        calc (2 : ℚ) ^ k = 1 * 2 ^ k := by ring
          _ ≤ |(m : ℚ)| * 2 ^ k := by
              apply mul_le_mul_of_nonneg_right hm1 (by positivity)
          _ = |(m : ℚ) * 2 ^ k| := habs.symm
          _ < 2 ^ (e + 1) := hhi
      have := (zpow_lt_zpow_iff_right₀ (by norm_num : (1 : ℚ) < 2)).mp h
      omega
    have hek : e < 53 + k := by
      have h : (2 : ℚ) ^ e < 2 ^ (53 + k) := by
        calc (2 : ℚ) ^ e ≤ |(m : ℚ) * 2 ^ k| := hlo
          _ = |(m : ℚ)| * 2 ^ k := habs
          _ < 2 ^ (53 : ℤ) * 2 ^ k := by
              apply mul_lt_mul_of_pos_right hm2 (by positivity)
          _ = 2 ^ (53 + k) := by rw [← zpow_add₀ (by norm_num : (2 : ℚ) ≠ 0)]
      exact (zpow_lt_zpow_iff_right₀ (by norm_num : (1 : ℚ) < 2)).mp h
    obtain ⟨j, hj⟩ : ∃ j : ℕ, (j : ℤ) = k - (e - 52) := ⟨(k - (e - 52)).toNat, by omega⟩
    have hdiv : (m : ℚ) * 2 ^ k / 2 ^ (e - 52) = ((m * 2 ^ j : ℤ) : ℚ) := by
      have hk : k = (j : ℤ) + (e - 52) := by omega
      rw [hk, zpow_add₀ (by norm_num : (2 : ℚ) ≠ 0), zpow_natCast]
      push_cast
      field_simp
      ring
    simp only [round53, hx, if_false, ← he]
    rw [hdiv, roundHalfEven_intCast]
    have hk : k = (j : ℤ) + (e - 52) := by omega
    rw [hk, zpow_add₀ (by norm_num : (2 : ℚ) ≠ 0), zpow_natCast]
    push_cast
    ring


theorem round53_int (n : ℤ) (h : |n| < 2 ^ 53) : round53 (n : ℚ) = n := by
  have := round53_dyadic n 0 h
  simpa using this

theorem F64_round_dyadic (m k : ℤ) (hm : |m| < 2 ^ 53) (hk : -1074 ≤ k)
    (hmax : |(m : ℚ) * 2 ^ k| < 2 ^ (1024 : ℕ)) :
    F64.round ((m : ℚ) * 2 ^ k) = .fin ((m : ℚ) * 2 ^ k) := by
  have hy : (if |(m : ℚ) * 2 ^ k| < 2 ^ (-1022 : ℤ) then
      (roundHalfEven ((m : ℚ) * 2 ^ k / 2 ^ (-1074 : ℤ)) : ℚ) * 2 ^ (-1074 : ℤ)
      else round53 ((m : ℚ) * 2 ^ k)) = (m : ℚ) * 2 ^ k := by
    split_ifs with hs
    · obtain ⟨j, hj⟩ : ∃ j : ℕ, (j : ℤ) = k + 1074 := ⟨(k + 1074).toNat, by omega⟩
      have hk2 : k = (j : ℤ) + (-1074) := by omega
      have hdiv : (m : ℚ) * 2 ^ k / 2 ^ (-1074 : ℤ) = ((m * 2 ^ j : ℤ) : ℚ) := by
        rw [hk2, zpow_add₀ (by norm_num : (2 : ℚ) ≠ 0), zpow_natCast]
        push_cast
        field_simp
      rw [hdiv, roundHalfEven_intCast, hk2, zpow_add₀ (by norm_num : (2 : ℚ) ≠ 0), zpow_natCast]
      push_cast
      ring
    · exact round53_dyadic m k hm
  unfold F64.round
  simp only [hy]
  rw [if_neg (not_le.mpr hmax)]

theorem F64_round_int (n : ℤ) (h : |n| < 2 ^ 53) : F64.round (n : ℚ) = .fin n := by
  have hq : |(n : ℚ)| < 2 ^ (53 : ℕ) := by
    rw [← Int.cast_abs]
    exact_mod_cast h
  have := F64_round_dyadic n 0 h (by norm_num) (by
    simp only [zpow_zero, mul_one]
    exact lt_trans hq (by norm_num))
  simpa using this

theorem signum_fin (x : ℚ) : signum (.fin x) = sgn x := by
  unfold signum sgn F64.lt
  by_cases h1 : 0 < x
  · simp [h1]
  · by_cases h2 : x < 0
    · simp [h1, h2]
    · simp [h1, h2]

theorem bigSign_eq_sgn (x : ℚ) : bigSign x = sgn x := by
  unfold bigSign sgn
  rcases lt_trichotomy x 0 with h | h | h
  · have h2 : ¬ 0 < x := not_lt.mpr h.le
    simp [h, h2]
  · subst h; simp
  · have h2 : ¬ x < 0 := not_lt.mpr h.le
    simp [h, h2]

theorem sgn_le_one (x : ℚ) : sgn x ≤ 1 := by
  unfold sgn
  split_ifs <;> decide

theorem F64_round_zero : F64.round 0 = .fin 0 := by
  norm_num [F64.round, roundHalfEven]

theorem F64_sub_fin (a b : ℚ) : F64.sub (.fin a) (.fin b) = F64.round (a + -b) := rfl

theorem F64_add_fin (a b : ℚ) : F64.add (.fin a) (.fin b) = F64.round (a + b) := rfl

theorem F64_negsub_fin (a b : ℚ) :
    F64.sub (F64.neg (.fin a)) (.fin b) = F64.round (-a + -b) := rfl

theorem F64_mul_fin (a b : ℚ) : F64.mul (.fin a) (.fin b) = F64.round (a * b) := rfl

theorem roundHalfEven_sub_le (x : ℚ) : |(roundHalfEven x : ℚ) - x| ≤ 1 / 2 := by
  have h1 := Int.floor_le x
  have h2 := Int.lt_floor_add_one x
  unfold roundHalfEven
  split_ifs with a b c
  · rw [abs_le]; constructor <;> linarith
  · push_cast; rw [abs_le]; constructor <;> linarith
  · rw [abs_le]; constructor <;> linarith
  · push_cast; rw [abs_le]; constructor <;> linarith

theorem round53_eval (x y : ℚ) (e n : ℤ) (hlo : (2 : ℚ) ^ e ≤ |x|) (hhi : |x| < 2 ^ (e + 1))
    (hn : roundHalfEven (x / 2 ^ (e - 52)) = n) (hy : (n : ℚ) * 2 ^ (e - 52) = y) :
    round53 x = y := by
  rw [round53_eq x e n hlo hhi hn, hy]

theorem F64_round_eval (x y : ℚ) (e n : ℤ) (hlo : (2 : ℚ) ^ e ≤ |x|) (hhi : |x| < 2 ^ (e + 1))
    (he : -1022 ≤ e) (he2 : e ≤ 1022) (hn : roundHalfEven (x / 2 ^ (e - 52)) = n)
    (hy : (n : ℚ) * 2 ^ (e - 52) = y) : F64.round x = .fin y := by
  have hnorm : ¬ |x| < 2 ^ (-1022 : ℤ) := by
    rw [not_lt]
    exact le_trans (zpow_le_zpow_right₀ (by norm_num) he) hlo
  have hu : (0 : ℚ) < 2 ^ (e - 52) := by positivity
  have hq : |x / 2 ^ (e - 52)| < 2 ^ (53 : ℤ) := by
    rw [abs_div, abs_of_pos hu, div_lt_iff₀ hu, ← zpow_add₀ (by norm_num : (2 : ℚ) ≠ 0)]
    have : (53 : ℤ) + (e - 52) = e + 1 := by ring
    rw [this]
    exact hhi
  have hnb : |(n : ℚ)| ≤ 2 ^ (53 : ℤ) := by
    have hr := roundHalfEven_sub_le (x / 2 ^ (e - 52))
    rw [hn] at hr
    have h1 : |(n : ℚ)| < 2 ^ (53 : ℤ) + 1 := by
      have := abs_sub_abs_le_abs_sub (n : ℚ) (x / 2 ^ (e - 52))
      linarith
    have h2 : |n| < 2 ^ 53 + 1 := by
      have h3 : ((|n| : ℤ) : ℚ) < ((2 ^ 53 + 1 : ℤ) : ℚ) := by
        rw [Int.cast_abs]
        push_cast
        exact_mod_cast h1
      exact_mod_cast h3
    have h4 : |n| ≤ 2 ^ 53 := by omega
    rw [← Int.cast_abs]
    exact_mod_cast h4
  have hmax : |y| < 2 ^ (1024 : ℕ) := by
    rw [← hy, abs_mul, abs_of_pos hu]
    calc |(n : ℚ)| * 2 ^ (e - 52) ≤ 2 ^ (53 : ℤ) * 2 ^ (e - 52) :=
          mul_le_mul_of_nonneg_right hnb hu.le
      _ = 2 ^ (e + 1) := by
          rw [← zpow_add₀ (by norm_num : (2 : ℚ) ≠ 0)]
          congr 1
          ring
      _ ≤ 2 ^ (1023 : ℤ) := zpow_le_zpow_right₀ (by norm_num) (by omega)
      _ < 2 ^ (1024 : ℕ) := by
          rw [← zpow_natCast]
          exact zpow_lt_zpow_right₀ (by norm_num) (by norm_num)
  unfold F64.round
  simp only [hnorm, if_false, round53_eval x y e n hlo hhi hn hy]
  rw [if_neg (not_le.mpr hmax)]

theorem F64_round_tiny (x : ℚ) (h : |x| < 2 ^ (-1075 : ℤ)) : F64.round x = .fin 0 := by
  have hs : |x| < 2 ^ (-1022 : ℤ) :=
    lt_trans h (zpow_lt_zpow_right₀ (by norm_num) (by norm_num))
  have hr : roundHalfEven (x / 2 ^ (-1074 : ℤ)) = 0 := by
    apply roundHalfEven_of_abs_lt
    rw [Int.cast_zero, sub_zero, abs_div, abs_of_pos (by positivity : (0 : ℚ) < 2 ^ (-1074 : ℤ)),
      div_lt_iff₀ (by positivity)]
    calc |x| < 2 ^ (-1075 : ℤ) := h
      _ = 1 / 2 * 2 ^ (-1074 : ℤ) := by
          rw [show (-1075 : ℤ) = -1 + -1074 by norm_num, zpow_add₀ (by norm_num : (2 : ℚ) ≠ 0)]
          norm_num
  unfold F64.round
  simp only [hs, if_true, hr]
  norm_num

/-! ## Orientation: where no operation rounds -/

/-- The difference of two integers of magnitude at most `2^24` is exact, in
`float64` and at precision 53. -/
theorem sub_int_exact (a b : ℤ) (ha1 : -2 ^ 24 ≤ a) (ha2 : a ≤ 2 ^ 24) (hb1 : -2 ^ 24 ≤ b)
    (hb2 : b ≤ 2 ^ 24) :
    F64.sub (.fin (a : ℚ)) (.fin (b : ℚ)) = .fin ((a - b : ℤ) : ℚ) ∧
      round53 ((a : ℚ) + -(b : ℚ)) = ((a - b : ℤ) : ℚ) ∧ |a - b| ≤ 2 ^ 25 := by
  have hab : |a - b| ≤ 2 ^ 25 := by rw [abs_le]; constructor <;> linarith
  have hlt : |a - b| < 2 ^ 53 := lt_of_le_of_lt hab (by norm_num)
  refine ⟨?_, ?_, hab⟩
  · have := F64_round_int (a - b) hlt
    simp only [F64.sub, F64.neg, F64.add]
    rw [← this]
    push_cast
    ring_nf
  · have := round53_int (a - b) hlt
    rw [← this]
    push_cast
    ring_nf

/-- The product of two integers of magnitude at most `2^25` is exact, in `float64`
and at precision 53. -/
theorem mul_int_exact (a b : ℤ) (ha : |a| ≤ 2 ^ 25) (hb : |b| ≤ 2 ^ 25) :
    F64.mul (.fin (a : ℚ)) (.fin (b : ℚ)) = .fin ((a * b : ℤ) : ℚ) ∧
      round53 ((a : ℚ) * (b : ℚ)) = ((a * b : ℤ) : ℚ) ∧ |a * b| ≤ 2 ^ 50 := by
  have hab : |a * b| ≤ 2 ^ 50 := by
    rw [abs_mul]
    calc |a| * |b| ≤ 2 ^ 25 * 2 ^ 25 := mul_le_mul ha hb (abs_nonneg _) (by norm_num)
      _ = 2 ^ 50 := by norm_num
  have hlt : |a * b| < 2 ^ 53 := lt_of_le_of_lt hab (by norm_num)
  refine ⟨?_, ?_, hab⟩
  · have := F64_round_int (a * b) hlt
    simp only [F64.mul]
    rw [← this]
    push_cast
    rfl
  · have := round53_int (a * b) hlt
    rw [← this]
    push_cast
    rfl

/-- The difference of two integers of magnitude at most `2^50` is exact, in
`float64` and at precision 53. -/
theorem diff_int_exact (a b : ℤ) (ha : |a| ≤ 2 ^ 50) (hb : |b| ≤ 2 ^ 50) :
    F64.sub (.fin (a : ℚ)) (.fin (b : ℚ)) = .fin ((a - b : ℤ) : ℚ) ∧
      round53 ((a : ℚ) - (b : ℚ)) = ((a - b : ℤ) : ℚ) := by
  rw [abs_le] at ha hb
  have hab : |a - b| ≤ 2 ^ 51 := by rw [abs_le]; constructor <;> linarith
  have hlt : |a - b| < 2 ^ 53 := lt_of_le_of_lt hab (by norm_num)
  constructor
  · have := F64_round_int (a - b) hlt
    simp only [F64.sub, F64.neg, F64.add]
    rw [← this]
    push_cast
    ring_nf
  · have := round53_int (a - b) hlt
    rw [← this]
    push_cast
    rfl

/-- On integer coordinates of magnitude at most `2^24` no operation of the filter
rounds: the filter answers `2` or the sign of the cross product. -/
theorem orientationIndexFilter_int (x1 y1 x2 y2 x3 y3 : ℤ) (z1 z2 z3 : ℚ)
    (hb : |x1| ≤ 2 ^ 24 ∧ |y1| ≤ 2 ^ 24 ∧ |x2| ≤ 2 ^ 24 ∧ |y2| ≤ 2 ^ 24 ∧
      |x3| ≤ 2 ^ 24 ∧ |y3| ≤ 2 ^ 24) :
    orientationIndexFilter ⟨x1, y1, z1⟩ ⟨x2, y2, z2⟩ ⟨x3, y3, z3⟩ = 2 ∨
      orientationIndexFilter ⟨x1, y1, z1⟩ ⟨x2, y2, z2⟩ ⟨x3, y3, z3⟩ =
        sgn (((x2 - x1) * (y3 - y1) - (y2 - y1) * (x3 - x1) : ℤ) : ℚ) := by
  obtain ⟨h1, h2, h3, h4, h5, h6⟩ := hb
  rw [abs_le] at h1 h2 h3 h4 h5 h6
  obtain ⟨fa, -, ba⟩ := sub_int_exact x1 x3 h1.1 h1.2 h5.1 h5.2
  obtain ⟨fb, -, bb⟩ := sub_int_exact y2 y3 h4.1 h4.2 h6.1 h6.2
  obtain ⟨fc, -, bc⟩ := sub_int_exact y1 y3 h2.1 h2.2 h6.1 h6.2
  obtain ⟨fd, -, bd⟩ := sub_int_exact x2 x3 h3.1 h3.2 h5.1 h5.2
  obtain ⟨fl, -, bl⟩ := mul_int_exact (x1 - x3) (y2 - y3) ba bb
  obtain ⟨fr, -, br⟩ := mul_int_exact (y1 - y3) (x2 - x3) bc bd
  obtain ⟨fdet, -⟩ := diff_int_exact ((x1 - x3) * (y2 - y3)) ((y1 - y3) * (x2 - x3)) bl br
  have hcross : ((x1 - x3) * (y2 - y3) - (y1 - y3) * (x2 - x3) : ℤ) =
      (x2 - x1) * (y3 - y1) - (y2 - y1) * (x3 - x1) := by ring
  simp only [orientationIndexFilter, fa, fb, fc, fd, fl, fr, fdet, signum_fin, hcross]
  split_ifs <;> simp

/-- On integer coordinates of magnitude at most `2^24` no operation on the
`big.Float` variables rounds: that path answers the sign of the cross product. -/
theorem orientationIndexExact_int (x1 y1 x2 y2 x3 y3 : ℤ) (z1 z2 z3 : ℚ)
    (hb : |x1| ≤ 2 ^ 24 ∧ |y1| ≤ 2 ^ 24 ∧ |x2| ≤ 2 ^ 24 ∧ |y2| ≤ 2 ^ 24 ∧
      |x3| ≤ 2 ^ 24 ∧ |y3| ≤ 2 ^ 24) :
    orientationIndexExact ⟨x1, y1, z1⟩ ⟨x2, y2, z2⟩ ⟨x3, y3, z3⟩ =
      sgn (((x2 - x1) * (y3 - y1) - (y2 - y1) * (x3 - x1) : ℤ) : ℚ) := by
  obtain ⟨h1, h2, h3, h4, h5, h6⟩ := hb
  rw [abs_le] at h1 h2 h3 h4 h5 h6
  obtain ⟨-, ea, ba⟩ := sub_int_exact x2 x1 h3.1 h3.2 h1.1 h1.2
  obtain ⟨-, eb, bb⟩ := sub_int_exact y2 y1 h4.1 h4.2 h2.1 h2.2
  obtain ⟨-, ec, bc⟩ := sub_int_exact x3 x2 h5.1 h5.2 h3.1 h3.2
  obtain ⟨-, ed, bd⟩ := sub_int_exact y3 y2 h6.1 h6.2 h4.1 h4.2
  obtain ⟨-, el, bl⟩ := mul_int_exact (x2 - x1) (y3 - y2) ba bd
  obtain ⟨-, er, br⟩ := mul_int_exact (y2 - y1) (x3 - x2) bb bc
  obtain ⟨-, edet⟩ := diff_int_exact ((x2 - x1) * (y3 - y2)) ((y2 - y1) * (x3 - x2)) bl br
  have hcross2 : ((x2 - x1) * (y3 - y2) - (y2 - y1) * (x3 - x2) : ℤ) =
      (x2 - x1) * (y3 - y1) - (y2 - y1) * (x3 - x1) := by ring
  simp only [orientationIndexExact, ea, eb, ec, ed, el, er, edet, bigSign_eq_sgn, hcross2]

/-- On integer coordinates of magnitude at most `2^24` `OrientationIndex` is the
sign of the cross product. -/
theorem OrientationIndex_int (x1 y1 x2 y2 x3 y3 : ℤ) (z1 z2 z3 : ℚ)
    (hb : |x1| ≤ 2 ^ 24 ∧ |y1| ≤ 2 ^ 24 ∧ |x2| ≤ 2 ^ 24 ∧ |y2| ≤ 2 ^ 24 ∧
      |x3| ≤ 2 ^ 24 ∧ |y3| ≤ 2 ^ 24) :
    OrientationIndex ⟨x1, y1, z1⟩ ⟨x2, y2, z2⟩ ⟨x3, y3, z3⟩ =
      sgn (((x2 - x1) * (y3 - y1) - (y2 - y1) * (x3 - x1) : ℤ) : ℚ) := by
  have hexact := orientationIndexExact_int x1 y1 x2 y2 x3 y3 z1 z2 z3 hb
  unfold OrientationIndex
  rcases orientationIndexFilter_int x1 y1 x2 y2 x3 y3 z1 z2 z3 hb with h | h
  · simp [h, hexact]
  · simp only [h, hexact]
    rw [if_pos (sgn_le_one _)]

/-- The same on points without a `Z` value: `OrientationIndex` is the sign of
`cross`. -/
theorem OrientationIndex_pt (x1 y1 x2 y2 x3 y3 : ℤ)
    (hb : |x1| ≤ 2 ^ 24 ∧ |y1| ≤ 2 ^ 24 ∧ |x2| ≤ 2 ^ 24 ∧ |y2| ≤ 2 ^ 24 ∧
      |x3| ≤ 2 ^ 24 ∧ |y3| ≤ 2 ^ 24) :
    OrientationIndex (pt x1 y1) (pt x2 y2) (pt x3 y3) =
      sgn (cross (pt x1 y1) (pt x2 y2) (pt x3 y3)) := by
  unfold pt
  rw [OrientationIndex_int x1 y1 x2 y2 x3 y3 0 0 0 hb]
  unfold cross
  push_cast
  rfl

/-! ## Orientation: evaluations where an operation rounds -/

/-- The point `q = (2^54, 2^54)` and the line from `(2,1)` to `(1,0)`: the filter does
not decide, in `q.X - p2.X = 2^54 - 1` the path of `big.Float` rounds to `2^54`, and
the two products are equal. -/
theorem OrientationIndex_at_far_point :
    orientationIndexFilter (pt 2 1) (pt 1 0) (pt 18014398509481984 18014398509481984) = 2 ∧
      orientationIndexExact (pt 2 1) (pt 1 0) (pt 18014398509481984 18014398509481984) = 0 ∧
      OrientationIndex (pt 2 1) (pt 1 0) (pt 18014398509481984 18014398509481984) = 0 := by
  have f1 : F64.sub (.fin 2) (.fin 18014398509481984) = .fin (-18014398509481982) := by
    rw [F64_sub_fin]
    exact F64_round_eval _ _ 53 (-9007199254740991)
      (by rw [le_abs]; norm_num) (by rw [abs_lt]; norm_num) (by norm_num) (by norm_num)
      (roundHalfEven_of_abs_lt _ (-9007199254740991) (by rw [abs_lt]; norm_num))
      (by norm_num)
  have f2 : F64.sub (.fin 0) (.fin 18014398509481984) = .fin (-18014398509481984) := by
    rw [F64_sub_fin]
    exact F64_round_eval _ _ 54 (-4503599627370496)
      (by rw [le_abs]; norm_num) (by rw [abs_lt]; norm_num) (by norm_num) (by norm_num)
      (roundHalfEven_of_abs_lt _ (-4503599627370496) (by rw [abs_lt]; norm_num))
      (by norm_num)
  have f3 : F64.sub (.fin 1) (.fin 18014398509481984) = .fin (-18014398509481984) := by
    rw [F64_sub_fin]
    exact F64_round_eval _ _ 53 (-9007199254740992)
      (by rw [le_abs]; norm_num) (by rw [abs_lt]; norm_num) (by norm_num) (by norm_num)
      (by rw [roundHalfEven_tie _ (-9007199254740992) (by norm_num)]; norm_num)
      (by norm_num)
  have f5 : F64.mul (.fin (-18014398509481982)) (.fin (-18014398509481984)) =
      .fin 324518553658426690754359001612288 := by
    rw [F64_mul_fin]
    exact F64_round_eval _ _ 107 9007199254740991
      (by rw [le_abs]; norm_num) (by rw [abs_lt]; norm_num) (by norm_num) (by norm_num)
      (roundHalfEven_of_abs_lt _ 9007199254740991 (by rw [abs_lt]; norm_num))
      (by norm_num)
  have f6 : F64.mul (.fin (-18014398509481984)) (.fin (-18014398509481984)) =
      .fin 324518553658426726783156020576256 := by
    rw [F64_mul_fin]
    exact F64_round_eval _ _ 108 4503599627370496
      (by rw [le_abs]; norm_num) (by rw [abs_lt]; norm_num) (by norm_num) (by norm_num)
      (roundHalfEven_of_abs_lt _ 4503599627370496 (by rw [abs_lt]; norm_num))
      (by norm_num)
  have f7 : F64.sub (.fin 324518553658426690754359001612288)
      (.fin 324518553658426726783156020576256) =
      .fin (-36028797018963968) := by
    rw [F64_sub_fin]
    exact F64_round_eval _ _ 55 (-4503599627370496)
      (by rw [le_abs]; norm_num) (by rw [abs_lt]; norm_num) (by norm_num) (by norm_num)
      (roundHalfEven_of_abs_lt _ (-4503599627370496) (by rw [abs_lt]; norm_num))
      (by norm_num)
  have c8 : F64.lt (.fin 0) (.fin 324518553658426690754359001612288) = true := by
    norm_num [F64.lt, F64.le, F64.neg]
  have c9 : F64.le (.fin 324518553658426726783156020576256) (.fin 0) = false := by
    norm_num [F64.lt, F64.le, F64.neg]
  have f10 : F64.add (.fin 324518553658426690754359001612288)
      (.fin 324518553658426726783156020576256) =
      .fin 649037107316853453566312041152512 := by
    rw [F64_add_fin]
    exact F64_round_eval _ _ 108 9007199254740992
      (by rw [le_abs]; norm_num) (by rw [abs_lt]; norm_num) (by norm_num) (by norm_num)
      (by rw [roundHalfEven_tie _ 9007199254740991 (by norm_num)]; norm_num)
      (by norm_num)
  have f11 : F64.round DPSafeEpsilon =
      .fin (2535301200456459 / 2535301200456458802993406410752) := by
    unfold DPSafeEpsilon
    exact F64_round_eval _ _ (-50) 5070602400912918
      (by rw [le_abs]; norm_num) (by rw [abs_lt]; norm_num) (by norm_num) (by norm_num)
      (roundHalfEven_of_abs_lt _ 5070602400912918 (by rw [abs_lt]; norm_num))
      (by norm_num)
  have f12 : F64.mul (.fin (2535301200456459 / 2535301200456458802993406410752))
      (.fin 649037107316853453566312041152512) =
      .fin 649037107316853504 := by
    rw [F64_mul_fin]
    exact F64_round_eval _ _ 59 5070602400912918
      (by rw [le_abs]; norm_num) (by rw [abs_lt]; norm_num) (by norm_num) (by norm_num)
      (roundHalfEven_of_abs_lt _ 5070602400912918 (by rw [abs_lt]; norm_num))
      (by norm_num)
  have c13 : F64.le (.fin 649037107316853504) (.fin (-36028797018963968)) = false := by
    norm_num [F64.lt, F64.le, F64.neg]
  have c14 : F64.le (.fin 649037107316853504) (F64.neg (.fin (-36028797018963968))) = false := by
    norm_num [F64.lt, F64.le, F64.neg]
  have r15 : round53 (1 + -2) = -1 :=
    round53_eval _ _ 0 (-4503599627370496)
      (by rw [le_abs]; norm_num) (by rw [abs_lt]; norm_num)
      (roundHalfEven_of_abs_lt _ (-4503599627370496) (by rw [abs_lt]; norm_num))
      (by norm_num)
  have r16 : round53 (0 + -1) = -1 :=
    round53_eval _ _ 0 (-4503599627370496)
      (by rw [le_abs]; norm_num) (by rw [abs_lt]; norm_num)
      (roundHalfEven_of_abs_lt _ (-4503599627370496) (by rw [abs_lt]; norm_num))
      (by norm_num)
  have r17 : round53 (18014398509481984 + -1) = 18014398509481984 :=
    round53_eval _ _ 53 9007199254740992
      (by rw [le_abs]; norm_num) (by rw [abs_lt]; norm_num)
      (by rw [roundHalfEven_tie _ 9007199254740991 (by norm_num)]; norm_num)
      (by norm_num)
  have r18 : round53 (18014398509481984 + -0) = 18014398509481984 :=
    round53_eval _ _ 54 4503599627370496
      (by rw [le_abs]; norm_num) (by rw [abs_lt]; norm_num)
      (roundHalfEven_of_abs_lt _ 4503599627370496 (by rw [abs_lt]; norm_num))
      (by norm_num)
  have r19 : round53 ((-1) * 18014398509481984) = -18014398509481984 :=
    round53_eval _ _ 54 (-4503599627370496)
      (by rw [le_abs]; norm_num) (by rw [abs_lt]; norm_num)
      (roundHalfEven_of_abs_lt _ (-4503599627370496) (by rw [abs_lt]; norm_num))
      (by norm_num)
  have r21 : round53 ((-18014398509481984) - (-18014398509481984)) = 0 := by norm_num [round53]
  have hf : orientationIndexFilter (pt 2 1) (pt 1 0) (pt 18014398509481984 18014398509481984) =
      2 := by
    simp only [orientationIndexFilter, pt, f1, f2, f3, f5, f6, f7, c8, c9, f10, f11, f12, c13, c14,
      if_true, if_false, Bool.false_eq_true, Bool.or_self, Bool.or_false, Bool.or_true,
        Bool.true_or, Bool.false_or]
  have he : orientationIndexExact (pt 2 1) (pt 1 0) (pt 18014398509481984 18014398509481984) =
      0 := by
    simp only [orientationIndexExact, pt, r15, r16, r17, r18, r19, r21]
    norm_num [bigSign]
  refine ⟨hf, he, ?_⟩
  simp only [OrientationIndex, hf, he]
  norm_num

/-- The same point and the reversed line, from `(1,0)` to `(2,1)`. -/
theorem OrientationIndex_at_far_point_reversed :
    orientationIndexFilter (pt 1 0) (pt 2 1) (pt 18014398509481984 18014398509481984) = 2 ∧
      orientationIndexExact (pt 1 0) (pt 2 1) (pt 18014398509481984 18014398509481984) = 1 ∧
      OrientationIndex (pt 1 0) (pt 2 1) (pt 18014398509481984 18014398509481984) = 1 := by
  have f1 : F64.sub (.fin 1) (.fin 18014398509481984) = .fin (-18014398509481984) := by
    rw [F64_sub_fin]
    exact F64_round_eval _ _ 53 (-9007199254740992)
      (by rw [le_abs]; norm_num) (by rw [abs_lt]; norm_num) (by norm_num) (by norm_num)
      (by rw [roundHalfEven_tie _ (-9007199254740992) (by norm_num)]; norm_num)
      (by norm_num)
  have f3 : F64.sub (.fin 0) (.fin 18014398509481984) = .fin (-18014398509481984) := by
    rw [F64_sub_fin]
    exact F64_round_eval _ _ 54 (-4503599627370496)
      (by rw [le_abs]; norm_num) (by rw [abs_lt]; norm_num) (by norm_num) (by norm_num)
      (roundHalfEven_of_abs_lt _ (-4503599627370496) (by rw [abs_lt]; norm_num))
      (by norm_num)
  have f4 : F64.sub (.fin 2) (.fin 18014398509481984) = .fin (-18014398509481982) := by
    rw [F64_sub_fin]
    exact F64_round_eval _ _ 53 (-9007199254740991)
      (by rw [le_abs]; norm_num) (by rw [abs_lt]; norm_num) (by norm_num) (by norm_num)
      (roundHalfEven_of_abs_lt _ (-9007199254740991) (by rw [abs_lt]; norm_num))
      (by norm_num)
  have f5 : F64.mul (.fin (-18014398509481984)) (.fin (-18014398509481984)) =
      .fin 324518553658426726783156020576256 := by
    rw [F64_mul_fin]
    exact F64_round_eval _ _ 108 4503599627370496
      (by rw [le_abs]; norm_num) (by rw [abs_lt]; norm_num) (by norm_num) (by norm_num)
      (roundHalfEven_of_abs_lt _ 4503599627370496 (by rw [abs_lt]; norm_num))
      (by norm_num)
  have f6 : F64.mul (.fin (-18014398509481984)) (.fin (-18014398509481982)) =
      .fin 324518553658426690754359001612288 := by
    rw [F64_mul_fin]
    exact F64_round_eval _ _ 107 9007199254740991
      (by rw [le_abs]; norm_num) (by rw [abs_lt]; norm_num) (by norm_num) (by norm_num)
      (roundHalfEven_of_abs_lt _ 9007199254740991 (by rw [abs_lt]; norm_num))
      (by norm_num)
  have f7 : F64.sub (.fin 324518553658426726783156020576256)
      (.fin 324518553658426690754359001612288) =
      .fin 36028797018963968 := by
    rw [F64_sub_fin]
    exact F64_round_eval _ _ 55 4503599627370496
      (by rw [le_abs]; norm_num) (by rw [abs_lt]; norm_num) (by norm_num) (by norm_num)
      (roundHalfEven_of_abs_lt _ 4503599627370496 (by rw [abs_lt]; norm_num))
      (by norm_num)
  have c8 : F64.lt (.fin 0) (.fin 324518553658426726783156020576256) = true := by
    norm_num [F64.lt, F64.le, F64.neg]
  have c9 : F64.le (.fin 324518553658426690754359001612288) (.fin 0) = false := by
    norm_num [F64.lt, F64.le, F64.neg]
  have f10 : F64.add (.fin 324518553658426726783156020576256)
      (.fin 324518553658426690754359001612288) =
      .fin 649037107316853453566312041152512 := by
    rw [F64_add_fin]
    exact F64_round_eval _ _ 108 9007199254740992
      (by rw [le_abs]; norm_num) (by rw [abs_lt]; norm_num) (by norm_num) (by norm_num)
      (by rw [roundHalfEven_tie _ 9007199254740991 (by norm_num)]; norm_num)
      (by norm_num)
  have f11 : F64.round DPSafeEpsilon =
      .fin (2535301200456459 / 2535301200456458802993406410752) := by
    unfold DPSafeEpsilon
    exact F64_round_eval _ _ (-50) 5070602400912918
      (by rw [le_abs]; norm_num) (by rw [abs_lt]; norm_num) (by norm_num) (by norm_num)
      (roundHalfEven_of_abs_lt _ 5070602400912918 (by rw [abs_lt]; norm_num))
      (by norm_num)
  have f12 : F64.mul (.fin (2535301200456459 / 2535301200456458802993406410752))
      (.fin 649037107316853453566312041152512) =
      .fin 649037107316853504 := by
    rw [F64_mul_fin]
    exact F64_round_eval _ _ 59 5070602400912918
      (by rw [le_abs]; norm_num) (by rw [abs_lt]; norm_num) (by norm_num) (by norm_num)
      (roundHalfEven_of_abs_lt _ 5070602400912918 (by rw [abs_lt]; norm_num))
      (by norm_num)
  have c13 : F64.le (.fin 649037107316853504) (.fin 36028797018963968) = false := by
    norm_num [F64.lt, F64.le, F64.neg]
  have c14 : F64.le (.fin 649037107316853504) (F64.neg (.fin 36028797018963968)) = false := by
    norm_num [F64.lt, F64.le, F64.neg]
  have r15 : round53 (2 + -1) = 1 :=
    round53_eval _ _ 0 4503599627370496
      (by rw [le_abs]; norm_num) (by rw [abs_lt]; norm_num)
      (roundHalfEven_of_abs_lt _ 4503599627370496 (by rw [abs_lt]; norm_num))
      (by norm_num)
  have r16 : round53 (1 + -0) = 1 :=
    round53_eval _ _ 0 4503599627370496
      (by rw [le_abs]; norm_num) (by rw [abs_lt]; norm_num)
      (roundHalfEven_of_abs_lt _ 4503599627370496 (by rw [abs_lt]; norm_num))
      (by norm_num)
  have r17 : round53 (18014398509481984 + -2) = 18014398509481982 :=
    round53_eval _ _ 53 9007199254740991
      (by rw [le_abs]; norm_num) (by rw [abs_lt]; norm_num)
      (roundHalfEven_of_abs_lt _ 9007199254740991 (by rw [abs_lt]; norm_num))
      (by norm_num)
  have r18 : round53 (18014398509481984 + -1) = 18014398509481984 :=
    round53_eval _ _ 53 9007199254740992
      (by rw [le_abs]; norm_num) (by rw [abs_lt]; norm_num)
      (by rw [roundHalfEven_tie _ 9007199254740991 (by norm_num)]; norm_num)
      (by norm_num)
  have r19 : round53 (1 * 18014398509481984) = 18014398509481984 :=
    round53_eval _ _ 54 4503599627370496
      (by rw [le_abs]; norm_num) (by rw [abs_lt]; norm_num)
      (roundHalfEven_of_abs_lt _ 4503599627370496 (by rw [abs_lt]; norm_num))
      (by norm_num)
  have r20 : round53 (1 * 18014398509481982) = 18014398509481982 :=
    round53_eval _ _ 53 9007199254740991
      (by rw [le_abs]; norm_num) (by rw [abs_lt]; norm_num)
      (roundHalfEven_of_abs_lt _ 9007199254740991 (by rw [abs_lt]; norm_num))
      (by norm_num)
  have r21 : round53 (18014398509481984 - 18014398509481982) = 2 :=
    round53_eval _ _ 1 4503599627370496
      (by rw [le_abs]; norm_num) (by rw [abs_lt]; norm_num)
      (roundHalfEven_of_abs_lt _ 4503599627370496 (by rw [abs_lt]; norm_num))
      (by norm_num)
  have hf : orientationIndexFilter (pt 1 0) (pt 2 1) (pt 18014398509481984 18014398509481984) =
      2 := by
    simp only [orientationIndexFilter, pt, f1, f3, f4, f5, f6, f7, c8, c9, f10, f11, f12, c13, c14,
      if_true, if_false, Bool.false_eq_true, Bool.or_self, Bool.or_false, Bool.or_true,
        Bool.true_or, Bool.false_or]
  have he : orientationIndexExact (pt 1 0) (pt 2 1) (pt 18014398509481984 18014398509481984) =
      1 := by
    simp only [orientationIndexExact, pt, r15, r16, r17, r18, r19, r20, r21]
    norm_num [bigSign]
  refine ⟨hf, he, ?_⟩
  simp only [OrientationIndex, hf, he]
  norm_num

/-- The point `(21,65)`, which lies on the line from `(6,20)` to
`(6755399441055726, 20266198323167180)`: `q.Y - p2.Y` rounds, and the sign is `-1`. -/
theorem OrientationIndex_on_long_segment_first :
    orientationIndexFilter (pt 6 20) (pt 6755399441055726 20266198323167180) (pt 21 65) = 2 ∧
      orientationIndexExact (pt 6 20) (pt 6755399441055726 20266198323167180) (pt 21 65) = (-1) ∧
      OrientationIndex (pt 6 20) (pt 6755399441055726 20266198323167180) (pt 21 65) = (-1) := by
  have f1 : F64.sub (.fin 6) (.fin 21) = .fin (-15) := by
    rw [F64_sub_fin]
    exact F64_round_eval _ _ 3 (-8444249301319680)
      (by rw [le_abs]; norm_num) (by rw [abs_lt]; norm_num) (by norm_num) (by norm_num)
      (roundHalfEven_of_abs_lt _ (-8444249301319680) (by rw [abs_lt]; norm_num))
      (by norm_num)
  have f2 : F64.sub (.fin 20266198323167180) (.fin 65) = .fin 20266198323167116 := by
    rw [F64_sub_fin]
    exact F64_round_eval _ _ 54 5066549580791779
      (by rw [le_abs]; norm_num) (by rw [abs_lt]; norm_num) (by norm_num) (by norm_num)
      (roundHalfEven_of_abs_lt _ 5066549580791779 (by rw [abs_lt]; norm_num))
      (by norm_num)
  have f3 : F64.sub (.fin 20) (.fin 65) = .fin (-45) := by
    rw [F64_sub_fin]
    exact F64_round_eval _ _ 5 (-6333186975989760)
      (by rw [le_abs]; norm_num) (by rw [abs_lt]; norm_num) (by norm_num) (by norm_num)
      (roundHalfEven_of_abs_lt _ (-6333186975989760) (by rw [abs_lt]; norm_num))
      (by norm_num)
  have f4 : F64.sub (.fin 6755399441055726) (.fin 21) = .fin 6755399441055705 := by
    rw [F64_sub_fin]
    exact F64_round_eval _ _ 52 6755399441055705
      (by rw [le_abs]; norm_num) (by rw [abs_lt]; norm_num) (by norm_num) (by norm_num)
      (roundHalfEven_of_abs_lt _ 6755399441055705 (by rw [abs_lt]; norm_num))
      (by norm_num)
  have f5 : F64.mul (.fin (-15)) (.fin 20266198323167116) = .fin (-303992974847506752) := by
    rw [F64_mul_fin]
    exact F64_round_eval _ _ 58 (-4749890231992293)
      (by rw [le_abs]; norm_num) (by rw [abs_lt]; norm_num) (by norm_num) (by norm_num)
      (roundHalfEven_of_abs_lt _ (-4749890231992293) (by rw [abs_lt]; norm_num))
      (by norm_num)
  have f6 : F64.mul (.fin (-45)) (.fin 6755399441055705) = .fin (-303992974847506752) := by
    rw [F64_mul_fin]
    exact F64_round_eval _ _ 58 (-4749890231992293)
      (by rw [le_abs]; norm_num) (by rw [abs_lt]; norm_num) (by norm_num) (by norm_num)
      (roundHalfEven_of_abs_lt _ (-4749890231992293) (by rw [abs_lt]; norm_num))
      (by norm_num)
  have f7 : F64.sub (.fin (-303992974847506752)) (.fin (-303992974847506752)) = .fin 0 := by
    rw [F64_sub_fin]
    norm_num [F64_round_zero]
  have c8 : F64.lt (.fin 0) (.fin (-303992974847506752)) = false := by
    norm_num [F64.lt, F64.le, F64.neg]
  have c9 : F64.lt (.fin (-303992974847506752)) (.fin 0) = true := by
    norm_num [F64.lt, F64.le, F64.neg]
  have c10 : F64.le (.fin 0) (.fin (-303992974847506752)) = false := by
    norm_num [F64.lt, F64.le, F64.neg]
  have f11 : F64.sub (F64.neg (.fin (-303992974847506752))) (.fin (-303992974847506752)) =
      .fin 607985949695013504 := by
    rw [F64_negsub_fin]
    exact F64_round_eval _ _ 59 4749890231992293
      (by rw [le_abs]; norm_num) (by rw [abs_lt]; norm_num) (by norm_num) (by norm_num)
      (roundHalfEven_of_abs_lt _ 4749890231992293 (by rw [abs_lt]; norm_num))
      (by norm_num)
  have f12 : F64.round DPSafeEpsilon =
      .fin (2535301200456459 / 2535301200456458802993406410752) := by
    unfold DPSafeEpsilon
    exact F64_round_eval _ _ (-50) 5070602400912918
      (by rw [le_abs]; norm_num) (by rw [abs_lt]; norm_num) (by norm_num) (by norm_num)
      (roundHalfEven_of_abs_lt _ 5070602400912918 (by rw [abs_lt]; norm_num))
      (by norm_num)
  have f13 : F64.mul (.fin (2535301200456459 / 2535301200456458802993406410752))
      (.fin 607985949695013504) =
      .fin (5347900969712813 / 8796093022208) := by
    rw [F64_mul_fin]
    exact F64_round_eval _ _ 9 5347900969712813
      (by rw [le_abs]; norm_num) (by rw [abs_lt]; norm_num) (by norm_num) (by norm_num)
      (roundHalfEven_of_abs_lt _ 5347900969712813 (by rw [abs_lt]; norm_num))
      (by norm_num)
  have c14 : F64.le (.fin (5347900969712813 / 8796093022208)) (.fin 0) = false := by
    norm_num [F64.lt, F64.le, F64.neg]
  have c15 : F64.le (.fin (5347900969712813 / 8796093022208)) (F64.neg (.fin 0)) = false := by
    norm_num [F64.lt, F64.le, F64.neg]
  have r16 : round53 (6755399441055726 + -6) = 6755399441055720 :=
    round53_eval _ _ 52 6755399441055720
      (by rw [le_abs]; norm_num) (by rw [abs_lt]; norm_num)
      (roundHalfEven_of_abs_lt _ 6755399441055720 (by rw [abs_lt]; norm_num))
      (by norm_num)
  have r17 : round53 (20266198323167180 + -20) = 20266198323167160 :=
    round53_eval _ _ 54 5066549580791790
      (by rw [le_abs]; norm_num) (by rw [abs_lt]; norm_num)
      (roundHalfEven_of_abs_lt _ 5066549580791790 (by rw [abs_lt]; norm_num))
      (by norm_num)
  have r18 : round53 (21 + -6755399441055726) = -6755399441055705 :=
    round53_eval _ _ 52 (-6755399441055705)
      (by rw [le_abs]; norm_num) (by rw [abs_lt]; norm_num)
      (roundHalfEven_of_abs_lt _ (-6755399441055705) (by rw [abs_lt]; norm_num))
      (by norm_num)
  have r19 : round53 (65 + -20266198323167180) = -20266198323167116 :=
    round53_eval _ _ 54 (-5066549580791779)
      (by rw [le_abs]; norm_num) (by rw [abs_lt]; norm_num)
      (roundHalfEven_of_abs_lt _ (-5066549580791779) (by rw [abs_lt]; norm_num))
      (by norm_num)
  have r20 : round53 (6755399441055720 * (-20266198323167116)) =
      -136906264824647514353748282441728 :=
    round53_eval _ _ 106 (-7599824371187642)
      (by rw [le_abs]; norm_num) (by rw [abs_lt]; norm_num)
      (roundHalfEven_of_abs_lt _ (-7599824371187642) (by rw [abs_lt]; norm_num))
      (by norm_num)
  have r21 : round53 (20266198323167160 * (-6755399441055705)) =
      -136906264824647496339349772959744 :=
    round53_eval _ _ 106 (-7599824371187641)
      (by rw [le_abs]; norm_num) (by rw [abs_lt]; norm_num)
      (roundHalfEven_of_abs_lt _ (-7599824371187641) (by rw [abs_lt]; norm_num))
      (by norm_num)
  have r22 : round53 ((-136906264824647514353748282441728) - (-136906264824647496339349772959744)) =
      -18014398509481984 :=
    round53_eval _ _ 54 (-4503599627370496)
      (by rw [le_abs]; norm_num) (by rw [abs_lt]; norm_num)
      (roundHalfEven_of_abs_lt _ (-4503599627370496) (by rw [abs_lt]; norm_num))
      (by norm_num)
  have hf : orientationIndexFilter (pt 6 20) (pt 6755399441055726 20266198323167180) (pt 21 65) =
      2 := by
    simp only [orientationIndexFilter, pt, f1, f2, f3, f4, f5, f6, f7, c8, c9, c10, f11, f12, f13,
      c14, c15,
      if_true, if_false, Bool.false_eq_true, Bool.or_self, Bool.or_false, Bool.or_true,
        Bool.true_or, Bool.false_or]
  have he : orientationIndexExact (pt 6 20) (pt 6755399441055726 20266198323167180) (pt 21 65) =
      (-1) := by
    simp only [orientationIndexExact, pt, r16, r17, r18, r19, r20, r21, r22]
    norm_num [bigSign]
  refine ⟨hf, he, ?_⟩
  simp only [OrientationIndex, hf, he]
  norm_num

/-- The point `(36,110)`, which lies on the same line. -/
theorem OrientationIndex_on_long_segment_second :
    orientationIndexFilter (pt 6 20) (pt 6755399441055726 20266198323167180) (pt 36 110) = 2 ∧
      orientationIndexExact (pt 6 20) (pt 6755399441055726 20266198323167180) (pt 36 110) = (-1) ∧
      OrientationIndex (pt 6 20) (pt 6755399441055726 20266198323167180) (pt 36 110) = (-1) := by
  have f1 : F64.sub (.fin 6) (.fin 36) = .fin (-30) := by
    rw [F64_sub_fin]
    exact F64_round_eval _ _ 4 (-8444249301319680)
      (by rw [le_abs]; norm_num) (by rw [abs_lt]; norm_num) (by norm_num) (by norm_num)
      (roundHalfEven_of_abs_lt _ (-8444249301319680) (by rw [abs_lt]; norm_num))
      (by norm_num)
  have f2 : F64.sub (.fin 20266198323167180) (.fin 110) = .fin 20266198323167072 := by
    rw [F64_sub_fin]
    exact F64_round_eval _ _ 54 5066549580791768
      (by rw [le_abs]; norm_num) (by rw [abs_lt]; norm_num) (by norm_num) (by norm_num)
      (by rw [roundHalfEven_tie _ 5066549580791767 (by norm_num)]; norm_num)
      (by norm_num)
  have f3 : F64.sub (.fin 20) (.fin 110) = .fin (-90) := by
    rw [F64_sub_fin]
    exact F64_round_eval _ _ 6 (-6333186975989760)
      (by rw [le_abs]; norm_num) (by rw [abs_lt]; norm_num) (by norm_num) (by norm_num)
      (roundHalfEven_of_abs_lt _ (-6333186975989760) (by rw [abs_lt]; norm_num))
      (by norm_num)
  have f4 : F64.sub (.fin 6755399441055726) (.fin 36) = .fin 6755399441055690 := by
    rw [F64_sub_fin]
    exact F64_round_eval _ _ 52 6755399441055690
      (by rw [le_abs]; norm_num) (by rw [abs_lt]; norm_num) (by norm_num) (by norm_num)
      (roundHalfEven_of_abs_lt _ 6755399441055690 (by rw [abs_lt]; norm_num))
      (by norm_num)
  have f5 : F64.mul (.fin (-30)) (.fin 20266198323167072) = .fin (-607985949695012096) := by
    rw [F64_mul_fin]
    exact F64_round_eval _ _ 59 (-4749890231992282)
      (by rw [le_abs]; norm_num) (by rw [abs_lt]; norm_num) (by norm_num) (by norm_num)
      (by rw [roundHalfEven_tie _ (-4749890231992283) (by norm_num)]; norm_num)
      (by norm_num)
  have f6 : F64.mul (.fin (-90)) (.fin 6755399441055690) = .fin (-607985949695012096) := by
    rw [F64_mul_fin]
    exact F64_round_eval _ _ 59 (-4749890231992282)
      (by rw [le_abs]; norm_num) (by rw [abs_lt]; norm_num) (by norm_num) (by norm_num)
      (roundHalfEven_of_abs_lt _ (-4749890231992282) (by rw [abs_lt]; norm_num))
      (by norm_num)
  have f7 : F64.sub (.fin (-607985949695012096)) (.fin (-607985949695012096)) = .fin 0 := by
    rw [F64_sub_fin]
    norm_num [F64_round_zero]
  have c8 : F64.lt (.fin 0) (.fin (-607985949695012096)) = false := by
    norm_num [F64.lt, F64.le, F64.neg]
  have c9 : F64.lt (.fin (-607985949695012096)) (.fin 0) = true := by
    norm_num [F64.lt, F64.le, F64.neg]
  have c10 : F64.le (.fin 0) (.fin (-607985949695012096)) = false := by
    norm_num [F64.lt, F64.le, F64.neg]
  have f11 : F64.sub (F64.neg (.fin (-607985949695012096))) (.fin (-607985949695012096)) =
      .fin 1215971899390024192 := by
    rw [F64_negsub_fin]
    exact F64_round_eval _ _ 60 4749890231992282
      (by rw [le_abs]; norm_num) (by rw [abs_lt]; norm_num) (by norm_num) (by norm_num)
      (roundHalfEven_of_abs_lt _ 4749890231992282 (by rw [abs_lt]; norm_num))
      (by norm_num)
  have f12 : F64.round DPSafeEpsilon =
      .fin (2535301200456459 / 2535301200456458802993406410752) := by
    unfold DPSafeEpsilon
    exact F64_round_eval _ _ (-50) 5070602400912918
      (by rw [le_abs]; norm_num) (by rw [abs_lt]; norm_num) (by norm_num) (by norm_num)
      (roundHalfEven_of_abs_lt _ 5070602400912918 (by rw [abs_lt]; norm_num))
      (by norm_num)
  have f13 : F64.mul (.fin (2535301200456459 / 2535301200456458802993406410752))
      (.fin 1215971899390024192) =
      .fin (167121905303525 / 137438953472) := by
    rw [F64_mul_fin]
    exact F64_round_eval _ _ 10 5347900969712800
      (by rw [le_abs]; norm_num) (by rw [abs_lt]; norm_num) (by norm_num) (by norm_num)
      (roundHalfEven_of_abs_lt _ 5347900969712800 (by rw [abs_lt]; norm_num))
      (by norm_num)
  have c14 : F64.le (.fin (167121905303525 / 137438953472)) (.fin 0) = false := by
    norm_num [F64.lt, F64.le, F64.neg]
  have c15 : F64.le (.fin (167121905303525 / 137438953472)) (F64.neg (.fin 0)) = false := by
    norm_num [F64.lt, F64.le, F64.neg]
  have r16 : round53 (6755399441055726 + -6) = 6755399441055720 :=
    round53_eval _ _ 52 6755399441055720
      (by rw [le_abs]; norm_num) (by rw [abs_lt]; norm_num)
      (roundHalfEven_of_abs_lt _ 6755399441055720 (by rw [abs_lt]; norm_num))
      (by norm_num)
  have r17 : round53 (20266198323167180 + -20) = 20266198323167160 :=
    round53_eval _ _ 54 5066549580791790
      (by rw [le_abs]; norm_num) (by rw [abs_lt]; norm_num)
      (roundHalfEven_of_abs_lt _ 5066549580791790 (by rw [abs_lt]; norm_num))
      (by norm_num)
  have r18 : round53 (36 + -6755399441055726) = -6755399441055690 :=
    round53_eval _ _ 52 (-6755399441055690)
      (by rw [le_abs]; norm_num) (by rw [abs_lt]; norm_num)
      (roundHalfEven_of_abs_lt _ (-6755399441055690) (by rw [abs_lt]; norm_num))
      (by norm_num)
  have r19 : round53 (110 + -20266198323167180) = -20266198323167072 :=
    round53_eval _ _ 54 (-5066549580791768)
      (by rw [le_abs]; norm_num) (by rw [abs_lt]; norm_num)
      (by rw [roundHalfEven_tie _ (-5066549580791768) (by norm_num)]; norm_num)
      (by norm_num)
  have r20 : round53 (6755399441055720 * (-20266198323167072)) =
      -136906264824647208108973621248000 :=
    round53_eval _ _ 106 (-7599824371187625)
      (by rw [le_abs]; norm_num) (by rw [abs_lt]; norm_num)
      (roundHalfEven_of_abs_lt _ (-7599824371187625) (by rw [abs_lt]; norm_num))
      (by norm_num)
  have r21 : round53 (20266198323167160 * (-6755399441055690)) =
      -136906264824647190094575111766016 :=
    round53_eval _ _ 106 (-7599824371187624)
      (by rw [le_abs]; norm_num) (by rw [abs_lt]; norm_num)
      (roundHalfEven_of_abs_lt _ (-7599824371187624) (by rw [abs_lt]; norm_num))
      (by norm_num)
  have r22 : round53 ((-136906264824647208108973621248000) - (-136906264824647190094575111766016)) =
      -18014398509481984 :=
    round53_eval _ _ 54 (-4503599627370496)
      (by rw [le_abs]; norm_num) (by rw [abs_lt]; norm_num)
      (roundHalfEven_of_abs_lt _ (-4503599627370496) (by rw [abs_lt]; norm_num))
      (by norm_num)
  have hf : orientationIndexFilter (pt 6 20) (pt 6755399441055726 20266198323167180) (pt 36 110) =
      2 := by
    simp only [orientationIndexFilter, pt, f1, f2, f3, f4, f5, f6, f7, c8, c9, c10, f11, f12, f13,
      c14, c15,
      if_true, if_false, Bool.false_eq_true, Bool.or_self, Bool.or_false, Bool.or_true,
        Bool.true_or, Bool.false_or]
  have he : orientationIndexExact (pt 6 20) (pt 6755399441055726 20266198323167180) (pt 36 110) =
      (-1) := by
    simp only [orientationIndexExact, pt, r16, r17, r18, r19, r20, r21, r22]
    norm_num [bigSign]
  refine ⟨hf, he, ?_⟩
  simp only [OrientationIndex, hf, he]
  norm_num

/-- The line from `(2^-600, 0)` to `(0, 2^-600)` and the origin: the product
`detleft = 2^-600 * 2^-600` underflows to 0 in `float64`, so the filter takes the
determinant for an exact 0 and answers 0; the path of `big.Float`, whose exponent
range is wider, finds the product `2^-1200` and answers 1. -/
theorem OrientationIndex_underflow :
    orientationIndexFilter (pt (2 ^ (-600 : ℤ)) 0) (pt 0 (2 ^ (-600 : ℤ))) (pt 0 0) = 0 ∧
      orientationIndexExact (pt (2 ^ (-600 : ℤ)) 0) (pt 0 (2 ^ (-600 : ℤ))) (pt 0 0) = 1 ∧
      OrientationIndex (pt (2 ^ (-600 : ℤ)) 0) (pt 0 (2 ^ (-600 : ℤ))) (pt 0 0) = 0 := by
  have hpos : (0 : ℚ) < 2 ^ (-600 : ℤ) := by positivity
  have f1 : F64.sub (.fin (2 ^ (-600 : ℤ))) (.fin 0) = .fin (2 ^ (-600 : ℤ)) := by
    rw [F64_sub_fin]
    have h := F64_round_dyadic 1 (-600) (by norm_num) (by norm_num) (by
      rw [Int.cast_one, one_mul, abs_of_pos hpos]
      calc (2 : ℚ) ^ (-600 : ℤ) ≤ 2 ^ (0 : ℤ) := zpow_le_zpow_right₀ (by norm_num) (by norm_num)
        _ < 2 ^ (1024 : ℕ) := by norm_num)
    simpa using h
  have f2 : F64.sub (.fin 0) (.fin 0) = .fin 0 := by
    rw [F64_sub_fin]
    norm_num [F64_round_zero]
  have f3 : F64.mul (.fin (2 ^ (-600 : ℤ))) (.fin (2 ^ (-600 : ℤ))) = .fin 0 := by
    rw [F64_mul_fin, ← zpow_add₀ (by norm_num : (2 : ℚ) ≠ 0)]
    exact F64_round_tiny _ (by
      rw [abs_of_pos (by positivity)]
      exact zpow_lt_zpow_right₀ (by norm_num) (by norm_num))
  have f4 : F64.mul (.fin 0) (.fin 0) = .fin 0 := by
    rw [F64_mul_fin]
    norm_num [F64_round_zero]
  have c1 : F64.lt (.fin 0) (.fin 0) = false := by norm_num [F64.lt]
  have s1 : signum (.fin 0) = 0 := by
    rw [signum_fin]
    norm_num [sgn]
  have hf : orientationIndexFilter (pt (2 ^ (-600 : ℤ)) 0) (pt 0 (2 ^ (-600 : ℤ))) (pt 0 0)
      = 0 := by
    simp only [orientationIndexFilter, pt, f1, f2, f3, f4, c1, s1, if_false,
      Bool.false_eq_true]
  have r1 : round53 ((0 : ℚ) + -(2 ^ (-600 : ℤ))) = -(2 ^ (-600 : ℤ)) := by
    have h := round53_dyadic (-1) (-600) (by norm_num)
    simpa using h
  have r2 : round53 ((2 : ℚ) ^ (-600 : ℤ) + -0) = 2 ^ (-600 : ℤ) := by
    have h := round53_dyadic 1 (-600) (by norm_num)
    simpa using h
  have r3 : round53 ((0 : ℚ) + -0) = 0 := by norm_num [round53]
  have r4 : round53 (-((2 : ℚ) ^ (-600 : ℤ)) * -(2 ^ (-600 : ℤ))) = 2 ^ (-1200 : ℤ) := by
    have h := round53_dyadic 1 (-1200) (by norm_num)
    have e : -((2 : ℚ) ^ (-600 : ℤ)) * -(2 ^ (-600 : ℤ)) = 2 ^ (-1200 : ℤ) := by
      rw [neg_mul_neg, ← zpow_add₀ (by norm_num : (2 : ℚ) ≠ 0)]
      norm_num
    rw [e]
    simpa using h
  have r5 : round53 ((2 : ℚ) ^ (-600 : ℤ) * 0) = 0 := by norm_num [round53]
  have r6 : round53 ((2 : ℚ) ^ (-1200 : ℤ) - 0) = 2 ^ (-1200 : ℤ) := by
    have h := round53_dyadic 1 (-1200) (by norm_num)
    simpa using h
  have b1 : bigSign ((2 : ℚ) ^ (-1200 : ℤ)) = 1 := by
    have h : (0 : ℚ) < 2 ^ (-1200 : ℤ) := by positivity
    unfold bigSign
    rw [if_neg (not_lt.mpr h.le), if_pos h]
  have he : orientationIndexExact (pt (2 ^ (-600 : ℤ)) 0) (pt 0 (2 ^ (-600 : ℤ))) (pt 0 0)
      = 1 := by
    simp only [orientationIndexExact, pt, r1, r2, r3, r4, r5, r6, b1]
  refine ⟨hf, he, ?_⟩
  simp only [OrientationIndex, hf]
  norm_num

/-! ## Orientation: the claims -/

/-- C1: at `p1 = (2,1)`, `p2 = (1,0)`, `q = (2^54, 2^54)` the cross product
`(p2.X - p1.X) * (q.Y - p1.Y) - (p2.Y - p1.Y) * (q.X - p1.X)` is `-1`, its sign is
`-1` and `q` is clockwise of the line `p1 → p2`, whereas `OrientationIndex` returns
`0`: the filter does not decide (it answers `2`), and the path on the `big.Float`
variables, which have the precision 53 of a `float64`, rounds
`q.X - p2.X = 2^54 - 1` to `2^54` and finds two equal products. -/
theorem OrientationIndex_far_point_not_sign_cross :
    cross (pt 2 1) (pt 1 0) (pt 18014398509481984 18014398509481984) = -1 ∧
      sgn (cross (pt 2 1) (pt 1 0) (pt 18014398509481984 18014398509481984)) = -1 ∧
      orientationIndexFilter (pt 2 1) (pt 1 0) (pt 18014398509481984 18014398509481984)
        = 2 ∧
      orientationIndexExact (pt 2 1) (pt 1 0) (pt 18014398509481984 18014398509481984)
        = 0 ∧
      OrientationIndex (pt 2 1) (pt 1 0) (pt 18014398509481984 18014398509481984) = 0 := by
  have hc : cross (pt 2 1) (pt 1 0) (pt 18014398509481984 18014398509481984) = -1 := by
    norm_num [cross, pt]
  refine ⟨hc, ?_, OrientationIndex_at_far_point⟩
  rw [hc]
  norm_num [sgn]

/-- C2: at `p1 = (2,1)`, `p2 = (1,0)`, `q = (2^54, 2^54)`, where `p1 ≠ p2`,
`OrientationIndex p1 p2 q = 0` and `OrientationIndex p2 p1 q = 1`: reversing the
line does not flip the sign.  (The exact cross products are `-1` and `1`; on
`p1 → p2` the path on the `big.Float` variables rounds `q.X - p2.X = 2^54 - 1` to
`2^54`, on `p2 → p1` the difference `q.X - p1.X = 2^54 - 2` is exact.) -/
theorem OrientationIndex_far_point_not_reversed :
    pt 2 1 ≠ pt 1 0 ∧
      OrientationIndex (pt 2 1) (pt 1 0) (pt 18014398509481984 18014398509481984) = 0 ∧
      OrientationIndex (pt 1 0) (pt 2 1) (pt 18014398509481984 18014398509481984) = 1 ∧
      OrientationIndex (pt 2 1) (pt 1 0) (pt 18014398509481984 18014398509481984)
        ≠ - OrientationIndex (pt 1 0) (pt 2 1) (pt 18014398509481984 18014398509481984) := by
  have h1 := OrientationIndex_at_far_point.2.2
  have h2 := OrientationIndex_at_far_point_reversed.2.2
  refine ⟨by decide, h1, h2, ?_⟩
  rw [h1, h2]
  decide

/-- C3: at `p1 = (2^-600, 0)`, `p2 = (0, 2^-600)`, `q = (0, 0)` the filter returns the
decided value `0`, and the path of `OrientationIndex` on the `big.Float` variables
gives `1` on the same input, which is the sign of the cross product `2^-1200`: in
`float64` the product `detleft = 2^-600 * 2^-600` underflows to `0`, and the filter
takes `det = 0 - 0` for an exact zero. -/
theorem orientationIndexFilter_underflow_disagrees_exact :
    orientationIndexFilter (pt (2 ^ (-600 : ℤ)) 0) (pt 0 (2 ^ (-600 : ℤ))) (pt 0 0) = 0 ∧
      orientationIndexFilter (pt (2 ^ (-600 : ℤ)) 0) (pt 0 (2 ^ (-600 : ℤ))) (pt 0 0) ≠ 2 ∧
      orientationIndexExact (pt (2 ^ (-600 : ℤ)) 0) (pt 0 (2 ^ (-600 : ℤ))) (pt 0 0) = 1 ∧
      sgn (cross (pt (2 ^ (-600 : ℤ)) 0) (pt 0 (2 ^ (-600 : ℤ))) (pt 0 0)) = 1 := by
  have hf := OrientationIndex_underflow.1
  refine ⟨hf, ?_, OrientationIndex_underflow.2.1, ?_⟩
  · rw [hf]
    decide
  · have hc : cross (pt (2 ^ (-600 : ℤ)) 0) (pt 0 (2 ^ (-600 : ℤ))) (pt 0 0)
        = 2 ^ (-600 : ℤ) * 2 ^ (-600 : ℤ) := by
      simp only [cross, pt]
      ring
    have hpos : (0 : ℚ) < 2 ^ (-600 : ℤ) * 2 ^ (-600 : ℤ) := by positivity
    rw [hc]
    unfold sgn
    rw [if_pos hpos]

/-! ## Ring orientation -/

/-- C4: for every rectangle ring `[(x0,y0),(x1,y0),(x1,y1),(x0,y1),(x0,y0)]` with
`x0 < x1` and `y0 < y1`, which is counter-clockwise, `IsCCW` returns `(false, nil)`
and not `(true, nil)`: the neighbours `(x1,y0)` and `(x0,y1)` of the highest point
`(x1,y1)` differ in both axes, `Equals2D` reports them equal, and the ring is
taken for degenerate.  On the reversed sequence `IsCCW` returns `(false, nil)`
as well. -/
theorem IsCCW_rectRing (x0 y0 x1 y1 : ℚ) (hx : x0 < x1) (hy : y0 < y1) (fuel : Nat) :
    IsCCW (fuel + 1) (rectRing x0 y0 x1 y1) = some (false, none) ∧
      IsCCW (fuel + 1) (rectRing x0 y0 x1 y1).reverse = some (false, none) := by
  have hx1 : ¬ x1 = x0 := ne_of_gt hx
  have hx2 : ¬ x0 = x1 := ne_of_lt hx
  have hy1 : ¬ y0 = y1 := ne_of_lt hy
  have hy2 : ¬ y1 < y0 := not_lt.mpr hy.le
  constructor
  · simp [IsCCW, rectRing, pt, highestLoop, prevLoop, nextLoop, decWrap,
      Coordinate.Equals2D, hy, hx1, hy1, hy2]
  · simp [IsCCW, rectRing, pt, highestLoop, prevLoop, nextLoop, decWrap,
      Coordinate.Equals2D, hy, hx1, hx2, hy1, hy2]

/-- Witness of C4 on the ring `[(0,0),(4,0),(4,4),(0,4),(0,0)]`. -/
theorem IsCCW_rectRing_witness :
    (0 : ℚ) < 4 ∧
      IsCCW 5 (rectRing 0 0 4 4) = some (false, none) ∧
      IsCCW 5 (rectRing 0 0 4 4).reverse = some (false, none) :=
  ⟨by norm_num, IsCCW_rectRing 0 0 4 4 (by norm_num) (by norm_num) 4⟩

/-- C5: on the closed counter-clockwise triangle `[(0,0),(4,0),(2,3),(0,0)]` and on
its reverse `IsCCW` returns the same pair `(false, nil)`, not opposite booleans. -/
theorem IsCCW_triangle_and_reverse :
    IsCCW 5 [pt 0 0, pt 4 0, pt 2 3, pt 0 0] = some (false, none) ∧
      IsCCW 5 [pt 0 0, pt 4 0, pt 2 3, pt 0 0].reverse = some (false, none) := by
  have ho : OrientationIndex (pt 2 3) (pt 2 3) (pt 2 3) = 0 := by
    have h := OrientationIndex_pt 2 3 2 3 2 3 (by norm_num)
    push_cast at h
    rw [h]
    norm_num [cross, sgn, pt]
  simp only [pt] at ho
  constructor
  · norm_num [IsCCW, pt, highestLoop, prevLoop, nextLoop, decWrap,
      Coordinate.Equals2D, ho]
  · norm_num [IsCCW, pt, highestLoop, prevLoop, nextLoop, decWrap,
      Coordinate.Equals2D, ho]

/-- The first loop of `IsCCW` either keeps the pair it started with or moves to an
index of the scanned part whose coordinate is strictly higher than the start. -/
theorem highestLoop_spec (rest : Coordinates) :
    ∀ (i : Nat) (highest : Coordinate) (highestIdx : Nat),
      highestLoop rest i highest highestIdx = (highest, highestIdx) ∨
        (i ≤ (highestLoop rest i highest highestIdx).2 ∧
          (highestLoop rest i highest highestIdx).2 < i + rest.length ∧
          rest[(highestLoop rest i highest highestIdx).2 - i]?
            = some (highestLoop rest i highest highestIdx).1 ∧
          highest.Y < (highestLoop rest i highest highestIdx).1.Y) := by
  induction rest with
  | nil => intro i highest highestIdx; left; rfl
  | cons c rest ih =>
    intro i highest highestIdx
    by_cases hc : c.Y > highest.Y
    · right
      simp only [highestLoop, hc, if_true]
      rcases ih (i + 1) c i with h | ⟨h1, h2, h3, h4⟩
      · rw [h]
        simp only [List.length_cons, Nat.sub_self, List.getElem?_cons_zero]
        exact ⟨le_refl _, by omega, trivial, hc⟩
      · refine ⟨by omega, by simp only [List.length_cons]; omega, ?_, lt_trans hc h4⟩
        have hidx : (highestLoop rest (i + 1) c i).2 - i
            = ((highestLoop rest (i + 1) c i).2 - (i + 1)) + 1 := by omega
        rw [hidx, List.getElem?_cons_succ]
        exact h3
    · simp only [highestLoop, hc, if_false]
      rcases ih (i + 1) highest highestIdx with h | ⟨h1, h2, h3, h4⟩
      · left; exact h
      · right
        refine ⟨by omega, by simp only [List.length_cons]; omega, ?_, h4⟩
        have hidx : (highestLoop rest (i + 1) highest highestIdx).2 - i
            = ((highestLoop rest (i + 1) highest highestIdx).2 - (i + 1)) + 1 := by omega
        rw [hidx, List.getElem?_cons_succ]
        exact h3

/-- The backward search of `IsCCW` stops: walking down from `i` with wrap-around at
`0` reaches `highestIdx` after at most `nPts` steps. -/
theorem prevLoop_terminates (ring : Coordinates) (highest : Coordinate)
    (highestIdx nPts : Nat) (hn : nPts + 1 = ring.length) (hh : highestIdx ≤ nPts) :
    ∀ (fuel i : Nat), i ≤ nPts →
      (if highestIdx ≤ i then i - highestIdx else i + nPts + 1 - highestIdx) < fuel →
      ∃ j, j ≤ nPts ∧ prevLoop ring highest highestIdx nPts fuel i = some j := by
  intro fuel
  induction fuel with
  | zero => intro i _ hd; omega
  | succ fuel ih =>
    intro i hi hd
    have hlt : i < ring.length := by omega
    have hc : ring[i]? = some ring[i] := List.getElem?_eq_getElem hlt
    simp only [prevLoop, hc]
    split_ifs with hcond
    · have hne : i ≠ highestIdx := by
        simp only [Bool.and_eq_true, bne_iff_ne] at hcond
        exact hcond.2
      apply ih
      · unfold decWrap; split_ifs <;> omega
      · unfold decWrap; split_ifs at hd ⊢ <;> omega
    · exact ⟨i, hi, rfl⟩

/-- The forward search of `IsCCW` stops when `highestIdx < nPts`: walking up from
`i` modulo `nPts` reaches `highestIdx` after fewer than `nPts` steps. -/
theorem nextLoop_terminates (ring : Coordinates) (highest : Coordinate)
    (highestIdx nPts : Nat) (hn : nPts + 1 = ring.length) (hh : highestIdx < nPts) :
    ∀ (fuel i : Nat), i < nPts →
      (if i ≤ highestIdx then highestIdx - i else highestIdx + nPts - i) < fuel →
      ∃ j, j < nPts ∧ nextLoop ring highest highestIdx nPts fuel i = some j := by
  intro fuel
  induction fuel with
  | zero => intro i _ hd; omega
  | succ fuel ih =>
    intro i hi hd
    have hlt : i < ring.length := by omega
    have hc : ring[i]? = some ring[i] := List.getElem?_eq_getElem hlt
    simp only [nextLoop, hc]
    split_ifs with hcond
    · have hne : i ≠ highestIdx := by
        simp only [Bool.and_eq_true, bne_iff_ne] at hcond
        exact hcond.2
      by_cases hw : i + 1 < nPts
      · rw [Nat.mod_eq_of_lt hw]
        apply ih _ hw
        split_ifs at hd ⊢ <;> omega
      · have hw2 : i + 1 = nPts := by omega
        rw [hw2, Nat.mod_self]
        apply ih _ (by omega)
        split_ifs at hd ⊢ <;> omega
    · exact ⟨i, hi, rfl⟩

/-- On a closed ring with at least three points besides the closing one, `IsCCW`
returns, and the error is nil. -/
theorem IsCCW_closed_returns (fuel : Nat) (ring : Coordinates)
    (hlen : 3 ≤ ring.length - 1) (hclosed : ring[0]? = ring[ring.length - 1]?)
    (hfuel : ring.length + 1 ≤ fuel) :
    ∃ b, IsCCW fuel ring = some (b, none) := by
  have h0 : 0 < ring.length := by omega
  have hfirst : ring[0]? = some ring[0] := List.getElem?_eq_getElem h0
  have hn : (ring.length - 1) + 1 = ring.length := by omega
  -- the highest point is not the closing point
  have hidx : (highestLoop ring 0 ring[0] 0).2 < ring.length - 1 := by
    rcases highestLoop_spec ring 0 ring[0] 0 with h | ⟨_, h2, h3, h4⟩
    · rw [h]; show 0 < ring.length - 1; omega
    · by_contra hge
      have he : (highestLoop ring 0 ring[0] 0).2 = ring.length - 1 := by omega
      rw [Nat.sub_zero, he, ← hclosed, hfirst] at h3
      have := Option.some.inj h3
      rw [← this] at h4
      exact lt_irrefl _ h4
  obtain ⟨iPrev, hiPrev, hprev⟩ :=
    prevLoop_terminates ring (highestLoop ring 0 ring[0] 0).1 (highestLoop ring 0 ring[0] 0).2
      (ring.length - 1) hn (le_of_lt hidx) fuel
      (decWrap (highestLoop ring 0 ring[0] 0).2 (ring.length - 1))
      (by unfold decWrap; split_ifs <;> omega)
      (by unfold decWrap; split_ifs <;> omega)
  have hmod : ((highestLoop ring 0 ring[0] 0).2 + 1) % (ring.length - 1) < ring.length - 1 :=
    Nat.mod_lt _ (by omega)
  obtain ⟨iNext, hiNext, hnext⟩ :=
    nextLoop_terminates ring (highestLoop ring 0 ring[0] 0).1 (highestLoop ring 0 ring[0] 0).2
      (ring.length - 1) hn hidx fuel
      (((highestLoop ring 0 ring[0] 0).2 + 1) % (ring.length - 1)) hmod
      (by split_ifs <;> omega)
  have hp : ring[iPrev]? = some ring[iPrev] := List.getElem?_eq_getElem (by omega)
  have hq : ring[iNext]? = some ring[iNext] := List.getElem?_eq_getElem (by omega)
  have hshort : ¬ (ring.length - 1 < 3) := by omega
  simp only [IsCCW, hshort, if_false, hfirst, hprev, hnext, hp, hq]
  split_ifs <;> exact ⟨_, rfl⟩

/-- When there are at least three points besides the last one, a result of `IsCCW`
carries no error, whether the sequence is closed or not. -/
theorem IsCCW_long_no_error (fuel : Nat) (ring : Coordinates) (r : Bool × Option String)
    (hlen : 3 ≤ ring.length - 1) (h : IsCCW fuel ring = some r) : r.2 = none := by
  have hshort : ¬ (ring.length - 1 < 3) := by omega
  simp only [IsCCW, hshort, if_false] at h
  split at h
  · cases h
  · split at h
    · cases h
    · split at h
      · cases h
      · split at h
        · split_ifs at h <;> (cases h; rfl)
        · cases h

/-- On the sequence `[(0,0),(1,1),(2,2),(3,3)]`, which is not closed, the forward
search of `IsCCW` never stops: no amount of fuel gives a result. -/
theorem nextLoop_diverges_unclosed (fuel : Nat) :
    ∀ i, i < 3 → nextLoop [pt 0 0, pt 1 1, pt 2 2, pt 3 3] (pt 3 3) 3 3 fuel i = none := by
  induction fuel with
  | zero => intro i _; rfl
  | succ fuel ih =>
    intro i hi
    have h0 := ih 0 (by omega)
    have h1 := ih 1 (by omega)
    have h2 := ih 2 (by omega)
    interval_cases i
    · simpa [nextLoop, pt, Coordinate.Equals2D] using h1
    · simpa [nextLoop, pt, Coordinate.Equals2D] using h2
    · simpa [nextLoop, pt, Coordinate.Equals2D] using h0

/-- The function `IsCCW` does not return on the unclosed sequence `[(0,0),(1,1),(2,2),(3,3)]`. -/
theorem IsCCW_diverges_unclosed (fuel : Nat) :
    IsCCW fuel [pt 0 0, pt 1 1, pt 2 2, pt 3 3] = none := by
  have hnext := nextLoop_diverges_unclosed fuel 1 (by omega)
  have hhi : highestLoop [pt 0 0, pt 1 1, pt 2 2, pt 3 3] 0 (pt 0 0) 0 = (pt 3 3, 3) := by
    norm_num [highestLoop, pt]
  simp only [IsCCW, List.length_cons, List.length_nil, List.getElem?_cons_zero, hhi]
  norm_num
  rw [hnext]
  split <;> rfl

/-- What `IsCCW` validates: it returns the error for every sequence with fewer than
3 points besides the last one; it returns a nil error for every closed ring with at
least 3 points besides the closing one (fuel `len(ring) + 1` suffices for its
loops); and it never tests closure, so any result it gives for a sequence with at
least 3 points besides the last one, closed or not, has a nil error.  (On such a
sequence that is not closed it may also give no result at all, see
`IsCCW_diverges_unclosed`.) -/
theorem IsCCW_error_spec :
    (∀ (fuel : Nat) (ring : Coordinates), ring.length - 1 < 3 →
        IsCCW fuel ring = some (false, some errRingTooShort)) ∧
      (∀ (fuel : Nat) (ring : Coordinates), 3 ≤ ring.length - 1 →
        ring[0]? = ring[ring.length - 1]? → ring.length + 1 ≤ fuel →
        ∃ b, IsCCW fuel ring = some (b, none)) ∧
      (∀ (fuel : Nat) (ring : Coordinates) (r : Bool × Option String),
        3 ≤ ring.length - 1 → IsCCW fuel ring = some r → r.2 = none) := by
  refine ⟨?_, ?_, ?_⟩
  · intro fuel ring h
    simp only [IsCCW, h, if_true]
  · intro fuel ring hlen hclosed hfuel
    exact IsCCW_closed_returns fuel ring hlen hclosed hfuel
  · intro fuel ring r hlen h
    exact IsCCW_long_no_error fuel ring r hlen h

/-- The error on the closed sequence `[(0,0),(1,0),(0,0)]`, a nil error on the closed
ring `[(0,0),(4,0),(4,4),(0,4),(0,0)]`. -/
theorem IsCCW_error_spec_example :
    IsCCW 4 [pt 0 0, pt 1 0, pt 0 0] = some (false, some errRingTooShort) ∧
      ∃ b, IsCCW 6 (rectRing 0 0 4 4) = some (b, none) :=
  ⟨IsCCW_error_spec.1 4 [pt 0 0, pt 1 0, pt 0 0] (by decide),
   IsCCW_error_spec.2.1 6 (rectRing 0 0 4 4) (by decide) (by rfl) (by decide)⟩

/-- C6: the sequence `[(0,0),(4,0),(4,4),(0,4)]` is not closed (its first and last
coordinates differ), so it is not a valid ring, and `IsCCW` returns `(false, nil)`
on it: a nil error, where the comment of `IsCCW` promises an error if the
coordinates do not represent a valid ring. -/
theorem IsCCW_unclosed_nil_error :
    ([pt 0 0, pt 4 0, pt 4 4, pt 0 4] : Coordinates)[0]?
        ≠ ([pt 0 0, pt 4 0, pt 4 4, pt 0 4] : Coordinates)[3]? ∧
      IsCCW 5 [pt 0 0, pt 4 0, pt 4 4, pt 0 4] = some (false, none) := by
  have ho : OrientationIndex (pt 4 0) (pt 4 4) (pt 4 0) = 0 := by
    have h := OrientationIndex_pt 4 0 4 4 4 0 (by norm_num)
    push_cast at h
    rw [h]
    norm_num [cross, sgn, pt]
  simp only [pt] at ho
  constructor
  · norm_num [pt]
  · norm_num [IsCCW, pt, highestLoop, prevLoop, nextLoop, decWrap,
      Coordinate.Equals2D, ho]

/-! ## Two-dimensional equality -/

/-- C7: `Equals2D` is not the test `c.X == d.X && c.Y == d.Y`: it is `true` exactly
when the two coordinates differ in `X` and differ in `Y`, whatever the `Z` values,
so that every coordinate `c` has `c.Equals2D c = false`. -/
theorem Equals2D_iff_differ_both (c d : Coordinate) :
    (c.Equals2D d = true ↔ c.X ≠ d.X ∧ c.Y ≠ d.Y) ∧ c.Equals2D c = false := by
  simp [Coordinate.Equals2D]

/-! ## Envelopes -/

/-- C8: at `p1 = (0,1)`, `p2 = (2,3)` the envelope `NewEnvelopeFromCoords p1 p2` is
`MinX = 0, MaxX = 1, MinY = 2, MaxY = 3`, not `MinX = 0, MaxX = 2, MinY = 1,
MaxY = 3`, and it contains neither `p1` nor `p2`. -/
theorem NewEnvelopeFromCoords_mixes_axes :
    NewEnvelopeFromCoords (pt 0 1) (pt 2 3) = { MinX := 0, MaxX := 1, MinY := 2, MaxY := 3 } ∧
      Envelope.ContainsCoord (some (NewEnvelopeFromCoords (pt 0 1) (pt 2 3))) (pt 0 1) = false ∧
      Envelope.ContainsCoord (some (NewEnvelopeFromCoords (pt 0 1) (pt 2 3))) (pt 2 3) = false := by
  refine ⟨?_, ?_, ?_⟩ <;>
    norm_num [NewEnvelopeFromCoords, NewEnvelope, Envelope.ContainsCoord, Envelope.Contains, pt]

/-- For all coordinates the envelope built by `NewEnvelopeFromCoords p1 p2` spans
`p1.X`, `p1.Y` on its X axis and `p2.X`, `p2.Y` on its Y axis. -/
theorem NewEnvelopeFromCoords_eq (p1 p2 : Coordinate) :
    NewEnvelopeFromCoords p1 p2 =
      { MinX := min p1.X p1.Y, MaxX := max p1.X p1.Y,
        MinY := min p2.X p2.Y, MaxY := max p2.X p2.Y } := by
  unfold NewEnvelopeFromCoords NewEnvelope
  rcases lt_or_le p1.X p1.Y with h1 | h1 <;> rcases lt_or_le p2.X p2.Y with h2 | h2 <;>
    simp [h1, h2, not_lt.mpr, le_of_lt, min_eq_left, min_eq_right, max_eq_left, max_eq_right]

/-- The result of `Intersects` on two non-nil envelopes, as a proposition. -/
theorem Intersects_some_iff (e f : Envelope) :
    Envelope.Intersects (some e) (some f) = true ↔
      f.MinX ≤ e.MaxX ∧ e.MinX ≤ f.MaxX ∧ f.MinY ≤ e.MaxY ∧ e.MinY ≤ f.MaxY := by
  simp [Envelope.Intersects, and_assoc]

/-- The result of `Contains` on a non-nil envelope, as a proposition. -/
theorem Contains_some_iff (e : Envelope) (x y : ℚ) :
    Envelope.Contains (some e) x y = true ↔
      e.MinX ≤ x ∧ x ≤ e.MaxX ∧ e.MinY ≤ y ∧ y ≤ e.MaxY := by
  simp [Envelope.Contains, and_assoc]

/-- C9: for all non-nil envelopes `e`, `f` with `Min ≤ Max` on both axes,
`e.Intersects(f)` is `true` iff some point `(x, y)` is contained in both (closed
rectangles, touching edges count), and `e.Intersects(f) = f.Intersects(e)`. -/
theorem Intersects_iff_common_point (e f : Envelope)
    (heX : e.MinX ≤ e.MaxX) (heY : e.MinY ≤ e.MaxY)
    (hfX : f.MinX ≤ f.MaxX) (hfY : f.MinY ≤ f.MaxY) :
    (Envelope.Intersects (some e) (some f) = true ↔
        ∃ x y : ℚ, Envelope.Contains (some e) x y = true ∧
          Envelope.Contains (some f) x y = true) ∧
      Envelope.Intersects (some e) (some f) = Envelope.Intersects (some f) (some e) := by
  constructor
  · rw [Intersects_some_iff]
    constructor
    · rintro ⟨h1, h2, h3, h4⟩
      refine ⟨max e.MinX f.MinX, max e.MinY f.MinY, ?_, ?_⟩
      · rw [Contains_some_iff]
        exact ⟨le_max_left _ _, max_le heX h1, le_max_left _ _, max_le heY h3⟩
      · rw [Contains_some_iff]
        exact ⟨le_max_right _ _, max_le h2 hfX, le_max_right _ _, max_le h4 hfY⟩
    · rintro ⟨x, y, hx, hy⟩
      rw [Contains_some_iff] at hx hy
      obtain ⟨a1, a2, a3, a4⟩ := hx
      obtain ⟨b1, b2, b3, b4⟩ := hy
      exact ⟨b1.trans a2, a1.trans b2, b3.trans a4, a3.trans b4⟩
  · rw [Bool.eq_iff_iff, Intersects_some_iff, Intersects_some_iff]
    tauto

/-- Witness of C9: the unit square and the square `[1,2] × [1,2]`, which touch in
the corner `(1,1)`. -/
theorem Intersects_iff_common_point_witness :
    (Envelope.Intersects (some ⟨0, 1, 0, 1⟩) (some ⟨1, 2, 1, 2⟩) = true ↔
        ∃ x y : ℚ, Envelope.Contains (some ⟨0, 1, 0, 1⟩) x y = true ∧
          Envelope.Contains (some ⟨1, 2, 1, 2⟩) x y = true) ∧
      Envelope.Intersects (some ⟨0, 1, 0, 1⟩) (some ⟨1, 2, 1, 2⟩)
        = Envelope.Intersects (some ⟨1, 2, 1, 2⟩) (some ⟨0, 1, 0, 1⟩) :=
  Intersects_iff_common_point ⟨0, 1, 0, 1⟩ ⟨1, 2, 1, 2⟩
    (by norm_num) (by norm_num) (by norm_num) (by norm_num)

/-- The two squares of the witness of C9 do intersect. -/
theorem Intersects_touching_corner :
    Envelope.Intersects (some ⟨0, 1, 0, 1⟩) (some ⟨1, 2, 1, 2⟩) = true := by
  rw [Intersects_some_iff]; norm_num

/-- C10: if either envelope is nil, `Intersects` returns `false`; `IntersectsXY` and
`Contains` on a nil envelope return `false` for every point. -/
theorem nil_envelope_false (e : Option Envelope) (x y : ℚ) :
    Envelope.Intersects none e = false ∧ Envelope.Intersects e none = false ∧
      Envelope.IntersectsXY none x y = false ∧ Envelope.Contains none x y = false := by
  refine ⟨rfl, ?_, rfl, rfl⟩
  cases e <;> rfl


/-! ## Envelope expansion -/

theorem Expand_MinX (e : Envelope) (c : Coordinate) :
    (e.Expand c).MinX = min e.MinX c.X := by
  unfold Envelope.Expand
  rcases lt_or_le c.X e.MinX with h | h
  · simp only [h, if_true]; split_ifs <;> simp [min_eq_right h.le]
  · simp only [not_lt.mpr h, if_false]; split_ifs <;> simp [min_eq_left h]

theorem Expand_MaxX (e : Envelope) (c : Coordinate) :
    (e.Expand c).MaxX = max e.MaxX c.X := by
  unfold Envelope.Expand
  by_cases h1 : c.X < e.MinX <;> by_cases h2 : c.X > e.MaxX <;>
    by_cases h3 : c.Y < e.MinY <;> by_cases h4 : c.Y > e.MaxY <;>
    simp [h1, h2, h3, h4, max_eq_right, max_eq_left, le_of_lt, le_of_not_lt]

theorem Expand_MinY (e : Envelope) (c : Coordinate) :
    (e.Expand c).MinY = min e.MinY c.Y := by
  unfold Envelope.Expand
  by_cases h1 : c.X < e.MinX <;> by_cases h2 : c.X > e.MaxX <;>
    by_cases h3 : c.Y < e.MinY <;> by_cases h4 : c.Y > e.MaxY <;>
    simp [h1, h2, h3, h4, min_eq_right, min_eq_left, le_of_lt, le_of_not_lt]

theorem Expand_MaxY (e : Envelope) (c : Coordinate) :
    (e.Expand c).MaxY = max e.MaxY c.Y := by
  unfold Envelope.Expand
  by_cases h1 : c.X < e.MinX <;> by_cases h2 : c.X > e.MaxX <;>
    by_cases h3 : c.Y < e.MinY <;> by_cases h4 : c.Y > e.MaxY <;>
    simp [h1, h2, h3, h4, max_eq_right, max_eq_left, le_of_lt, le_of_not_lt]

theorem ExpandEnvelope_bounds (e f : Envelope) :
    (e.ExpandEnvelope f).MinX = min e.MinX f.MinX ∧
      (e.ExpandEnvelope f).MaxX = max e.MaxX f.MaxX ∧
      (e.ExpandEnvelope f).MinY = min e.MinY f.MinY ∧
      (e.ExpandEnvelope f).MaxY = max e.MaxY f.MaxY := by
  unfold Envelope.ExpandEnvelope
  by_cases h1 : f.MinX < e.MinX <;> by_cases h2 : f.MaxX > e.MaxX <;>
    by_cases h3 : f.MinY < e.MinY <;> by_cases h4 : f.MaxY > e.MaxY <;>
    simp [h1, h2, h3, h4, max_eq_right, max_eq_left, min_eq_right, min_eq_left,
      le_of_lt, le_of_not_lt]

/-- C11: for every envelope `e` with `Min ≤ Max` on both axes and every coordinate
`c`, the envelope after `e.Expand(c)` contains `c` and every point that `e`
contained; and for every envelope `f` the envelope after `e.ExpandEnvelope(f)`
contains every point that `e` or `f` contained. -/
theorem Expand_contains (e f : Envelope) (c : Coordinate)
    (_heX : e.MinX ≤ e.MaxX) (_heY : e.MinY ≤ e.MaxY) :
    Envelope.Contains (some (e.Expand c)) c.X c.Y = true ∧
      (∀ x y : ℚ, Envelope.Contains (some e) x y = true →
        Envelope.Contains (some (e.Expand c)) x y = true) ∧
      (∀ x y : ℚ, Envelope.Contains (some e) x y = true ∨
          Envelope.Contains (some f) x y = true →
        Envelope.Contains (some (e.ExpandEnvelope f)) x y = true) := by
  obtain ⟨g1, g2, g3, g4⟩ := ExpandEnvelope_bounds e f
  refine ⟨?_, ?_, ?_⟩
  · rw [Contains_some_iff, Expand_MinX, Expand_MaxX, Expand_MinY, Expand_MaxY]
    exact ⟨min_le_right _ _, le_max_right _ _, min_le_right _ _, le_max_right _ _⟩
  · intro x y h
    rw [Contains_some_iff] at h
    rw [Contains_some_iff, Expand_MinX, Expand_MaxX, Expand_MinY, Expand_MaxY]
    exact ⟨(min_le_left _ _).trans h.1, h.2.1.trans (le_max_left _ _),
      (min_le_left _ _).trans h.2.2.1, h.2.2.2.trans (le_max_left _ _)⟩
  · intro x y h
    rw [Contains_some_iff, g1, g2, g3, g4]
    rcases h with h | h <;> rw [Contains_some_iff] at h
    · exact ⟨(min_le_left _ _).trans h.1, h.2.1.trans (le_max_left _ _),
        (min_le_left _ _).trans h.2.2.1, h.2.2.2.trans (le_max_left _ _)⟩
    · exact ⟨(min_le_right _ _).trans h.1, h.2.1.trans (le_max_right _ _),
        (min_le_right _ _).trans h.2.2.1, h.2.2.2.trans (le_max_right _ _)⟩

/-- Witness of C11: the unit square expanded by the point `(3, -1)` and by the
square `[2,5] × [2,5]`. -/
theorem Expand_contains_witness :
    Envelope.Contains (some ((⟨0, 1, 0, 1⟩ : Envelope).Expand (pt 3 (-1)))) 3 (-1) = true ∧
      (∀ x y : ℚ, Envelope.Contains (some ⟨0, 1, 0, 1⟩) x y = true →
        Envelope.Contains (some ((⟨0, 1, 0, 1⟩ : Envelope).Expand (pt 3 (-1)))) x y = true) ∧
      (∀ x y : ℚ, Envelope.Contains (some ⟨0, 1, 0, 1⟩) x y = true ∨
          Envelope.Contains (some ⟨2, 5, 2, 5⟩) x y = true →
        Envelope.Contains
          (some ((⟨0, 1, 0, 1⟩ : Envelope).ExpandEnvelope ⟨2, 5, 2, 5⟩)) x y = true) :=
  Expand_contains ⟨0, 1, 0, 1⟩ ⟨2, 5, 2, 5⟩ (pt 3 (-1)) (by norm_num) (by norm_num)

/-- The envelope test of two segments, as a proposition. -/
theorem EnvelopeIntersects_iff (p1 p2 q1 q2 : Coordinate) :
    EnvelopeIntersects p1 p2 q1 q2 = true ↔
      min p1.X p2.X ≤ max q1.X q2.X ∧ min q1.X q2.X ≤ max p1.X p2.X ∧
        min p1.Y p2.Y ≤ max q1.Y q2.Y ∧ min q1.Y q2.Y ≤ max p1.Y p2.Y := by
  unfold EnvelopeIntersects
  simp only []
  split_ifs with h1 h2 h3 h4
  · simp only [Bool.false_eq_true, false_iff]; intro h; exact absurd h.1 (not_le.mpr h1)
  · simp only [Bool.false_eq_true, false_iff]; intro h; exact absurd h.2.1 (not_le.mpr h2)
  · simp only [Bool.false_eq_true, false_iff]; intro h; exact absurd h.2.2.1 (not_le.mpr h3)
  · simp only [Bool.false_eq_true, false_iff]; intro h; exact absurd h.2.2.2 (not_le.mpr h4)
  · simp only [true_iff]
    exact ⟨not_lt.mp h1, not_lt.mp h2, not_lt.mp h3, not_lt.mp h4⟩

/-- The envelope test of two segments succeeds iff their bounding boxes share a
point. -/
theorem EnvelopeIntersects_iff_common_point (p1 p2 q1 q2 : Coordinate) :
    EnvelopeIntersects p1 p2 q1 q2 = true ↔
      ∃ x y : ℚ, InBox p1 p2 x y ∧ InBox q1 q2 x y := by
  rw [EnvelopeIntersects_iff]
  constructor
  · rintro ⟨h1, h2, h3, h4⟩
    refine ⟨max (min p1.X p2.X) (min q1.X q2.X), max (min p1.Y p2.Y) (min q1.Y q2.Y), ?_, ?_⟩
    · exact ⟨le_max_left _ _, max_le (min_le_max) h2, le_max_left _ _, max_le (min_le_max) h4⟩
    · exact ⟨le_max_right _ _, max_le h1 (min_le_max), le_max_right _ _, max_le h3 (min_le_max)⟩
  · rintro ⟨x, y, ⟨a1, a2, a3, a4⟩, ⟨b1, b2, b3, b4⟩⟩
    exact ⟨a1.trans b2, b1.trans a2, a3.trans b4, b3.trans a4⟩

/-- The point test of an envelope is the membership of the bounding box. -/
theorem EnvelopeIntersectsPoint_iff (p1 p2 q : Coordinate) :
    EnvelopeIntersectsPoint p1 p2 q = true ↔ InBox p1 p2 q.X q.Y := by
  unfold EnvelopeIntersectsPoint InBox
  simp only [ge_iff_le]
  split_ifs with h
  · simp only [true_iff]; exact h
  · simp only [Bool.false_eq_true, false_iff]; exact h

end Coord

namespace Graph

open Coord

/-! ## Quadrants -/

/-- C17: `QuadrantCoord p0 p1` is an error iff `p0` and `p1` have equal `X` and equal
`Y`; otherwise, with `dx = p1.X - p0.X` and `dy = p1.Y - p0.Y`, it is `NE` when
`dx ≥ 0` and `dy ≥ 0`, `SE` when `dx ≥ 0` and `dy < 0`, `NW` when `dx < 0` and
`dy ≥ 0`, `SW` when `dx < 0` and `dy < 0`. -/
theorem QuadrantCoord_spec (p0 p1 : Coordinate) :
    ((∃ err, QuadrantCoord p0 p1 = .error err) ↔ (p0.X = p1.X ∧ p0.Y = p1.Y)) ∧
      (¬ (p0.X = p1.X ∧ p0.Y = p1.Y) →
        QuadrantCoord p0 p1 =
          .ok (if p1.X - p0.X ≥ 0 then
                (if p1.Y - p0.Y ≥ 0 then Quadrant.NE else Quadrant.SE)
              else (if p1.Y - p0.Y ≥ 0 then Quadrant.NW else Quadrant.SW))) := by
  have hx : p1.X - p0.X ≥ 0 ↔ p1.X ≥ p0.X := sub_nonneg
  have hy : p1.Y - p0.Y ≥ 0 ↔ p1.Y ≥ p0.Y := sub_nonneg
  constructor
  · constructor
    · rintro ⟨err, h⟩
      by_contra hne
      unfold QuadrantCoord at h
      rw [if_neg hne] at h
      split_ifs at h
    · intro h
      exact ⟨errIdenticalPoints, by unfold QuadrantCoord; rw [if_pos h]⟩
  · intro hne
    unfold QuadrantCoord
    rw [if_neg hne]
    simp only [hx, hy]
    split_ifs <;> rfl

/-- The four quadrants are reached: from `(0,0)` to `(1,1)`, `(1,-1)`, `(-1,1)`,
`(-1,-1)`; and the error on `(0,0)`, `(0,0)`. -/
theorem QuadrantCoord_values :
    QuadrantCoord (pt 0 0) (pt 1 1) = .ok Quadrant.NE ∧
      QuadrantCoord (pt 0 0) (pt 1 (-1)) = .ok Quadrant.SE ∧
      QuadrantCoord (pt 0 0) (pt (-1) 1) = .ok Quadrant.NW ∧
      QuadrantCoord (pt 0 0) (pt (-1) (-1)) = .ok Quadrant.SW ∧
      QuadrantCoord (pt 0 0) (pt 0 0) = .error errIdenticalPoints := by
  refine ⟨?_, ?_, ?_, ?_, ?_⟩ <;> norm_num [QuadrantCoord, pt]

/-! ## Monotone chains: `chainStartIndexes` -/

/-- The loop of `findChainEnd` entered right after `start`, where the quadrant it
computes is the quadrant of the chain, never ends. -/
theorem findChainEndLoop_diverges (pts : Coordinates) (start : Nat) (a b : Coordinate)
    (q : Quadrant) (ha : pts[start]? = some a) (hb : pts[start + 1]? = some b)
    (hq : QuadrantCoord a b = .ok q) :
    ∀ fuel, findChainEndLoop pts q fuel (start + 1) = none := by
  intro fuel
  induction fuel with
  | zero => rfl
  | succ fuel ih =>
    have hlt : start + 1 < pts.length := by
      by_contra hge
      rw [List.getElem?_eq_none (not_lt.mp hge)] at hb
      cases hb
    simp only [findChainEndLoop, hlt, if_true, Nat.add_sub_cancel, ha, hb, hq, ne_eq,
      not_true_eq_false, if_false, ih]

/-- From a start whose segment is not degenerate `findChainEnd` does not return. -/
theorem findChainEnd_diverges (pts : Coordinates) (start : Nat) (a b : Coordinate)
    (ha : pts[start]? = some a) (hb : pts[start + 1]? = some b)
    (hne : ¬ (a.X = b.X ∧ a.Y = b.Y)) :
    ∀ fuel, findChainEnd fuel pts start = none := by
  intro fuel
  obtain ⟨q, hq⟩ : ∃ q, QuadrantCoord a b = .ok q := by
    unfold QuadrantCoord
    rw [if_neg hne]
    split_ifs <;> exact ⟨_, rfl⟩
  simp only [findChainEnd, ha, hb, hq]
  exact findChainEndLoop_diverges pts start a b q ha hb hq fuel

/-- C16: for every coordinate sequence with at least 2 points whose first two points
differ in `X` or in `Y` (in particular when no two consecutive points are equal),
`chainStartIndexes` returns nothing at all, whatever the fuel: `findChainEnd`
loops forever, because its loop never advances `last`. -/
theorem chainStartIndexes_diverges (pts : Coordinates) (a b : Coordinate)
    (ha : pts[0]? = some a) (hb : pts[1]? = some b)
    (hne : ¬ (a.X = b.X ∧ a.Y = b.Y)) (fuel : Nat) :
    chainStartIndexes fuel pts = none := by
  have hlen : 0 < pts.length - 1 := by
    have : 1 < pts.length := by
      by_contra hge
      rw [List.getElem?_eq_none (not_lt.mp hge)] at hb
      cases hb
    omega
  unfold chainStartIndexes
  cases fuel with
  | zero => rfl
  | succ n =>
    simp only [chainStartLoop, hlen, if_true,
      findChainEnd_diverges pts 0 a b ha hb hne (n + 1)]

/-- Witness of C16 on the sequence `[(0,0),(1,1)]`. -/
theorem chainStartIndexes_diverges_witness :
    chainStartIndexes 100 [pt 0 0, pt 1 1] = none :=
  chainStartIndexes_diverges [pt 0 0, pt 1 1] (pt 0 0) (pt 1 1) rfl rfl
    (by norm_num [pt]) 100

/-! ## Line intersector -/

/-- C13: for all segments `p1p2` and `q1q2` whose bounding boxes share no point,
`computeIntersectionResult` returns `None`: `HasIntersection` is false and
`IsProper` is false. -/
theorem computeIntersectionResult_disjoint_envelopes (rli : RobustLineIntersector)
    (p1 p2 q1 q2 : Coordinate)
    (h : ¬ ∃ x y : ℚ, InBox p1 p2 x y ∧ InBox q1 q2 x y) :
    (rli.computeIntersectionResult p1 p2 q1 q2).result = .None ∧
      (rli.computeIntersectionResult p1 p2 q1 q2).HasIntersection = false ∧
      (rli.computeIntersectionResult p1 p2 q1 q2).IsProper = false := by
  have he : EnvelopeIntersects p1 p2 q1 q2 = false := by
    rw [← Bool.not_eq_true]
    intro ht
    exact h ((EnvelopeIntersects_iff_common_point p1 p2 q1 q2).mp ht)
  have hr : rli.computeIntersectionResult p1 p2 q1 q2
      = { rli with isProper := false, result := .None } := by
    unfold RobustLineIntersector.computeIntersectionResult
    simp [he]
  rw [hr]
  exact ⟨rfl, rfl, rfl⟩

/-- Witness of C13: the segments `(0,0)-(1,1)` and `(2,0)-(3,1)`. -/
theorem computeIntersectionResult_disjoint_envelopes_witness :
    (NewRobustLineIntersector.computeIntersectionResult
        (pt 0 0) (pt 1 1) (pt 2 0) (pt 3 1)).result = .None ∧
      (NewRobustLineIntersector.computeIntersectionResult
        (pt 0 0) (pt 1 1) (pt 2 0) (pt 3 1)).HasIntersection = false ∧
      (NewRobustLineIntersector.computeIntersectionResult
        (pt 0 0) (pt 1 1) (pt 2 0) (pt 3 1)).IsProper = false :=
  computeIntersectionResult_disjoint_envelopes NewRobustLineIntersector
    (pt 0 0) (pt 1 1) (pt 2 0) (pt 3 1)
    (by
      rintro ⟨x, y, ⟨_, h2, _, _⟩, ⟨h3, _, _, _⟩⟩
      norm_num [pt] at h2 h3
      linarith)

/-- The orientation index of `(0,0) → (2,2)` and of `(1,1) → (3,0)` at the end points
of the other segment. -/
theorem orientation_values_diag :
    OrientationIndex (pt 0 0) (pt 2 2) (pt 1 1) = 0 ∧
      OrientationIndex (pt 0 0) (pt 2 2) (pt 3 0) = -1 ∧
      OrientationIndex (pt 1 1) (pt 3 0) (pt 0 0) = -1 ∧
      OrientationIndex (pt 1 1) (pt 3 0) (pt 2 2) = 1 := by
  refine ⟨?_, ?_, ?_, ?_⟩
  · have h := OrientationIndex_pt 0 0 2 2 1 1 (by norm_num)
    push_cast at h
    rw [h]
    norm_num [cross, sgn, pt]
  · have h := OrientationIndex_pt 0 0 2 2 3 0 (by norm_num)
    push_cast at h
    rw [h]
    norm_num [cross, sgn, pt]
  · have h := OrientationIndex_pt 1 1 3 0 0 0 (by norm_num)
    push_cast at h
    rw [h]
    norm_num [cross, sgn, pt]
  · have h := OrientationIndex_pt 1 1 3 0 2 2 (by norm_num)
    push_cast at h
    rw [h]
    norm_num [cross, sgn, pt]

/-- C12: the segments `(0,0)-(2,2)` and `(1,1)-(3,0)` meet in the point `(1,1)` only.
Intersected in this order the intersector reports the point `(0,0)`; intersected in
the other order it reports `(1,1)`.  The classification (`Point`) and the proper
flag (`false`) agree, the reported points do not. -/
theorem ComputeIntersection_not_symmetric :
    (NewRobustLineIntersector.ComputeIntersection
        (pt 0 0) (pt 2 2) (pt 1 1) (pt 3 0)).result = .Point ∧
      (NewRobustLineIntersector.ComputeIntersection
        (pt 1 1) (pt 3 0) (pt 0 0) (pt 2 2)).result = .Point ∧
      (NewRobustLineIntersector.ComputeIntersection
        (pt 0 0) (pt 2 2) (pt 1 1) (pt 3 0)).IsProper = false ∧
      (NewRobustLineIntersector.ComputeIntersection
        (pt 1 1) (pt 3 0) (pt 0 0) (pt 2 2)).IsProper = false ∧
      (NewRobustLineIntersector.ComputeIntersection
        (pt 0 0) (pt 2 2) (pt 1 1) (pt 3 0)).reported = [pt 0 0] ∧
      (NewRobustLineIntersector.ComputeIntersection
        (pt 1 1) (pt 3 0) (pt 0 0) (pt 2 2)).reported = [pt 1 1] := by
  obtain ⟨h1, h2, h3, h4⟩ := orientation_values_diag
  have e1 : EnvelopeIntersects (pt 0 0) (pt 2 2) (pt 1 1) (pt 3 0) = true := by
    rw [EnvelopeIntersects_iff]; norm_num [pt]
  have e2 : EnvelopeIntersects (pt 1 1) (pt 3 0) (pt 0 0) (pt 2 2) = true := by
    rw [EnvelopeIntersects_iff]; norm_num [pt]
  have a1 : (pt 0 0).Equals2D (pt 1 1) = true := by decide
  have a2 : (pt 1 1).Equals2D (pt 0 0) = true := by decide
  have r1 : NewRobustLineIntersector.ComputeIntersection (pt 0 0) (pt 2 2) (pt 1 1) (pt 3 0)
      = { result := .Point, isProper := false,
          inputLines := ((pt 0 0, pt 2 2), (pt 1 1, pt 3 0)),
          intPts := (pt 0 0, ⟨0, 0, 0⟩) } := by
    simp [RobustLineIntersector.ComputeIntersection,
      RobustLineIntersector.computeIntersectionResult, NewRobustLineIntersector,
      e1, h1, h2, h3, h4, a1]
  have r2 : NewRobustLineIntersector.ComputeIntersection (pt 1 1) (pt 3 0) (pt 0 0) (pt 2 2)
      = { result := .Point, isProper := false,
          inputLines := ((pt 1 1, pt 3 0), (pt 0 0, pt 2 2)),
          intPts := (pt 1 1, ⟨0, 0, 0⟩) } := by
    simp [RobustLineIntersector.ComputeIntersection,
      RobustLineIntersector.computeIntersectionResult, NewRobustLineIntersector,
      e2, h1, h2, h3, h4, a2]
  rw [r1, r2]
  exact ⟨rfl, rfl, rfl, rfl, rfl, rfl⟩

/-- The point `(1,1)` lies on both segments `(0,0)-(2,2)` and `(1,1)-(3,0)`, and
`(0,0)` does not lie on the second. -/
theorem diag_segments_meet :
    OnSegment (pt 0 0) (pt 2 2) 1 1 ∧ OnSegment (pt 1 1) (pt 3 0) 1 1 ∧
      ¬ OnSegment (pt 1 1) (pt 3 0) 0 0 := by
  refine ⟨⟨1 / 2, by norm_num, by norm_num, by norm_num [pt], by norm_num [pt]⟩,
    ⟨0, by norm_num, by norm_num, by norm_num [pt], by norm_num [pt]⟩, ?_⟩
  rintro ⟨t, h0, _, hx, _⟩
  norm_num [pt] at hx
  linarith

/-- The orientation index of `(0,0) → (4,0)` and of `(2,0) → (2,3)` at the end points
of the other segment. -/
theorem orientation_values_tee :
    OrientationIndex (pt 0 0) (pt 4 0) (pt 2 0) = 0 ∧
      OrientationIndex (pt 0 0) (pt 4 0) (pt 2 3) = 1 ∧
      OrientationIndex (pt 2 0) (pt 2 3) (pt 0 0) = 1 ∧
      OrientationIndex (pt 2 0) (pt 2 3) (pt 4 0) = -1 := by
  refine ⟨?_, ?_, ?_, ?_⟩
  · have h := OrientationIndex_pt 0 0 4 0 2 0 (by norm_num)
    push_cast at h
    rw [h]
    norm_num [cross, sgn, pt]
  · have h := OrientationIndex_pt 0 0 4 0 2 3 (by norm_num)
    push_cast at h
    rw [h]
    norm_num [cross, sgn, pt]
  · have h := OrientationIndex_pt 2 0 2 3 0 0 (by norm_num)
    push_cast at h
    rw [h]
    norm_num [cross, sgn, pt]
  · have h := OrientationIndex_pt 2 0 2 3 4 0 (by norm_num)
    push_cast at h
    rw [h]
    norm_num [cross, sgn, pt]

/-- C15: the segment `(2,0)-(2,3)` ends on the segment `(0,0)-(4,0)` in the point
`(2,0)`: the two are not collinear, they intersect, and the orientation of `(2,0)`
against `(0,0) → (4,0)` is `0`.  The intersector returns `Point`, not proper, and
reports the end point `(0,0)`, which does not lie on `(2,0)-(2,3)`. -/
theorem ComputeIntersection_wrong_endpoint :
    OrientationIndex (pt 0 0) (pt 4 0) (pt 2 0) = 0 ∧
      OrientationIndex (pt 0 0) (pt 4 0) (pt 2 3) ≠ 0 ∧
      OnSegment (pt 0 0) (pt 4 0) 2 0 ∧ OnSegment (pt 2 0) (pt 2 3) 2 0 ∧
      (NewRobustLineIntersector.ComputeIntersection
        (pt 0 0) (pt 4 0) (pt 2 0) (pt 2 3)).result = .Point ∧
      (NewRobustLineIntersector.ComputeIntersection
        (pt 0 0) (pt 4 0) (pt 2 0) (pt 2 3)).IsProper = false ∧
      (NewRobustLineIntersector.ComputeIntersection
        (pt 0 0) (pt 4 0) (pt 2 0) (pt 2 3)).reported = [pt 0 0] ∧
      ¬ OnSegment (pt 2 0) (pt 2 3) 0 0 := by
  obtain ⟨h1, h2, h3, h4⟩ := orientation_values_tee
  have e1 : EnvelopeIntersects (pt 0 0) (pt 4 0) (pt 2 0) (pt 2 3) = true := by
    rw [EnvelopeIntersects_iff]; norm_num [pt]
  have a1 : (pt 0 0).Equals2D (pt 2 0) = false := by decide
  have a2 : (pt 0 0).Equals2D (pt 2 3) = true := by decide
  have r1 : NewRobustLineIntersector.ComputeIntersection (pt 0 0) (pt 4 0) (pt 2 0) (pt 2 3)
      = { result := .Point, isProper := false,
          inputLines := ((pt 0 0, pt 4 0), (pt 2 0, pt 2 3)),
          intPts := (pt 0 0, ⟨0, 0, 0⟩) } := by
    simp [RobustLineIntersector.ComputeIntersection,
      RobustLineIntersector.computeIntersectionResult, NewRobustLineIntersector,
      e1, h1, h2, h3, h4, a1, a2]
  refine ⟨h1, by rw [h2]; decide,
    ⟨1 / 2, by norm_num, by norm_num, by norm_num [pt], by norm_num [pt]⟩,
    ⟨0, by norm_num, by norm_num, by norm_num [pt], by norm_num [pt]⟩, ?_, ?_, ?_, ?_⟩
  · rw [r1]
  · rw [r1]; rfl
  · rw [r1]; rfl
  · rintro ⟨t, _, _, hx, _⟩
    norm_num [pt] at hx

/-! ## Line intersector: collinear segments -/

/-- On a line `o + t * c` along one axis, a value lies between two others iff the
axis is constant or the parameters lie between. -/
theorem axis_between (o c s1 s2 t : ℚ) :
    (min (o + s1 * c) (o + s2 * c) ≤ o + t * c ∧ o + t * c ≤ max (o + s1 * c) (o + s2 * c)) ↔
      (c = 0 ∨ (min s1 s2 ≤ t ∧ t ≤ max s1 s2)) := by
  rcases lt_trichotomy c 0 with hc | hc | hc
  · rcases le_total s1 s2 with h | h
    · have h2 : o + s2 * c ≤ o + s1 * c := by nlinarith
      rw [min_eq_right h2, max_eq_left h2, min_eq_left h, max_eq_right h]
      constructor
      · rintro ⟨a, b⟩
        exact Or.inr ⟨by nlinarith, by nlinarith⟩
      · rintro (h0 | ⟨a, b⟩)
        · exact absurd h0 hc.ne
        · exact ⟨by nlinarith, by nlinarith⟩
    · have h2 : o + s1 * c ≤ o + s2 * c := by nlinarith
      rw [min_eq_left h2, max_eq_right h2, min_eq_right h, max_eq_left h]
      constructor
      · rintro ⟨a, b⟩
        exact Or.inr ⟨by nlinarith, by nlinarith⟩
      · rintro (h0 | ⟨a, b⟩)
        · exact absurd h0 hc.ne
        · exact ⟨by nlinarith, by nlinarith⟩
  · subst hc
    simp
  · rcases le_total s1 s2 with h | h
    · have h2 : o + s1 * c ≤ o + s2 * c := by nlinarith
      rw [min_eq_left h2, max_eq_right h2, min_eq_left h, max_eq_right h]
      constructor
      · rintro ⟨a, b⟩
        exact Or.inr ⟨by nlinarith, by nlinarith⟩
      · rintro (h0 | ⟨a, b⟩)
        · exact absurd h0 hc.ne'
        · exact ⟨by nlinarith, by nlinarith⟩
    · have h2 : o + s2 * c ≤ o + s1 * c := by nlinarith
      rw [min_eq_right h2, max_eq_left h2, min_eq_right h, max_eq_left h]
      constructor
      · rintro ⟨a, b⟩
        exact Or.inr ⟨by nlinarith, by nlinarith⟩
      · rintro (h0 | ⟨a, b⟩)
        · exact absurd h0 hc.ne'
        · exact ⟨by nlinarith, by nlinarith⟩

/-- For three points of the line `o + t * d`, `d ≠ 0`, the third lies in the bounding
box of the first two iff its parameter lies between theirs. -/
theorem InBox_on_line (ox oy dx dy s1 s2 t z1 z2 : ℚ) (hd : dx ≠ 0 ∨ dy ≠ 0) :
    InBox ⟨ox + s1 * dx, oy + s1 * dy, z1⟩ ⟨ox + s2 * dx, oy + s2 * dy, z2⟩
        (ox + t * dx) (oy + t * dy) ↔
      (min s1 s2 ≤ t ∧ t ≤ max s1 s2) := by
  unfold InBox
  simp only
  rw [← and_assoc, axis_between ox dx s1 s2 t, axis_between oy dy s1 s2 t]
  constructor
  · rintro ⟨h1, h2⟩
    rcases hd with hd | hd
    · exact h1.resolve_left hd
    · exact h2.resolve_left hd
  · intro h
    exact ⟨Or.inr h, Or.inr h⟩

set_option maxHeartbeats 1600000 in
/-- The case table of `computeCollinearIntersection` on a line, in parameters: the
segment `S` has the end parameters `s1`, `s2` with `a = min`, `b = max`, the
segment `T` has `t1`, `t2` with `c = min`, `d = max`; `lo` and `hi` bound the
overlap and `lo < hi`.  Then exactly one row of the table fires, and the two
points it selects have the parameters `lo` and `hi`. -/
theorem collinear_order_core (s1 s2 t1 t2 a b c d lo hi : ℚ)
    (hs : (s1 = a ∧ s2 = b) ∨ (s1 = b ∧ s2 = a))
    (ht : (t1 = c ∧ t2 = d) ∨ (t1 = d ∧ t2 = c))
    (h1 : a ≤ lo) (h2 : c ≤ lo) (h3 : lo = a ∨ lo = c)
    (h4 : hi ≤ b) (h5 : hi ≤ d) (h6 : hi = b ∨ hi = d) (hlt : lo < hi) :
    ((a ≤ t1 ∧ t1 ≤ b) ∧ (a ≤ t2 ∧ t2 ≤ b) ∧
        ((t1 = lo ∧ t2 = hi) ∨ (t1 = hi ∧ t2 = lo))) ∨
      (¬ ((a ≤ t1 ∧ t1 ≤ b) ∧ (a ≤ t2 ∧ t2 ≤ b)) ∧
        (c ≤ s1 ∧ s1 ≤ d) ∧ (c ≤ s2 ∧ s2 ≤ d) ∧
        ((s1 = lo ∧ s2 = hi) ∨ (s1 = hi ∧ s2 = lo))) ∨
      (¬ ((a ≤ t1 ∧ t1 ≤ b) ∧ (a ≤ t2 ∧ t2 ≤ b)) ∧
        ¬ ((c ≤ s1 ∧ s1 ≤ d) ∧ (c ≤ s2 ∧ s2 ≤ d)) ∧
        (a ≤ t1 ∧ t1 ≤ b) ∧ (c ≤ s1 ∧ s1 ≤ d) ∧
        ((t1 = lo ∧ s1 = hi) ∨ (t1 = hi ∧ s1 = lo))) ∨
      (¬ ((a ≤ t1 ∧ t1 ≤ b) ∧ (a ≤ t2 ∧ t2 ≤ b)) ∧
        ¬ ((c ≤ s1 ∧ s1 ≤ d) ∧ (c ≤ s2 ∧ s2 ≤ d)) ∧
        ¬ ((a ≤ t1 ∧ t1 ≤ b) ∧ (c ≤ s1 ∧ s1 ≤ d)) ∧
        (a ≤ t1 ∧ t1 ≤ b) ∧ (c ≤ s2 ∧ s2 ≤ d) ∧
        ((t1 = lo ∧ s2 = hi) ∨ (t1 = hi ∧ s2 = lo))) ∨
      (¬ ((a ≤ t1 ∧ t1 ≤ b) ∧ (a ≤ t2 ∧ t2 ≤ b)) ∧
        ¬ ((c ≤ s1 ∧ s1 ≤ d) ∧ (c ≤ s2 ∧ s2 ≤ d)) ∧
        ¬ ((a ≤ t1 ∧ t1 ≤ b) ∧ (c ≤ s1 ∧ s1 ≤ d)) ∧
        ¬ ((a ≤ t1 ∧ t1 ≤ b) ∧ (c ≤ s2 ∧ s2 ≤ d)) ∧
        (a ≤ t2 ∧ t2 ≤ b) ∧ (c ≤ s1 ∧ s1 ≤ d) ∧
        ((t2 = lo ∧ s1 = hi) ∨ (t2 = hi ∧ s1 = lo))) ∨
      (¬ ((a ≤ t1 ∧ t1 ≤ b) ∧ (a ≤ t2 ∧ t2 ≤ b)) ∧
        ¬ ((c ≤ s1 ∧ s1 ≤ d) ∧ (c ≤ s2 ∧ s2 ≤ d)) ∧
        ¬ ((a ≤ t1 ∧ t1 ≤ b) ∧ (c ≤ s1 ∧ s1 ≤ d)) ∧
        ¬ ((a ≤ t1 ∧ t1 ≤ b) ∧ (c ≤ s2 ∧ s2 ≤ d)) ∧
        ¬ ((a ≤ t2 ∧ t2 ≤ b) ∧ (c ≤ s1 ∧ s1 ≤ d)) ∧
        (a ≤ t2 ∧ t2 ≤ b) ∧ (c ≤ s2 ∧ s2 ≤ d) ∧
        ((t2 = lo ∧ s2 = hi) ∨ (t2 = hi ∧ s2 = lo))) := by
  have hlo : (a < c ∧ lo = c) ∨ (a = c ∧ lo = c) ∨ (c < a ∧ lo = a) := by
    rcases lt_trichotomy a c with u | u | u
    · exact Or.inl ⟨u, h3.resolve_left (by intro h; linarith)⟩
    · exact Or.inr (Or.inl ⟨u, by rcases h3 with h | h <;> linarith⟩)
    · exact Or.inr (Or.inr ⟨u, h3.resolve_right (by intro h; linarith)⟩)
  have hhi : (b < d ∧ hi = b) ∨ (b = d ∧ hi = b) ∨ (d < b ∧ hi = d) := by
    rcases lt_trichotomy b d with v | v | v
    · exact Or.inl ⟨v, h6.resolve_right (by intro h; linarith)⟩
    · exact Or.inr (Or.inl ⟨v, by rcases h6 with h | h <;> linarith⟩)
    · exact Or.inr (Or.inr ⟨v, h6.resolve_left (by intro h; linarith)⟩)
  clear h1 h2 h3 h4 h5 h6
  rcases hlo with ⟨u, rfl⟩ | ⟨u, rfl⟩ | ⟨u, rfl⟩ <;>
    rcases hhi with ⟨v, rfl⟩ | ⟨v, rfl⟩ | ⟨v, rfl⟩ <;>
    rcases hs with ⟨rfl, rfl⟩ | ⟨rfl, rfl⟩ <;> rcases ht with ⟨rfl, rfl⟩ | ⟨rfl, rfl⟩ <;>
    first
    | exact Or.inl ⟨⟨by linarith, by linarith⟩, ⟨by linarith, by linarith⟩,
        by first | exact Or.inl ⟨by linarith, by linarith⟩
                 | exact Or.inr ⟨by linarith, by linarith⟩⟩
    | exact Or.inr (Or.inl ⟨fun h => by linarith [h.1.1, h.1.2, h.2.1, h.2.2],
        ⟨by linarith, by linarith⟩, ⟨by linarith, by linarith⟩,
        by first | exact Or.inl ⟨by linarith, by linarith⟩
                 | exact Or.inr ⟨by linarith, by linarith⟩⟩)
    | exact Or.inr (Or.inr (Or.inl ⟨fun h => by linarith [h.1.1, h.1.2, h.2.1, h.2.2],
        fun h => by linarith [h.1.1, h.1.2, h.2.1, h.2.2],
        ⟨by linarith, by linarith⟩, ⟨by linarith, by linarith⟩,
        by first | exact Or.inl ⟨by linarith, by linarith⟩
                 | exact Or.inr ⟨by linarith, by linarith⟩⟩))
    | exact Or.inr (Or.inr (Or.inr (Or.inl ⟨
        fun h => by linarith [h.1.1, h.1.2, h.2.1, h.2.2],
        fun h => by linarith [h.1.1, h.1.2, h.2.1, h.2.2],
        fun h => by linarith [h.1.1, h.1.2, h.2.1, h.2.2],
        ⟨by linarith, by linarith⟩, ⟨by linarith, by linarith⟩,
        by first | exact Or.inl ⟨by linarith, by linarith⟩
                 | exact Or.inr ⟨by linarith, by linarith⟩⟩)))
    | exact Or.inr (Or.inr (Or.inr (Or.inr (Or.inl ⟨
        fun h => by linarith [h.1.1, h.1.2, h.2.1, h.2.2],
        fun h => by linarith [h.1.1, h.1.2, h.2.1, h.2.2],
        fun h => by linarith [h.1.1, h.1.2, h.2.1, h.2.2],
        fun h => by linarith [h.1.1, h.1.2, h.2.1, h.2.2],
        ⟨by linarith, by linarith⟩, ⟨by linarith, by linarith⟩,
        by first | exact Or.inl ⟨by linarith, by linarith⟩
                 | exact Or.inr ⟨by linarith, by linarith⟩⟩))))
    | exact Or.inr (Or.inr (Or.inr (Or.inr (Or.inr ⟨
        fun h => by linarith [h.1.1, h.1.2, h.2.1, h.2.2],
        fun h => by linarith [h.1.1, h.1.2, h.2.1, h.2.2],
        fun h => by linarith [h.1.1, h.1.2, h.2.1, h.2.2],
        fun h => by linarith [h.1.1, h.1.2, h.2.1, h.2.2],
        fun h => by linarith [h.1.1, h.1.2, h.2.1, h.2.2],
        ⟨by linarith, by linarith⟩, ⟨by linarith, by linarith⟩,
        by first | exact Or.inl ⟨by linarith, by linarith⟩
                 | exact Or.inr ⟨by linarith, by linarith⟩⟩))))

/-- Two points of a line `o + t * d`, `d ≠ 0`, with different parameters are not
`Equals`. -/
theorem Equals_on_line_false (ox oy dx dy a b z1 z2 : ℚ) (hd : dx ≠ 0 ∨ dy ≠ 0)
    (hab : a ≠ b) :
    Coordinate.Equals ⟨ox + a * dx, oy + a * dy, z1⟩ ⟨ox + b * dx, oy + b * dy, z2⟩
      = false := by
  rw [← Bool.not_eq_true]
  intro h
  simp only [Coordinate.Equals, Bool.and_eq_true, beq_iff_eq] at h
  obtain ⟨⟨hx, hy⟩, _⟩ := h
  have hx2 : (a - b) * dx = 0 := by linarith
  have hy2 : (a - b) * dy = 0 := by linarith
  have hne : a - b ≠ 0 := sub_ne_zero.mpr hab
  rcases hd with hd | hd
  · exact hd ((mul_eq_zero.mp hx2).resolve_left hne)
  · exact hd ((mul_eq_zero.mp hy2).resolve_left hne)

/-- The point test of an envelope on three points of a line is the betweenness of
the parameters. -/
theorem EnvelopeIntersectsPoint_on_line (ox oy dx dy s1 s2 t z1 z2 z3 : ℚ)
    (hd : dx ≠ 0 ∨ dy ≠ 0) :
    EnvelopeIntersectsPoint ⟨ox + s1 * dx, oy + s1 * dy, z1⟩
        ⟨ox + s2 * dx, oy + s2 * dy, z2⟩ ⟨ox + t * dx, oy + t * dy, z3⟩ = true ↔
      (min s1 s2 ≤ t ∧ t ≤ max s1 s2) := by
  rw [EnvelopeIntersectsPoint_iff]
  exact InBox_on_line ox oy dx dy s1 s2 t z1 z2 hd

/-- Two distinct numbers among `lo < hi` taken in either order. -/
theorem pair_ne (u v lo hi : ℚ) (hlt : lo < hi)
    (h : (u = lo ∧ v = hi) ∨ (u = hi ∧ v = lo)) : u ≠ v := by
  rcases h with ⟨rfl, rfl⟩ | ⟨rfl, rfl⟩
  · exact ne_of_lt hlt
  · exact ne_of_gt hlt

/-- On four points of a line `o + t * d`, `d ≠ 0`, whose parameter intervals overlap
in `[lo, hi]` with `lo < hi`, `computeCollinearIntersection` answers `Collinear`
and stores two of the four points, those of parameters `lo` and `hi`. -/
theorem computeCollinearIntersection_on_line (rli : RobustLineIntersector)
    (ox oy dx dy s1 s2 t1 t2 z1 z2 z3 z4 : ℚ) (hd : dx ≠ 0 ∨ dy ≠ 0)
    (hlt : max (min s1 s2) (min t1 t2) < min (max s1 s2) (max t1 t2)) :
    ∃ u v zu zv : ℚ,
      rli.computeCollinearIntersection ⟨ox + s1 * dx, oy + s1 * dy, z1⟩
          ⟨ox + s2 * dx, oy + s2 * dy, z2⟩ ⟨ox + t1 * dx, oy + t1 * dy, z3⟩
          ⟨ox + t2 * dx, oy + t2 * dy, z4⟩
        = { rli with
            intPts := (⟨ox + u * dx, oy + u * dy, zu⟩, ⟨ox + v * dx, oy + v * dy, zv⟩),
            result := .Collinear } ∧
      ((u = max (min s1 s2) (min t1 t2) ∧ v = min (max s1 s2) (max t1 t2)) ∨
        (u = min (max s1 s2) (max t1 t2) ∧ v = max (min s1 s2) (min t1 t2))) := by
  have hb1 := EnvelopeIntersectsPoint_on_line ox oy dx dy s1 s2 t1 z1 z2 z3 hd
  have hb2 := EnvelopeIntersectsPoint_on_line ox oy dx dy s1 s2 t2 z1 z2 z4 hd
  have hb3 := EnvelopeIntersectsPoint_on_line ox oy dx dy t1 t2 s1 z3 z4 z1 hd
  have hb4 := EnvelopeIntersectsPoint_on_line ox oy dx dy t1 t2 s2 z3 z4 z2 hd
  have hs : (s1 = min s1 s2 ∧ s2 = max s1 s2) ∨ (s1 = max s1 s2 ∧ s2 = min s1 s2) := by
    rcases le_total s1 s2 with h | h
    · exact Or.inl ⟨(min_eq_left h).symm, (max_eq_right h).symm⟩
    · exact Or.inr ⟨(max_eq_left h).symm, (min_eq_right h).symm⟩
  have ht : (t1 = min t1 t2 ∧ t2 = max t1 t2) ∨ (t1 = max t1 t2 ∧ t2 = min t1 t2) := by
    rcases le_total t1 t2 with h | h
    · exact Or.inl ⟨(min_eq_left h).symm, (max_eq_right h).symm⟩
    · exact Or.inr ⟨(max_eq_left h).symm, (min_eq_right h).symm⟩
  have table := collinear_order_core s1 s2 t1 t2 (min s1 s2) (max s1 s2) (min t1 t2)
    (max t1 t2) (max (min s1 s2) (min t1 t2)) (min (max s1 s2) (max t1 t2)) hs ht
    (le_max_left _ _) (le_max_right _ _) (max_choice _ _)
    (min_le_left _ _) (min_le_right _ _) (min_choice _ _) hlt
  simp only [RobustLineIntersector.computeCollinearIntersection, Bool.and_eq_true,
    hb1, hb2, hb3, hb4]
  rcases table with ⟨f1, f2, hp⟩ | ⟨n1, f3, f4, hp⟩ | ⟨n1, n2, f1, f3, hp⟩ |
    ⟨n1, n2, n3, f1, f4, hp⟩ | ⟨n1, n2, n3, n4, f2, f3, hp⟩ |
    ⟨n1, n2, n3, n4, n5, f2, f4, hp⟩
  · rw [if_pos ⟨f1, f2⟩]
    exact ⟨t1, t2, z3, z4, rfl, hp⟩
  · rw [if_neg n1, if_pos ⟨f3, f4⟩]
    exact ⟨s1, s2, z1, z2, rfl, hp⟩
  · have he := Equals_on_line_false ox oy dx dy t1 s1 z3 z1 hd (pair_ne _ _ _ _ hlt hp)
    rw [if_neg n1, if_neg n2, if_pos ⟨f1, f3⟩, if_neg (by rw [he]; simp)]
    exact ⟨t1, s1, z3, z1, rfl, hp⟩
  · have he := Equals_on_line_false ox oy dx dy t1 s2 z3 z2 hd (pair_ne _ _ _ _ hlt hp)
    rw [if_neg n1, if_neg n2, if_neg n3, if_pos ⟨f1, f4⟩, if_neg (by rw [he]; simp)]
    exact ⟨t1, s2, z3, z2, rfl, hp⟩
  · have he := Equals_on_line_false ox oy dx dy t2 s1 z4 z1 hd (pair_ne _ _ _ _ hlt hp)
    rw [if_neg n1, if_neg n2, if_neg n3, if_neg n4, if_pos ⟨f2, f3⟩,
      if_neg (by rw [he]; simp)]
    exact ⟨t2, s1, z4, z1, rfl, hp⟩
  · have he := Equals_on_line_false ox oy dx dy t2 s2 z4 z2 hd (pair_ne _ _ _ _ hlt hp)
    rw [if_neg n1, if_neg n2, if_neg n3, if_neg n4, if_neg n5, if_pos ⟨f2, f4⟩,
      if_neg (by rw [he]; simp)]
    exact ⟨t2, s2, z4, z2, rfl, hp⟩

/-- On four points of a line whose parameter intervals overlap in `[lo, hi]` with
`lo < hi`, and on which the four calls of `OrientationIndex` answer `0`,
`computeIntersectionResult` answers `Collinear`, not proper, and reports two of
the four points, those of parameters `lo` and `hi`. -/
theorem computeIntersectionResult_on_line (rli : RobustLineIntersector)
    (ox oy dx dy s1 s2 t1 t2 z1 z2 z3 z4 : ℚ) (hd : dx ≠ 0 ∨ dy ≠ 0)
    (hlt : max (min s1 s2) (min t1 t2) < min (max s1 s2) (max t1 t2))
    (ho1 : OrientationIndex ⟨ox + s1 * dx, oy + s1 * dy, z1⟩ ⟨ox + s2 * dx, oy + s2 * dy, z2⟩
      ⟨ox + t1 * dx, oy + t1 * dy, z3⟩ = 0)
    (ho2 : OrientationIndex ⟨ox + s1 * dx, oy + s1 * dy, z1⟩ ⟨ox + s2 * dx, oy + s2 * dy, z2⟩
      ⟨ox + t2 * dx, oy + t2 * dy, z4⟩ = 0)
    (ho3 : OrientationIndex ⟨ox + t1 * dx, oy + t1 * dy, z3⟩ ⟨ox + t2 * dx, oy + t2 * dy, z4⟩
      ⟨ox + s1 * dx, oy + s1 * dy, z1⟩ = 0)
    (ho4 : OrientationIndex ⟨ox + t1 * dx, oy + t1 * dy, z3⟩ ⟨ox + t2 * dx, oy + t2 * dy, z4⟩
      ⟨ox + s2 * dx, oy + s2 * dy, z2⟩ = 0) :
    ∃ u v zu zv : ℚ,
      rli.computeIntersectionResult ⟨ox + s1 * dx, oy + s1 * dy, z1⟩
          ⟨ox + s2 * dx, oy + s2 * dy, z2⟩ ⟨ox + t1 * dx, oy + t1 * dy, z3⟩
          ⟨ox + t2 * dx, oy + t2 * dy, z4⟩
        = { rli with
            isProper := false,
            intPts := (⟨ox + u * dx, oy + u * dy, zu⟩, ⟨ox + v * dx, oy + v * dy, zv⟩),
            result := .Collinear } ∧
      ((u = max (min s1 s2) (min t1 t2) ∧ v = min (max s1 s2) (max t1 t2)) ∨
        (u = min (max s1 s2) (max t1 t2) ∧ v = max (min s1 s2) (min t1 t2))) := by
  have hlo1 : min s1 s2 ≤ max (min s1 s2) (min t1 t2) := le_max_left _ _
  have hlo2 : min t1 t2 ≤ max (min s1 s2) (min t1 t2) := le_max_right _ _
  have hhi1 : min (max s1 s2) (max t1 t2) ≤ max s1 s2 := min_le_left _ _
  have hhi2 : min (max s1 s2) (max t1 t2) ≤ max t1 t2 := min_le_right _ _
  have he : EnvelopeIntersects ⟨ox + s1 * dx, oy + s1 * dy, z1⟩
      ⟨ox + s2 * dx, oy + s2 * dy, z2⟩ ⟨ox + t1 * dx, oy + t1 * dy, z3⟩
      ⟨ox + t2 * dx, oy + t2 * dy, z4⟩ = true := by
    rw [EnvelopeIntersects_iff_common_point]
    refine ⟨ox + max (min s1 s2) (min t1 t2) * dx, oy + max (min s1 s2) (min t1 t2) * dy,
      ?_, ?_⟩
    · exact (InBox_on_line ox oy dx dy s1 s2 _ z1 z2 hd).mpr ⟨hlo1, by linarith⟩
    · exact (InBox_on_line ox oy dx dy t1 t2 _ z3 z4 hd).mpr ⟨hlo2, by linarith⟩
  obtain ⟨u, v, zu, zv, hr, hp⟩ := computeCollinearIntersection_on_line
    { rli with isProper := false } ox oy dx dy s1 s2 t1 t2 z1 z2 z3 z4 hd hlt
  refine ⟨u, v, zu, zv, ?_, hp⟩
  rw [← hr]
  simp only [RobustLineIntersector.computeIntersectionResult, he, ho1, ho2, ho3, ho4]
  simp

/-- On a line `o + t * d`, `d ≠ 0`, a point has one parameter only. -/
theorem param_unique (ox oy dx dy t t2 : ℚ) (hd : dx ≠ 0 ∨ dy ≠ 0)
    (hx : ox + t * dx = ox + t2 * dx) (hy : oy + t * dy = oy + t2 * dy) : t = t2 := by
  have hx2 : (t - t2) * dx = 0 := by linarith
  have hy2 : (t - t2) * dy = 0 := by linarith
  by_contra hne
  have hne2 : t - t2 ≠ 0 := sub_ne_zero.mpr hne
  rcases hd with hd | hd
  · exact hd ((mul_eq_zero.mp hx2).resolve_left hne2)
  · exact hd ((mul_eq_zero.mp hy2).resolve_left hne2)

/-- The points of a segment of the line `o + t * d` are those whose parameter lies
between the parameters of its end points. -/
theorem OnSegment_on_line (ox oy dx dy t1 t2 z1 z2 x y : ℚ) :
    OnSegment ⟨ox + t1 * dx, oy + t1 * dy, z1⟩ ⟨ox + t2 * dx, oy + t2 * dy, z2⟩ x y ↔
      ∃ t : ℚ, min t1 t2 ≤ t ∧ t ≤ max t1 t2 ∧ x = ox + t * dx ∧ y = oy + t * dy := by
  unfold OnSegment
  simp only
  constructor
  · rintro ⟨u, hu0, hu1, hx, hy⟩
    refine ⟨t1 + u * (t2 - t1), ?_, ?_, by rw [hx]; ring, by rw [hy]; ring⟩
    · rcases le_total t1 t2 with h | h
      · rw [min_eq_left h]
        have := mul_nonneg hu0 (sub_nonneg.mpr h)
        linarith
      · rw [min_eq_right h]
        have := mul_nonneg (sub_nonneg.mpr hu1) (sub_nonneg.mpr h)
        linarith
    · rcases le_total t1 t2 with h | h
      · rw [max_eq_right h]
        have := mul_nonneg (sub_nonneg.mpr hu1) (sub_nonneg.mpr h)
        linarith
      · rw [max_eq_left h]
        have := mul_nonneg hu0 (sub_nonneg.mpr h)
        linarith
  · rintro ⟨t, h1, h2, hx, hy⟩
    rcases lt_trichotomy t1 t2 with h | h | h
    · rw [min_eq_left h.le] at h1
      rw [max_eq_right h.le] at h2
      have hpos : 0 < t2 - t1 := sub_pos.mpr h
      have hu : (t - t1) / (t2 - t1) * (t2 - t1) = t - t1 := div_mul_cancel₀ _ hpos.ne'
      refine ⟨(t - t1) / (t2 - t1), div_nonneg (sub_nonneg.mpr h1) hpos.le,
        (div_le_one hpos).mpr (by linarith), ?_, ?_⟩
      · rw [hx]; linear_combination (-dx) * hu
      · rw [hy]; linear_combination (-dy) * hu
    · subst h
      rw [min_self] at h1
      rw [max_self] at h2
      have ht : t = t1 := le_antisymm h2 h1
      subst ht
      exact ⟨0, le_refl _, zero_le_one, by rw [hx]; ring, by rw [hy]; ring⟩
    · rw [min_eq_right h.le] at h1
      rw [max_eq_left h.le] at h2
      have hpos : 0 < t1 - t2 := sub_pos.mpr h
      have hu : (t1 - t) / (t1 - t2) * (t1 - t2) = t1 - t := div_mul_cancel₀ _ hpos.ne'
      refine ⟨(t1 - t) / (t1 - t2), div_nonneg (sub_nonneg.mpr h2) hpos.le,
        (div_le_one hpos).mpr (by linarith), ?_, ?_⟩
      · rw [hx]; linear_combination (dx) * hu
      · rw [hy]; linear_combination (dy) * hu

/-- A point whose cross product against `p1 → p2` is zero lies on the line through
`p1` and `p2`, when these differ. -/
theorem on_line_of_cross_zero (p1 p2 q : Coordinate)
    (hd : p2.X - p1.X ≠ 0 ∨ p2.Y - p1.Y ≠ 0) (hc : cross p1 p2 q = 0) :
    ∃ t : ℚ, q.X = p1.X + t * (p2.X - p1.X) ∧ q.Y = p1.Y + t * (p2.Y - p1.Y) := by
  have hN : (p2.X - p1.X) * (p2.X - p1.X) + (p2.Y - p1.Y) * (p2.Y - p1.Y) ≠ 0 := by
    intro h
    have h1 := mul_self_nonneg (p2.X - p1.X)
    have h2 := mul_self_nonneg (p2.Y - p1.Y)
    have e1 : (p2.X - p1.X) * (p2.X - p1.X) = 0 := by linarith
    have e2 : (p2.Y - p1.Y) * (p2.Y - p1.Y) = 0 := by linarith
    rcases hd with hd | hd
    · exact hd (mul_self_eq_zero.mp e1)
    · exact hd (mul_self_eq_zero.mp e2)
  unfold cross at hc
  refine ⟨((q.X - p1.X) * (p2.X - p1.X) + (q.Y - p1.Y) * (p2.Y - p1.Y)) /
    ((p2.X - p1.X) * (p2.X - p1.X) + (p2.Y - p1.Y) * (p2.Y - p1.Y)), ?_, ?_⟩
  · field_simp
    linear_combination (-(p2.Y - p1.Y)) * hc
  · field_simp
    linear_combination (p2.X - p1.X) * hc

/-- A coordinate is determined by its three fields. -/
theorem Coordinate_eta (c : Coordinate) (x y : ℚ) (hx : c.X = x) (hy : c.Y = y) :
    c = ⟨x, y, c.Z⟩ := by
  cases c
  simp only at hx hy
  subst hx hy
  rfl

/-- Collinear overlapping segments on which `OrientationIndex` is right: for all
segments `p1p2` and `q1q2` that are collinear (`q1` and `q2` lie on the line through
`p1` and `p2`), whose common points are the points of a segment from `A` to `B`
with `A ≠ B`, and on which the four calls of `OrientationIndex` answer `0`, the
line intersector returns `Collinear` and the two points it reports are `A` and
`B`, in one order or the other. -/
theorem computeIntersectionResult_collinear_of_orientation (rli : RobustLineIntersector)
    (p1 p2 q1 q2 A B : Coordinate)
    (hc1 : cross p1 p2 q1 = 0) (hc2 : cross p1 p2 q2 = 0)
    (hAB : A.X ≠ B.X ∨ A.Y ≠ B.Y)
    (hshared : ∀ x y : ℚ,
      (OnSegment p1 p2 x y ∧ OnSegment q1 q2 x y) ↔ OnSegment A B x y)
    (ho1 : OrientationIndex p1 p2 q1 = 0) (ho2 : OrientationIndex p1 p2 q2 = 0)
    (ho3 : OrientationIndex q1 q2 p1 = 0) (ho4 : OrientationIndex q1 q2 p2 = 0) :
    (rli.computeIntersectionResult p1 p2 q1 q2).result = .Collinear ∧
      ∃ c1 c2 : Coordinate,
        (rli.computeIntersectionResult p1 p2 q1 q2).reported = [c1, c2] ∧
        ((c1.X = A.X ∧ c1.Y = A.Y ∧ c2.X = B.X ∧ c2.Y = B.Y) ∨
          (c1.X = B.X ∧ c1.Y = B.Y ∧ c2.X = A.X ∧ c2.Y = A.Y)) := by
  have hA : OnSegment A B A.X A.Y := ⟨0, le_refl _, zero_le_one, by ring, by ring⟩
  have hB : OnSegment A B B.X B.Y := ⟨1, zero_le_one, le_refl _, by ring, by ring⟩
  -- the first segment is not a single point
  have hd : p2.X - p1.X ≠ 0 ∨ p2.Y - p1.Y ≠ 0 := by
    by_contra hn
    push_neg at hn
    obtain ⟨hx, hy⟩ := hn
    obtain ⟨⟨t, _, _, ax, ay⟩, _⟩ := (hshared _ _).mpr hA
    obtain ⟨⟨t2, _, _, bx, by2⟩, _⟩ := (hshared _ _).mpr hB
    rw [hx, mul_zero, add_zero] at ax bx
    rw [hy, mul_zero, add_zero] at ay by2
    rcases hAB with h | h
    · exact h (ax.trans bx.symm)
    · exact h (ay.trans by2.symm)
  -- parameters on the line through `p1` and `p2`
  obtain ⟨t1, hq1x, hq1y⟩ := on_line_of_cross_zero p1 p2 q1 hd hc1
  obtain ⟨t2, hq2x, hq2y⟩ := on_line_of_cross_zero p1 p2 q2 hd hc2
  have e1 : p1 = ⟨p1.X + 0 * (p2.X - p1.X), p1.Y + 0 * (p2.Y - p1.Y), p1.Z⟩ :=
    Coordinate_eta p1 _ _ (by ring) (by ring)
  have e2 : p2 = ⟨p1.X + 1 * (p2.X - p1.X), p1.Y + 1 * (p2.Y - p1.Y), p2.Z⟩ :=
    Coordinate_eta p2 _ _ (by ring) (by ring)
  have e3 : q1 = ⟨p1.X + t1 * (p2.X - p1.X), p1.Y + t1 * (p2.Y - p1.Y), q1.Z⟩ :=
    Coordinate_eta q1 _ _ hq1x hq1y
  have e4 : q2 = ⟨p1.X + t2 * (p2.X - p1.X), p1.Y + t2 * (p2.Y - p1.Y), q2.Z⟩ :=
    Coordinate_eta q2 _ _ hq2x hq2y
  have hP : ∀ x y : ℚ, OnSegment p1 p2 x y ↔ ∃ t : ℚ, min 0 1 ≤ t ∧ t ≤ max 0 1 ∧
      x = p1.X + t * (p2.X - p1.X) ∧ y = p1.Y + t * (p2.Y - p1.Y) := by
    intro x y
    have h := OnSegment_on_line p1.X p1.Y (p2.X - p1.X) (p2.Y - p1.Y) 0 1 p1.Z p2.Z x y
    rwa [← e1, ← e2] at h
  have hQ : ∀ x y : ℚ, OnSegment q1 q2 x y ↔ ∃ t : ℚ, min t1 t2 ≤ t ∧ t ≤ max t1 t2 ∧
      x = p1.X + t * (p2.X - p1.X) ∧ y = p1.Y + t * (p2.Y - p1.Y) := by
    intro x y
    have h := OnSegment_on_line p1.X p1.Y (p2.X - p1.X) (p2.Y - p1.Y) t1 t2 q1.Z q2.Z x y
    rwa [← e3, ← e4] at h
  obtain ⟨lo, hlo⟩ : ∃ lo, lo = max (min 0 1) (min t1 t2) := ⟨_, rfl⟩
  obtain ⟨hi, hhi⟩ : ∃ hi, hi = min (max 0 1) (max t1 t2) := ⟨_, rfl⟩
  -- the common points, by parameter
  have hI : ∀ x y : ℚ, OnSegment A B x y ↔ ∃ t : ℚ, lo ≤ t ∧ t ≤ hi ∧
      x = p1.X + t * (p2.X - p1.X) ∧ y = p1.Y + t * (p2.Y - p1.Y) := by
    intro x y
    rw [← hshared, hP, hQ, hlo, hhi]
    constructor
    · rintro ⟨⟨t, a1, a2, ax, ay⟩, ⟨t3, b1, b2, bx, by2⟩⟩
      have ht : t = t3 := param_unique p1.X p1.Y _ _ t t3 hd (ax.symm.trans bx)
        (ay.symm.trans by2)
      subst ht
      exact ⟨t, max_le a1 b1, le_min a2 b2, ax, ay⟩
    · rintro ⟨t, h1, h2, hx, hy⟩
      exact ⟨⟨t, (le_max_left _ _).trans h1, h2.trans (min_le_left _ _), hx, hy⟩,
        ⟨t, (le_max_right _ _).trans h1, h2.trans (min_le_right _ _), hx, hy⟩⟩
  obtain ⟨α, ha1, ha2, hax, hay⟩ := (hI _ _).mp hA
  obtain ⟨β, hb1, hb2, hbx, hby⟩ := (hI _ _).mp hB
  have hαβ : α ≠ β := by
    rintro rfl
    rcases hAB with h | h
    · exact h (hax.trans hbx.symm)
    · exact h (hay.trans hby.symm)
  obtain ⟨u, hu0, hu1, hux, huy⟩ :=
    (hI (p1.X + lo * (p2.X - p1.X)) (p1.Y + lo * (p2.Y - p1.Y))).mpr
      ⟨lo, le_refl _, ha1.trans ha2, rfl, rfl⟩
  obtain ⟨w, hw0, hw1, hwx, hwy⟩ :=
    (hI (p1.X + hi * (p2.X - p1.X)) (p1.Y + hi * (p2.Y - p1.Y))).mpr
      ⟨hi, ha1.trans ha2, le_refl _, rfl, rfl⟩
  have hlo_eq : lo = α + u * (β - α) :=
    param_unique p1.X p1.Y _ _ lo _ hd (by rw [hux, hax, hbx]; ring)
      (by rw [huy, hay, hby]; ring)
  have hhi_eq : hi = α + w * (β - α) :=
    param_unique p1.X p1.Y _ _ hi _ hd (by rw [hwx, hax, hbx]; ring)
      (by rw [hwy, hay, hby]; ring)
  -- `lo` and `hi` are the parameters of `A` and `B`
  have hends : (lo = α ∧ hi = β) ∨ (lo = β ∧ hi = α) := by
    rcases lt_or_gt_of_ne hαβ with h | h
    · left
      have k1 := mul_nonneg hu0 (sub_nonneg.mpr h.le)
      have k2 := mul_nonneg (sub_nonneg.mpr hw1) (sub_nonneg.mpr h.le)
      exact ⟨le_antisymm ha1 (by linarith), le_antisymm (by linarith) hb2⟩
    · right
      have k1 := mul_nonneg (sub_nonneg.mpr hu1) (sub_nonneg.mpr h.le)
      have k2 := mul_nonneg hw0 (sub_nonneg.mpr h.le)
      exact ⟨le_antisymm hb1 (by linarith), le_antisymm (by linarith) ha2⟩
  have hlt : lo < hi := by
    rcases hends with ⟨r1, r2⟩ | ⟨r1, r2⟩ <;> rcases lt_or_gt_of_ne hαβ with h | h <;>
      linarith
  rw [hlo, hhi] at hlt
  obtain ⟨a, b, za, zb, hr, hp⟩ := computeIntersectionResult_on_line rli p1.X p1.Y
    (p2.X - p1.X) (p2.Y - p1.Y) 0 1 t1 t2 p1.Z p2.Z q1.Z q2.Z hd hlt
    (by rw [← e1, ← e2, ← e3]; exact ho1) (by rw [← e1, ← e2, ← e4]; exact ho2)
    (by rw [← e1, ← e3, ← e4]; exact ho3) (by rw [← e2, ← e3, ← e4]; exact ho4)
  rw [← e1, ← e2, ← e3, ← e4] at hr
  rw [← hlo, ← hhi] at hp
  rw [hr]
  refine ⟨rfl, _, _, rfl, ?_⟩
  simp only
  rcases hp with ⟨rfl, rfl⟩ | ⟨rfl, rfl⟩ <;> rcases hends with ⟨r1, r2⟩ | ⟨r1, r2⟩
  · left; rw [hax, hay, hbx, hby, r1, r2]; exact ⟨rfl, rfl, rfl, rfl⟩
  · right; rw [hax, hay, hbx, hby, r1, r2]; exact ⟨rfl, rfl, rfl, rfl⟩
  · right; rw [hax, hay, hbx, hby, r1, r2]; exact ⟨rfl, rfl, rfl, rfl⟩
  · left; rw [hax, hay, hbx, hby, r1, r2]; exact ⟨rfl, rfl, rfl, rfl⟩

/-- The points of a horizontal segment on the X axis. -/
theorem OnSegment_horizontal (a b x y : ℚ) (hab : a < b) :
    OnSegment (pt a 0) (pt b 0) x y ↔ (y = 0 ∧ a ≤ x ∧ x ≤ b) := by
  unfold OnSegment pt
  simp only [sub_self, mul_zero, add_zero]
  have hpos : 0 < b - a := sub_pos.mpr hab
  constructor
  · rintro ⟨t, h0, h1, hx, hy⟩
    have k1 := mul_nonneg h0 hpos.le
    have k2 := mul_nonneg (sub_nonneg.mpr h1) hpos.le
    exact ⟨hy, by linarith, by linarith⟩
  · rintro ⟨hy, h1, h2⟩
    have hu : (x - a) / (b - a) * (b - a) = x - a := div_mul_cancel₀ _ hpos.ne'
    exact ⟨(x - a) / (b - a), div_nonneg (sub_nonneg.mpr h1) hpos.le,
      (div_le_one hpos).mpr (by linarith), by linarith, hy⟩

/-- The segments `(0,0)-(2,0)` and `(1,0)-(3,0)`, which share the segment from
`(1,0)` to `(2,0)`: the intersector returns `Collinear` and reports `(1,0)` and
`(2,0)`. -/
theorem computeIntersectionResult_collinear_example :
    (NewRobustLineIntersector.computeIntersectionResult
        (pt 0 0) (pt 2 0) (pt 1 0) (pt 3 0)).result = .Collinear ∧
      ∃ c1 c2 : Coordinate,
        (NewRobustLineIntersector.computeIntersectionResult
          (pt 0 0) (pt 2 0) (pt 1 0) (pt 3 0)).reported = [c1, c2] ∧
        ((c1.X = (pt 1 0).X ∧ c1.Y = (pt 1 0).Y ∧ c2.X = (pt 2 0).X ∧ c2.Y = (pt 2 0).Y) ∨
          (c1.X = (pt 2 0).X ∧ c1.Y = (pt 2 0).Y ∧ c2.X = (pt 1 0).X ∧ c2.Y = (pt 1 0).Y)) :=
  computeIntersectionResult_collinear_of_orientation NewRobustLineIntersector
    (pt 0 0) (pt 2 0) (pt 1 0) (pt 3 0) (pt 1 0) (pt 2 0)
    (by norm_num [cross, pt]) (by norm_num [cross, pt]) (Or.inl (by norm_num [pt]))
    (by
      intro x y
      rw [OnSegment_horizontal 0 2 x y (by norm_num), OnSegment_horizontal 1 3 x y (by norm_num),
        OnSegment_horizontal 1 2 x y (by norm_num)]
      constructor
      · rintro ⟨⟨hy, h1, h2⟩, ⟨_, h3, h4⟩⟩
        exact ⟨hy, h3, h2⟩
      · rintro ⟨hy, h1, h2⟩
        exact ⟨⟨hy, by linarith, h2⟩, ⟨hy, h1, by linarith⟩⟩)
    (by
      have h := OrientationIndex_pt 0 0 2 0 1 0 (by norm_num)
      push_cast at h
      rw [h]
      norm_num [cross, sgn, pt])
    (by
      have h := OrientationIndex_pt 0 0 2 0 3 0 (by norm_num)
      push_cast at h
      rw [h]
      norm_num [cross, sgn, pt])
    (by
      have h := OrientationIndex_pt 1 0 3 0 0 0 (by norm_num)
      push_cast at h
      rw [h]
      norm_num [cross, sgn, pt])
    (by
      have h := OrientationIndex_pt 1 0 3 0 2 0 (by norm_num)
      push_cast at h
      rw [h]
      norm_num [cross, sgn, pt])

/-- C14: the segments `p1p2` from `(6,20)` to `(6755399441055726, 20266198323167180)`
and `q1q2` from `(21,65)` to `(36,110)` are collinear (both cross products of `q1`
and `q2` against `p1 → p2` are `0`) and overlap in the whole of `q1q2`, a segment of
positive length; the line intersector returns `None` and reports no point, not
`Collinear` with `q1` and `q2`: `OrientationIndex p1 p2 q1` and
`OrientationIndex p1 p2 q2` are both `-1`, the `big.Float` variables rounding
`q.Y - p2.Y` at precision 53. -/
theorem computeIntersectionResult_collinear_overlap_missed :
    cross (pt 6 20) (pt 6755399441055726 20266198323167180) (pt 21 65) = 0 ∧
      cross (pt 6 20) (pt 6755399441055726 20266198323167180) (pt 36 110) = 0 ∧
      (∀ x y : ℚ,
        (OnSegment (pt 6 20) (pt 6755399441055726 20266198323167180) x y ∧
          OnSegment (pt 21 65) (pt 36 110) x y) ↔ OnSegment (pt 21 65) (pt 36 110) x y) ∧
      (pt 21 65).X ≠ (pt 36 110).X ∧
      OrientationIndex (pt 6 20) (pt 6755399441055726 20266198323167180) (pt 21 65) = -1 ∧
      OrientationIndex (pt 6 20) (pt 6755399441055726 20266198323167180) (pt 36 110) = -1 ∧
      (NewRobustLineIntersector.computeIntersectionResult (pt 6 20)
        (pt 6755399441055726 20266198323167180) (pt 21 65) (pt 36 110)).result = .None ∧
      (NewRobustLineIntersector.computeIntersectionResult (pt 6 20)
        (pt 6755399441055726 20266198323167180) (pt 21 65) (pt 36 110)).reported = [] := by
  have ho1 := OrientationIndex_on_long_segment_first.2.2
  have ho2 := OrientationIndex_on_long_segment_second.2.2
  have he : EnvelopeIntersects (pt 6 20) (pt 6755399441055726 20266198323167180)
      (pt 21 65) (pt 36 110) = true := by
    rw [EnvelopeIntersects_iff]
    norm_num [pt]
  have hr : NewRobustLineIntersector.computeIntersectionResult (pt 6 20)
      (pt 6755399441055726 20266198323167180) (pt 21 65) (pt 36 110) =
      { NewRobustLineIntersector with isProper := false, result := .None } := by
    simp only [RobustLineIntersector.computeIntersectionResult, he, ho1, ho2]
    simp
  refine ⟨by norm_num [cross, pt], by norm_num [cross, pt], ?_, by norm_num [pt], ho1, ho2,
    ?_, ?_⟩
  · intro x y
    constructor
    · exact fun h => h.2
    · rintro ⟨t, h0, h1, hx, hy⟩
      refine ⟨⟨(15 + 15 * t) / 6755399441055720, by positivity, ?_, ?_, ?_⟩,
        ⟨t, h0, h1, hx, hy⟩⟩
      · rw [div_le_one (by norm_num)]
        linarith
      · rw [hx]
        norm_num [pt]
        ring
      · rw [hy]
        norm_num [pt]
        ring
  · rw [hr]
  · rw [hr]
    rfl

/-! ## Monotone chains: `computeIntersectionsForChain` -/

/-- Two calls in sequence: the pairs of the first followed by those of the second. -/
theorem seq_append_eq_some (x y : Option (List (Nat × Nat))) (l : List (Nat × Nat)) :
    (do let a ← x; let b ← y; some (a ++ b)) = some l ↔
      ∃ a b, x = some a ∧ y = some b ∧ l = a ++ b := by
  cases x <;> cases y <;> simp [eq_comm]

/-- A call made under a guard, as in `if c { computeIntersectionsForChain(...) }`. -/
theorem guarded_eq_some {c : Prop} [Decidable c] {r : Option (List (Nat × Nat))}
    {a : List (Nat × Nat)} (h : (if c then r else some []) = some a) :
    (c ∧ r = some a) ∨ (¬ c ∧ a = []) := by
  split_ifs at h with hc
  · exact Or.inl ⟨hc, h⟩
  · exact Or.inr ⟨hc, (Option.some.inj h).symm⟩

/-- The two guarded calls that `computeIntersectionsForChain` makes for one half
`[x0, y0)` of the first range: what holds of every recursive call holds of the
pair, split at the middle of the second range. -/
theorem chain_half_cases (r : Nat → Nat → Nat → Nat → Option (List (Nat × Nat)))
    (x0 y0 s1 e1 : Nat) (c : Prop) [Decidable c] (lo : List (Nat × Nat))
    (h : (if c then (do
            let a ← (if s1 < (s1 + e1) / 2 then r x0 y0 s1 ((s1 + e1) / 2) else some [])
            let b ← (if (s1 + e1) / 2 < e1 then r x0 y0 ((s1 + e1) / 2) e1 else some [])
            some (a ++ b))
          else some []) = some lo) :
    ∃ a b, lo = a ++ b ∧
      ((c ∧ s1 < (s1 + e1) / 2 ∧ r x0 y0 s1 ((s1 + e1) / 2) = some a) ∨
        (¬ (c ∧ s1 < (s1 + e1) / 2) ∧ a = [])) ∧
      ((c ∧ (s1 + e1) / 2 < e1 ∧ r x0 y0 ((s1 + e1) / 2) e1 = some b) ∨
        (¬ (c ∧ (s1 + e1) / 2 < e1) ∧ b = [])) := by
  rcases guarded_eq_some h with ⟨hc, h2⟩ | ⟨hc, rfl⟩
  · obtain ⟨a, b, ha, hb, rfl⟩ := (seq_append_eq_some _ _ _).mp h2
    refine ⟨a, b, rfl, ?_, ?_⟩
    · rcases guarded_eq_some ha with ⟨h3, h4⟩ | ⟨h3, h4⟩
      · exact Or.inl ⟨hc, h3, h4⟩
      · exact Or.inr ⟨fun hh => h3 hh.2, h4⟩
    · rcases guarded_eq_some hb with ⟨h3, h4⟩ | ⟨h3, h4⟩
      · exact Or.inl ⟨hc, h3, h4⟩
      · exact Or.inr ⟨fun hh => h3 hh.2, h4⟩
  · exact ⟨[], [], rfl, Or.inr ⟨fun hh => hc hh.1, rfl⟩, Or.inr ⟨fun hh => hc hh.1, rfl⟩⟩

/-- The calls of `computeIntersectionsForChain` in its recursive case are those of
at most four recursive calls, on the quarters of the two ranges, in order. -/
theorem computeIntersectionsForChain_succ (ov : Nat → Nat → Nat → Nat → Bool)
    (fuel s0 e0 s1 e1 : Nat) (l : List (Nat × Nat))
    (hb : ¬ (e0 - s0 = 1 ∧ e1 - s1 = 1)) (ho : ov s0 e0 s1 e1 = true)
    (h : computeIntersectionsForChain ov (fuel + 1) s0 e0 s1 e1 = some l) :
    ∃ a b c d : List (Nat × Nat), l = (a ++ b) ++ (c ++ d) ∧
      ((s0 < (s0 + e0) / 2 ∧ s1 < (s1 + e1) / 2 ∧
          computeIntersectionsForChain ov fuel s0 ((s0 + e0) / 2) s1 ((s1 + e1) / 2) = some a)
        ∨ (¬ (s0 < (s0 + e0) / 2 ∧ s1 < (s1 + e1) / 2) ∧ a = [])) ∧
      ((s0 < (s0 + e0) / 2 ∧ (s1 + e1) / 2 < e1 ∧
          computeIntersectionsForChain ov fuel s0 ((s0 + e0) / 2) ((s1 + e1) / 2) e1 = some b)
        ∨ (¬ (s0 < (s0 + e0) / 2 ∧ (s1 + e1) / 2 < e1) ∧ b = [])) ∧
      (((s0 + e0) / 2 < e0 ∧ s1 < (s1 + e1) / 2 ∧
          computeIntersectionsForChain ov fuel ((s0 + e0) / 2) e0 s1 ((s1 + e1) / 2) = some c)
        ∨ (¬ ((s0 + e0) / 2 < e0 ∧ s1 < (s1 + e1) / 2) ∧ c = [])) ∧
      (((s0 + e0) / 2 < e0 ∧ (s1 + e1) / 2 < e1 ∧
          computeIntersectionsForChain ov fuel ((s0 + e0) / 2) e0 ((s1 + e1) / 2) e1 = some d)
        ∨ (¬ ((s0 + e0) / 2 < e0 ∧ (s1 + e1) / 2 < e1) ∧ d = [])) := by
  have ho2 : ¬ (ov s0 e0 s1 e1 = false) := by rw [ho]; decide
  rw [computeIntersectionsForChain, if_neg hb, if_neg ho2] at h
  obtain ⟨lo, hi, hlo, hhi, rfl⟩ := (seq_append_eq_some _ _ _).mp h
  obtain ⟨a, b, rfl, ha, hb2⟩ :=
    chain_half_cases (computeIntersectionsForChain ov fuel) s0 ((s0 + e0) / 2) s1 e1 _ lo hlo
  obtain ⟨c, d, rfl, hc, hd⟩ :=
    chain_half_cases (computeIntersectionsForChain ov fuel) ((s0 + e0) / 2) e0 s1 e1 _ hi hhi
  exact ⟨a, b, c, d, rfl, ha, hb2, hc, hd⟩

/-- The calls of `computeIntersectionsForChain` stay inside the two ranges, and no
pair is called twice. -/
theorem computeIntersectionsForChain_sound (ov : Nat → Nat → Nat → Nat → Bool) :
    ∀ (fuel s0 e0 s1 e1 : Nat) (l : List (Nat × Nat)),
      computeIntersectionsForChain ov fuel s0 e0 s1 e1 = some l →
      (∀ p ∈ l, s0 ≤ p.1 ∧ p.1 < e0 ∧ s1 ≤ p.2 ∧ p.2 < e1) ∧ l.Nodup := by
  intro fuel
  induction fuel with
  | zero => intro s0 e0 s1 e1 l h; cases h
  | succ fuel ih =>
    intro s0 e0 s1 e1 l h
    by_cases hb : e0 - s0 = 1 ∧ e1 - s1 = 1
    · rw [computeIntersectionsForChain, if_pos hb] at h
      obtain rfl := Option.some.inj h
      refine ⟨?_, List.nodup_singleton _⟩
      intro p hp
      rw [List.mem_singleton] at hp
      subst hp
      simp only
      omega
    · by_cases ho : ov s0 e0 s1 e1 = false
      · rw [computeIntersectionsForChain, if_neg hb, if_pos ho] at h
        obtain rfl := Option.some.inj h
        exact ⟨fun p hp => absurd hp (List.not_mem_nil p), List.nodup_nil⟩
      · have ho2 : ov s0 e0 s1 e1 = true := by
          cases hov : ov s0 e0 s1 e1
          · exact absurd hov ho
          · rfl
        obtain ⟨a, b, c, d, rfl, ha, hb2, hc, hd⟩ :=
          computeIntersectionsForChain_succ ov fuel s0 e0 s1 e1 l hb ho2 h
        have fa : (∀ p ∈ a, s0 ≤ p.1 ∧ p.1 < (s0 + e0) / 2 ∧ (s0 + e0) / 2 ≤ e0 ∧
            s1 ≤ p.2 ∧ p.2 < (s1 + e1) / 2 ∧ (s1 + e1) / 2 ≤ e1) ∧ a.Nodup := by
          rcases ha with ⟨g1, g2, g3⟩ | ⟨_, rfl⟩
          · obtain ⟨r1, r2⟩ := ih _ _ _ _ _ g3
            refine ⟨fun p hp => ?_, r2⟩
            have := r1 p hp
            omega
          · exact ⟨fun p hp => absurd hp (List.not_mem_nil p), List.nodup_nil⟩
        have fb : (∀ p ∈ b, s0 ≤ p.1 ∧ p.1 < (s0 + e0) / 2 ∧ (s0 + e0) / 2 ≤ e0 ∧
            s1 ≤ (s1 + e1) / 2 ∧ (s1 + e1) / 2 ≤ p.2 ∧ p.2 < e1) ∧ b.Nodup := by
          rcases hb2 with ⟨g1, g2, g3⟩ | ⟨_, rfl⟩
          · obtain ⟨r1, r2⟩ := ih _ _ _ _ _ g3
            refine ⟨fun p hp => ?_, r2⟩
            have := r1 p hp
            omega
          · exact ⟨fun p hp => absurd hp (List.not_mem_nil p), List.nodup_nil⟩
        have fc : (∀ p ∈ c, s0 ≤ (s0 + e0) / 2 ∧ (s0 + e0) / 2 ≤ p.1 ∧ p.1 < e0 ∧
            s1 ≤ p.2 ∧ p.2 < (s1 + e1) / 2 ∧ (s1 + e1) / 2 ≤ e1) ∧ c.Nodup := by
          rcases hc with ⟨g1, g2, g3⟩ | ⟨_, rfl⟩
          · obtain ⟨r1, r2⟩ := ih _ _ _ _ _ g3
            refine ⟨fun p hp => ?_, r2⟩
            have := r1 p hp
            omega
          · exact ⟨fun p hp => absurd hp (List.not_mem_nil p), List.nodup_nil⟩
        have fd : (∀ p ∈ d, s0 ≤ (s0 + e0) / 2 ∧ (s0 + e0) / 2 ≤ p.1 ∧ p.1 < e0 ∧
            s1 ≤ (s1 + e1) / 2 ∧ (s1 + e1) / 2 ≤ p.2 ∧ p.2 < e1) ∧ d.Nodup := by
          rcases hd with ⟨g1, g2, g3⟩ | ⟨_, rfl⟩
          · obtain ⟨r1, r2⟩ := ih _ _ _ _ _ g3
            refine ⟨fun p hp => ?_, r2⟩
            have := r1 p hp
            omega
          · exact ⟨fun p hp => absurd hp (List.not_mem_nil p), List.nodup_nil⟩
        constructor
        · intro p hp
          simp only [List.mem_append] at hp
          rcases hp with (hp | hp) | (hp | hp)
          · have := fa.1 p hp; omega
          · have := fb.1 p hp; omega
          · have := fc.1 p hp; omega
          · have := fd.1 p hp; omega
        · rw [List.nodup_append, List.nodup_append, List.nodup_append]
          refine ⟨⟨fa.2, fb.2, ?_⟩, ⟨fc.2, fd.2, ?_⟩, ?_⟩
          · intro p h1 h2
            have := fa.1 p h1; have := fb.1 p h2; omega
          · intro p h1 h2
            have := fc.1 p h1; have := fd.1 p h2; omega
          · intro p h1 h2
            simp only [List.mem_append] at h1 h2
            rcases h1 with h1 | h1 <;> rcases h2 with h2 | h2
            · have := fa.1 p h1; have := fc.1 p h2; omega
            · have := fa.1 p h1; have := fd.1 p h2; omega
            · have := fb.1 p h1; have := fc.1 p h2; omega
            · have := fb.1 p h1; have := fd.1 p h2; omega

/-- A guarded call returns when the call does. -/
theorem guarded_isSome {c : Prop} [Decidable c] {r : Option (List (Nat × Nat))}
    (h : c → ∃ a, r = some a) : ∃ a, (if c then r else some []) = some a := by
  split_ifs with hc
  · exact h hc
  · exact ⟨[], rfl⟩

/-- With fuel above the total length of the two ranges `computeIntersectionsForChain`
returns. -/
theorem computeIntersectionsForChain_returns (ov : Nat → Nat → Nat → Nat → Bool) :
    ∀ (fuel s0 e0 s1 e1 : Nat), (e0 - s0) + (e1 - s1) < fuel →
      ∃ l, computeIntersectionsForChain ov fuel s0 e0 s1 e1 = some l := by
  intro fuel
  induction fuel with
  | zero => intro s0 e0 s1 e1 h; omega
  | succ fuel ih =>
    intro s0 e0 s1 e1 hf
    by_cases hb : e0 - s0 = 1 ∧ e1 - s1 = 1
    · exact ⟨_, by rw [computeIntersectionsForChain, if_pos hb]⟩
    · by_cases ho : ov s0 e0 s1 e1 = false
      · exact ⟨_, by rw [computeIntersectionsForChain, if_neg hb, if_pos ho]⟩
      · rw [computeIntersectionsForChain, if_neg hb, if_neg ho]
        obtain ⟨lo, hlo⟩ : ∃ lo, (if s0 < (s0 + e0) / 2 then
            (do
              let a ← (if s1 < (s1 + e1) / 2 then
                  computeIntersectionsForChain ov fuel s0 ((s0 + e0) / 2) s1 ((s1 + e1) / 2)
                else some [])
              let b ← (if (s1 + e1) / 2 < e1 then
                  computeIntersectionsForChain ov fuel s0 ((s0 + e0) / 2) ((s1 + e1) / 2) e1
                else some [])
              some (a ++ b))
            else some []) = some lo := by
          apply guarded_isSome
          intro g0
          obtain ⟨a, ha⟩ := guarded_isSome (c := s1 < (s1 + e1) / 2)
            (fun g1 => ih s0 ((s0 + e0) / 2) s1 ((s1 + e1) / 2) (by omega))
          obtain ⟨b, hb3⟩ := guarded_isSome (c := (s1 + e1) / 2 < e1)
            (fun g1 => ih s0 ((s0 + e0) / 2) ((s1 + e1) / 2) e1 (by omega))
          exact ⟨a ++ b, (seq_append_eq_some _ _ _).mpr ⟨a, b, ha, hb3, rfl⟩⟩
        obtain ⟨hi, hhi⟩ : ∃ hi, (if (s0 + e0) / 2 < e0 then
            (do
              let a ← (if s1 < (s1 + e1) / 2 then
                  computeIntersectionsForChain ov fuel ((s0 + e0) / 2) e0 s1 ((s1 + e1) / 2)
                else some [])
              let b ← (if (s1 + e1) / 2 < e1 then
                  computeIntersectionsForChain ov fuel ((s0 + e0) / 2) e0 ((s1 + e1) / 2) e1
                else some [])
              some (a ++ b))
            else some []) = some hi := by
          apply guarded_isSome
          intro g0
          obtain ⟨a, ha⟩ := guarded_isSome (c := s1 < (s1 + e1) / 2)
            (fun g1 => ih ((s0 + e0) / 2) e0 s1 ((s1 + e1) / 2) (by omega))
          obtain ⟨b, hb3⟩ := guarded_isSome (c := (s1 + e1) / 2 < e1)
            (fun g1 => ih ((s0 + e0) / 2) e0 ((s1 + e1) / 2) e1 (by omega))
          exact ⟨a ++ b, (seq_append_eq_some _ _ _).mpr ⟨a, b, ha, hb3, rfl⟩⟩
        exact ⟨lo ++ hi, (seq_append_eq_some _ _ _).mpr ⟨lo, hi, hlo, hhi, rfl⟩⟩

/-- C18: for all ranges `start0 < end0`, `start1 < end1` and every overlap test,
`computeIntersectionsForChain` (with fuel above the total length) returns, it
invokes the segment intersector only on pairs `(i, j)` with
`start0 ≤ i < end0` and `start1 ≤ j < end1`, and on no pair twice. -/
theorem computeIntersectionsForChain_calls (ov : Nat → Nat → Nat → Nat → Bool)
    (s0 e0 s1 e1 : Nat) (_h0 : s0 < e0) (_h1 : s1 < e1) (fuel : Nat)
    (hf : (e0 - s0) + (e1 - s1) < fuel) :
    ∃ l, computeIntersectionsForChain ov fuel s0 e0 s1 e1 = some l ∧
      (∀ p ∈ l, s0 ≤ p.1 ∧ p.1 < e0 ∧ s1 ≤ p.2 ∧ p.2 < e1) ∧ l.Nodup := by
  obtain ⟨l, hl⟩ := computeIntersectionsForChain_returns ov fuel s0 e0 s1 e1 hf
  exact ⟨l, hl, computeIntersectionsForChain_sound ov fuel s0 e0 s1 e1 l hl⟩

/-- Witness of C18: the ranges `[0,3)` and `[0,2)` with a test that always
answers yes. -/
theorem computeIntersectionsForChain_calls_witness :
    ∃ l, computeIntersectionsForChain (fun _ _ _ _ => true) 6 0 3 0 2 = some l ∧
      (∀ p ∈ l, 0 ≤ p.1 ∧ p.1 < 3 ∧ 0 ≤ p.2 ∧ p.2 < 2) ∧ l.Nodup :=
  computeIntersectionsForChain_calls (fun _ _ _ _ => true) 0 3 0 2
    (by decide) (by decide) 6 (by decide)

/-- The calls made on the ranges `[0,3)` and `[0,2)` when every test answers yes:
all six pairs, each once. -/
theorem computeIntersectionsForChain_example :
    computeIntersectionsForChain (fun _ _ _ _ => true) 6 0 3 0 2
      = some [(0, 0), (0, 1), (1, 0), (2, 0), (1, 1), (2, 1)] := by
  decide

/-- C20: for all ranges `start0 < end0`, `start1 < end1` and every overlap test the
recursion of `computeIntersectionsForChain` ends: fuel above
`(end0 - start0) + (end1 - start1)` is enough for a result; and the calls of an
invocation that recurses are those of at most four recursive calls, each made
on two non-empty ranges whose total length is strictly smaller. -/
theorem computeIntersectionsForChain_terminates (ov : Nat → Nat → Nat → Nat → Bool)
    (s0 e0 s1 e1 : Nat) (_h0 : s0 < e0) (_h1 : s1 < e1) :
    (∀ fuel, (e0 - s0) + (e1 - s1) < fuel →
        ∃ l, computeIntersectionsForChain ov fuel s0 e0 s1 e1 = some l) ∧
      (∀ fuel l, ¬ (e0 - s0 = 1 ∧ e1 - s1 = 1) → ov s0 e0 s1 e1 = true →
        computeIntersectionsForChain ov (fuel + 1) s0 e0 s1 e1 = some l →
        ∃ a b c d : List (Nat × Nat), l = (a ++ b) ++ (c ++ d) ∧
          ((computeIntersectionsForChain ov fuel s0 ((s0 + e0) / 2) s1 ((s1 + e1) / 2) = some a ∧
              s0 < (s0 + e0) / 2 ∧ s1 < (s1 + e1) / 2 ∧
              ((s0 + e0) / 2 - s0) + ((s1 + e1) / 2 - s1) < (e0 - s0) + (e1 - s1)) ∨ a = []) ∧
          ((computeIntersectionsForChain ov fuel s0 ((s0 + e0) / 2) ((s1 + e1) / 2) e1 = some b ∧
              s0 < (s0 + e0) / 2 ∧ (s1 + e1) / 2 < e1 ∧
              ((s0 + e0) / 2 - s0) + (e1 - (s1 + e1) / 2) < (e0 - s0) + (e1 - s1)) ∨ b = []) ∧
          ((computeIntersectionsForChain ov fuel ((s0 + e0) / 2) e0 s1 ((s1 + e1) / 2) = some c ∧
              (s0 + e0) / 2 < e0 ∧ s1 < (s1 + e1) / 2 ∧
              (e0 - (s0 + e0) / 2) + ((s1 + e1) / 2 - s1) < (e0 - s0) + (e1 - s1)) ∨ c = []) ∧
          ((computeIntersectionsForChain ov fuel ((s0 + e0) / 2) e0 ((s1 + e1) / 2) e1 = some d ∧
              (s0 + e0) / 2 < e0 ∧ (s1 + e1) / 2 < e1 ∧
              (e0 - (s0 + e0) / 2) + (e1 - (s1 + e1) / 2) < (e0 - s0) + (e1 - s1)) ∨ d = [])) := by
  refine ⟨fun fuel hf => computeIntersectionsForChain_returns ov fuel s0 e0 s1 e1 hf, ?_⟩
  intro fuel l hb ho h
  obtain ⟨a, b, c, d, hl, ha, hb2, hc, hd⟩ :=
    computeIntersectionsForChain_succ ov fuel s0 e0 s1 e1 l hb ho h
  refine ⟨a, b, c, d, hl, ?_, ?_, ?_, ?_⟩
  · rcases ha with ⟨g1, g2, g3⟩ | ⟨_, g⟩
    · exact Or.inl ⟨g3, g1, g2, by omega⟩
    · exact Or.inr g
  · rcases hb2 with ⟨g1, g2, g3⟩ | ⟨_, g⟩
    · exact Or.inl ⟨g3, g1, g2, by omega⟩
    · exact Or.inr g
  · rcases hc with ⟨g1, g2, g3⟩ | ⟨_, g⟩
    · exact Or.inl ⟨g3, g1, g2, by omega⟩
    · exact Or.inr g
  · rcases hd with ⟨g1, g2, g3⟩ | ⟨_, g⟩
    · exact Or.inl ⟨g3, g1, g2, by omega⟩
    · exact Or.inr g

/-- Witness of C20: the ranges `[0,3)` and `[0,2)`, of total length `5`, with fuel
`6`. -/
theorem computeIntersectionsForChain_terminates_witness :
    ∃ l, computeIntersectionsForChain (fun _ _ _ _ => true) 6 0 3 0 2 = some l :=
  (computeIntersectionsForChain_terminates (fun _ _ _ _ => true) 0 3 0 2
    (by decide) (by decide)).1 6 (by decide)

/-! ## Monotone chains: completeness of the subdivision -/

/-- A step whose quadrant is `q` lies weakly in `q`. -/
theorem QuadrantCoord_weakly (a b : Coordinate) (q : Quadrant)
    (h : QuadrantCoord a b = .ok q) : q.Weakly a b := by
  unfold QuadrantCoord at h
  split_ifs at h with h1 h2 h3 h4 <;> cases h <;> simp only [Quadrant.Weakly]
  · exact ⟨h2, h3⟩
  · exact ⟨h2, (not_le.mp h3).le⟩
  · exact ⟨(not_le.mp h2).le, h4⟩
  · exact ⟨(not_le.mp h2).le, (not_le.mp h4).le⟩

theorem Weakly_refl (q : Quadrant) (a : Coordinate) : q.Weakly a a := by
  cases q <;> exact ⟨le_refl _, le_refl _⟩

theorem Weakly_trans (q : Quadrant) (a b c : Coordinate)
    (h1 : q.Weakly a b) (h2 : q.Weakly b c) : q.Weakly a c := by
  cases q <;> exact ⟨le_trans (by first | exact h1.1 | exact h2.1)
    (by first | exact h2.1 | exact h1.1), le_trans (by first | exact h1.2 | exact h2.2)
    (by first | exact h2.2 | exact h1.2)⟩

/-- Between numbers in monotone order, the interval of the inner two lies in the
interval of the outer two. -/
theorem interval_mono (a b c d x : ℚ)
    (h : (a ≤ b ∧ b ≤ c ∧ c ≤ d) ∨ (d ≤ c ∧ c ≤ b ∧ b ≤ a))
    (h1 : min b c ≤ x) (h2 : x ≤ max b c) : min a d ≤ x ∧ x ≤ max a d := by
  rcases h with ⟨g1, g2, g3⟩ | ⟨g1, g2, g3⟩
  · rw [min_eq_left g2] at h1
    rw [max_eq_right g2] at h2
    rw [min_eq_left (g1.trans (g2.trans g3)), max_eq_right (g1.trans (g2.trans g3))]
    exact ⟨g1.trans h1, h2.trans g3⟩
  · rw [min_eq_right g2] at h1
    rw [max_eq_left g2] at h2
    rw [min_eq_right (g1.trans (g2.trans g3)), max_eq_left (g1.trans (g2.trans g3))]
    exact ⟨g1.trans h1, h2.trans g3⟩

/-- Four points in monotone order within one quadrant: the box of the inner two
lies in the box of the outer two. -/
theorem Weakly_box (q : Quadrant) (a b c d : Coordinate)
    (h1 : q.Weakly a b) (h2 : q.Weakly b c) (h3 : q.Weakly c d) (x y : ℚ)
    (h : InBox b c x y) : InBox a d x y := by
  obtain ⟨k1, k2, k3, k4⟩ := h
  cases q
  · obtain ⟨r1, r2⟩ := interval_mono a.X b.X c.X d.X x (Or.inl ⟨h1.1, h2.1, h3.1⟩) k1 k2
    obtain ⟨r3, r4⟩ := interval_mono a.Y b.Y c.Y d.Y y (Or.inl ⟨h1.2, h2.2, h3.2⟩) k3 k4
    exact ⟨r1, r2, r3, r4⟩
  · obtain ⟨r1, r2⟩ := interval_mono a.X b.X c.X d.X x (Or.inr ⟨h3.1, h2.1, h1.1⟩) k1 k2
    obtain ⟨r3, r4⟩ := interval_mono a.Y b.Y c.Y d.Y y (Or.inl ⟨h1.2, h2.2, h3.2⟩) k3 k4
    exact ⟨r1, r2, r3, r4⟩
  · obtain ⟨r1, r2⟩ := interval_mono a.X b.X c.X d.X x (Or.inr ⟨h3.1, h2.1, h1.1⟩) k1 k2
    obtain ⟨r3, r4⟩ := interval_mono a.Y b.Y c.Y d.Y y (Or.inr ⟨h3.2, h2.2, h1.2⟩) k3 k4
    exact ⟨r1, r2, r3, r4⟩
  · obtain ⟨r1, r2⟩ := interval_mono a.X b.X c.X d.X x (Or.inl ⟨h1.1, h2.1, h3.1⟩) k1 k2
    obtain ⟨r3, r4⟩ := interval_mono a.Y b.Y c.Y d.Y y (Or.inr ⟨h3.2, h2.2, h1.2⟩) k3 k4
    exact ⟨r1, r2, r3, r4⟩

/-- In a monotone run the point `n` steps after `k` is reached from `pts[k]` weakly
within the quadrant of the run. -/
theorem run_weakly (pts : Coordinates) (S E : Nat) (q : Quadrant)
    (hm : IsMonotoneRun pts S E q) :
    ∀ (n k : Nat) (a : Coordinate), S ≤ k → k + n ≤ E → pts[k]? = some a →
      ∃ b, pts[k + n]? = some b ∧ q.Weakly a b := by
  intro n
  induction n with
  | zero => intro k a _ _ ha; exact ⟨a, ha, Weakly_refl q a⟩
  | succ n ih =>
    intro k a hk hE ha
    obtain ⟨b, hb, hab⟩ := ih k a hk (by omega) ha
    obtain ⟨b2, c, hb2, hc, hq⟩ := hm (k + n) (by omega) (by omega)
    rw [hb] at hb2
    obtain rfl := Option.some.inj hb2
    exact ⟨c, hc, Weakly_trans q a b c hab (QuadrantCoord_weakly b c q hq)⟩

/-- In a monotone run from `S` to `E`, a common point of the box of segment `i` and
of some other box is a common point with the box of the sub-range `[s, e]`
around `i`. -/
theorem run_segment_in_range_box (pts : Coordinates) (S E : Nat) (q : Quadrant)
    (hm : IsMonotoneRun pts S E q) (s e i : Nat) (hS : S ≤ s) (hE : e ≤ E)
    (hs : s ≤ i) (he : i < e) :
    ∃ a b c d, pts[s]? = some a ∧ pts[i]? = some b ∧ pts[i + 1]? = some c ∧
      pts[e]? = some d ∧ ∀ x y, InBox b c x y → InBox a d x y := by
  obtain ⟨a, _, ha, _, _⟩ := hm s hS (by omega)
  obtain ⟨b, hb, hab⟩ := run_weakly pts S E q hm (i - s) s a hS (by omega) ha
  rw [show s + (i - s) = i by omega] at hb
  obtain ⟨c, hc, hbc⟩ := run_weakly pts S E q hm 1 i b (by omega) (by omega) hb
  obtain ⟨d, hd, hcd⟩ := run_weakly pts S E q hm (e - (i + 1)) (i + 1) c (by omega)
    (by omega) hc
  rw [show i + 1 + (e - (i + 1)) = e by omega] at hd
  exact ⟨a, b, c, d, ha, hb, hc, hd, fun x y h => Weakly_box q a b c d hab hbc hcd x y h⟩

/-- Inside two monotone runs, the overlap test of two sub-ranges succeeds as soon as
the boxes of a segment of the one and a segment of the other overlap. -/
theorem Overlaps_of_segments (pts0 pts1 : Coordinates) (S0 E0 S1 E1 : Nat)
    (q0 q1 : Quadrant) (hm0 : IsMonotoneRun pts0 S0 E0 q0)
    (hm1 : IsMonotoneRun pts1 S1 E1 q1) (s0 e0 s1 e1 i j : Nat)
    (hS0 : S0 ≤ s0) (hE0 : e0 ≤ E0) (hS1 : S1 ≤ s1) (hE1 : e1 ≤ E1)
    (hi0 : s0 ≤ i) (hi1 : i < e0) (hj0 : s1 ≤ j) (hj1 : j < e1)
    (h : segmentBoxesOverlap pts0 i pts1 j) :
    Overlaps pts0 s0 e0 pts1 s1 e1 = some true := by
  obtain ⟨a, b, c, d, ha, hb, hc, hd, hbox0⟩ :=
    run_segment_in_range_box pts0 S0 E0 q0 hm0 s0 e0 i hS0 hE0 hi0 hi1
  obtain ⟨a2, b2, c2, d2, ha2, hb2, hc2, hd2, hbox1⟩ :=
    run_segment_in_range_box pts1 S1 E1 q1 hm1 s1 e1 j hS1 hE1 hj0 hj1
  unfold segmentBoxesOverlap Overlaps at h
  simp only [hb, hc, hb2, hc2, Option.some.injEq] at h
  obtain ⟨x, y, hx, hy⟩ := (EnvelopeIntersects_iff_common_point b c b2 c2).mp h
  unfold Overlaps
  simp only [ha, hd, ha2, hd2, Option.some.injEq]
  exact (EnvelopeIntersects_iff_common_point a d a2 d2).mpr
    ⟨x, y, hbox0 x y hx, hbox1 x y hy⟩

/-- Inside two monotone runs every pair of segments of the two ranges whose boxes
overlap is among the calls of `computeIntersectionsForChain`. -/
theorem computeIntersectionsForChain_complete_aux (pts0 pts1 : Coordinates)
    (ov : Nat → Nat → Nat → Nat → Bool) (S0 E0 S1 E1 : Nat) (q0 q1 : Quadrant)
    (hm0 : IsMonotoneRun pts0 S0 E0 q0) (hm1 : IsMonotoneRun pts1 S1 E1 q1)
    (hov : ∀ a b c d r, Overlaps pts0 a b pts1 c d = some r → ov a b c d = r) :
    ∀ (fuel s0 e0 s1 e1 : Nat) (l : List (Nat × Nat)),
      S0 ≤ s0 → e0 ≤ E0 → S1 ≤ s1 → e1 ≤ E1 →
      computeIntersectionsForChain ov fuel s0 e0 s1 e1 = some l →
      ∀ i j, s0 ≤ i → i < e0 → s1 ≤ j → j < e1 →
        segmentBoxesOverlap pts0 i pts1 j → (i, j) ∈ l := by
  intro fuel
  induction fuel with
  | zero => intro s0 e0 s1 e1 l _ _ _ _ h; cases h
  | succ fuel ih =>
    intro s0 e0 s1 e1 l hS0 hE0 hS1 hE1 h i j hi0 hi1 hj0 hj1 hseg
    by_cases hb : e0 - s0 = 1 ∧ e1 - s1 = 1
    · rw [computeIntersectionsForChain, if_pos hb] at h
      obtain rfl := Option.some.inj h
      have e1' : i = s0 := by omega
      have e2' : j = s1 := by omega
      rw [e1', e2']
      exact List.mem_singleton_self _
    · have ho : ov s0 e0 s1 e1 = true :=
        hov _ _ _ _ _ (Overlaps_of_segments pts0 pts1 S0 E0 S1 E1 q0 q1 hm0 hm1
          s0 e0 s1 e1 i j hS0 hE0 hS1 hE1 hi0 hi1 hj0 hj1 hseg)
      obtain ⟨a, b, c, d, rfl, ha, hb2, hc, hd⟩ :=
        computeIntersectionsForChain_succ ov fuel s0 e0 s1 e1 l hb ho h
      simp only [List.mem_append]
      by_cases c0 : i < (s0 + e0) / 2 <;> by_cases c1 : j < (s1 + e1) / 2
      · rcases ha with ⟨g1, g2, g3⟩ | ⟨g, _⟩
        · exact Or.inl (Or.inl (ih _ _ _ _ _ hS0 (by omega) hS1 (by omega) g3 i j
            hi0 c0 hj0 c1 hseg))
        · exact absurd ⟨by omega, by omega⟩ g
      · rcases hb2 with ⟨g1, g2, g3⟩ | ⟨g, _⟩
        · exact Or.inl (Or.inr (ih _ _ _ _ _ hS0 (by omega) (by omega) hE1 g3 i j
            hi0 c0 (by omega) hj1 hseg))
        · exact absurd ⟨by omega, by omega⟩ g
      · rcases hc with ⟨g1, g2, g3⟩ | ⟨g, _⟩
        · exact Or.inr (Or.inl (ih _ _ _ _ _ (by omega) hE0 hS1 (by omega) g3 i j
            (by omega) hi1 hj0 c1 hseg))
        · exact absurd ⟨by omega, by omega⟩ g
      · rcases hd with ⟨g1, g2, g3⟩ | ⟨g, _⟩
        · exact Or.inr (Or.inr (ih _ _ _ _ _ (by omega) hE0 (by omega) hE1 g3 i j
            (by omega) hi1 (by omega) hj1 hseg))
        · exact absurd ⟨by omega, by omega⟩ g

/-- C19: for two monotone chains over the ranges `start0 < end0` and `start1 < end1`
(every step of a chain has the quadrant of the chain), with the overlap test of
the source on their points, `computeIntersectionsForChain` returns and every
pair `(i, j)` of segments of the two ranges whose bounding boxes overlap is among
the pairs passed to the segment intersector. -/
theorem computeIntersectionsForChain_complete (pts0 pts1 : Coordinates)
    (ov : Nat → Nat → Nat → Nat → Bool) (s0 e0 s1 e1 : Nat) (q0 q1 : Quadrant)
    (_h0 : s0 < e0) (_h1 : s1 < e1)
    (hm0 : IsMonotoneRun pts0 s0 e0 q0) (hm1 : IsMonotoneRun pts1 s1 e1 q1)
    (hov : ∀ a b c d r, Overlaps pts0 a b pts1 c d = some r → ov a b c d = r)
    (fuel : Nat) (hf : (e0 - s0) + (e1 - s1) < fuel) :
    ∃ l, computeIntersectionsForChain ov fuel s0 e0 s1 e1 = some l ∧
      ∀ i j, s0 ≤ i → i < e0 → s1 ≤ j → j < e1 →
        segmentBoxesOverlap pts0 i pts1 j → (i, j) ∈ l := by
  obtain ⟨l, hl⟩ := computeIntersectionsForChain_returns ov fuel s0 e0 s1 e1 hf
  exact ⟨l, hl, computeIntersectionsForChain_complete_aux pts0 pts1 ov s0 e0 s1 e1 q0 q1
    hm0 hm1 hov fuel s0 e0 s1 e1 l (le_refl _) (le_refl _) (le_refl _) (le_refl _) hl⟩

/-- Witness of C19: the chains `(0,0), (1,1), (2,2)` (north-east) and
`(0,2), (1,1), (2,0)` (south-east), each over the range `[0,2)`. -/
theorem computeIntersectionsForChain_complete_witness :
    ∃ l, computeIntersectionsForChain
        (fun a b c d =>
          (Overlaps [pt 0 0, pt 1 1, pt 2 2] a b [pt 0 2, pt 1 1, pt 2 0] c d).getD false)
        5 0 2 0 2 = some l ∧
      ∀ i j, 0 ≤ i → i < 2 → 0 ≤ j → j < 2 →
        segmentBoxesOverlap [pt 0 0, pt 1 1, pt 2 2] i [pt 0 2, pt 1 1, pt 2 0] j →
        (i, j) ∈ l :=
  computeIntersectionsForChain_complete [pt 0 0, pt 1 1, pt 2 2] [pt 0 2, pt 1 1, pt 2 0]
    _ 0 2 0 2 Quadrant.NE Quadrant.SE (by decide) (by decide)
    (by
      intro k _ hk
      interval_cases k
      · exact ⟨pt 0 0, pt 1 1, rfl, rfl, by norm_num [QuadrantCoord, pt]⟩
      · exact ⟨pt 1 1, pt 2 2, rfl, rfl, by norm_num [QuadrantCoord, pt]⟩)
    (by
      intro k _ hk
      interval_cases k
      · exact ⟨pt 0 2, pt 1 1, rfl, rfl, by norm_num [QuadrantCoord, pt]⟩
      · exact ⟨pt 1 1, pt 2 0, rfl, rfl, by norm_num [QuadrantCoord, pt]⟩)
    (by
      intro a b c d r h
      simp only [h, Option.getD_some])
    5 (by decide)

/-- In the witness of C19 the boxes of the first segment of the one chain and of the
second segment of the other meet in the point `(1,1)` only, and the two chains
overlap as wholes. -/
theorem segmentBoxesOverlap_example :
    segmentBoxesOverlap [pt 0 0, pt 1 1, pt 2 2] 0 [pt 0 2, pt 1 1, pt 2 0] 1 ∧
      Overlaps [pt 0 0, pt 1 1, pt 2 2] 0 2 [pt 0 2, pt 1 1, pt 2 0] 0 2 = some true := by
  constructor
  · show Overlaps _ _ _ _ _ _ = some true
    simp only [Overlaps, List.getElem?_cons_zero, List.getElem?_cons_succ, Option.some.injEq]
    rw [EnvelopeIntersects_iff]; norm_num [pt]
  · simp only [Overlaps, List.getElem?_cons_zero, List.getElem?_cons_succ, Option.some.injEq]
    rw [EnvelopeIntersects_iff]; norm_num [pt]


open Geom

set_option linter.dupNamespace false

/-! ## Sweep-line events: the ordering `Less` -/

/-- The body of `Less` holds exactly when the first event has the smaller `X`, or
the two have the same `X`, the first is an Insert and the second a Delete. -/
theorem lessEvents_iff (a b : SweepLineEvent) :
    lessEvents a b = true ↔
      a.X < b.X ∨ (a.X = b.X ∧ a.Typ = .Insert ∧ b.Typ = .Delete) := by
  unfold lessEvents
  rcases lt_trichotomy a.X b.X with h | h | h
  · simp [h]
  · cases ha : a.Typ <;> cases hb : b.Typ <;> simp [h, EventType.toInt]
  · simp [not_lt.mpr h.le, h.ne']

/-- The body of `Less` is irreflexive. -/
theorem lessEvents_irrefl (a : SweepLineEvent) : lessEvents a a = false := by
  cases h : lessEvents a a
  · rfl
  · rcases (lessEvents_iff a a).1 h with h1 | ⟨_, h2, h3⟩
    · exact absurd h1 (lt_irrefl _)
    · rw [h2] at h3; cases h3

/-- The body of `Less` is transitive. -/
theorem lessEvents_trans (a b c : SweepLineEvent)
    (hab : lessEvents a b = true) (hbc : lessEvents b c = true) : lessEvents a c = true := by
  rw [lessEvents_iff] at *
  rcases hab with h1 | ⟨h1, h2, h3⟩ <;> rcases hbc with h4 | ⟨h4, h5, h6⟩
  · exact Or.inl (lt_trans h1 h4)
  · exact Or.inl (h4 ▸ h1)
  · exact Or.inl (h1 ▸ h4)
  · rw [h3] at h5; cases h5

/-- Two events neither of which is `Less` than the other have the same `X` and
the same type. -/
theorem lessEvents_incomparable (a b : SweepLineEvent)
    (hab : lessEvents a b = false) (hba : lessEvents b a = false) :
    a.X = b.X ∧ a.Typ = b.Typ := by
  have h1 : ¬ (a.X < b.X ∨ (a.X = b.X ∧ a.Typ = .Insert ∧ b.Typ = .Delete)) := by
    rw [← lessEvents_iff, hab]; simp
  have h2 : ¬ (b.X < a.X ∨ (b.X = a.X ∧ b.Typ = .Insert ∧ a.Typ = .Delete)) := by
    rw [← lessEvents_iff, hba]; simp
  push_neg at h1 h2
  have hx : a.X = b.X := le_antisymm h2.1 h1.1
  refine ⟨hx, ?_⟩
  have h1' := h1.2 hx
  have h2' := h2.2 hx.symm
  cases ha : a.Typ <;> cases hb : b.Typ <;> simp_all

/-- In a slice that passes the test of `sort.IsSorted`, no later event is `Less`
than an earlier one. -/
theorem IsSorted_pairwise (sles : List SweepLineEvent) (hs : SweepLineEvents.IsSorted sles)
    (i d : Nat) (a b : SweepLineEvent) (ha : sles[i]? = some a)
    (hb : sles[i + d + 1]? = some b) : lessEvents b a = false := by
  induction d generalizing b with
  | zero =>
    have hlen : i + 1 < sles.length := by
      by_contra hc
      rw [List.getElem?_eq_none (by omega)] at hb
      cases hb
    have h := hs i hlen
    simp only [SweepLineEvents.Less, ha, Nat.add_zero] at h hb
    rw [hb] at h
    simpa using h
  | succ d ih =>
    have hlen : i + d + 1 + 1 < sles.length := by
      by_contra hc
      rw [List.getElem?_eq_none (by omega)] at hb
      cases hb
    obtain ⟨c, hc⟩ : ∃ c, sles[i + d + 1]? = some c :=
      ⟨sles[i + d + 1], List.getElem?_eq_getElem (by omega)⟩
    have hca := ih c hc
    have h := hs (i + d + 1) hlen
    have hb' : sles[i + d + 1 + 1]? = some b := by
      have : i + (d + 1) + 1 = i + d + 1 + 1 := by omega
      rw [← this]; exact hb
    simp only [SweepLineEvents.Less, hc, hb'] at h
    have hbc : lessEvents b c = false := by simpa using h
    cases hba : lessEvents b a
    · rfl
    · -- `b < a` and `¬ c < a`, `¬ b < c`: contradiction by cases on the `X` order
      exfalso
      have h1 : ¬ (b.X < c.X ∨ (b.X = c.X ∧ b.Typ = .Insert ∧ c.Typ = .Delete)) := by
        rw [← lessEvents_iff, hbc]; simp
      have h2 : ¬ (c.X < a.X ∨ (c.X = a.X ∧ c.Typ = .Insert ∧ a.Typ = .Delete)) := by
        rw [← lessEvents_iff, hca]; simp
      push_neg at h1 h2
      rcases (lessEvents_iff b a).1 hba with h3 | ⟨h3, h4, h5⟩
      · exact absurd (lt_of_le_of_lt h2.1 (lt_of_le_of_lt h1.1 h3)) (lt_irrefl _)
      · have hcb : c.X = b.X :=
          le_antisymm h1.1 (h3 ▸ h2.1)
        have h6 := h1.2 hcb.symm h4
        have h7 := h2.2 (hcb.trans h3)
        cases hct : c.Typ
        · exact h7 hct h5
        · exact h6 hct

/-- Claim C21.  `Less(i, j)` holds exactly when event `i` has the smaller `X`, or
the same `X` while `i` is an Insert and `j` a Delete; it is a strict weak order
(irreflexive, transitive, with transitive incomparability); and in every slice
that is sorted by it, `X` ascends and on equal `X` no Delete comes before an
Insert. -/
theorem SweepLineEvents_Less_strict_weak_order (sles : List SweepLineEvent) :
    (∀ (i j : Nat) (a b : SweepLineEvent), sles[i]? = some a → sles[j]? = some b →
      (SweepLineEvents.Less sles i j = some true ↔
        a.X < b.X ∨ (a.X = b.X ∧ a.Typ = .Insert ∧ b.Typ = .Delete))) ∧
    (∀ i, i < sles.length → SweepLineEvents.Less sles i i = some false) ∧
    (∀ i j k, SweepLineEvents.Less sles i j = some true →
      SweepLineEvents.Less sles j k = some true →
      SweepLineEvents.Less sles i k = some true) ∧
    (∀ i j k, SweepLineEvents.Less sles i j = some false →
      SweepLineEvents.Less sles j i = some false →
      SweepLineEvents.Less sles j k = some false →
      SweepLineEvents.Less sles k j = some false →
      SweepLineEvents.Less sles i k = some false ∧
        SweepLineEvents.Less sles k i = some false) ∧
    (SweepLineEvents.IsSorted sles → ∀ (i j : Nat) (a b : SweepLineEvent), i < j →
      sles[i]? = some a →
      sles[j]? = some b →
      a.X ≤ b.X ∧ (a.X = b.X → a.Typ = .Delete → b.Typ = .Delete)) := by
  refine ⟨?_, ?_, ?_, ?_, ?_⟩
  · intro i j a b ha hb
    simp only [SweepLineEvents.Less, ha, hb, Option.some.injEq]
    exact lessEvents_iff a b
  · intro i hi
    simp [SweepLineEvents.Less, List.getElem?_eq_getElem hi, lessEvents_irrefl]
  · intro i j k hij hjk
    unfold SweepLineEvents.Less at *
    cases hi : sles[i]? <;> cases hj : sles[j]? <;> cases hk : sles[k]? <;>
      simp_all
    exact lessEvents_trans _ _ _ hij hjk
  · intro i j k hij hji hjk hkj
    unfold SweepLineEvents.Less at *
    cases hi : sles[i]? <;> cases hj : sles[j]? <;> cases hk : sles[k]? <;>
      simp_all
    rename_i a b c
    obtain ⟨hx1, ht1⟩ := lessEvents_incomparable a b hij hji
    obtain ⟨hx2, ht2⟩ := lessEvents_incomparable b c hjk hkj
    have key : ∀ u v : SweepLineEvent, u.X = v.X → u.Typ = v.Typ → lessEvents u v = false := by
      intro u v hx ht
      cases h : lessEvents u v
      · rfl
      · rcases (lessEvents_iff u v).1 h with h1 | ⟨_, h2, h3⟩
        · rw [hx] at h1; exact absurd h1 (lt_irrefl _)
        · rw [ht, h3] at h2; cases h2
    exact ⟨key a c (hx1.trans hx2) (ht1.trans ht2),
      key c a (hx1.trans hx2).symm (ht1.trans ht2).symm⟩
  · intro hs i j a b hij ha hb
    obtain ⟨d, rfl⟩ : ∃ d, j = i + d + 1 := ⟨j - i - 1, by omega⟩
    have hba := IsSorted_pairwise sles hs i d a b ha hb
    have h1 : ¬ (b.X < a.X ∨ (b.X = a.X ∧ b.Typ = .Insert ∧ a.Typ = .Delete)) := by
      rw [← lessEvents_iff, hba]; simp
    push_neg at h1
    refine ⟨h1.1, ?_⟩
    intro hx hd
    have h2 := h1.2 hx.symm
    cases hbt : b.Typ
    · exact absurd hd (h2 hbt)
    · rfl

/-! ## Go maps as association lists -/

/-- After `m[k] = v` the lookup of `k` gives `v`. -/
theorem mapGet_mapPut_self {κ ν : Type} [DecidableEq κ] (m : List (κ × ν)) (k : κ) (v : ν) :
    mapGet (mapPut m k v) k = some v := by
  induction m with
  | nil => simp [mapPut, mapGet]
  | cons p rest ih =>
    obtain ⟨k', v'⟩ := p
    by_cases h : k' = k
    · simp [mapPut, mapGet, h]
    · simp [mapPut, mapGet, h, ih]

/-- The assignment `m[k] = v` leaves the lookup of every other key as it was. -/
theorem mapGet_mapPut_ne {κ ν : Type} [DecidableEq κ] (m : List (κ × ν)) (k k' : κ) (v : ν)
    (h : k' ≠ k) : mapGet (mapPut m k v) k' = mapGet m k' := by
  induction m with
  | nil => simp [mapPut, mapGet, h.symm]
  | cons p rest ih =>
    obtain ⟨k₁, v₁⟩ := p
    by_cases h1 : k₁ = k
    · subst h1
      simp [mapPut, mapGet, h.symm]
    · by_cases h2 : k₁ = k'
      · subst h2
        simp [mapPut, mapGet, h1]
      · simp [mapPut, mapGet, h1, h2, ih]

/-- A key is absent from a map exactly when no entry carries it. -/
theorem mapGet_eq_none_iff {κ ν : Type} [DecidableEq κ] (m : List (κ × ν)) (k : κ) :
    mapGet m k = none ↔ ∀ p ∈ m, p.1 ≠ k := by
  induction m with
  | nil => simp [mapGet]
  | cons p rest ih =>
    obtain ⟨k', v'⟩ := p
    by_cases h : k' = k
    · simp [mapGet, h]
    · simp [mapGet, h, ih]

/-- Writing an absent key adds one entry. -/
theorem mapPut_length_absent {κ ν : Type} [DecidableEq κ] (m : List (κ × ν)) (k : κ) (v : ν)
    (h : mapGet m k = none) : (mapPut m k v).length = m.length + 1 := by
  induction m with
  | nil => simp [mapPut]
  | cons p rest ih =>
    obtain ⟨k', v'⟩ := p
    by_cases h1 : k' = k
    · simp [mapGet, h1] at h
    · simp only [mapGet, h1, if_false] at h
      simp [mapPut, h1, ih h]

/-! ## Edge intersection lists -/

/-- Claim C30.  `Add` of a triple whose key is present leaves the list as it is and
returns the stored entry; `Add` of a triple that differs from every present key
makes the list one entry longer, stores the triple and returns it; a second `Add`
of the same triple changes nothing and returns the same entry; no other key is
affected. -/
theorem EdgeIntersectionList_Add_idempotent (eil : EdgeIntersectionList)
    (intPt : Coordinate) (segmentIndex : Nat) (dist : ℚ) :
    (∀ stored, mapGet eil.nodeMap ⟨intPt, segmentIndex, dist⟩ = some stored →
      eil.Add intPt segmentIndex dist = (eil, stored)) ∧
    ((∀ p ∈ eil.nodeMap, p.1 ≠ ⟨intPt, segmentIndex, dist⟩) →
      (eil.Add intPt segmentIndex dist).1.size = eil.size + 1 ∧
      (eil.Add intPt segmentIndex dist).2 = ⟨intPt, segmentIndex, dist⟩ ∧
      mapGet (eil.Add intPt segmentIndex dist).1.nodeMap ⟨intPt, segmentIndex, dist⟩ =
        some ⟨intPt, segmentIndex, dist⟩) ∧
    ((eil.Add intPt segmentIndex dist).1.Add intPt segmentIndex dist =
      eil.Add intPt segmentIndex dist) ∧
    (∀ other : EdgeIntersection, other ≠ ⟨intPt, segmentIndex, dist⟩ →
      mapGet (eil.Add intPt segmentIndex dist).1.nodeMap other =
        mapGet eil.nodeMap other) := by
  refine ⟨?_, ?_, ?_, ?_⟩
  · intro stored h
    simp [EdgeIntersectionList.Add, h]
  · intro h
    have hnone := (mapGet_eq_none_iff eil.nodeMap ⟨intPt, segmentIndex, dist⟩).2 h
    simp [EdgeIntersectionList.Add, hnone, EdgeIntersectionList.size,
      mapPut_length_absent _ _ _ hnone, mapGet_mapPut_self]
  · cases h : mapGet eil.nodeMap ⟨intPt, segmentIndex, dist⟩ with
    | some stored => simp [EdgeIntersectionList.Add, h]
    | none => simp [EdgeIntersectionList.Add, h, mapGet_mapPut_self]
  · intro other hne
    cases h : mapGet eil.nodeMap ⟨intPt, segmentIndex, dist⟩ with
    | some stored => simp [EdgeIntersectionList.Add, h]
    | none => simp [EdgeIntersectionList.Add, h, mapGet_mapPut_ne _ _ _ _ hne]

/-- Claim C29 (the code falls short of it).  When the intersection point has the
same `X` or the same `Y` as the start vertex of the next segment, in particular
when it coincides with that vertex, `AddIntersection` does not normalise: the
point is recorded under `(point, segmentIndex, EdgeDistance)`. -/
theorem AddIntersection_vertex_not_normalized (e : Edge) (li : RobustLineIntersector)
    (segmentIndex geomIndex intIndex : Nat) (intPt nextPt : Coordinate) (d : ℚ)
    (hp : li.IntersectionAt intIndex = some intPt)
    (hd : li.EdgeDistance geomIndex intIndex = some d)
    (hn : e.Coordinates[segmentIndex + 1]? = some nextPt)
    (hx : intPt.X = nextPt.X ∨ intPt.Y = nextPt.Y) :
    e.AddIntersection li segmentIndex geomIndex intIndex =
      some { e with eiList := (e.eiList.Add intPt segmentIndex d).1 } := by
  have hlen : segmentIndex + 1 < e.Coordinates.length := by
    by_contra hc
    rw [List.getElem?_eq_none (by omega)] at hn
    cases hn
  have hget : e.Coordinates.get ⟨segmentIndex + 1, hlen⟩ = nextPt := by
    rw [List.getElem?_eq_getElem hlen] at hn
    simpa using hn
  have h2 : intPt.Equals2D nextPt = false := by
    rcases hx with h | h <;> simp [Coordinate.Equals2D, h]
  simp only [Edge.AddIntersection, hp, hd, hlen, dite_true, hget, h2]
  rfl

/-- The line intersector after `ComputeIntersection` on the segment `(0,0)-(2,0)`
and the segment `(2,0)-(0,5)` that starts at its end: it reports the point `(2,0)`. -/
theorem intersector_at_vertex :
    NewRobustLineIntersector.ComputeIntersection (pt 0 0) (pt 2 0) (pt 2 0) (pt 0 5) =
      { result := .Point, isProper := false,
        inputLines := ((pt 0 0, pt 2 0), (pt 2 0, pt 0 5)),
        intPts := (pt 2 0, ⟨0, 0, 0⟩) } := by
  have e1 : EnvelopeIntersects (pt 0 0) (pt 2 0) (pt 2 0) (pt 0 5) = true := by
    rw [EnvelopeIntersects_iff]; norm_num [pt]
  have o1 : OrientationIndex (pt 0 0) (pt 2 0) (pt 2 0) = 0 := by
    have h := OrientationIndex_pt 0 0 2 0 2 0 (by norm_num)
    push_cast at h
    rw [h]
    norm_num [cross, sgn, pt]
  have o2 : OrientationIndex (pt 0 0) (pt 2 0) (pt 0 5) = 1 := by
    have h := OrientationIndex_pt 0 0 2 0 0 5 (by norm_num)
    push_cast at h
    rw [h]
    norm_num [cross, sgn, pt]
  have o3 : OrientationIndex (pt 2 0) (pt 0 5) (pt 0 0) = 1 := by
    have h := OrientationIndex_pt 2 0 0 5 0 0 (by norm_num)
    push_cast at h
    rw [h]
    norm_num [cross, sgn, pt]
  have o4 : OrientationIndex (pt 2 0) (pt 0 5) (pt 2 0) = 0 := by
    have h := OrientationIndex_pt 2 0 0 5 2 0 (by norm_num)
    push_cast at h
    rw [h]
    norm_num [cross, sgn, pt]
  have a1 : (pt 0 0).Equals2D (pt 2 0) = false := by decide
  have a2 : (pt 0 0).Equals2D (pt 0 5) = false := by decide
  have a3 : (pt 2 0).Equals2D (pt 2 0) = false := by decide
  have a4 : (pt 2 0).Equals2D (pt 0 5) = true := by decide
  simp [RobustLineIntersector.ComputeIntersection,
    RobustLineIntersector.computeIntersectionResult, NewRobustLineIntersector,
    e1, o1, o2, o3, o4, a1, a2, a3, a4]

/-- The edge `(0,0), (2,0), (4,0)` and the line intersector of its first segment
with the segment `(2,0)-(0,5)`, which reports the vertex `(2,0)`: the vertex is
recorded as the end of segment `0`, at distance `2`, not as the start of segment
`1` at distance `0`. -/
theorem AddIntersection_vertex_not_normalized_witness :
    (NewEdge [pt 0 0, pt 2 0, pt 4 0]).AddIntersection
      (NewRobustLineIntersector.ComputeIntersection (pt 0 0) (pt 2 0) (pt 2 0) (pt 0 5))
      0 0 0 =
      some { NewEdge [pt 0 0, pt 2 0, pt 4 0] with
        eiList := { nodeMap := [(⟨pt 2 0, 0, 2⟩, ⟨pt 2 0, 0, 2⟩)] } } := by
  have h := AddIntersection_vertex_not_normalized (NewEdge [pt 0 0, pt 2 0, pt 4 0])
    (NewRobustLineIntersector.ComputeIntersection (pt 0 0) (pt 2 0) (pt 2 0) (pt 0 5))
    0 0 0 (pt 2 0) (pt 2 0) 2
    (by rw [intersector_at_vertex]; simp [RobustLineIntersector.IntersectionAt])
    (by
      rw [intersector_at_vertex]
      norm_num [RobustLineIntersector.EdgeDistance, RobustLineIntersector.IntersectionAt,
        computeEdgeDistance, Coordinate.Equals, pt])
    (by simp [NewEdge]) (Or.inl rfl)
  rw [h]
  simp [NewEdge, EdgeIntersectionList.Add, NewEdgeIntersectionList, mapGet, mapPut]

/-- A point that differs from the next vertex in both `X` and `Y` is the one the
code moves to the next segment: `(1,1)` on the first segment of the edge
`(0,0), (2,2), (4,0)` is recorded under `(point, 1, 0)`. -/
theorem AddIntersection_interior_point_normalized :
    (NewEdge [pt 0 0, pt 2 2, pt 4 0]).AddIntersection
      { NewRobustLineIntersector with
        result := .Point, intPts := (pt 1 1, pt 0 0),
        inputLines := ((pt 0 0, pt 2 2), (pt 0 2, pt 2 0)) } 0 0 0 =
      some { NewEdge [pt 0 0, pt 2 2, pt 4 0] with
        eiList := { nodeMap := [(⟨pt 1 1, 1, 0⟩, ⟨pt 1 1, 1, 0⟩)] } } := by
  norm_num [Edge.AddIntersection, RobustLineIntersector.EdgeDistance,
    RobustLineIntersector.IntersectionAt, computeEdgeDistance, Coordinate.Equals,
    Coordinate.Equals2D, pt, NewEdge, EdgeIntersectionList.Add, NewEdgeIntersectionList,
    mapGet, mapPut, NewRobustLineIntersector]

/-! ## The intersection matrix -/

/-- The copy that `SetAll(DimensionFalse)` fills inside the callee holds `-1` in
every cell. -/
theorem SetAll_callee_copy (im : IntersectionMatrix) (i j : Fin 3) :
    (im.SetAll DimensionFalse) i j = -1 := rfl

/-- `NewIntersectionMatrix` returns the zero value of the array type. -/
theorem NewIntersectionMatrix_eq_zero : NewIntersectionMatrix = zeroMatrix := rfl

/-- A call of `Set` with indices in range does not panic. -/
theorem Set_isSome (im : IntersectionMatrix) (row col dim : Int)
    (hr : 0 ≤ row ∧ row < 3) (hc : 0 ≤ col ∧ col < 3) :
    ∃ im1, im.Set row col dim = some im1 := by
  unfold IntersectionMatrix.Set
  rw [dif_pos ⟨hr, hc⟩]
  exact ⟨_, rfl⟩

/-- A call statement `im.Set(row, col, dim)` with indices in range leaves the
matrix of the caller as it was. -/
theorem afterValueCall_Set (im : IntersectionMatrix) (row col dim : Int)
    (hr : 0 ≤ row ∧ row < 3) (hc : 0 ≤ col ∧ col < 3) :
    afterValueCall im (im.Set row col dim) = some im := by
  obtain ⟨im1, h⟩ := Set_isSome im row col dim hr hc
  simp [afterValueCall, h]

/-- The matrix after the first two statements of `Relate.IntersectionMatrix` is the
zero matrix. -/
theorem initialMatrix_eq : initialMatrix = some zeroMatrix := by
  unfold initialMatrix
  rw [afterValueCall_Set _ _ _ _ (by decide) (by decide), NewIntersectionMatrix_eq_zero]

/-- Claim C26 (the code falls short of it).  `NewIntersectionMatrix` followed by
`Set(Exterior, Exterior, 2)` leaves a matrix whose nine cells are all `0`: both
methods have a value receiver and fill a copy.  So no cell is `-1` and the
Exterior x Exterior cell is not `2`. -/
theorem initialMatrix_all_zero :
    ∃ im, initialMatrix = some im ∧ (∀ i j, im i j = 0) ∧
      im 2 2 ≠ 2 ∧ (∀ i j, im i j ≠ -1) := by
  refine ⟨zeroMatrix, initialMatrix_eq, fun _ _ => rfl, ?_, ?_⟩
  · simp [zeroMatrix]
  · intro i j
    simp [zeroMatrix]

/-- The value `computeDisjointIM` leaves in its parameter is the value it was
called with. -/
theorem computeDisjointIM_unchanged (r : Relate) (im im1 : IntersectionMatrix)
    (h : r.computeDisjointIM im = some im1) : im1 = im := by
  have hS : ∀ (m : IntersectionMatrix) (row col dim : Int) (m1 : IntersectionMatrix),
      afterValueCall m (m.Set row col dim) = some m1 → m1 = m := by
    intro m row col dim m1 hm
    unfold afterValueCall at hm
    cases hs : m.Set row col dim with
    | none => rw [hs] at hm; cases hm
    | some x => rw [hs] at hm; simpa using hm.symm
  unfold Relate.computeDisjointIM at h
  simp only [Option.bind_eq_bind, Option.bind_eq_some] at h
  obtain ⟨empty0, -, ima, ha, empty1, -, hb⟩ := h
  have h1 : ima = im := by
    cases empty0
    · simp only [Bool.not_false, if_true, Option.bind_eq_some] at ha
      obtain ⟨d, -, im01, h01, bd, -, h02⟩ := ha
      rw [hS _ _ _ _ _ h02, hS _ _ _ _ _ h01]
    · simpa using ha.symm
  have h2 : im1 = ima := by
    cases empty1
    · simp only [Bool.not_false, if_true, Option.bind_eq_some] at hb
      obtain ⟨d, -, im11, h11, bd, -, h12⟩ := hb
      rw [hS _ _ _ _ _ h12, hS _ _ _ _ _ h11]
    · simpa using hb.symm
  rw [h2, h1]

/-- Claim C27 (the code falls short of it).  Every matrix that
`Relate.IntersectionMatrix` returns has `0` in all nine cells, whatever the two
geometries are: `Set` has a value receiver and `computeDisjointIM` takes the array
by value. -/
theorem IntersectionMatrix_returns_zero (r : Relate) (m : IntersectionMatrix)
    (h : r.IntersectionMatrix = .ok m) : ∀ i j, m i j = 0 := by
  unfold Relate.IntersectionMatrix at h
  rw [initialMatrix_eq] at h
  simp only at h
  cases h0 : r.graphs.1.geometry.Envelope with
  | none => rw [h0] at h; cases h
  | some e0 =>
    cases h1 : r.graphs.2.geometry.Envelope with
    | none => rw [h0, h1] at h; cases h
    | some e1 =>
      rw [h0, h1] at h
      simp only at h
      split at h
      · cases hc : r.computeDisjointIM zeroMatrix with
        | none => rw [hc] at h; simp [afterValueCall] at h
        | some x =>
          rw [hc] at h
          simp only [afterValueCall, Option.map_some', Outcome.ok.injEq] at h
          intro i j
          rw [← h]
          rfl
      · cases h

/-- Two points with disjoint envelopes, `A = (0,0)` and `B = (5,5)`: the matrix
returned is all zero, while `BoundaryDimension(A)` is `-1`. -/
theorem IntersectionMatrix_returns_zero_witness :
    (Relate.IntersectionMatrix
        { graphs :=
            (graphLiteral (NewPoint (pt 0 0)) 0 true, graphLiteral (NewPoint (pt 5 5)) 1 true) } =
      .ok zeroMatrix) ∧
    (NewPoint (pt 0 0)).IsEmpty = some false ∧
    (NewPoint (pt 0 0)).BoundaryDimension = some (-1) ∧
    (∀ i j, zeroMatrix i j = 0) := by
  have h : Relate.IntersectionMatrix
      { graphs :=
          (graphLiteral (NewPoint (pt 0 0)) 0 true, graphLiteral (NewPoint (pt 5 5)) 1 true) } =
      .ok zeroMatrix := by
    unfold Relate.IntersectionMatrix
    rw [initialMatrix_eq]
    simp only [graphLiteral, NewPoint, Geometry.Envelope, Geometry.IsMulti, Geometry.Typ,
      TypePoint, TypeMultiPoint, TypeMultiLineString, TypeMultiPolygon, TypeCollection]
    norm_num [Envelope.Intersects, Coordinate.Envelope, pt, Relate.computeDisjointIM,
      Geometry.IsEmpty, Geometry.Dimension, Geometry.BoundaryDimension, TypePoint,
      afterValueCall, IntersectionMatrix.Set, Location.toInt]
  exact ⟨h, by simp [NewPoint, Geometry.IsEmpty, TypePoint],
    by simp [NewPoint, Geometry.BoundaryDimension, TypePoint],
    IntersectionMatrix_returns_zero _ _ h⟩

/-! ## The graph builder: nodes -/

/-- `SetLocation` at an index in range succeeds and sets the On-location. -/
theorem LocationAt_SetLocation (l : Label) (index : Nat) (loc : Location) (hi : index < 2) :
    ∃ l1, l.SetLocation index loc = some l1 ∧ l1.LocationAt index .On = some loc := by
  interval_cases index <;>
    simp [Label.SetLocation, Label.get, Label.set, Label.LocationAt, TopologyLocation.get]

/-- `LocationAt` at an index in range returns a location. -/
theorem LocationAt_isSome (l : Label) (index : Nat) (pos : Position) (hi : index < 2) :
    ∃ loc, l.LocationAt index pos = some loc := by
  interval_cases index <;> simp [Label.LocationAt, Label.get]

/-- The mod-2 rule on the two counts `insertBoundaryPoint` passes. -/
theorem determineBoundary_values :
    determineBoundary 1 = .Boundary ∧ determineBoundary 2 = .Interior := by
  constructor <;> decide

/-- One call of `insertBoundaryPoint` on a graph with an allocated node map: it
returns, and the On-location of the node becomes Interior when it was Boundary and
Boundary otherwise. -/
theorem insertBoundaryPoint_step (gr : Graph) (m : List (Coordinate × Node)) (index : Nat)
    (point : Coordinate) (hm : gr.nodes = some m) (hi : index < 2) :
    ∃ gr1 m1, gr.insertBoundaryPoint index point = (gr1, .ok ()) ∧ gr1.nodes = some m1 ∧
      gr1.onLocation index point =
        some (if gr.onLocation index point = some .Boundary then .Interior else .Boundary) := by
  have key : ∀ (g1 : Graph) (m1 : List (Coordinate × Node)) (node : Node),
      g1.nodes = some m1 →
      ∃ gr1 m2, (match node.Label.LocationAt index .On with
        | none => (g1, Outcome.panic panicIndex)
        | some loc =>
          match node.Label.SetLocation index
              (determineBoundary (if loc = .Boundary then 1 + 1 else 1)) with
          | none => (g1, Outcome.panic panicIndex)
          | some l => (g1.storeNode point { node with Label := l }, Outcome.ok ())) =
          (gr1, Outcome.ok ()) ∧ gr1.nodes = some m2 ∧
        gr1.onLocation index point =
          some (if node.Label.LocationAt index .On = some .Boundary then .Interior
            else .Boundary) := by
    intro g1 m1 node hg1
    obtain ⟨loc, hloc⟩ := LocationAt_isSome node.Label index .On hi
    obtain ⟨l, hl, hl2⟩ := LocationAt_SetLocation node.Label index
      (determineBoundary (if loc = .Boundary then 1 + 1 else 1)) hi
    refine ⟨g1.storeNode point { node with Label := l }, mapPut m1 point { node with Label := l },
      ?_, ?_, ?_⟩
    · simp only [hloc, hl]
    · simp [Graph.storeNode, hg1]
    · simp only [Graph.onLocation, Graph.storeNode, hg1, Option.map_some', mapGet_mapPut_self,
        hl2, hloc, Option.some.injEq]
      by_cases hb : loc = .Boundary
      · simp [hb, determineBoundary_values.2]
      · simp [hb, determineBoundary_values.1]
  cases hg : mapGet m point with
  | some node =>
    simp only [Graph.insertBoundaryPoint, Graph.addNode, hm, hg]
    obtain ⟨gr1, m2, h1, h2, h3⟩ := key gr m node hm
    refine ⟨gr1, m2, h1, h2, ?_⟩
    rw [h3]
    simp [Graph.onLocation, hm, hg]
  | none =>
    simp only [Graph.insertBoundaryPoint, Graph.addNode, hm, hg]
    obtain ⟨gr1, m2, h1, h2, h3⟩ := key { gr with nodes := some (mapPut m point (NewNode point)) }
      (mapPut m point (NewNode point)) (NewNode point) rfl
    refine ⟨gr1, m2, h1, h2, ?_⟩
    rw [h3]
    have hnew : (NewNode point).Label.LocationAt index .On = some .None := by
      interval_cases index <;> rfl
    simp [Graph.onLocation, hm, hg, hnew]

/-- After `n + 1` calls of `insertBoundaryPoint` in a row the On-location is
Interior exactly when the node started at Boundary and `n` is even, or started
elsewhere and `n` is odd. -/
theorem insertBoundaryPointTimes_toggle (index : Nat) (point : Coordinate) (hi : index < 2) :
    ∀ (n : Nat) (gr : Graph) (m : List (Coordinate × Node)), gr.nodes = some m →
      ∃ gr1 m1, Graph.insertBoundaryPointTimes (n + 1) gr index point = (gr1, .ok ()) ∧
        gr1.nodes = some m1 ∧
        gr1.onLocation index point =
          some (if (gr.onLocation index point = some .Boundary ↔ n % 2 = 0) then .Interior
            else .Boundary) := by
  intro n
  induction n with
  | zero =>
    intro gr m hm
    obtain ⟨gr1, m1, h1, h2, h3⟩ := insertBoundaryPoint_step gr m index point hm hi
    refine ⟨gr1, m1, ?_, h2, ?_⟩
    · simp [Graph.insertBoundaryPointTimes, h1]
    · rw [h3]; simp
  | succ n ih =>
    intro gr m hm
    obtain ⟨gr1, m1, h1, h2, h3⟩ := insertBoundaryPoint_step gr m index point hm hi
    obtain ⟨gr2, m2, h4, h5, h6⟩ := ih gr1 m1 h2
    refine ⟨gr2, m2, ?_, h5, ?_⟩
    · rw [Graph.insertBoundaryPointTimes, h1]
      exact h4
    · rw [h6, h3]
      by_cases hb : gr.onLocation index point = some .Boundary <;>
        rcases Nat.mod_two_eq_zero_or_one n with hn | hn <;>
        have hn1 : (n + 1) % 2 = 1 - n % 2 := by omega
      all_goals simp [hb, hn, hn1]

/-- The mod-2 rule on counts: `InBoundary(k)` holds exactly for odd `k`. -/
theorem InBoundary_iff_odd (k : Nat) : InBoundary (k : Int) = true ↔ k % 2 = 1 := by
  unfold InBoundary
  rw [Int.tmod_eq_emod (by omega) (by omega)]
  simp only [beq_iff_eq]
  omega

/-- Claim C24.  On a graph with an allocated node map, `n >= 1` calls of
`insertBoundaryPoint` for one index and one coordinate whose node is absent or
carries no On-location at that index all return, and afterwards the On-location of
the node is Boundary if and only if `n` is odd and Interior if and only if `n` is
even; the rule `InBoundary(k)` holds for a count `k` if and only if `k` is odd. -/
theorem insertBoundaryPoint_parity (gr : Graph) (m : List (Coordinate × Node)) (index : Nat)
    (point : Coordinate) (n : Nat) (hm : gr.nodes = some m) (hi : index < 2)
    (hfresh : gr.onLocation index point = none ∨ gr.onLocation index point = some .None)
    (hn : 1 ≤ n) :
    (∃ gr1, Graph.insertBoundaryPointTimes n gr index point = (gr1, .ok ()) ∧
      (gr1.onLocation index point = some .Boundary ↔ n % 2 = 1) ∧
      (gr1.onLocation index point = some .Interior ↔ n % 2 = 0)) ∧
    (∀ k : Nat, InBoundary (k : Int) = true ↔ k % 2 = 1) := by
  refine ⟨?_, InBoundary_iff_odd⟩
  obtain ⟨k, rfl⟩ : ∃ k, n = k + 1 := ⟨n - 1, by omega⟩
  obtain ⟨gr1, m1, h1, -, h3⟩ := insertBoundaryPointTimes_toggle index point hi k gr m hm
  have hb : gr.onLocation index point ≠ some .Boundary := by
    rcases hfresh with h | h <;> rw [h] <;> simp
  refine ⟨gr1, h1, ?_, ?_⟩
  · rw [h3]
    rcases Nat.mod_two_eq_zero_or_one k with hk | hk <;>
      have hk1 : (k + 1) % 2 = 1 - k % 2 := by omega
    all_goals simp [hb, hk, hk1]
  · rw [h3]
    rcases Nat.mod_two_eq_zero_or_one k with hk | hk <;>
      have hk1 : (k + 1) % 2 = 1 - k % 2 := by omega
    all_goals simp [hb, hk, hk1]

/-- Three touches of the fresh point `(0,0)` give Boundary, four give Interior. -/
theorem insertBoundaryPoint_parity_witness :
    (∃ gr1, Graph.insertBoundaryPointTimes 3
        { graphLiteral (NewCollection []) 0 true with nodes := some [] } 0 (pt 0 0) =
          (gr1, .ok ()) ∧
      (gr1.onLocation 0 (pt 0 0) = some .Boundary ↔ 3 % 2 = 1) ∧
      (gr1.onLocation 0 (pt 0 0) = some .Interior ↔ 3 % 2 = 0)) ∧
    (∀ k : Nat, InBoundary (k : Int) = true ↔ k % 2 = 1) :=
  insertBoundaryPoint_parity { graphLiteral (NewCollection []) 0 true with nodes := some [] }
    [] 0 (pt 0 0) 3 rfl (by decide) (Or.inl rfl) (by decide)

/-! ## The graph builder: rings and polygons -/

/-- `insertPoint` leaves the edges as they are. -/
theorem insertPoint_edges (gr : Graph) (index : Nat) (point : Coordinate) (loc : Location) :
    (gr.insertPoint index point loc).1.edges = gr.edges := by
  cases hm : gr.nodes with
  | none => simp [Graph.insertPoint, Graph.addNode, hm]
  | some m =>
    cases hg : mapGet m point with
    | some node =>
      cases hs : node.Label.SetLocation index loc <;>
        simp [Graph.insertPoint, Graph.addNode, hm, hg, hs, Graph.storeNode]
    | none =>
      cases hs : (NewNode point).Label.SetLocation index loc <;>
        simp [Graph.insertPoint, Graph.addNode, hm, hg, hs, Graph.storeNode]

/-- On a graph whose node map is nil, `insertPoint` panics and changes nothing. -/
theorem insertPoint_nil (gr : Graph) (index : Nat) (point : Coordinate) (loc : Location)
    (hm : gr.nodes = none) : gr.insertPoint index point loc = (gr, .panic panicNilMap) := by
  simp [Graph.insertPoint, Graph.addNode, hm]

/-- On a graph with an allocated node map, `insertPoint` at an index in range
returns and keeps the map allocated. -/
theorem insertPoint_ok (gr : Graph) (m : List (Coordinate × Node)) (index : Nat)
    (point : Coordinate) (loc : Location) (hm : gr.nodes = some m) (hi : index < 2) :
    ∃ gr1 m1, gr.insertPoint index point loc = (gr1, .ok ()) ∧ gr1.nodes = some m1 ∧
      gr1.edges = gr.edges := by
  have hk : ∀ (g1 : Graph) (m1 : List (Coordinate × Node)) (node : Node),
      g1.nodes = some m1 → g1.edges = gr.edges →
      ∃ gr1 m2, (match node.Label.SetLocation index loc with
        | none => (g1, Outcome.panic panicIndex)
        | some l => (g1.storeNode point { node with Label := l }, Outcome.ok ())) =
          (gr1, Outcome.ok ()) ∧ gr1.nodes = some m2 ∧ gr1.edges = gr.edges := by
    intro g1 m1 node hg1 he
    obtain ⟨l, hl, -⟩ := LocationAt_SetLocation node.Label index loc hi
    refine ⟨g1.storeNode point { node with Label := l }, mapPut m1 point { node with Label := l },
      ?_, ?_, ?_⟩
    · simp only [hl]
    · simp [Graph.storeNode, hg1]
    · simpa [Graph.storeNode] using he
  cases hg : mapGet m point with
  | some node =>
    simp only [Graph.insertPoint, Graph.addNode, hm, hg]
    exact hk gr m node hm rfl
  | none =>
    simp only [Graph.insertPoint, Graph.addNode, hm, hg]
    exact hk _ _ (NewNode point) rfl rfl

/-- A ring without points is skipped: no error, no change. -/
theorem insertPolygonRing_nil (fuel : Nat) (gr : Graph) (index : Nat)
    (cwLeft cwRight : Location) :
    gr.insertPolygonRing fuel index [] cwLeft cwRight = (gr, .ok ()) := by
  simp [Graph.insertPolygonRing]

/-- A ring of one, two or three points is refused with an error. -/
theorem insertPolygonRing_short (fuel : Nat) (gr : Graph) (index : Nat) (points : Coordinates)
    (cwLeft cwRight : Location) (h0 : 0 < points.length) (h4 : points.length < 4) :
    gr.insertPolygonRing fuel index points cwLeft cwRight =
      (gr, .err (errRingTooFew points.length)) := by
  have hne : ¬ points.length = 0 := by omega
  simp [Graph.insertPolygonRing, hne, h4]

/-- `SetLocations` at an index in range succeeds and stores the three locations. -/
theorem SetLocations_get (l : Label) (index : Nat) (a b c : Location) (hi : index < 2) :
    ∃ l1, l.SetLocations index a b c = some l1 ∧
      l1.get index = some { On := a, Left := b, Right := c } := by
  interval_cases index <;> simp [Label.SetLocations, Label.set, Label.get]

/-- A ring of at least four points for which `IsCCW` answers: the graph after
`insertPolygonRing` has exactly one more edge, the one described by `RingEdge`, and
what follows is the call `insertPoint(index, points[0], Boundary)`. -/
theorem insertPolygonRing_long (fuel : Nat) (gr : Graph) (index : Nat) (points : Coordinates)
    (cwLeft cwRight : Location) (ccw : Bool) (hi : index < 2) (h4 : 4 ≤ points.length)
    (hc : IsCCW fuel points = some (ccw, none)) :
    ∃ e first, RingEdge fuel index cwLeft cwRight points e ∧ points.head? = some first ∧
      gr.insertPolygonRing fuel index points cwLeft cwRight =
        Graph.insertPoint { gr with edges := gr.edges ++ [e] } index first .Boundary := by
  have hne : ¬ points.length = 0 := by omega
  have hlt : ¬ points.length < 4 := by omega
  obtain ⟨l, hl, hl2⟩ := SetLocations_get (NewEdge points).Label index .Boundary
    (if ccw then cwRight else cwLeft) (if ccw then cwLeft else cwRight) hi
  obtain ⟨first, hfirst⟩ : ∃ first, points.head? = some first := by
    cases points with
    | nil => simp at h4
    | cons p rest => exact ⟨p, rfl⟩
  refine ⟨{ NewEdge points with Label := l }, first, ⟨rfl, ccw, hc, hl2⟩, hfirst, ?_⟩
  simp only [Graph.insertPolygonRing, hne, hlt, if_false, hc, hl, hfirst]

/-- On a graph whose node map is nil, `insertPolygonRing` returns without an error
only for the ring without points. -/
theorem insertPolygonRing_nil_map_ok (fuel : Nat) (gr gr1 : Graph) (index : Nat)
    (points : Coordinates) (cwLeft cwRight : Location) (hm : gr.nodes = none)
    (h : gr.insertPolygonRing fuel index points cwLeft cwRight = (gr1, .ok ())) :
    points = [] ∧ gr1 = gr := by
  by_cases h0 : points.length = 0
  · have hp : points = [] := List.length_eq_zero.1 h0
    subst hp
    rw [insertPolygonRing_nil] at h
    exact ⟨rfl, (Prod.mk.inj h).1.symm⟩
  · exfalso
    by_cases h4 : points.length < 4
    · rw [insertPolygonRing_short fuel gr index points cwLeft cwRight (by omega) h4] at h
      cases h
    · simp only [Graph.insertPolygonRing, h0, h4, if_false] at h
      split at h
      · cases h
      · cases h
      · split at h
        · cases h
        · split at h
          · cases h
          · rw [insertPoint_nil _ _ _ _ (by simpa using hm)] at h
            cases h

/-- Holes without points in front of the list are skipped by `addHoles`. -/
theorem addHoles_skip (fuel : Nat) (gr : Graph) (index : Nat) (pre rest : List Coordinates)
    (hpre : ∀ h ∈ pre, h = []) :
    gr.addHoles fuel index (pre ++ rest) = gr.addHoles fuel index rest := by
  induction pre with
  | nil => rfl
  | cons h pre ih =>
    have hh : h = [] := hpre h (List.mem_cons_self _ _)
    subst hh
    simp only [List.cons_append, Graph.addHoles, insertPolygonRing_nil]
    exact ih (fun x hx => hpre x (List.mem_cons_of_mem _ hx))

/-- The graph `NewGraph` returns for a polygon none of whose rings has a point. -/
theorem addPolygon_all_empty (fuel : Nat) (gr : Graph) (index : Nat) (holes : List Coordinates)
    (hh : ∀ h ∈ holes, h = []) : gr.addPolygon fuel index [] holes = (gr, .ok ()) := by
  have h := addHoles_skip fuel gr index holes [] hh
  rw [List.append_nil] at h
  simp only [Graph.addPolygon, insertPolygonRing_nil, h]
  rfl

/-- `NewGraph` on a line string is `addLineString` on the fresh graph. -/
theorem add_LineString (fuel : Nat) (c : Coordinate) (line : Coordinates)
    (ml : List Coordinates) (col : List Geometry) (gr : Graph) (index : Nat) :
    Graph.add fuel (.mk TypeLineString c line ml col) gr index = gr.addLineString index line := by
  simp [Graph.add, TypeLineString, TypePoint, TypeMultiPoint]

/-- `NewGraph` on a polygon is `addPolygon` on the fresh graph. -/
theorem add_Polygon (fuel : Nat) (c : Coordinate) (line : Coordinates)
    (ml : List Coordinates) (col : List Geometry) (gr : Graph) (index : Nat) :
    Graph.add fuel (.mk TypePolygon c line ml col) gr index = gr.addPolygon fuel index line ml := by
  simp [Graph.add, TypePolygon, TypeLineString, TypePoint, TypeMultiPoint, TypeMultiLineString]

/-- A polygon whose shell and holes all have no points: `NewGraph` returns a graph,
not an error, although every ring has fewer than four points. -/
theorem NewGraph_empty_rings_no_error :
    NewPolygon [] [[]] = .mk TypePolygon ⟨0, 0, 0⟩ [] [[]] [] ∧
    ∃ g, NewGraph 10 (NewPolygon [] [[]]) 0 true = .ok g := by
  refine ⟨rfl, graphLiteral (NewPolygon [] [[]]) 0 true, ?_⟩
  simp only [NewGraph, NewPolygon, add_Polygon]
  rw [addPolygon_all_empty _ _ _ _ (by simp)]

/-- Claim C22, amended.  `NewGraph` returns an error for every line string with
fewer than two points, for every polygon whose shell has one, two or three points,
and for every polygon with an empty shell whose first hole that has points has one,
two or three of them; a polygon all of whose rings have no points gives a graph and
no error. -/
theorem NewGraph_too_few_points (fuel index : Nat) (u : Bool) :
    (∀ (c : Coordinate) (line : Coordinates) (ml : List Coordinates) (col : List Geometry),
      line.length < 2 →
      NewGraph fuel (.mk TypeLineString c line ml col) index u =
        .err (wrapErr errLineTooShort "failed to add geometry to graph")) ∧
    (∀ (c : Coordinate) (shell : Coordinates) (holes : List Coordinates) (col : List Geometry),
      0 < shell.length → shell.length < 4 →
      NewGraph fuel (.mk TypePolygon c shell holes col) index u =
        .err (wrapErr (errRingTooFew shell.length) "failed to add geometry to graph")) ∧
    (∀ (c : Coordinate) (pre : List Coordinates) (hole : Coordinates)
      (post : List Coordinates) (col : List Geometry),
      (∀ h ∈ pre, h = []) → 0 < hole.length → hole.length < 4 →
      NewGraph fuel (.mk TypePolygon c [] (pre ++ hole :: post) col) index u =
        .err (wrapErr (errRingTooFew hole.length) "failed to add geometry to graph")) ∧
    (∀ (c : Coordinate) (holes : List Coordinates) (col : List Geometry),
      (∀ h ∈ holes, h = []) →
      ∃ g, NewGraph fuel (.mk TypePolygon c [] holes col) index u = .ok g) := by
  refine ⟨?_, ?_, ?_, ?_⟩
  · intro c line ml col hlen
    simp only [NewGraph, add_LineString, Graph.addLineString, hlen, if_true]
  · intro c shell holes col h0 h4
    simp only [NewGraph, add_Polygon, Graph.addPolygon,
      insertPolygonRing_short fuel _ index shell _ _ h0 h4]
  · intro c pre hole post col hpre h0 h4
    simp only [NewGraph, add_Polygon, Graph.addPolygon, insertPolygonRing_nil,
      addHoles_skip fuel _ index pre (hole :: post) hpre, Graph.addHoles,
      insertPolygonRing_short fuel _ index hole _ _ h0 h4]
  · intro c holes col hh
    refine ⟨graphLiteral (.mk TypePolygon c [] holes col) index u, ?_⟩
    simp only [NewGraph, add_Polygon]
    rw [addPolygon_all_empty _ _ _ _ hh]

/-- On a graph whose node map is nil, a ring of at least four points ends
`insertPolygonRing` in a panic, or `IsCCW` gives no result: there is no error and
no normal return. -/
theorem insertPolygonRing_nil_map_long (fuel : Nat) (gr : Graph) (index : Nat)
    (points : Coordinates) (cwLeft cwRight : Location) (hm : gr.nodes = none)
    (h4 : 4 ≤ points.length) :
    (∃ msg, (gr.insertPolygonRing fuel index points cwLeft cwRight).2 = .panic msg) ∨
      (gr.insertPolygonRing fuel index points cwLeft cwRight).2 = .timeout := by
  have hne : ¬ points.length = 0 := by omega
  have hlt : ¬ points.length < 4 := by omega
  cases hc : IsCCW fuel points with
  | none => right; simp [Graph.insertPolygonRing, hne, hlt, hc]
  | some r =>
    obtain ⟨ccw, er⟩ := r
    have her : er = none := IsCCW_long_no_error fuel points (ccw, er) (by omega) hc
    subst her
    left
    cases hs : (NewEdge points).Label.SetLocations index .Boundary
        (if ccw then cwRight else cwLeft) (if ccw then cwLeft else cwRight) with
    | none => exact ⟨panicIndex, by simp [Graph.insertPolygonRing, hne, hlt, hc, hs]⟩
    | some l =>
      cases hh : points.head? with
      | none => exact ⟨panicIndex, by simp [Graph.insertPolygonRing, hne, hlt, hc, hs, hh]⟩
      | some first =>
        refine ⟨panicNilMap, ?_⟩
        simp only [Graph.insertPolygonRing, hne, hlt, if_false, hc, hs, hh]
        rw [insertPoint_nil _ _ _ _ (by simpa using hm)]

/-- A polygon with a shell of at least four points never gives an error, whatever
its holes are: on the graph `NewGraph` builds, whose node map is nil, the call ends
in a panic or without a result of `IsCCW`. -/
theorem NewGraph_long_shell_no_error (fuel index : Nat) (u : Bool) (c : Coordinate)
    (shell : Coordinates) (holes : List Coordinates) (col : List Geometry)
    (h4 : 4 ≤ shell.length) :
    (∃ msg, NewGraph fuel (.mk TypePolygon c shell holes col) index u = .panic msg) ∨
      NewGraph fuel (.mk TypePolygon c shell holes col) index u = .timeout := by
  have h := insertPolygonRing_nil_map_long fuel
    (graphLiteral (.mk TypePolygon c shell holes col) index u) index shell .Exterior .Interior
    rfl h4
  rcases hr : (graphLiteral (.mk TypePolygon c shell holes col) index u).insertPolygonRing fuel
    index shell .Exterior .Interior with ⟨g1, o⟩
  rw [hr] at h
  rcases h with ⟨msg, hmsg⟩ | ht
  · left
    refine ⟨msg, ?_⟩
    simp only at hmsg
    subst hmsg
    simp only [NewGraph, add_Polygon, Graph.addPolygon, hr]
  · right
    simp only at ht
    subst ht
    simp only [NewGraph, add_Polygon, Graph.addPolygon, hr]

/-- Whatever its arguments are, `insertPolygonRing` only appends edges. -/
theorem insertPolygonRing_edges_append (fuel : Nat) (gr : Graph) (index : Nat)
    (points : Coordinates) (cwLeft cwRight : Location) :
    ∃ es, (gr.insertPolygonRing fuel index points cwLeft cwRight).1.edges = gr.edges ++ es := by
  by_cases h0 : points.length = 0
  · exact ⟨[], by simp [Graph.insertPolygonRing, h0]⟩
  by_cases h4 : points.length < 4
  · exact ⟨[], by simp [Graph.insertPolygonRing, h0, h4]⟩
  cases hc : IsCCW fuel points with
  | none => exact ⟨[], by simp [Graph.insertPolygonRing, h0, h4, hc]⟩
  | some r =>
    obtain ⟨ccw, er⟩ := r
    cases er with
    | some err => exact ⟨[], by simp [Graph.insertPolygonRing, h0, h4, hc]⟩
    | none =>
      cases hs : (NewEdge points).Label.SetLocations index .Boundary
          (if ccw then cwRight else cwLeft) (if ccw then cwLeft else cwRight) with
      | none => exact ⟨[], by simp [Graph.insertPolygonRing, h0, h4, hc, hs]⟩
      | some l =>
        cases hh : points.head? with
        | none =>
          exact ⟨[{ NewEdge points with Label := l }],
            by simp [Graph.insertPolygonRing, h0, h4, hc, hs, hh]⟩
        | some first =>
          refine ⟨[{ NewEdge points with Label := l }], ?_⟩
          simp only [Graph.insertPolygonRing, h0, h4, if_false, hc, hs, hh]
          rw [insertPoint_edges]

/-- Whatever its arguments are, `addHoles` only appends edges. -/
theorem addHoles_edges_append (fuel index : Nat) (holes : List Coordinates) :
    ∀ gr : Graph, ∃ es, (gr.addHoles fuel index holes).1.edges = gr.edges ++ es := by
  induction holes with
  | nil => intro gr; exact ⟨[], by simp [Graph.addHoles]⟩
  | cons hole rest ih =>
    intro gr
    obtain ⟨es1, h1⟩ := insertPolygonRing_edges_append fuel gr index hole .Interior .Exterior
    rcases hr : gr.insertPolygonRing fuel index hole .Interior .Exterior with ⟨g1, o⟩
    rw [hr] at h1
    simp only at h1
    cases o with
    | ok a =>
      obtain ⟨es2, h2⟩ := ih g1
      refine ⟨es1 ++ es2, ?_⟩
      simp only [Graph.addHoles, hr]
      rw [h2, h1, List.append_assoc]
    | err e => exact ⟨es1, by simp only [Graph.addHoles, hr]; exact h1⟩
    | panic e => exact ⟨es1, by simp only [Graph.addHoles, hr]; exact h1⟩
    | timeout => exact ⟨es1, by simp only [Graph.addHoles, hr]; exact h1⟩
    | noReturn => exact ⟨es1, by simp only [Graph.addHoles, hr]; exact h1⟩

/-- A ring of at least four points for which `IsCCW` answers: whatever the node
map is, `insertPolygonRing` appends exactly the edge described by `RingEdge`. -/
theorem insertPolygonRing_edge (fuel : Nat) (gr : Graph) (index : Nat) (points : Coordinates)
    (cwLeft cwRight : Location) (ccw : Bool) (hi : index < 2) (h4 : 4 ≤ points.length)
    (hc : IsCCW fuel points = some (ccw, none)) :
    ∃ e, RingEdge fuel index cwLeft cwRight points e ∧
      (gr.insertPolygonRing fuel index points cwLeft cwRight).1.edges = gr.edges ++ [e] := by
  obtain ⟨e, first, he, -, hr⟩ :=
    insertPolygonRing_long fuel gr index points cwLeft cwRight ccw hi h4 hc
  exact ⟨e, he, by rw [hr, insertPoint_edges]⟩

/-- On a graph with an allocated node map, `insertPolygonRing` of such a ring
returns without an error. -/
theorem insertPolygonRing_ok (fuel : Nat) (gr : Graph) (m : List (Coordinate × Node))
    (index : Nat) (points : Coordinates) (cwLeft cwRight : Location) (ccw : Bool)
    (hm : gr.nodes = some m) (hi : index < 2) (h4 : 4 ≤ points.length)
    (hc : IsCCW fuel points = some (ccw, none)) :
    ∃ gr1 m1 e, gr.insertPolygonRing fuel index points cwLeft cwRight = (gr1, .ok ()) ∧
      gr1.nodes = some m1 ∧ gr1.edges = gr.edges ++ [e] ∧
      RingEdge fuel index cwLeft cwRight points e := by
  obtain ⟨e, first, he, -, hr⟩ :=
    insertPolygonRing_long fuel gr index points cwLeft cwRight ccw hi h4 hc
  obtain ⟨gr1, m1, h1, h2, h3⟩ :=
    insertPoint_ok { gr with edges := gr.edges ++ [e] } m index first .Boundary hm hi
  exact ⟨gr1, m1, e, hr.trans h1, h2, h3, he⟩

/-- A closed ring of at least four points: with enough fuel `IsCCW` answers. -/
theorem IsCCW_valid_ring (fuel : Nat) (ring : Coordinates) (h4 : 4 ≤ ring.length)
    (hclosed : ring[0]? = ring[ring.length - 1]?) (hfuel : ring.length + 1 ≤ fuel) :
    ∃ ccw, IsCCW fuel ring = some (ccw, none) :=
  IsCCW_closed_returns fuel ring (by omega) hclosed hfuel

/-- On a graph with an allocated node map, `addHoles` of closed holes of at least
four points returns without an error and appends one edge for each hole, in
order, each described by `RingEdge` with `cwLeft = Interior`, `cwRight = Exterior`. -/
theorem addHoles_ok (fuel index : Nat) (hi : index < 2) (holes : List Coordinates) :
    ∀ (gr : Graph) (m : List (Coordinate × Node)), gr.nodes = some m →
      (∀ ring ∈ holes, 4 ≤ ring.length ∧ ring[0]? = ring[ring.length - 1]? ∧
        ring.length + 1 ≤ fuel) →
      ∃ gr1 m1 es, gr.addHoles fuel index holes = (gr1, .ok ()) ∧ gr1.nodes = some m1 ∧
        gr1.edges = gr.edges ++ es ∧
        List.Forall₂ (RingEdge fuel index .Interior .Exterior) holes es := by
  induction holes with
  | nil =>
    intro gr m hm _
    exact ⟨gr, m, [], rfl, hm, by simp, List.Forall₂.nil⟩
  | cons hole rest ih =>
    intro gr m hm hv
    obtain ⟨h4, hcl, hf⟩ := hv hole (List.mem_cons_self _ _)
    obtain ⟨ccw, hc⟩ := IsCCW_valid_ring fuel hole h4 hcl hf
    obtain ⟨g1, m1, e, h1, h2, h3, he⟩ :=
      insertPolygonRing_ok fuel gr m index hole .Interior .Exterior ccw hm hi h4 hc
    obtain ⟨g2, m2, es, k1, k2, k3, k4⟩ :=
      ih g1 m1 h2 (fun r hr => hv r (List.mem_cons_of_mem _ hr))
    refine ⟨g2, m2, e :: es, ?_, k2, ?_, List.Forall₂.cons he k4⟩
    · simp only [Graph.addHoles, h1]
      exact k1
    · rw [k3, h3, List.append_assoc]
      rfl

/-- Claim C23, amended.  For a polygon whose rings are closed and have at least four
points, with fuel for `IsCCW`: the first edge `addPolygon` appends is the edge of
the shell, labelled at the argument index On = Boundary with Left = Interior,
Right = Exterior when `IsCCW(shell)` is true and Left = Exterior, Right = Interior
when it is false (`RingEdge` with `cwLeft = Exterior`, `cwRight = Interior`),
whatever the node map is; and on a graph with an allocated node map `addPolygon`
returns and appends the shell edge followed by one edge for each hole, labelled
with Left and Right swapped relative to a shell of the same orientation. -/
theorem addPolygon_edge_labels (fuel index : Nat) (gr : Graph) (shell : Coordinates)
    (holes : List Coordinates) (hi : index < 2)
    (hv : ∀ ring ∈ shell :: holes, 4 ≤ ring.length ∧ ring[0]? = ring[ring.length - 1]? ∧
      ring.length + 1 ≤ fuel) :
    (∃ eShell, (gr.addPolygon fuel index shell holes).1.edges[gr.edges.length]? = some eShell ∧
      RingEdge fuel index .Exterior .Interior shell eShell) ∧
    (∀ m, gr.nodes = some m →
      ∃ gr1 eShell eHoles, gr.addPolygon fuel index shell holes = (gr1, .ok ()) ∧
        gr1.edges = gr.edges ++ eShell :: eHoles ∧
        RingEdge fuel index .Exterior .Interior shell eShell ∧
        List.Forall₂ (RingEdge fuel index .Interior .Exterior) holes eHoles) := by
  obtain ⟨h4, hcl, hf⟩ := hv shell (List.mem_cons_self _ _)
  obtain ⟨ccw, hc⟩ := IsCCW_valid_ring fuel shell h4 hcl hf
  constructor
  · obtain ⟨e, he, hedges⟩ :=
      insertPolygonRing_edge fuel gr index shell .Exterior .Interior ccw hi h4 hc
    refine ⟨e, ?_, he⟩
    rcases hr : gr.insertPolygonRing fuel index shell .Exterior .Interior with ⟨g1, o⟩
    rw [hr] at hedges
    simp only at hedges
    have hget : (gr.edges ++ [e])[gr.edges.length]? = some e := by simp
    cases o with
    | ok a =>
      obtain ⟨es, hes⟩ := addHoles_edges_append fuel index holes g1
      simp only [Graph.addPolygon, hr]
      rw [hes, hedges, List.append_assoc, List.getElem?_append_right (le_refl _)]
      simp
    | err e1 => simp only [Graph.addPolygon, hr]; rw [hedges]; exact hget
    | panic e1 => simp only [Graph.addPolygon, hr]; rw [hedges]; exact hget
    | timeout => simp only [Graph.addPolygon, hr]; rw [hedges]; exact hget
    | noReturn => simp only [Graph.addPolygon, hr]; rw [hedges]; exact hget
  · intro m hm
    obtain ⟨g1, m1, e, h1, h2, h3, he⟩ :=
      insertPolygonRing_ok fuel gr m index shell .Exterior .Interior ccw hm hi h4 hc
    obtain ⟨g2, m2, es, k1, -, k3, k4⟩ :=
      addHoles_ok fuel index hi holes g1 m1 h2 (fun r hr => hv r (List.mem_cons_of_mem _ hr))
    refine ⟨g2, e, es, ?_, ?_, he, k4⟩
    · simp only [Graph.addPolygon, h1]
      exact k1
    · rw [k3, h3, List.append_assoc]
      rfl

/-- The square `(0,0), (1,0), (1,1), (0,1), (0,0)` as shell, with the triangle
`(1,2), (0,2), (0,0), (1,2)` as a hole, on a graph with an empty node map. -/
theorem addPolygon_edge_labels_witness :
    (∃ eShell,
      (Graph.addPolygon 10 { graphLiteral (NewCollection []) 0 true with nodes := some [] } 0
        (rectRing 0 0 1 1) [[pt 1 2, pt 0 2, pt 0 0, pt 1 2]]).1.edges[0]? = some eShell ∧
      RingEdge 10 0 .Exterior .Interior (rectRing 0 0 1 1) eShell) ∧
    (∀ m, some ([] : List (Coordinate × Node)) = some m →
      ∃ gr1 eShell eHoles,
        Graph.addPolygon 10 { graphLiteral (NewCollection []) 0 true with nodes := some [] } 0
          (rectRing 0 0 1 1) [[pt 1 2, pt 0 2, pt 0 0, pt 1 2]] = (gr1, .ok ()) ∧
        gr1.edges = [] ++ eShell :: eHoles ∧
        RingEdge 10 0 .Exterior .Interior (rectRing 0 0 1 1) eShell ∧
        List.Forall₂ (RingEdge 10 0 .Interior .Exterior) [[pt 1 2, pt 0 2, pt 0 0, pt 1 2]]
          eHoles) :=
  addPolygon_edge_labels 10 0 { graphLiteral (NewCollection []) 0 true with nodes := some [] }
    (rectRing 0 0 1 1) [[pt 1 2, pt 0 2, pt 0 0, pt 1 2]] (by decide)
    (by
      intro ring hr
      simp only [List.mem_cons, List.mem_singleton, List.not_mem_nil, or_false] at hr
      rcases hr with rfl | rfl
      · simp [rectRing]
      · simp)

/-- The labels the builder gives, against the claim as stated.  The triangle
`(1,2), (0,2), (0,0), (1,2)` has `IsCCW` true and its shell edge gets
Left = Interior, Right = Exterior; the square has `IsCCW` false and its shell edge
gets Left = Exterior, Right = Interior. -/
theorem addPolygon_labels_counterexample :
    IsCCW 10 [pt 1 2, pt 0 2, pt 0 0, pt 1 2] = some (true, none) ∧
    ((graphLiteral (NewPolygon [pt 1 2, pt 0 2, pt 0 0, pt 1 2] []) 0 true).addPolygon 10 0
        [pt 1 2, pt 0 2, pt 0 0, pt 1 2] []).1.edges.map (fun e => e.Label.loc0) =
      [{ On := .Boundary, Left := .Interior, Right := .Exterior }] ∧
    IsCCW 10 (rectRing 0 0 1 1) = some (false, none) ∧
    ((graphLiteral (NewPolygon (rectRing 0 0 1 1) []) 0 true).addPolygon 10 0
        (rectRing 0 0 1 1) []).1.edges.map (fun e => e.Label.loc0) =
      [{ On := .Boundary, Left := .Exterior, Right := .Interior }] := by
  have ho : OrientationIndex (pt 1 2) (pt 1 2) (pt 0 2) = 0 := by
    have h := OrientationIndex_pt 1 2 1 2 0 2 (by norm_num)
    push_cast at h
    rw [h]
    norm_num [cross, sgn, pt]
  simp only [pt] at ho
  have h1 : IsCCW 10 [pt 1 2, pt 0 2, pt 0 0, pt 1 2] = some (true, none) := by
    norm_num [IsCCW, pt, highestLoop, prevLoop, nextLoop, decWrap, Coordinate.Equals2D, ho]
  have h2 : IsCCW 10 (rectRing 0 0 1 1) = some (false, none) := by
    norm_num [IsCCW, rectRing, pt, highestLoop, prevLoop, nextLoop, decWrap,
      Coordinate.Equals2D]
  refine ⟨h1, ?_, h2, ?_⟩
  · simp [Graph.addPolygon, Graph.insertPolygonRing, h1, Label.SetLocations, Label.set,
      NewEdge, NewLabel, graphLiteral, Graph.insertPoint, Graph.addNode]
  · have h2' : IsCCW 10 [pt 0 0, pt 1 0, pt 1 1, pt 0 1, pt 0 0] = some (false, none) := h2
    simp [Graph.addPolygon, Graph.insertPolygonRing, h2', rectRing, Label.SetLocations,
      Label.set, NewEdge, NewLabel, graphLiteral, Graph.insertPoint, Graph.addNode]

/-! ## The graph builder: `add` and collections -/

/-- When the children `pre` are all added without an error, `addCollection` goes on
with the children that follow, on the graph the first ones left. -/
theorem addCollection_append (fuel index : Nat) (pre rest : List Geometry) :
    ∀ gr gr1 : Graph, Graph.addCollection fuel pre gr index = (gr1, .ok ()) →
      Graph.addCollection fuel (pre ++ rest) gr index =
        Graph.addCollection fuel rest gr1 index := by
  induction pre with
  | nil =>
    intro gr gr1 h
    simp only [Graph.addCollection, Prod.mk.injEq, and_true] at h
    subst h
    rfl
  | cons g pre ih =>
    intro gr gr1 h
    rcases hr : Graph.add fuel g gr index with ⟨g1, o⟩
    simp only [Graph.addCollection, hr, List.cons_append] at h ⊢
    cases o with
    | ok a => exact ih g1 gr1 h
    | err e => cases h
    | panic e => cases h
    | timeout => cases h
    | noReturn => cases h

/-- The first child that fails with an error ends `addCollection` with that error;
the children behind it are not visited. -/
theorem addCollection_first_error (fuel index : Nat) (pre post : List Geometry)
    (child : Geometry) (gr gr1 gr2 : Graph) (e : String)
    (hpre : Graph.addCollection fuel pre gr index = (gr1, .ok ()))
    (hchild : Graph.add fuel child gr1 index = (gr2, .err e)) :
    Graph.addCollection fuel (pre ++ child :: post) gr index = (gr2, .err e) := by
  rw [addCollection_append fuel index pre (child :: post) gr gr1 hpre]
  simp only [Graph.addCollection, hchild]

/-- On the four collection types `add` is `addCollection` on the children, after
`UseBoundaryDeterminationRule` is cleared for a multi-polygon. -/
theorem add_collection_types (fuel : Nat) (t : Int) (c : Coordinate) (line : Coordinates)
    (ml : List Coordinates) (col : List Geometry) (gr : Graph) (index : Nat)
    (ht : t ∈ [TypeMultiPoint, TypeMultiLineString, TypeMultiPolygon, TypeCollection]) :
    Graph.add fuel (.mk t c line ml col) gr index =
      Graph.addCollection fuel col
        (if t = TypeMultiPolygon then { gr with UseBoundaryDeterminationRule := false } else gr)
        index := by
  simp only [List.mem_cons, List.mem_singleton, List.not_mem_nil, or_false] at ht
  rcases ht with rfl | rfl | rfl | rfl <;>
    simp [Graph.add, TypePoint, TypeMultiPoint, TypeLineString, TypeMultiLineString,
      TypePolygon, TypeMultiPolygon, TypeCollection]

/-- Claim C25.  `add` returns an error for every geometry whose type is none of the
seven constants; on a collection type, once the children in front have been added
without an error, an error of the next child (itself possibly a collection, at any
depth) is the result of `add`, and the children behind it are not visited; and
whenever `add` returns an error `NewGraph` returns that error, wrapped, and no
graph. -/
theorem add_error_cases (fuel : Nat) :
    (∀ (t : Int) (c : Coordinate) (line : Coordinates) (ml : List Coordinates)
      (col : List Geometry) (gr : Graph) (index : Nat),
      t ∉ [TypePoint, TypeMultiPoint, TypeLineString, TypeMultiLineString, TypePolygon,
        TypeMultiPolygon, TypeCollection] →
      Graph.add fuel (.mk t c line ml col) gr index = (gr, .err errUnsupportedType)) ∧
    (∀ (t : Int) (c : Coordinate) (line : Coordinates) (ml : List Coordinates)
      (pre post : List Geometry) (child : Geometry) (gr gr1 gr2 : Graph) (index : Nat)
      (e : String),
      t ∈ [TypeMultiPoint, TypeMultiLineString, TypeMultiPolygon, TypeCollection] →
      Graph.addCollection fuel pre
        (if t = TypeMultiPolygon then { gr with UseBoundaryDeterminationRule := false } else gr)
        index = (gr1, .ok ()) →
      Graph.add fuel child gr1 index = (gr2, .err e) →
      Graph.add fuel (.mk t c line ml (pre ++ child :: post)) gr index = (gr2, .err e)) ∧
    (∀ (parent : Geometry) (index : Nat) (u : Bool) (gr1 : Graph) (e : String),
      Graph.add fuel parent (graphLiteral parent index u) index = (gr1, .err e) →
      NewGraph fuel parent index u = .err (wrapErr e "failed to add geometry to graph")) := by
  refine ⟨?_, ?_, ?_⟩
  · intro t c line ml col gr index ht
    simp only [List.mem_cons, List.mem_singleton, List.not_mem_nil, or_false, not_or] at ht
    obtain ⟨h0, h1, h2, h3, h4, h5, h6⟩ := ht
    simp [Graph.add, h0, h1, h2, h3, h4, h5, h6]
  · intro t c line ml pre post child gr gr1 gr2 index e ht hpre hchild
    rw [add_collection_types fuel t c line ml _ gr index ht]
    exact addCollection_first_error fuel index pre post child _ gr1 gr2 e hpre hchild
  · intro parent index u gr1 e h
    simp only [NewGraph, h]

/-- A collection that holds a collection that holds a geometry of the unknown type
`7`: `NewGraph` returns the error of the innermost child. -/
theorem NewGraph_nested_unknown_type :
    NewGraph 0 (NewCollection [NewCollection [.mk 7 ⟨0, 0, 0⟩ [] [] []]]) 0 true =
      .err (wrapErr errUnsupportedType "failed to add geometry to graph") := by
  simp [NewGraph, NewCollection, Graph.add, Graph.addCollection, TypePoint, TypeMultiPoint,
    TypeLineString, TypeMultiLineString, TypePolygon, TypeMultiPolygon, TypeCollection]

/-- A point in front of the unknown child: the node map of the fresh graph is nil,
so the call panics at the point and the unknown child is never visited. -/
theorem NewGraph_point_then_unknown_type :
    NewGraph 0 (NewCollection [NewPoint (pt 0 0), .mk 7 ⟨0, 0, 0⟩ [] [] []]) 0 true =
      .panic panicNilMap := by
  simp [NewGraph, NewCollection, NewPoint, Graph.add, Graph.addCollection, TypePoint,
    TypeMultiPoint, TypeLineString, TypeMultiLineString, TypePolygon, TypeMultiPolygon,
    TypeCollection, Graph.addPoint, Graph.insertPoint, Graph.addNode, graphLiteral]

/-! ## The relate engine -/

/-- The envelope test is symmetric. -/
theorem Intersects_comm (e o : Option Envelope) :
    Envelope.Intersects e o = Envelope.Intersects o e := by
  cases e with
  | none => cases o <;> rfl
  | some e =>
    cases o with
    | none => rfl
    | some o =>
      rw [Bool.eq_iff_iff, Intersects_some_iff, Intersects_some_iff]
      tauto

/-- `computeDisjointIM` returns exactly when the calls it makes on the two
geometries return. -/
theorem computeDisjointIM_returns_iff (r : Relate) (im : IntersectionMatrix) :
    (∃ im1, r.computeDisjointIM im = some im1) ↔
      DisjointCallsReturn r.graphs.1.geometry ∧ DisjointCallsReturn r.graphs.2.geometry := by
  have hI : (0 : Int) ≤ Location.Interior.toInt ∧ Location.Interior.toInt < 3 := by decide
  have hB : (0 : Int) ≤ Location.Boundary.toInt ∧ Location.Boundary.toInt < 3 := by decide
  have hE : (0 : Int) ≤ Location.Exterior.toInt ∧ Location.Exterior.toInt < 3 := by decide
  constructor
  · rintro ⟨im1, h⟩
    unfold Relate.computeDisjointIM at h
    simp only [Option.bind_eq_bind, Option.bind_eq_some] at h
    obtain ⟨empty0, he0, ima, ha, empty1, he1, hb⟩ := h
    refine ⟨⟨empty0, he0, ?_⟩, ⟨empty1, he1, ?_⟩⟩
    · intro hf
      subst hf
      simp only [Bool.not_false, if_true, Option.bind_eq_some] at ha
      obtain ⟨d, hd, im01, -, bd, hbd, -⟩ := ha
      exact ⟨d, bd, hd, hbd⟩
    · intro hf
      subst hf
      simp only [Bool.not_false, if_true, Option.bind_eq_some] at hb
      obtain ⟨d, hd, im11, -, bd, hbd, -⟩ := hb
      exact ⟨d, bd, hd, hbd⟩
  · rintro ⟨⟨b0, hb0, h0⟩, ⟨b1, hb1, h1⟩⟩
    refine ⟨im, ?_⟩
    unfold Relate.computeDisjointIM
    simp only [Option.bind_eq_bind, hb0, hb1, Option.some_bind]
    have first : (if (!b0) = true then
        ((r.graphs.1.geometry.Dimension).bind fun d =>
          (afterValueCall im (im.Set Location.Interior.toInt Location.Exterior.toInt d)).bind
            fun im01 => (r.graphs.1.geometry.BoundaryDimension).bind fun bd =>
              afterValueCall im01
                (im01.Set Location.Boundary.toInt Location.Exterior.toInt bd))
        else some im) = some im := by
      cases b0 with
      | true => rfl
      | false =>
        obtain ⟨d, bd, hd, hbd⟩ := h0 rfl
        simp only [Bool.not_false, if_true, hd, hbd, Option.some_bind,
          afterValueCall_Set _ _ _ _ hI hE, afterValueCall_Set _ _ _ _ hB hE]
    rw [first]
    simp only [Option.some_bind]
    cases b1 with
    | true => rfl
    | false =>
      obtain ⟨d, bd, hd, hbd⟩ := h1 rfl
      simp only [Bool.not_false, if_true, hd, hbd, Option.some_bind,
        afterValueCall_Set _ _ _ _ hE hI, afterValueCall_Set _ _ _ _ hE hB]

/-- What a normal return of `Relate.IntersectionMatrix` says about its receiver: both
envelopes are computed, they do not intersect, and the calls of `computeDisjointIM`
return; the matrix is the zero matrix. -/
theorem IntersectionMatrix_ok_iff (r : Relate) (m : IntersectionMatrix) :
    r.IntersectionMatrix = .ok m ↔
      m = zeroMatrix ∧
      ∃ e0 e1, r.graphs.1.geometry.Envelope = some e0 ∧ r.graphs.2.geometry.Envelope = some e1 ∧
        Envelope.Intersects e0 e1 = false ∧
        DisjointCallsReturn r.graphs.1.geometry ∧ DisjointCallsReturn r.graphs.2.geometry := by
  unfold Relate.IntersectionMatrix
  rw [initialMatrix_eq]
  simp only
  cases h0 : r.graphs.1.geometry.Envelope with
  | none => simp
  | some e0 =>
    cases h1 : r.graphs.2.geometry.Envelope with
    | none => simp
    | some e1 =>
      simp only
      cases hi : Envelope.Intersects e0 e1 with
      | true => simp [hi]
      | false =>
        simp only [hi, Bool.not_false, if_true]
        cases hc : r.computeDisjointIM zeroMatrix with
        | none =>
          have hn : ¬ (DisjointCallsReturn r.graphs.1.geometry ∧
              DisjointCallsReturn r.graphs.2.geometry) := by
            rw [← computeDisjointIM_returns_iff r zeroMatrix, hc]
            simp
          simp only [afterValueCall, Option.map_none']
          constructor
          · intro h; cases h
          · rintro ⟨-, e0', e1', -, -, -, ha, hb⟩
            exact absurd ⟨ha, hb⟩ hn
        | some x =>
          have hy := (computeDisjointIM_returns_iff r zeroMatrix).1 ⟨x, hc⟩
          simp only [afterValueCall, Option.map_some', Outcome.ok.injEq]
          constructor
          · intro h
            exact ⟨h.symm, e0, e1, rfl, rfl, hi, hy.1, hy.2⟩
          · rintro ⟨h, -⟩
            exact h.symm

/-- The method `IntersectionMatrix` on two receivers that hold the same two
geometries in opposite order: when one returns a matrix, the other returns its
transpose. -/
theorem IntersectionMatrix_swap (r r1 : Relate) (m : IntersectionMatrix)
    (h1 : r1.graphs.1.geometry = r.graphs.2.geometry)
    (h2 : r1.graphs.2.geometry = r.graphs.1.geometry)
    (h : r.IntersectionMatrix = .ok m) : r1.IntersectionMatrix = .ok m.transpose := by
  rw [IntersectionMatrix_ok_iff] at h ⊢
  obtain ⟨hm, e0, e1, he0, he1, hi, ha, hb⟩ := h
  subst hm
  refine ⟨rfl, e1, e0, ?_, ?_, ?_, ?_, ?_⟩
  · rw [h1]; exact he1
  · rw [h2]; exact he0
  · rw [Intersects_comm]; exact hi
  · rw [h1]; exact hb
  · rw [h2]; exact ha

/-- On a graph whose node map is nil, `insertBoundaryPoint` panics and changes
nothing. -/
theorem insertBoundaryPoint_nil (gr : Graph) (index : Nat) (point : Coordinate)
    (hm : gr.nodes = none) :
    gr.insertBoundaryPoint index point = (gr, .panic panicNilMap) := by
  simp [Graph.insertBoundaryPoint, Graph.addNode, hm]

/-- On a graph whose node map is nil, `addLineString` never returns without an
error. -/
theorem addLineString_nil_map (gr gr1 : Graph) (index : Nat) (line : Coordinates)
    (hm : gr.nodes = none) : gr.addLineString index line ≠ (gr1, .ok ()) := by
  intro h
  by_cases hlen : line.length < 2
  · simp [Graph.addLineString, hlen] at h
  · simp only [Graph.addLineString, hlen, if_false] at h
    cases hl : LabelAt index (On .Interior) with
    | none => simp [hl] at h
    | some l =>
      simp only [hl] at h
      cases hh : line.head? with
      | none => simp [hh] at h
      | some first =>
        cases hg : line.getLast? with
        | none => simp [hh, hg] at h
        | some last =>
          simp only [hh, hg] at h
          rw [insertBoundaryPoint_nil _ _ _ (by simpa using hm)] at h
          simp at h

/-- On a graph whose node map is nil, `addHoles` returns without an error only
when no hole has a point, and then it changes nothing. -/
theorem addHoles_nil_map_ok (fuel index : Nat) (holes : List Coordinates) :
    ∀ gr gr1 : Graph, gr.nodes = none → gr.addHoles fuel index holes = (gr1, .ok ()) →
      (∀ h ∈ holes, h = []) ∧ gr1 = gr := by
  induction holes with
  | nil =>
    intro gr gr1 _ h
    simp only [Graph.addHoles, Prod.mk.injEq, and_true] at h
    exact ⟨by simp, h.symm⟩
  | cons hole rest ih =>
    intro gr gr1 hm h
    rcases hr : gr.insertPolygonRing fuel index hole .Interior .Exterior with ⟨g1, o⟩
    simp only [Graph.addHoles, hr] at h
    cases o with
    | ok a =>
      obtain ⟨hnil, hg⟩ := insertPolygonRing_nil_map_ok fuel gr g1 index hole _ _ hm hr
      subst hg
      obtain ⟨hrest, hg1⟩ := ih g1 gr1 hm h
      refine ⟨?_, hg1⟩
      intro x hx
      rcases List.mem_cons.1 hx with rfl | hx
      · exact hnil
      · exact hrest x hx
    | err e => cases h
    | panic e => cases h
    | timeout => cases h
    | noReturn => cases h

/-- On a graph whose node map is nil, `addPolygon` returns without an error only
when no ring has a point, and then it changes nothing. -/
theorem addPolygon_nil_map_ok (fuel index : Nat) (gr gr1 : Graph) (shell : Coordinates)
    (holes : List Coordinates) (hm : gr.nodes = none)
    (h : gr.addPolygon fuel index shell holes = (gr1, .ok ())) :
    shell = [] ∧ (∀ x ∈ holes, x = []) ∧ gr1 = gr := by
  rcases hr : gr.insertPolygonRing fuel index shell .Exterior .Interior with ⟨g1, o⟩
  simp only [Graph.addPolygon, hr] at h
  cases o with
  | ok a =>
    obtain ⟨hnil, hg⟩ := insertPolygonRing_nil_map_ok fuel gr g1 index shell _ _ hm hr
    subst hg
    obtain ⟨hh, hg1⟩ := addHoles_nil_map_ok fuel index holes g1 gr1 hm h
    exact ⟨hnil, hh, hg1⟩
  | err e => cases h
  | panic e => cases h
  | timeout => cases h
  | noReturn => cases h

mutual
/-- On a graph whose node map is nil, whether `add` returns without an error
depends on the geometry alone, not on the index or on the rest of the graph; the
node map stays nil and the field `geometry` is kept. -/
theorem add_nil_map_ok (fuel : Nat) : ∀ (g : Geometry) (gr gr1 : Graph) (index : Nat),
    gr.nodes = none → Graph.add fuel g gr index = (gr1, .ok ()) →
    gr1.nodes = none ∧ gr1.geometry = gr.geometry ∧
      ∀ (gr' : Graph) (index' : Nat), gr'.nodes = none →
        ∃ gr1', Graph.add fuel g gr' index' = (gr1', .ok ())
  | .mk t c line ml col, gr, gr1, index, hm, h => by
    by_cases h0 : t = TypePoint
    · subst h0
      simp [Graph.add, Graph.addPoint, insertPoint_nil _ _ _ _ hm] at h
    by_cases h2 : t = TypeLineString
    · subst h2
      rw [add_LineString] at h
      exact absurd h (addLineString_nil_map gr gr1 index line hm)
    by_cases h4 : t = TypePolygon
    · subst h4
      rw [add_Polygon] at h
      obtain ⟨hs, hh, hg⟩ := addPolygon_nil_map_ok fuel index gr gr1 line ml hm h
      subst hg hs
      refine ⟨hm, rfl, ?_⟩
      intro gr' index' _
      exact ⟨gr', by rw [add_Polygon, addPolygon_all_empty _ _ _ _ hh]⟩
    by_cases hc : t ∈ [TypeMultiPoint, TypeMultiLineString, TypeMultiPolygon, TypeCollection]
    · rw [add_collection_types fuel t c line ml col gr index hc] at h
      have hm' : (if t = TypeMultiPolygon then
          { gr with UseBoundaryDeterminationRule := false } else gr).nodes = none := by
        split <;> simpa using hm
      have hg' : (if t = TypeMultiPolygon then
          { gr with UseBoundaryDeterminationRule := false } else gr).geometry = gr.geometry := by
        split <;> rfl
      obtain ⟨k1, k2, k3⟩ := addCollection_nil_map_ok fuel col _ gr1 index hm' h
      refine ⟨k1, k2.trans hg', ?_⟩
      intro gr' index' hm1
      rw [add_collection_types fuel t c line ml col gr' index' hc]
      apply k3
      split <;> simpa using hm1
    · exfalso
      simp only [List.mem_cons, List.mem_singleton, List.not_mem_nil, or_false, not_or] at hc
      obtain ⟨h1, h3, h5, h6⟩ := hc
      simp [Graph.add, h0, h1, h2, h3, h4, h5, h6] at h
/-- The same for `addCollection` on a list of children. -/
theorem addCollection_nil_map_ok (fuel : Nat) : ∀ (col : List Geometry) (gr gr1 : Graph)
    (index : Nat), gr.nodes = none → Graph.addCollection fuel col gr index = (gr1, .ok ()) →
    gr1.nodes = none ∧ gr1.geometry = gr.geometry ∧
      ∀ (gr' : Graph) (index' : Nat), gr'.nodes = none →
        ∃ gr1', Graph.addCollection fuel col gr' index' = (gr1', .ok ())
  | [], gr, gr1, index, hm, h => by
    simp only [Graph.addCollection, Prod.mk.injEq, and_true] at h
    subst h
    exact ⟨hm, rfl, fun gr' _ _ => ⟨gr', rfl⟩⟩
  | g :: rest, gr, gr1, index, hm, h => by
    rcases hr : Graph.add fuel g gr index with ⟨g1, o⟩
    simp only [Graph.addCollection, hr] at h
    cases o with
    | ok a =>
      obtain ⟨a1, a2, a3⟩ := add_nil_map_ok fuel g gr g1 index hm hr
      obtain ⟨b1, b2, b3⟩ := addCollection_nil_map_ok fuel rest g1 gr1 index a1 h
      refine ⟨b1, b2.trans a2, ?_⟩
      intro gr' index' hm1
      obtain ⟨g1', hg1'⟩ := a3 gr' index' hm1
      have hn := (add_nil_map_ok fuel g gr' g1' index' hm1 hg1').1
      obtain ⟨g2', hg2'⟩ := b3 g1' index' hn
      exact ⟨g2', by simp only [Graph.addCollection, hg1']; exact hg2'⟩
    | err e => cases h
    | panic e => cases h
    | timeout => cases h
    | noReturn => cases h
end

/-- The loop of `Envelope` over children none of which has an envelope, started
without one: it panics or ends without an envelope. -/
theorem envelopeLoop_no_envelope : ∀ (col : List Geometry) (first : Bool),
    (∀ g ∈ col, g.Envelope = none ∨ g.Envelope = some none) →
    envelopeLoop col first none = none ∨ envelopeLoop col first none = some none
  | [], _, _ => Or.inr (by simp [envelopeLoop])
  | g :: rest, first, h => by
    rcases h g (List.mem_cons_self _ _) with hg | hg
    · left; simp [envelopeLoop, hg]
    · cases first with
      | true =>
        simp only [envelopeLoop, hg, if_true]
        exact envelopeLoop_no_envelope rest false (fun x hx => h x (List.mem_cons_of_mem _ hx))
      | false => left; simp [envelopeLoop, hg]

mutual
/-- A geometry that `add` accepts on a graph whose node map is nil has no
envelope: `Envelope` panics or returns nil. -/
theorem add_nil_map_ok_envelope (fuel : Nat) : ∀ (g : Geometry) (gr gr1 : Graph)
    (index : Nat), gr.nodes = none → Graph.add fuel g gr index = (gr1, .ok ()) →
    g.Envelope = none ∨ g.Envelope = some none
  | .mk t c line ml col, gr, gr1, index, hm, h => by
    by_cases h0 : t = TypePoint
    · subst h0
      simp [Graph.add, Graph.addPoint, insertPoint_nil _ _ _ _ hm] at h
    by_cases h2 : t = TypeLineString
    · subst h2
      rw [add_LineString] at h
      exact absurd h (addLineString_nil_map gr gr1 index line hm)
    by_cases h4 : t = TypePolygon
    · subst h4
      rw [add_Polygon] at h
      obtain ⟨hs, -, -⟩ := addPolygon_nil_map_ok fuel index gr gr1 line ml hm h
      subst hs
      left
      simp [Geometry.Envelope, Geometry.IsMulti, Geometry.Typ, Coordinates.Envelope,
        TypePoint, TypeMultiPoint, TypeLineString, TypeMultiLineString, TypePolygon,
        TypeMultiPolygon, TypeCollection]
    by_cases hc : t ∈ [TypeMultiPoint, TypeMultiLineString, TypeMultiPolygon, TypeCollection]
    · rw [add_collection_types fuel t c line ml col gr index hc] at h
      have hm' : (if t = TypeMultiPolygon then
          { gr with UseBoundaryDeterminationRule := false } else gr).nodes = none := by
        split <;> simpa using hm
      have hcol := addCollection_nil_map_ok_envelope fuel col _ gr1 index hm' h
      by_cases h6 : t = TypeCollection
      · subst h6
        have hloop := envelopeLoop_no_envelope col true hcol
        rcases hloop with hl | hl
        · left
          simp [Geometry.Envelope, Geometry.IsMulti, Geometry.Typ, hl, TypePoint,
            TypeMultiPoint, TypeLineString, TypeMultiLineString, TypePolygon,
            TypeMultiPolygon, TypeCollection]
        · right
          simp [Geometry.Envelope, Geometry.IsMulti, Geometry.Typ, hl, TypePoint,
            TypeMultiPoint, TypeLineString, TypeMultiLineString, TypePolygon,
            TypeMultiPolygon, TypeCollection]
      · right
        simp only [List.mem_cons, List.mem_singleton, List.not_mem_nil, or_false, h6] at hc
        rcases hc with rfl | rfl | rfl <;>
          simp [Geometry.Envelope, Geometry.IsMulti, Geometry.Typ, TypePoint,
            TypeMultiPoint, TypeLineString, TypeMultiLineString, TypePolygon,
            TypeMultiPolygon, TypeCollection]
    · exfalso
      simp only [List.mem_cons, List.mem_singleton, List.not_mem_nil, or_false, not_or] at hc
      obtain ⟨h1, h3, h5, h6⟩ := hc
      simp [Graph.add, h0, h1, h2, h3, h4, h5, h6] at h
/-- The same for the children `addCollection` accepts. -/
theorem addCollection_nil_map_ok_envelope (fuel : Nat) : ∀ (col : List Geometry)
    (gr gr1 : Graph) (index : Nat), gr.nodes = none →
    Graph.addCollection fuel col gr index = (gr1, .ok ()) →
    ∀ g ∈ col, g.Envelope = none ∨ g.Envelope = some none
  | [], _, _, _, _, _ => by simp
  | g :: rest, gr, gr1, index, hm, h => by
    rcases hr : Graph.add fuel g gr index with ⟨g1, o⟩
    simp only [Graph.addCollection, hr] at h
    cases o with
    | ok a =>
      have a1 := (add_nil_map_ok fuel g gr g1 index hm hr).1
      have hg := add_nil_map_ok_envelope fuel g gr g1 index hm hr
      have hrest := addCollection_nil_map_ok_envelope fuel rest g1 gr1 index a1 h
      intro x hx
      rcases List.mem_cons.1 hx with rfl | hx
      · exact hg
      · exact hrest x hx
    | err e => cases h
    | panic e => cases h
    | timeout => cases h
    | noReturn => cases h
end

/-- A `Relate` built by `NewRelate` never enters the path of `IntersectionMatrix`
that ends without a `return`: the first geometry has no envelope, so the envelopes
do not intersect. -/
theorem NewRelate_never_noReturn (fuel : Nat) (a b : Geometry) (r : Relate)
    (h : NewRelate fuel a b = .ok r) : r.IntersectionMatrix ≠ .noReturn := by
  unfold NewRelate at h
  cases ha : NewGraph fuel a 0 true with
  | ok ga =>
    cases hb : NewGraph fuel b 1 true with
    | ok gb =>
      rw [ha, hb] at h
      simp only [Outcome.ok.injEq] at h
      subst h
      have hadd : Graph.add fuel a (graphLiteral a 0 true) 0 = (ga, .ok ()) := by
        unfold NewGraph at ha
        rcases hr : Graph.add fuel a (graphLiteral a 0 true) 0 with ⟨g1, o⟩
        rw [hr] at ha
        cases o with
        | ok u => simp only [Outcome.ok.injEq] at ha; rw [ha]
        | err e => cases ha
        | panic e => cases ha
        | timeout => cases ha
        | noReturn => cases ha
      have hgeo : ga.geometry = a := (add_nil_map_ok fuel a _ ga 0 rfl hadd).2.1
      have henv := add_nil_map_ok_envelope fuel a _ ga 0 rfl hadd
      unfold Relate.IntersectionMatrix
      rw [initialMatrix_eq]
      simp only [hgeo]
      rcases henv with he | he
      · rw [he]; simp
      · rw [he]
        simp only
        cases gb.geometry.Envelope with
        | none => simp
        | some e1 =>
          have hi : Envelope.Intersects none e1 = false := by
            cases e1 <;> rfl
          simp only [hi, Bool.not_false, if_true]
          cases afterValueCall zeroMatrix
            (Relate.computeDisjointIM { graphs := (ga, gb) } zeroMatrix) <;> simp
    | err e => rw [ha, hb] at h; cases h
    | panic e => rw [ha, hb] at h; cases h
    | timeout => rw [ha, hb] at h; cases h
    | noReturn => rw [ha, hb] at h; cases h
  | err e => rw [ha] at h; cases h
  | panic e => rw [ha] at h; cases h
  | timeout => rw [ha] at h; cases h
  | noReturn => rw [ha] at h; cases h

/-- Whether `NewGraph` returns a graph does not depend on the index or on the flag;
the graph it returns holds the geometry it was built from. -/
theorem NewGraph_ok_any_index (fuel : Nat) (parent : Geometry) (index : Nat) (u : Bool)
    (g : Graph) (h : NewGraph fuel parent index u = .ok g) :
    g.geometry = parent ∧
      ∀ (index' : Nat) (u' : Bool), ∃ g', NewGraph fuel parent index' u' = .ok g' ∧
        g'.geometry = parent := by
  have key : ∀ (i : Nat) (v : Bool) (x : Graph), NewGraph fuel parent i v = .ok x →
      Graph.add fuel parent (graphLiteral parent i v) i = (x, .ok ()) := by
    intro i v x hx
    unfold NewGraph at hx
    rcases hr : Graph.add fuel parent (graphLiteral parent i v) i with ⟨g1, o⟩
    rw [hr] at hx
    cases o with
    | ok a => simp only [Outcome.ok.injEq] at hx; rw [hx]
    | err e => cases hx
    | panic e => cases hx
    | timeout => cases hx
    | noReturn => cases hx
  obtain ⟨-, a2, a3⟩ := add_nil_map_ok fuel parent _ g index rfl (key index u g h)
  refine ⟨a2, ?_⟩
  intro index' u'
  obtain ⟨g', hg'⟩ := a3 (graphLiteral parent index' u') index' rfl
  refine ⟨g', ?_, (add_nil_map_ok fuel parent _ g' index' rfl hg').2.1⟩
  simp only [NewGraph, hg']

/-- Whenever `relate(A, B)` returns a matrix, `relate(B, A)` returns its transpose.
The statement is thin: `relate` returns a matrix only on geometries without a
coordinate, and the matrix is the zero matrix (`IntersectionMatrix_ok_iff`,
`add_nil_map_ok_envelope`). -/
theorem relate_transpose (fuel : Nat) (a b : Geometry) (m : IntersectionMatrix)
    (h : relate fuel a b = .ok m) : relate fuel b a = .ok m.transpose := by
  unfold relate NewRelate at h
  cases ha : NewGraph fuel a 0 true with
  | ok ga =>
    cases hb : NewGraph fuel b 1 true with
    | ok gb =>
      rw [ha, hb] at h
      simp only at h
      obtain ⟨hga, ka⟩ := NewGraph_ok_any_index fuel a 0 true ga ha
      obtain ⟨hgb, kb⟩ := NewGraph_ok_any_index fuel b 1 true gb hb
      obtain ⟨gb', hb', hgb'⟩ := kb 0 true
      obtain ⟨ga', ha', hga'⟩ := ka 1 true
      simp only [relate, NewRelate, hb', ha']
      exact IntersectionMatrix_swap { graphs := (ga, gb) } { graphs := (gb', ga') } m
        (by simp [hgb', hgb]) (by simp [hga', hga]) h
    | err e => rw [ha, hb] at h; cases h
    | panic e => rw [ha, hb] at h; cases h
    | timeout => rw [ha, hb] at h; cases h
    | noReturn => rw [ha, hb] at h; cases h
  | err e => rw [ha] at h; cases h
  | panic e => rw [ha] at h; cases h
  | timeout => rw [ha] at h; cases h
  | noReturn => rw [ha] at h; cases h

/-- Two collections without members: `relate` returns the zero matrix, in both
orders. -/
theorem relate_transpose_example :
    relate 0 (NewCollection []) (NewCollection []) = .ok zeroMatrix ∧
      relate 0 (NewCollection []) (NewCollection []) = .ok zeroMatrix.transpose := by
  have h : relate 0 (NewCollection []) (NewCollection []) = .ok zeroMatrix := by
    have hg : ∀ i, NewGraph 0 (NewCollection []) i true =
        .ok (graphLiteral (NewCollection []) i true) := by
      intro i
      simp [NewGraph, NewCollection, Graph.add, Graph.addCollection, TypePoint, TypeMultiPoint,
        TypeLineString, TypeMultiLineString, TypePolygon, TypeMultiPolygon, TypeCollection]
    simp only [relate, NewRelate, hg]
    rw [IntersectionMatrix_ok_iff]
    refine ⟨rfl, none, none, ?_, ?_, rfl, ?_, ?_⟩ <;>
      simp [graphLiteral, NewCollection, Geometry.Envelope, Geometry.IsMulti, Geometry.Typ,
        envelopeLoop, DisjointCallsReturn, Geometry.IsEmpty, isEmptyLoop, TypePoint,
        TypeMultiPoint, TypeLineString, TypeMultiLineString, TypePolygon, TypeMultiPolygon,
        TypeCollection]
  exact ⟨h, relate_transpose 0 _ _ _ h⟩

/-! ## Isolated nodes -/

/-- C33: `Node.Isolated()` is true exactly when one of the two topology locations
of the label of the node is nil and the other is not; and a topology location is
nil exactly when its entries On, Left and Right are all `LocationNone`. -/
theorem Node_Isolated_iff_one_non_nil (n : Node) :
    (n.Isolated = true ↔
      ((n.Label.loc0.IsNil = false ∧ n.Label.loc1.IsNil = true) ∨
        (n.Label.loc0.IsNil = true ∧ n.Label.loc1.IsNil = false))) ∧
    (∀ tl : TopologyLocation,
      tl.IsNil = true ↔ (tl.On = .None ∧ tl.Left = .None ∧ tl.Right = .None)) := by
  constructor
  · unfold Node.Isolated Label.GeometryCount
    cases n.Label.loc0.IsNil <;> cases n.Label.loc1.IsNil <;> simp
  · intro tl
    simp [TopologyLocation.IsNil, and_assoc]

/-! ## The type tests of a geometry -/

/-- C34: `IsMulti` is true for the type Collection only, and `IsRings` for the
type MultiPolygon only: the `case` lines of the other types have an empty body,
after which the `switch` ends and the function returns false.  So a multi-point
made by `NewMultiPoint` is not multi and a polygon made by `NewPolygon` has no
rings. -/
theorem IsMulti_IsRings_last_case_only :
    (∀ g : Geometry, g.IsMulti = true ↔ g.Typ = TypeCollection) ∧
    (∀ g : Geometry, g.IsRings = true ↔ g.Typ = TypeMultiPolygon) ∧
    (NewMultiPoint [NewPoint (pt 0 0)]).map Geometry.IsMulti = some false ∧
    (NewMultiLineString [NewLineString [pt 0 0, pt 1 1]]).map Geometry.IsMulti = some false ∧
    (NewMultiPolygon [NewPolygon [pt 0 0, pt 4 0, pt 4 4, pt 0 0] []]).map Geometry.IsMulti
      = some false ∧
    (NewPolygon [pt 0 0, pt 4 0, pt 4 4, pt 0 0] []).IsRings = false := by
  refine ⟨?_, ?_, ?_, ?_, ?_, ?_⟩
  · intro g
    unfold Geometry.IsMulti
    constructor
    · intro h
      split_ifs at h with h1 h2 h3 h4
      exact h4
    · intro h
      simp [h, TypeCollection, TypeMultiPoint, TypeMultiLineString, TypeMultiPolygon]
  · intro g
    unfold Geometry.IsRings
    constructor
    · intro h
      split_ifs at h with h1 h2
      exact h2
    · intro h
      simp [h, TypePolygon, TypeMultiPolygon]
  · simp [NewMultiPoint, NewPoint, Geometry.Typ, Geometry.IsMulti, TypePoint, TypeCollection,
      TypeMultiPoint, TypeMultiLineString, TypeMultiPolygon]
  · simp [NewMultiLineString, NewLineString, Geometry.Typ, Geometry.IsMulti, TypeLineString,
      TypeCollection, TypeMultiPoint, TypeMultiLineString, TypeMultiPolygon]
  · simp [NewMultiPolygon, NewPolygon, Geometry.Typ, Geometry.IsMulti, TypePolygon,
      TypeCollection, TypeMultiPoint, TypeMultiLineString, TypeMultiPolygon]
  · simp [NewPolygon, Geometry.Typ, Geometry.IsRings, TypePolygon, TypeMultiPolygon]

/-! ## Monotone chains: no sequence of distinct points is split -/

/-- C38: for every coordinate sequence with at least 2 points of which no two
consecutive ones agree in both `X` and `Y`, every call `findChainEnd(pts, start)`
with `start + 1 < len(pts)` returns nothing, whatever the number of iterations
allowed, and so does `chainStartIndexes(pts)`: the loop of `findChainEnd` never
advances `last`. -/
theorem chainStartIndexes_no_result (pts : Coordinates) (hlen : 2 ≤ pts.length)
    (hdistinct : ∀ (i : Nat) (a b : Coordinate), pts[i]? = some a → pts[i + 1]? = some b →
      ¬ (a.X = b.X ∧ a.Y = b.Y)) :
    (∀ fuel start, start + 1 < pts.length → findChainEnd fuel pts start = none) ∧
    (∀ fuel, chainStartIndexes fuel pts = none) := by
  have hfind : ∀ fuel start, start + 1 < pts.length → findChainEnd fuel pts start = none := by
    intro fuel start hs
    have ha : pts[start]? = some (pts[start]) := List.getElem?_eq_getElem (by omega)
    have hb : pts[start + 1]? = some (pts[start + 1]) := List.getElem?_eq_getElem hs
    exact findChainEnd_diverges pts start _ _ ha hb (hdistinct start _ _ ha hb) fuel
  refine ⟨hfind, ?_⟩
  intro fuel
  have h0 : 0 < pts.length - 1 := by omega
  unfold chainStartIndexes
  cases fuel with
  | zero => rfl
  | succ n =>
    simp only [chainStartLoop, h0, if_true, hfind (n + 1) 0 (by omega)]

/-- Witness of C38 on the sequence `(0,0), (1,1), (2,0)`. -/
theorem chainStartIndexes_no_result_witness :
    (∀ fuel start, start + 1 < [pt 0 0, pt 1 1, pt 2 0].length →
      findChainEnd fuel [pt 0 0, pt 1 1, pt 2 0] start = none) ∧
    (∀ fuel, chainStartIndexes fuel [pt 0 0, pt 1 1, pt 2 0] = none) :=
  chainStartIndexes_no_result [pt 0 0, pt 1 1, pt 2 0] (by decide) (by
    intro i a b ha hb
    match i, ha, hb with
    | 0, ha, hb =>
      simp only [List.getElem?_cons_zero, List.getElem?_cons_succ, Option.some.injEq] at ha hb
      subst ha hb
      norm_num [pt]
    | 1, ha, hb =>
      simp only [List.getElem?_cons_zero, List.getElem?_cons_succ, Option.some.injEq] at ha hb
      subst ha hb
      norm_num [pt]
    | (k + 2), ha, hb =>
      simp at hb)

/-! ## Dimension, boundary dimension and emptiness of a geometry -/

/-- The loop of `Dimension` over children that all return a dimension gives the
greatest of them and of the running value. -/
theorem dimensionLoop_max (col : List Geometry) (ds : List Int) (dim : Int)
    (h : col.map Geometry.Dimension = ds.map some) :
    dimensionLoop col dim = some (ds.foldl max dim) := by
  induction col generalizing ds dim with
  | nil =>
    cases ds with
    | nil => simp [dimensionLoop]
    | cons d ds => simp at h
  | cons c rest ih =>
    cases ds with
    | nil => simp at h
    | cons d ds =>
      simp only [List.map_cons, List.cons.injEq] at h
      simp only [dimensionLoop, h.1, List.foldl_cons]
      rw [ih ds _ h.2]
      congr 2
      rcases le_or_lt d dim with hle | hlt
      · rw [if_neg (not_lt.mpr hle), max_eq_left hle]
      · rw [if_pos hlt, max_eq_right hlt.le]

/-- C39: `Dimension` is 0 for Point and MultiPoint, 1 for LineString and
MultiLineString, 2 for Polygon, and for a Collection whose children all return a
dimension the greatest of them (-1 without children).  For MultiPolygon,
`Dimension` and `BoundaryDimension` panic; `IsEmpty` panics for LineString,
MultiPoint, MultiLineString and MultiPolygon; `BoundaryDimension` panics for
LineString and MultiLineString, through `IsClosed` and `IsEmpty`.  In each of these
the `case` of the type has an empty body and control reaches
`panic("Unknown geometry type")`. -/
theorem Dimension_known_types :
    (∀ c l ml col, (Geometry.mk TypePoint c l ml col).Dimension = some 0) ∧
    (∀ c l ml col, (Geometry.mk TypeMultiPoint c l ml col).Dimension = some 0) ∧
    (∀ c l ml col, (Geometry.mk TypeLineString c l ml col).Dimension = some 1) ∧
    (∀ c l ml col, (Geometry.mk TypeMultiLineString c l ml col).Dimension = some 1) ∧
    (∀ c l ml col, (Geometry.mk TypePolygon c l ml col).Dimension = some 2) ∧
    (∀ c l ml col (ds : List Int), col.map Geometry.Dimension = ds.map some →
      (Geometry.mk TypeCollection c l ml col).Dimension = some (ds.foldl max (-1))) ∧
    (∀ c l ml col, (Geometry.mk TypeMultiPolygon c l ml col).Dimension = none) ∧
    (∀ c l ml col, (Geometry.mk TypeMultiPolygon c l ml col).BoundaryDimension = none) ∧
    (∀ c l ml col, (Geometry.mk TypeLineString c l ml col).BoundaryDimension = none) ∧
    (∀ c l ml col, (Geometry.mk TypeMultiLineString c l ml col).BoundaryDimension = none) ∧
    (∀ c l ml col, (Geometry.mk TypeLineString c l ml col).IsEmpty = none) ∧
    (∀ c l ml col, (Geometry.mk TypeMultiPoint c l ml col).IsEmpty = none) ∧
    (∀ c l ml col, (Geometry.mk TypeMultiLineString c l ml col).IsEmpty = none) ∧
    (∀ c l ml col, (Geometry.mk TypeMultiPolygon c l ml col).IsEmpty = none) ∧
    (NewMultiPolygon [NewPolygon [pt 0 0, pt 4 0, pt 4 4, pt 0 0] []]).map Geometry.Dimension
      = some none ∧
    (NewLineString [pt 0 0, pt 1 1]).IsEmpty = none ∧
    (NewLineString [pt 0 0, pt 1 1]).BoundaryDimension = none := by
  refine ⟨?_, ?_, ?_, ?_, ?_, ?_, ?_, ?_, ?_, ?_, ?_, ?_, ?_, ?_, ?_, ?_, ?_⟩
  · intro c l ml col
    simp [Geometry.Dimension, TypePoint]
  · intro c l ml col
    simp [Geometry.Dimension, TypePoint, TypeMultiPoint]
  · intro c l ml col
    simp [Geometry.Dimension, TypePoint, TypeMultiPoint, TypeLineString]
  · intro c l ml col
    simp [Geometry.Dimension, TypePoint, TypeMultiPoint, TypeLineString, TypeMultiLineString]
  · intro c l ml col
    simp [Geometry.Dimension, TypePoint, TypeMultiPoint, TypeLineString, TypeMultiLineString,
      TypePolygon]
  · intro c l ml col ds h
    simp only [Geometry.Dimension, TypePoint, TypeMultiPoint, TypeLineString,
      TypeMultiLineString, TypePolygon, TypeMultiPolygon, TypeCollection]
    norm_num
    exact dimensionLoop_max col ds (-1) h
  · intro c l ml col
    simp [Geometry.Dimension, TypePoint, TypeMultiPoint, TypeLineString, TypeMultiLineString,
      TypePolygon, TypeMultiPolygon]
  · intro c l ml col
    simp [Geometry.BoundaryDimension, TypePoint, TypeMultiPoint, TypeLineString,
      TypeMultiLineString, TypePolygon, TypeMultiPolygon]
  · intro c l ml col
    simp [Geometry.BoundaryDimension, Geometry.IsClosed, Geometry.IsEmpty, TypePoint,
      TypeMultiPoint, TypeLineString]
  · intro c l ml col
    simp [Geometry.BoundaryDimension, Geometry.IsClosed, Geometry.IsEmpty, TypePoint,
      TypeMultiPoint, TypeLineString, TypeMultiLineString, TypePolygon]
  · intro c l ml col
    simp [Geometry.IsEmpty, TypePoint, TypeLineString]
  · intro c l ml col
    simp [Geometry.IsEmpty, TypePoint, TypeLineString, TypePolygon, TypeMultiPoint]
  · intro c l ml col
    simp [Geometry.IsEmpty, TypePoint, TypeLineString, TypePolygon, TypeMultiPoint,
      TypeMultiLineString]
  · intro c l ml col
    simp [Geometry.IsEmpty, TypePoint, TypeLineString, TypePolygon, TypeMultiPoint,
      TypeMultiLineString, TypeMultiPolygon]
  · simp [NewMultiPolygon, NewPolygon, Geometry.Typ, Geometry.Dimension, TypePoint,
      TypeMultiPoint, TypeLineString, TypeMultiLineString, TypePolygon, TypeMultiPolygon]
  · simp [NewLineString, Geometry.IsEmpty, TypePoint, TypeLineString]
  · simp [NewLineString, Geometry.BoundaryDimension, Geometry.IsClosed, Geometry.IsEmpty,
      TypePoint, TypeMultiPoint, TypeLineString]

/-! ## The distance of an intersection point along its edge -/

/-- C40: `computeEdgeDistance(p, p0, p1)` reaches the assertion
`Bad distance calculation` exactly when `p` has the `X` and `Y` of `p0` and another
`Z` (`Equals` compares `Z` too, the distance reads `X` and `Y` only); otherwise it
returns a distance that is not negative and is 0 exactly when `p` equals `p0`.
The point `(0,0,7)` lies in the envelope of the segment from `(0,0,0)` to
`(2,0,0)`, and the call panics there. -/
theorem computeEdgeDistance_assertion_reachable :
    (∀ p p0 p1 : Coordinate,
      computeEdgeDistance p p0 p1 = none ↔ (p.X = p0.X ∧ p.Y = p0.Y ∧ p.Z ≠ p0.Z)) ∧
    (∀ (p p0 p1 : Coordinate) (d : ℚ),
      computeEdgeDistance p p0 p1 = some d → 0 ≤ d ∧ (d = 0 ↔ p = p0)) ∧
    EnvelopeIntersectsPoint (pt 0 0) (pt 2 0) ⟨0, 0, 7⟩ = true ∧
    computeEdgeDistance ⟨0, 0, 7⟩ (pt 0 0) (pt 2 0) = none := by
  have key : ∀ p p0 p1 : Coordinate,
      (computeEdgeDistance p p0 p1 = none ∧ p.X = p0.X ∧ p.Y = p0.Y ∧ p.Z ≠ p0.Z) ∨
      (∃ d, computeEdgeDistance p p0 p1 = some d ∧ 0 ≤ d ∧ (d = 0 ↔ p = p0) ∧
        ¬ (p.X = p0.X ∧ p.Y = p0.Y ∧ p.Z ≠ p0.Z)) := by
    intro p p0 p1
    obtain ⟨x, y, z⟩ := p
    obtain ⟨x0, y0, z0⟩ := p0
    obtain ⟨x1, y1, z1⟩ := p1
    by_cases h0 : x = x0 ∧ y = y0 ∧ z = z0
    · obtain ⟨rfl, rfl, rfl⟩ := h0
      right
      exact ⟨0, by simp [computeEdgeDistance, Coordinate.Equals], le_refl _, by simp,
        by simp⟩
    · have hne : (Coordinate.Equals ⟨x, y, z⟩ ⟨x0, y0, z0⟩) = false := by
        simp only [Coordinate.Equals, Bool.and_eq_false_iff, beq_eq_false_iff_ne, ne_eq,
          Bool.and_eq_true, beq_iff_eq]
        by_contra hc
        push_neg at hc
        exact h0 ⟨hc.1.1, hc.1.2, hc.2⟩
      have hneq : ¬ ((⟨x, y, z⟩ : Coordinate) = ⟨x0, y0, z0⟩) := by
        intro h
        injection h with hx hy hz
        exact h0 ⟨hx, hy, hz⟩
      by_cases hxy : x = x0 ∧ y = y0
      · obtain ⟨rfl, rfl⟩ := hxy
        have hz : z ≠ z0 := fun h => h0 ⟨rfl, rfl, h⟩
        left
        refine ⟨?_, rfl, rfl, hz⟩
        by_cases h1 : (Coordinate.Equals ⟨x, y, z⟩ ⟨x1, y1, z1⟩) = true
        · have h1' := h1
          simp only [Coordinate.Equals, Bool.and_eq_true, beq_iff_eq] at h1'
          obtain ⟨⟨rfl, rfl⟩, rfl⟩ := h1'
          simp [computeEdgeDistance, hne, h1]
        · simp [computeEdgeDistance, hne, h1]
      · right
        have hpos : 0 < max |x - x0| |y - y0| := by
          rcases not_and_or.mp hxy with hx | hy
          · exact lt_max_of_lt_left (abs_pos.mpr (sub_ne_zero.mpr hx))
          · exact lt_max_of_lt_right (abs_pos.mpr (sub_ne_zero.mpr hy))
        have hnot : ¬ (x = x0 ∧ y = y0 ∧ z ≠ z0) := fun h => hxy ⟨h.1, h.2.1⟩
        by_cases h1 : (Coordinate.Equals ⟨x, y, z⟩ ⟨x1, y1, z1⟩) = true
        · have h1' := h1
          simp only [Coordinate.Equals, Bool.and_eq_true, beq_iff_eq] at h1'
          obtain ⟨⟨rfl, rfl⟩, rfl⟩ := h1'
          by_cases hd : |x - x0| > |y - y0|
          · have hp : 0 < |x - x0| := lt_of_le_of_lt (abs_nonneg _) hd
            refine ⟨|x - x0|, ?_, hp.le, ?_, hnot⟩
            · simp [computeEdgeDistance, hne, h1, hd, hp.ne']
            · simp [hp.ne', hneq]
          · have hp : 0 < |y - y0| := by
              rw [max_eq_right (not_lt.mp hd)] at hpos
              exact hpos
            refine ⟨|y - y0|, ?_, hp.le, ?_, hnot⟩
            · simp [computeEdgeDistance, hne, h1, hd, hp.ne']
            · simp [hp.ne', hneq]
        · have h1f : (Coordinate.Equals ⟨x, y, z⟩ ⟨x1, y1, z1⟩) = false := by
            simpa using h1
          by_cases hd : |x1 - x0| > |y1 - y0|
          · by_cases hz : |x - x0| = 0
            · have hy : ¬ (y - y0 = 0) := fun hy =>
                hxy ⟨sub_eq_zero.mp (abs_eq_zero.mp hz), sub_eq_zero.mp hy⟩
              refine ⟨max |x - x0| |y - y0|, ?_, hpos.le, ?_, hnot⟩
              · simp [computeEdgeDistance, hne, h1f, hd, hz, hpos.ne', hy]
              · simp [hpos.ne', hneq]
            · have hp : 0 < |x - x0| := lt_of_le_of_ne (abs_nonneg _) (Ne.symm hz)
              refine ⟨|x - x0|, ?_, hp.le, ?_, hnot⟩
              · simp [computeEdgeDistance, hne, h1f, hd, hz]
              · simp [hz, hneq]
          · by_cases hz : |y - y0| = 0
            · have hx : ¬ (x - x0 = 0) := fun hx =>
                hxy ⟨sub_eq_zero.mp hx, sub_eq_zero.mp (abs_eq_zero.mp hz)⟩
              refine ⟨max |x - x0| |y - y0|, ?_, hpos.le, ?_, hnot⟩
              · simp [computeEdgeDistance, hne, h1f, hd, hz, hpos.ne', hx]
              · simp [hpos.ne', hneq]
            · have hp : 0 < |y - y0| := lt_of_le_of_ne (abs_nonneg _) (Ne.symm hz)
              refine ⟨|y - y0|, ?_, hp.le, ?_, hnot⟩
              · simp [computeEdgeDistance, hne, h1f, hd, hz]
              · simp [hz, hneq]
  refine ⟨?_, ?_, ?_, ?_⟩
  · intro p p0 p1
    rcases key p p0 p1 with ⟨h, hc⟩ | ⟨d, h, _, _, hc⟩
    · exact ⟨fun _ => hc, fun _ => h⟩
    · constructor
      · intro hn
        rw [hn] at h
        cases h
      · intro h'
        exact absurd h' hc
  · intro p p0 p1 d hd
    rcases key p p0 p1 with ⟨h, _⟩ | ⟨d', h, h1, h2, _⟩
    · rw [h] at hd
      cases hd
    · rw [h] at hd
      cases hd
      exact ⟨h1, h2⟩
  · norm_num [EnvelopeIntersectsPoint, pt]
  · exact ((key ⟨0, 0, 7⟩ (pt 0 0) (pt 2 0)).resolve_right (by
      rintro ⟨d, _, _, _, hc⟩
      exact hc ⟨rfl, rfl, by norm_num [pt]⟩)).1

/-! ## Trivial intersections -/

/-- The first lines of `adjacentSegments` replace an index by its magnitude. -/
theorem adjacentSegments_eq (i j : Int) : adjacentSegments i j = decide (|i| = |j|) := by
  have habs : ∀ k : Int, (if k < 0 then k * -1 else k) = |k| := by
    intro k
    split_ifs with h
    · rw [abs_of_neg h]; ring
    · rw [abs_of_nonneg (not_lt.mp h)]
  simp only [adjacentSegments, habs]
  by_cases h : |i| = |j| <;> simp [h]

/-- C31: `adjacentSegments(i, j)` is true exactly when `i` and `j` have the same
magnitude, not when they differ by 1: it is false for the segments 0 and 1 and
true for the segment 3 with itself.  `isTrivialIntersection` returns true exactly
when the edges are the same, the line intersector reports one point, and either
the indices have the same magnitude or the edge is closed and the indices are 0
and `len(e0.Coordinates) - 1`.  For the segments 0 and 1 of the edge
`(0,0), (2,0), (0,5)`, which share the vertex `(2,0)` that the line intersector
reports, it returns false. -/
theorem isTrivialIntersection_same_magnitude :
    (∀ i j : Int, adjacentSegments i j = true ↔ |i| = |j|) ∧
    adjacentSegments 0 1 = false ∧
    adjacentSegments 3 3 = true ∧
    (∀ (si : SegmentIntersector) (edges : List Edge) (e0 e1 : Nat) (i j : Int),
      si.isTrivialIntersection edges e0 i e1 j = some true ↔
        (e0 = e1 ∧ si.lineIntersector.NumIntersections = 1 ∧
          (|i| = |j| ∨
            ∃ edge0, edges[e0]? = some edge0 ∧ edge0.Closed = some true ∧
              ((i = 0 ∧ j = (edge0.Coordinates.length : Int) - 1) ∨
                (j = 0 ∧ i = (edge0.Coordinates.length : Int) - 1))))) ∧
    (NewSegmentIntersector
        (NewRobustLineIntersector.ComputeIntersection (pt 0 0) (pt 2 0) (pt 2 0) (pt 0 5))
        false true false).isTrivialIntersection [NewEdge [pt 0 0, pt 2 0, pt 0 5]] 0 0 0 1
      = some false := by
  refine ⟨?_, ?_, ?_, ?_, ?_⟩
  · intro i j
    rw [adjacentSegments_eq]
    simp
  · rw [adjacentSegments_eq]; decide
  · rw [adjacentSegments_eq]; decide
  · intro si edges e0 e1 i j
    unfold SegmentIntersector.isTrivialIntersection
    by_cases he : e0 = e1
    · by_cases hn : si.lineIntersector.NumIntersections = 1
      · by_cases ha : |i| = |j|
        · simp [he, hn, adjacentSegments_eq, ha]
        · rcases hedge : edges[e1]? with _ | edge0
          · simp [he, hn, adjacentSegments_eq, ha, hedge]
          · rcases hc : edge0.Closed with _ | b
            · simp [he, hn, adjacentSegments_eq, ha, hedge, hc]
            · cases b
              · simp [he, hn, adjacentSegments_eq, ha, hedge, hc]
              · by_cases hcond : (i = 0 ∧ j = (edge0.Coordinates.length : Int) - 1) ∨
                    (j = 0 ∧ i = (edge0.Coordinates.length : Int) - 1)
                · simp [he, hn, adjacentSegments_eq, ha, hedge, hc, hcond]
                · simp [he, hn, adjacentSegments_eq, ha, hedge, hc, hcond]
      · simp [he, hn]
    · simp [he]
  · have h05 : ((0 : ℚ) == 5) = false := by decide
    rw [intersector_at_vertex]
    simp [h05, SegmentIntersector.isTrivialIntersection, NewSegmentIntersector,
      RobustLineIntersector.NumIntersections, LineIntersectionResult.toNat,
      adjacentSegments_eq, NewEdge, Edge.Closed, Coordinate.Equals, pt]

/-! ## Which chains the sweep-line intersector compares -/

/-- An event whose label is a slice panics in `processOverlaps` as soon as the
list of events holds an insert event whose label is a slice. -/
theorem processOverlaps_edgeSet_panics (event : SweepLineEvent) (es : List Nat)
    (hl : event.Label = .edgeSet es) (events : List SweepLineEvent)
    (h : ∃ ev ∈ events, ev.Typ = .Insert ∧ ∃ es1, ev.Label = .edgeSet es1) :
    processOverlaps event events = none := by
  induction events with
  | nil =>
    obtain ⟨ev, hev, _⟩ := h
    cases hev
  | cons ev1 rest ih =>
    obtain ⟨ev, hev, hins, es1, hes1⟩ := h
    rcases List.mem_cons.mp hev with rfl | hmem
    · simp [processOverlaps, hins, SweepLineEvent.HasSameLabel, hl, hes1]
    · have hrest := ih ⟨ev, hmem, hins, es1, hes1⟩
      unfold processOverlaps
      split_ifs with h1
      · rcases hs : event.HasSameLabel ev1 with _ | b
        · rfl
        · cases b
          · rcases hm : event.MonotoneChain with _ | mc
            · simp
            · rcases hm1 : ev1.MonotoneChain with _ | mc1
              · simp
              · simp [hrest]
          · simpa using hrest
      · exact hrest

/-- For an event whose label is no slice and whose chain is `mc`,
`processOverlaps` returns, and it compares `mc` with the chain of exactly those
insert events for which `HasSameLabel` is false. -/
theorem processOverlaps_trace (event : SweepLineEvent) (mc : Nat × Nat)
    (hmc : event.MonotoneChain = some mc) (hl : ∀ es, event.Label ≠ .edgeSet es)
    (events : List SweepLineEvent)
    (hch : ∀ ev ∈ events, ev.Typ = .Insert → ev.MonotoneChain.isSome = true) :
    ∃ t, processOverlaps event events = some t ∧
      ∀ pair, pair ∈ t ↔ (pair.1 = mc ∧ ∃ ev ∈ events, ev.Typ = .Insert ∧
        event.HasSameLabel ev = some false ∧ ev.MonotoneChain = some pair.2) := by
  have hsome : ∀ ev, ∃ b, event.HasSameLabel ev = some b := by
    intro ev
    unfold SweepLineEvent.HasSameLabel
    rcases hlab : event.Label with _ | a | es
    · exact ⟨false, rfl⟩
    · cases ev.Label <;> exact ⟨_, rfl⟩
    · exact absurd hlab (hl es)
  induction events with
  | nil => exact ⟨[], rfl, by simp⟩
  | cons ev1 rest ih =>
    obtain ⟨t, ht, hspec⟩ := ih (fun ev hev => hch ev (List.mem_cons_of_mem _ hev))
    by_cases h1 : ev1.Typ = .Insert
    · obtain ⟨b, hb⟩ := hsome ev1
      cases b
      · obtain ⟨mc1, hmc1⟩ := Option.isSome_iff_exists.mp (hch ev1 (List.mem_cons_self _ _) h1)
        refine ⟨(mc, mc1) :: t, by simp [processOverlaps, h1, hb, hmc, hmc1, ht], ?_⟩
        intro pair
        rw [List.mem_cons, hspec pair]
        constructor
        · rintro (rfl | ⟨hp, ev, hev, hins, hs, hc⟩)
          · exact ⟨rfl, ev1, List.mem_cons_self _ _, h1, hb, hmc1⟩
          · exact ⟨hp, ev, List.mem_cons_of_mem _ hev, hins, hs, hc⟩
        · rintro ⟨hp, ev, hev, hins, hs, hc⟩
          rcases List.mem_cons.mp hev with rfl | hmem
          · left
            rw [hmc1] at hc
            cases hc
            exact Prod.ext hp rfl
          · exact Or.inr ⟨hp, ev, hmem, hins, hs, hc⟩
      · refine ⟨t, by simp [processOverlaps, h1, hb, ht], ?_⟩
        intro pair
        rw [hspec pair]
        constructor
        · rintro ⟨hp, ev, hev, hins, hs, hc⟩
          exact ⟨hp, ev, List.mem_cons_of_mem _ hev, hins, hs, hc⟩
        · rintro ⟨hp, ev, hev, hins, hs, hc⟩
          rcases List.mem_cons.mp hev with rfl | hmem
          · rw [hb] at hs
            cases hs
          · exact ⟨hp, ev, hmem, hins, hs, hc⟩
    · refine ⟨t, by simp [processOverlaps, h1, ht], ?_⟩
      intro pair
      rw [hspec pair]
      constructor
      · rintro ⟨hp, ev, hev, hins, hs, hc⟩
        exact ⟨hp, ev, List.mem_cons_of_mem _ hev, hins, hs, hc⟩
      · rintro ⟨hp, ev, hev, hins, hs, hc⟩
        rcases List.mem_cons.mp hev with rfl | hmem
        · exact absurd hins h1
        · exact ⟨hp, ev, hmem, hins, hs, hc⟩

/-- With the nil label of `computeAllSegments = true`, `processOverlaps` compares
the chain of the event with the chain of every insert event. -/
theorem processOverlaps_all_segments (events : List SweepLineEvent) (edge i : Nat) (x : ℚ)
    (hch : ∀ ev ∈ events, ev.Typ = .Insert → ev.MonotoneChain.isSome = true) :
    ∃ t, processOverlaps (insertEvent (selfIntersectionLabel true edge) edge i x) events
        = some t ∧
      ∀ pair, pair ∈ t ↔ (pair.1 = (edge, i) ∧ ∃ ev ∈ events, ev.Typ = .Insert ∧
        ev.MonotoneChain = some pair.2) := by
  obtain ⟨t, ht, hspec⟩ := processOverlaps_trace
    (insertEvent (selfIntersectionLabel true edge) edge i x) (edge, i) rfl
    (by intro es; simp [insertEvent, selfIntersectionLabel]) events hch
  refine ⟨t, ht, ?_⟩
  intro pair
  rw [hspec pair]
  have hf : ∀ ev, (insertEvent (selfIntersectionLabel true edge) edge i x).HasSameLabel ev
      = some false := by
    intro ev
    simp [SweepLineEvent.HasSameLabel, insertEvent, selfIntersectionLabel]
  simp only [hf, true_and]

/-- With the labels of `computeAllSegments = false`, the edge of each chain,
`processOverlaps` compares the chain of the event with exactly the chains of the
other edges. -/
theorem processOverlaps_other_edges (events : List SweepLineEvent) (edge i : Nat) (x : ℚ)
    (hform : ∀ ev ∈ events, ev.Typ = .Insert →
      ∃ e1 i1 x1, ev = insertEvent (selfIntersectionLabel false e1) e1 i1 x1) :
    ∃ t, processOverlaps (insertEvent (selfIntersectionLabel false edge) edge i x) events
        = some t ∧
      ∀ pair, pair ∈ t ↔ (pair.1 = (edge, i) ∧ pair.2.1 ≠ edge ∧
        ∃ ev ∈ events, ev.Typ = .Insert ∧ ev.MonotoneChain = some pair.2) := by
  have hch : ∀ ev ∈ events, ev.Typ = .Insert → ev.MonotoneChain.isSome = true := by
    intro ev hev hins
    obtain ⟨e1, i1, x1, rfl⟩ := hform ev hev hins
    rfl
  obtain ⟨t, ht, hspec⟩ := processOverlaps_trace
    (insertEvent (selfIntersectionLabel false edge) edge i x) (edge, i) rfl
    (by intro es; simp [insertEvent, selfIntersectionLabel]) events hch
  refine ⟨t, ht, ?_⟩
  intro pair
  rw [hspec pair]
  constructor
  · rintro ⟨hp, ev, hev, hins, hs, hc⟩
    obtain ⟨e1, i1, x1, rfl⟩ := hform ev hev hins
    simp only [SweepLineEvent.HasSameLabel, insertEvent, selfIntersectionLabel,
      Bool.false_eq_true, if_false, Option.some.injEq, decide_eq_false_iff_not] at hs hc
    refine ⟨hp, ?_, _, hev, hins, by simp [insertEvent, hc]⟩
    rw [← hc]
    exact fun h => hs h.symm
  · rintro ⟨hp, hne, ev, hev, hins, hc⟩
    obtain ⟨e1, i1, x1, rfl⟩ := hform ev hev hins
    refine ⟨hp, _, hev, hins, ?_, hc⟩
    simp only [insertEvent, Option.some.injEq] at hc
    simp only [SweepLineEvent.HasSameLabel, insertEvent, selfIntersectionLabel,
      Bool.false_eq_true, if_false, Option.some.injEq, decide_eq_false_iff_not]
    rw [← hc] at hne
    exact fun h => hne h.symm

/-- The loop of `computeIntersections` with a segment intersector that never
reports done, over events for which `processOverlaps` returns: the pairs compared
are those compared before and those of every insert event. -/
theorem computeIntersectionsLoop_trace (all l : List SweepLineEvent) :
    ∀ acc, (∀ ev ∈ l, ev.Typ = .Insert → ∃ t, processOverlaps ev all = some t) →
      ∃ t, computeIntersectionsLoop (fun _ => false) all l acc = some t ∧
        ∀ pair, pair ∈ t ↔ (pair ∈ acc ∨ ∃ ev ∈ l, ev.Typ = .Insert ∧
          ∃ t1, processOverlaps ev all = some t1 ∧ pair ∈ t1) := by
  induction l with
  | nil =>
    intro acc _
    exact ⟨acc, rfl, by simp⟩
  | cons ev rest ih =>
    intro acc h
    by_cases hins : ev.Typ = .Insert
    · obtain ⟨t1, ht1⟩ := h ev (List.mem_cons_self _ _) hins
      obtain ⟨t, ht, hspec⟩ := ih (acc ++ t1) (fun e he => h e (List.mem_cons_of_mem _ he))
      refine ⟨t, by simp [computeIntersectionsLoop, hins, ht1, ht], ?_⟩
      intro pair
      rw [hspec pair, List.mem_append]
      constructor
      · rintro ((hacc | h1) | ⟨e, he, hei, t2, ht2, hp⟩)
        · exact Or.inl hacc
        · exact Or.inr ⟨ev, List.mem_cons_self _ _, hins, t1, ht1, h1⟩
        · exact Or.inr ⟨e, List.mem_cons_of_mem _ he, hei, t2, ht2, hp⟩
      · rintro (hacc | ⟨e, he, hei, t2, ht2, hp⟩)
        · exact Or.inl (Or.inl hacc)
        · rcases List.mem_cons.mp he with rfl | hmem
          · rw [ht1] at ht2
            cases ht2
            exact Or.inl (Or.inr hp)
          · exact Or.inr ⟨e, hmem, hei, t2, ht2, hp⟩
    · obtain ⟨t, ht, hspec⟩ := ih acc (fun e he => h e (List.mem_cons_of_mem _ he))
      refine ⟨t, by simp [computeIntersectionsLoop, hins, ht], ?_⟩
      intro pair
      rw [hspec pair]
      constructor
      · rintro (hacc | ⟨e, he, hei, t2, ht2, hp⟩)
        · exact Or.inl hacc
        · exact Or.inr ⟨e, List.mem_cons_of_mem _ he, hei, t2, ht2, hp⟩
      · rintro (hacc | ⟨e, he, hei, t2, ht2, hp⟩)
        · exact Or.inl hacc
        · rcases List.mem_cons.mp he with rfl | hmem
          · exact absurd hei hins
          · exact Or.inr ⟨e, hmem, hei, t2, ht2, hp⟩

/-- The loop of `computeIntersections` panics when it reaches an insert event and
`processOverlaps` panics for every insert event. -/
theorem computeIntersectionsLoop_panics (done : List ((Nat × Nat) × (Nat × Nat)) → Bool)
    (all l : List SweepLineEvent) (acc : List ((Nat × Nat) × (Nat × Nat)))
    (hdone : done acc = false) (hex : ∃ ev ∈ l, ev.Typ = .Insert)
    (hall : ∀ ev ∈ l, ev.Typ = .Insert → processOverlaps ev all = none) :
    computeIntersectionsLoop done all l acc = none := by
  induction l with
  | nil =>
    obtain ⟨ev, hev, _⟩ := hex
    cases hev
  | cons ev rest ih =>
    by_cases hins : ev.Typ = .Insert
    · simp [computeIntersectionsLoop, hins, hall ev (List.mem_cons_self _ _) hins]
    · have hrest : ∃ e ∈ rest, e.Typ = .Insert := by
        obtain ⟨e, he, hei⟩ := hex
        rcases List.mem_cons.mp he with rfl | hmem
        · exact absurd hei hins
        · exact ⟨e, hmem, hei⟩
      simp only [computeIntersectionsLoop, hins, if_false, List.append_nil, hdone,
        Bool.false_eq_true]
      exact ih hrest (fun e he => hall e (List.mem_cons_of_mem _ he))

/-- C37: `HasSameLabel` returns false when the label of the receiver is nil, and
for two labels that are edges it returns whether they are the same edge; for two
labels that are slices of edges it panics.  So with the labels of
`computeAllSegments = true` (nil) `processOverlaps` compares the chain of the event
with the chain of every insert event, the event itself included, and
`computeIntersections` compares every pair of chains; with the labels of
`computeAllSegments = false` (the edge) they compare exactly the chains of
different edges; and with the labels of `ComputeEdgeIntersections` (the slice
`edges0` or `edges1`) `processOverlaps` panics at the first insert event, and
`computeIntersections` compares nothing. -/
theorem HasSameLabel_and_compared_chains :
    (∀ sle other : SweepLineEvent, sle.Label = .nil → sle.HasSameLabel other = some false) ∧
    (∀ (sle other : SweepLineEvent) (a b : Nat), sle.Label = .edge a → other.Label = .edge b →
      sle.HasSameLabel other = some (decide (a = b))) ∧
    (∀ (sle other : SweepLineEvent) (es es1 : List Nat), sle.Label = .edgeSet es →
      other.Label = .edgeSet es1 → sle.HasSameLabel other = none) ∧
    (∀ (events : List SweepLineEvent) (edge i : Nat) (x : ℚ),
      (∀ ev ∈ events, ev.Typ = .Insert → ev.MonotoneChain.isSome = true) →
      ∃ t, processOverlaps (insertEvent (selfIntersectionLabel true edge) edge i x) events
          = some t ∧
        ∀ pair, pair ∈ t ↔ (pair.1 = (edge, i) ∧ ∃ ev ∈ events, ev.Typ = .Insert ∧
          ev.MonotoneChain = some pair.2)) ∧
    (∀ (events : List SweepLineEvent) (edge i : Nat) (x : ℚ),
      (∀ ev ∈ events, ev.Typ = .Insert →
        ∃ e1 i1 x1, ev = insertEvent (selfIntersectionLabel false e1) e1 i1 x1) →
      ∃ t, processOverlaps (insertEvent (selfIntersectionLabel false edge) edge i x) events
          = some t ∧
        ∀ pair, pair ∈ t ↔ (pair.1 = (edge, i) ∧ pair.2.1 ≠ edge ∧
          ∃ ev ∈ events, ev.Typ = .Insert ∧ ev.MonotoneChain = some pair.2)) ∧
    (∀ (events : List SweepLineEvent) (es : List Nat) (edge i : Nat) (x : ℚ),
      (∃ ev ∈ events, ev.Typ = .Insert ∧ ∃ es1, ev.Label = .edgeSet es1) →
      processOverlaps (insertEvent (edgeIntersectionLabel es) edge i x) events = none) ∧
    (∀ events : List SweepLineEvent,
      (∀ ev ∈ events, ev.Typ = .Insert →
        ∃ e1 i1 x1, ev = insertEvent (selfIntersectionLabel true e1) e1 i1 x1) →
      ∃ t, computeIntersections (fun _ => false) events = some t ∧
        ∀ e1 i1 e2 i2, ((e1, i1), (e2, i2)) ∈ t ↔
          ((∃ x1, insertEvent .nil e1 i1 x1 ∈ events) ∧
            (∃ x2, insertEvent .nil e2 i2 x2 ∈ events))) ∧
    (∀ events : List SweepLineEvent,
      (∀ ev ∈ events, ev.Typ = .Insert →
        ∃ e1 i1 x1, ev = insertEvent (selfIntersectionLabel false e1) e1 i1 x1) →
      ∃ t, computeIntersections (fun _ => false) events = some t ∧
        ∀ e1 i1 e2 i2, ((e1, i1), (e2, i2)) ∈ t ↔
          ((∃ x1, insertEvent (.edge e1) e1 i1 x1 ∈ events) ∧
            (∃ x2, insertEvent (.edge e2) e2 i2 x2 ∈ events) ∧ e1 ≠ e2)) ∧
    (∀ (done : List ((Nat × Nat) × (Nat × Nat)) → Bool) (events : List SweepLineEvent),
      done [] = false → (∃ ev ∈ events, ev.Typ = .Insert) →
      (∀ ev ∈ events, ev.Typ = .Insert → ∃ es, ev.Label = .edgeSet es) →
      computeIntersections done events = none) ∧
    (insertEvent (edgeIntersectionLabel [0]) 0 0 0).HasSameLabel
      (insertEvent (edgeIntersectionLabel [1]) 1 0 1) = none ∧
    computeIntersections (fun _ => false)
      [insertEvent (edgeIntersectionLabel [0]) 0 0 0, insertEvent (edgeIntersectionLabel [1]) 1 0 1,
        deleteEvent 2, deleteEvent 3] = none := by
  refine ⟨?_, ?_, ?_, processOverlaps_all_segments, processOverlaps_other_edges, ?_, ?_, ?_,
    ?_, ?_, ?_⟩
  · intro sle other h
    simp [SweepLineEvent.HasSameLabel, h]
  · intro sle other a b h1 h2
    simp [SweepLineEvent.HasSameLabel, h1, h2]
  · intro sle other es es1 h1 h2
    simp [SweepLineEvent.HasSameLabel, h1, h2]
  · intro events es edge i x h
    exact processOverlaps_edgeSet_panics _ es rfl events h
  · intro events hform
    have hch : ∀ ev ∈ events, ev.Typ = .Insert → ev.MonotoneChain.isSome = true := by
      intro ev hev hins
      obtain ⟨e1, i1, x1, rfl⟩ := hform ev hev hins
      rfl
    obtain ⟨t, ht, hspec⟩ := computeIntersectionsLoop_trace events events [] (by
      intro ev hev hins
      obtain ⟨e1, i1, x1, rfl⟩ := hform ev hev hins
      obtain ⟨t, ht, _⟩ := processOverlaps_all_segments events e1 i1 x1 hch
      exact ⟨t, ht⟩)
    refine ⟨t, ht, ?_⟩
    intro e1 i1 e2 i2
    rw [hspec]
    simp only [List.not_mem_nil, false_or]
    constructor
    · rintro ⟨ev, hev, hins, t1, ht1, hp⟩
      obtain ⟨e, i, x, rfl⟩ := hform ev hev hins
      obtain ⟨t2, ht2, hspec2⟩ := processOverlaps_all_segments events e i x hch
      rw [ht1] at ht2
      cases ht2
      obtain ⟨h1, ev2, hev2, hins2, hc2⟩ := (hspec2 _).mp hp
      obtain ⟨e3, i3, x3, rfl⟩ := hform ev2 hev2 hins2
      simp only [Prod.mk.injEq] at h1
      simp only [insertEvent, Option.some.injEq, Prod.mk.injEq] at hc2
      obtain ⟨rfl, rfl⟩ := h1
      obtain ⟨rfl, rfl⟩ := hc2
      exact ⟨⟨x, hev⟩, ⟨x3, hev2⟩⟩
    · rintro ⟨⟨x1, h1⟩, ⟨x2, h2⟩⟩
      obtain ⟨t2, ht2, hspec2⟩ := processOverlaps_all_segments events e1 i1 x1 hch
      exact ⟨_, h1, rfl, t2, ht2, (hspec2 _).mpr ⟨rfl, _, h2, rfl, rfl⟩⟩
  · intro events hform
    obtain ⟨t, ht, hspec⟩ := computeIntersectionsLoop_trace events events [] (by
      intro ev hev hins
      obtain ⟨e1, i1, x1, rfl⟩ := hform ev hev hins
      obtain ⟨t, ht, _⟩ := processOverlaps_other_edges events e1 i1 x1 hform
      exact ⟨t, ht⟩)
    refine ⟨t, ht, ?_⟩
    intro e1 i1 e2 i2
    rw [hspec]
    simp only [List.not_mem_nil, false_or]
    constructor
    · rintro ⟨ev, hev, hins, t1, ht1, hp⟩
      obtain ⟨e, i, x, rfl⟩ := hform ev hev hins
      obtain ⟨t2, ht2, hspec2⟩ := processOverlaps_other_edges events e i x hform
      rw [ht1] at ht2
      cases ht2
      obtain ⟨h1, hne, ev2, hev2, hins2, hc2⟩ := (hspec2 _).mp hp
      obtain ⟨e3, i3, x3, rfl⟩ := hform ev2 hev2 hins2
      simp only [Prod.mk.injEq] at h1
      simp only [insertEvent, Option.some.injEq, Prod.mk.injEq] at hc2
      obtain ⟨rfl, rfl⟩ := h1
      obtain ⟨rfl, rfl⟩ := hc2
      exact ⟨⟨x, hev⟩, ⟨x3, hev2⟩, fun h => hne h.symm⟩
    · rintro ⟨⟨x1, h1⟩, ⟨x2, h2⟩, hne⟩
      obtain ⟨t2, ht2, hspec2⟩ := processOverlaps_other_edges events e1 i1 x1 hform
      exact ⟨_, h1, rfl, t2, ht2, (hspec2 _).mpr ⟨rfl, fun h => hne h.symm, _, h2, rfl, rfl⟩⟩
  · intro done events hdone hex hall
    refine computeIntersectionsLoop_panics done events events [] hdone hex ?_
    intro ev hev hins
    obtain ⟨es, hes⟩ := hall ev hev hins
    exact processOverlaps_edgeSet_panics ev es hes events ⟨ev, hev, hins, es, hes⟩
  · rfl
  · refine computeIntersectionsLoop_panics _ _ _ [] rfl ⟨_, List.mem_cons_self _ _, rfl⟩ ?_
    intro ev hev hins
    simp only [List.mem_cons, List.mem_singleton, List.not_mem_nil, or_false] at hev
    rcases hev with rfl | rfl | rfl | rfl
    · exact processOverlaps_edgeSet_panics _ [0] rfl _ ⟨_, List.mem_cons_self _ _, rfl, [0], rfl⟩
    · exact processOverlaps_edgeSet_panics _ [1] rfl _ ⟨_, List.mem_cons_self _ _, rfl, [0], rfl⟩
    · cases hins
    · cases hins

/-! ## The merged nodes of `Relate`: `copyNodesAndLabels` -/

/-- The node that `copyNodesAndLabels(argIndex)` stores for a node of the graph is
a new node: its label at the other index is nil, and its On-location at `argIndex`
is that of the node of the graph. -/
theorem copiedNode_spec (argIndex : Nat) (node : Node) (hi : argIndex < 2) :
    ∃ n, copiedNode argIndex node = some n ∧ n.Point = node.Point ∧
      n.Label.IsNil (1 - argIndex) = some true ∧
      n.Label.LocationAt argIndex .On = node.Label.LocationAt argIndex .On := by
  interval_cases argIndex <;>
    simp [copiedNode, Label.LocationAt, Label.get, Label.SetLocation, Label.set, NewNode,
      NewLabel, Label.IsNil, TopologyLocation.IsNil, NewTopologyLocation, TopologyLocation.get]

/-- The loop of `copyNodesAndLabels` on an allocated map of merged nodes returns;
the entries of the other coordinates stay, and the entry of the `Point` of every
node of the graph becomes the new node built from a node of the graph with that
`Point`. -/
theorem copyNodesAndLabelsLoop_spec (argIndex : Nat) (hi : argIndex < 2)
    (l : List (Coordinate × Node)) :
    ∀ (r : Relate) (m : List (Coordinate × Node)), r.nodes = some m →
      ∃ m1, Relate.copyNodesAndLabelsLoop argIndex l r = some { r with nodes := some m1 } ∧
        (∀ c, (∀ p ∈ l, p.2.Point ≠ c) → mapGet m1 c = mapGet m c) ∧
        (∀ p ∈ l, ∃ q ∈ l, q.2.Point = p.2.Point ∧
          ∃ n, copiedNode argIndex q.2 = some n ∧ mapGet m1 p.2.Point = some n) := by
  induction l with
  | nil =>
    intro r m hm
    refine ⟨m, ?_, fun _ _ => rfl, ?_⟩
    · cases r
      simp only [Relate.copyNodesAndLabelsLoop] at *
      simp [hm]
    · intro p hp
      cases hp
  | cons p rest ih =>
    intro r m hm
    obtain ⟨n, hn, _, _, _⟩ := copiedNode_spec argIndex p.2 hi
    obtain ⟨m1, hloop, hframe, hcopied⟩ :=
      ih { r with nodes := some (mapPut m p.2.Point n) } (mapPut m p.2.Point n) rfl
    refine ⟨m1, ?_, ?_, ?_⟩
    · simp only [Relate.copyNodesAndLabelsLoop, hn, hm, hloop]
    · intro c hc
      rw [hframe c (fun q hq => hc q (List.mem_cons_of_mem _ hq))]
      exact mapGet_mapPut_ne m p.2.Point c n
        (fun h => hc p (List.mem_cons_self _ _) h.symm)
    · intro q hq
      rcases List.mem_cons.mp hq with rfl | hmem
      · by_cases hex : ∃ q1 ∈ rest, q1.2.Point = q.2.Point
        · obtain ⟨q1, hq1, hpt⟩ := hex
          obtain ⟨q2, hq2, hpt2, n2, hn2, hget⟩ := hcopied q1 hq1
          exact ⟨q2, List.mem_cons_of_mem _ hq2, hpt2.trans hpt, n2, hn2, hpt ▸ hget⟩
        · push_neg at hex
          refine ⟨q, List.mem_cons_self _ _, rfl, n, hn, ?_⟩
          rw [hframe q.2.Point hex]
          exact mapGet_mapPut_self m q.2.Point n
      · obtain ⟨q2, hq2, hpt2, n2, hn2, hget⟩ := hcopied q hmem
        exact ⟨q2, List.mem_cons_of_mem _ hq2, hpt2, n2, hn2, hget⟩

/-- One call of `copyNodesAndLabels(argIndex)` on an allocated map of merged nodes:
it returns, the graphs stay, and every node of the graph `argIndex` has a merged
node whose label at the other index is nil. -/
theorem copyNodesAndLabels_spec (r : Relate) (argIndex : Nat) (hi : argIndex < 2)
    (m : List (Coordinate × Node)) (hm : r.nodes = some m) :
    ∃ m1, r.copyNodesAndLabels argIndex = some { r with nodes := some m1 } ∧
      ∀ g gm, r.graphAt argIndex = some g → g.nodes = some gm →
        ∀ p ∈ gm, ∃ n, mapGet m1 p.2.Point = some n ∧
          n.Label.IsNil (1 - argIndex) = some true ∧
          ∃ q ∈ gm, q.2.Point = p.2.Point ∧
            n.Label.LocationAt argIndex .On = q.2.Label.LocationAt argIndex .On := by
  obtain ⟨g, hg⟩ : ∃ g, r.graphAt argIndex = some g := by
    interval_cases argIndex <;> simp [Relate.graphAt]
  rcases hgm : g.nodes with _ | gm
  · refine ⟨m, ?_, ?_⟩
    · cases r
      simp only [Relate.copyNodesAndLabels, hg, hgm] at *
      simp [hm]
    · intro g1 gm1 hg1 hgm1
      rw [hg] at hg1
      cases hg1
      rw [hgm] at hgm1
      cases hgm1
  · obtain ⟨m1, hloop, _, hcopied⟩ := copyNodesAndLabelsLoop_spec argIndex hi gm r m hm
    refine ⟨m1, by simp only [Relate.copyNodesAndLabels, hg, hgm, hloop], ?_⟩
    intro g1 gm1 hg1 hgm1 p hp
    rw [hg] at hg1
    cases hg1
    rw [hgm] at hgm1
    cases hgm1
    obtain ⟨q, hq, hpt, n, hn, hget⟩ := hcopied p hp
    obtain ⟨n1, hn1, _, hnil, hon⟩ := copiedNode_spec argIndex q.2 hi
    rw [hn] at hn1
    cases hn1
    exact ⟨n, hget, hnil, q, hq, hpt, hon⟩

/-- C36: after `copyNodesAndLabels(0)` followed by `copyNodesAndLabels(1)` on an
allocated map of merged nodes, every coordinate that is a node of the second graph
maps to a merged node whose label at index 0 is nil, also when the coordinate is a
node of the first graph: `copyNodesAndLabels(1)` stores a new node in place of the
one that is there, so the label that `copyNodesAndLabels(0)` set is lost.  The
On-location at index 1 is that of a node of the second graph. -/
theorem copyNodesAndLabels_drops_other_index (r : Relate)
    (m gm1 : List (Coordinate × Node)) (hm : r.nodes = some m)
    (h1 : r.graphs.2.nodes = some gm1) :
    ∃ r1 r2 m2, r.copyNodesAndLabels 0 = some r1 ∧ r1.copyNodesAndLabels 1 = some r2 ∧
      r2.nodes = some m2 ∧
      ∀ p ∈ gm1, ∃ n, mapGet m2 p.2.Point = some n ∧ n.Label.IsNil 0 = some true ∧
        ∃ q ∈ gm1, q.2.Point = p.2.Point ∧
          n.Label.LocationAt 1 .On = q.2.Label.LocationAt 1 .On := by
  obtain ⟨m1, hc0, _⟩ := copyNodesAndLabels_spec r 0 (by decide) m hm
  obtain ⟨m2, hc1, hspec⟩ :=
    copyNodesAndLabels_spec { r with nodes := some m1 } 1 (by decide) m1 rfl
  exact ⟨_, _, m2, hc0, hc1, rfl, fun p hp => hspec r.graphs.2 gm1 rfl h1 p hp⟩

/-- Witness of C36: both graphs have the node `(0,0)`, with the On-location
Interior at their own index; after the two calls the merged node of `(0,0)` has
the nil label at index 0. -/
theorem copyNodesAndLabels_drops_other_index_witness :
    ∃ r1 r2 m2,
      Relate.copyNodesAndLabels
        { graphs :=
            ({ graphLiteral (NewPoint (pt 0 0)) 0 true with
                nodes := some [(pt 0 0,
                  { Point := pt 0 0,
                    Label := { loc0 := On .Interior, loc1 := NewTopologyLocation } })] },
             { graphLiteral (NewPoint (pt 0 0)) 1 true with
                nodes := some [(pt 0 0,
                  { Point := pt 0 0,
                    Label := { loc0 := NewTopologyLocation, loc1 := On .Interior } })] }),
          nodes := some [] } 0 = some r1 ∧
      r1.copyNodesAndLabels 1 = some r2 ∧ r2.nodes = some m2 ∧
      ∀ p ∈ [(pt 0 0,
          ({ Point := pt 0 0,
             Label := { loc0 := NewTopologyLocation, loc1 := On .Interior } } : Node))],
        ∃ n, mapGet m2 p.2.Point = some n ∧ n.Label.IsNil 0 = some true ∧
          ∃ q ∈ [(pt 0 0,
              ({ Point := pt 0 0,
                 Label := { loc0 := NewTopologyLocation, loc1 := On .Interior } } : Node))],
            q.2.Point = p.2.Point ∧
              n.Label.LocationAt 1 .On = q.2.Label.LocationAt 1 .On :=
  copyNodesAndLabels_drops_other_index _ [] _ rfl rfl

/-- The merged nodes after the two calls on two graphs that both have the node
`(0,0)`: the one entry has the nil label at index 0. -/
theorem copyNodesAndLabels_both_graphs_example :
    ((Relate.copyNodesAndLabels
        { graphs :=
            ({ graphLiteral (NewPoint (pt 0 0)) 0 true with
                nodes := some [(pt 0 0,
                  { Point := pt 0 0,
                    Label := { loc0 := On .Interior, loc1 := NewTopologyLocation } })] },
             { graphLiteral (NewPoint (pt 0 0)) 1 true with
                nodes := some [(pt 0 0,
                  { Point := pt 0 0,
                    Label := { loc0 := NewTopologyLocation, loc1 := On .Interior } })] }),
          nodes := some [] } 0).bind (fun r1 => r1.copyNodesAndLabels 1)).map Relate.nodes =
      some (some [(pt 0 0,
        { Point := pt 0 0,
          Label := { loc0 := NewTopologyLocation, loc1 := On .Interior } })]) := by
  simp [Relate.copyNodesAndLabels, Relate.graphAt, graphLiteral,
    Relate.copyNodesAndLabelsLoop, copiedNode, Label.LocationAt, Label.get, Label.SetLocation,
    Label.set, NewNode, NewLabel, TopologyLocation.get, On, mapPut, NewTopologyLocation]

/-! ## The merged nodes of `Relate`: `computeIntersectionNodes` -/

/-- After `SetLocation(index, loc)` with a location other than `LocationNone` the
label at `index` is not nil, and the label at another index is as before. -/
theorem SetLocation_spec (l l1 : Label) (index : Nat) (loc : Location)
    (h : l.SetLocation index loc = some l1) :
    (loc ≠ .None → l1.IsNil index = some false) ∧
    (∀ other, other ≠ index → l1.get other = l.get other) ∧
    (l.IsNil index = some true → l1.get index = some (On loc)) := by
  unfold Label.SetLocation at h
  by_cases h0 : index = 0
  · subst h0
    simp only [Label.get, if_true, Label.set, Option.some.injEq] at h
    subst h
    refine ⟨?_, ?_, ?_⟩
    · intro hl
      cases loc <;> simp_all [Label.IsNil, Label.get, TopologyLocation.IsNil]
    · intro other ho
      simp [Label.get, ho]
    · intro hn
      simp only [Label.IsNil, Label.get, if_true, Option.map_some', Option.some.injEq,
        TopologyLocation.IsNil, Bool.and_eq_true, beq_iff_eq] at hn
      simp [Label.get, On, NewTopologyLocation, hn.1.2, hn.2]
  · by_cases h1 : index = 1
    · subst h1
      simp only [Label.get, if_true, Label.set, Option.some.injEq, one_ne_zero, if_false] at h
      subst h
      refine ⟨?_, ?_, ?_⟩
      · intro hl
        cases loc <;> simp_all [Label.IsNil, Label.get, TopologyLocation.IsNil]
      · intro other ho
        by_cases ho0 : other = 0
        · simp [Label.get, ho0]
        · simp [Label.get, ho0, ho]
      · intro hn
        simp only [Label.IsNil, Label.get, if_true, Option.map_some', Option.some.injEq,
          TopologyLocation.IsNil, Bool.and_eq_true, beq_iff_eq, one_ne_zero, if_false] at hn
        simp [Label.get, On, NewTopologyLocation, hn.1.2, hn.2]
    · simp [Label.get, h0, h1] at h

/-- The labelling that `computeIntersectionNodes` applies to a node whose label at
`argIndex` is nil: `SetLabelBoundary` finds no On-location and sets Boundary. -/
theorem relabel_nil (old : Node) (argIndex : Nat) (edgeLoc : Location) (hi : argIndex < 2)
    (hnil : old.Label.IsNil argIndex = some true) :
    ∃ l, old.Label.SetLocation argIndex (if edgeLoc = .Boundary then .Boundary else .Interior)
        = some l ∧
      (if edgeLoc = .Boundary then old.SetLabelBoundary argIndex
        else (old.Label.SetLocation argIndex .Interior).map
          (fun l => { old with Label := l })) = some { old with Label := l } := by
  obtain ⟨l, hl, _⟩ := LocationAt_SetLocation old.Label argIndex
    (if edgeLoc = .Boundary then .Boundary else .Interior) hi
  refine ⟨l, hl, ?_⟩
  have hon : old.Label.LocationAt argIndex .On = some .None := by
    interval_cases argIndex <;>
      simp_all [Label.IsNil, Label.LocationAt, Label.get, TopologyLocation.IsNil,
        TopologyLocation.get]
  by_cases hb : edgeLoc = .Boundary
  · simp only [hb, if_true] at hl ⊢
    simp [Node.SetLabelBoundary, hon, hl]
  · simp only [hb, if_false] at hl ⊢
    simp [hl]

/-- A new node has the nil label at both indices. -/
theorem NewRelateNode_IsNil (c : Coordinate) (argIndex : Nat) (hi : argIndex < 2) :
    (NewRelateNode c).Label.IsNil argIndex = some true := by
  interval_cases argIndex <;>
    simp [NewRelateNode, NewNode, NewLabel, Label.IsNil, Label.get, TopologyLocation.IsNil,
      NewTopologyLocation]

/-- `IsNil` at an index in range returns. -/
theorem Label_IsNil_isSome (l : Label) (argIndex : Nat) (hi : argIndex < 2) :
    ∃ b, l.IsNil argIndex = some b := by
  interval_cases argIndex <;> simp [Label.IsNil, Label.get]

/-- Nothing visited: the map of merged nodes is as before. -/
theorem LabelledFrom_refl (argIndex : Nat) (m : List (Coordinate × Node)) :
    LabelledFrom argIndex [] m m :=
  ⟨fun _ => Or.inl rfl, fun v hv => by cases hv⟩

/-- Two runs of visits, one after the other. -/
theorem LabelledFrom_trans (argIndex : Nat) (v1 v2 : List (Location × Coordinate))
    (m m1 m2 : List (Coordinate × Node)) (h1 : LabelledFrom argIndex v1 m m1)
    (h2 : LabelledFrom argIndex v2 m1 m2) : LabelledFrom argIndex (v1 ++ v2) m m2 := by
  have hX : ∀ loc : Location, (if loc = .Boundary then Location.Boundary else .Interior) ≠ .None := by
    intro loc
    split_ifs <;> decide
  constructor
  · intro c
    rcases h1.1 c with e1 | ⟨loc, l, hv, hnil, hset, hget⟩
    · rcases h2.1 c with e2 | ⟨loc2, l2, hv2, hnil2, hset2, hget2⟩
      · exact Or.inl (e2.trans e1)
      · rw [e1] at hnil2 hset2 hget2
        exact Or.inr ⟨loc2, l2, List.mem_append_right _ hv2, hnil2, hset2, hget2⟩
    · rcases h2.1 c with e2 | ⟨loc2, l2, hv2, hnil2, hset2, hget2⟩
      · exact Or.inr ⟨loc, l, List.mem_append_left _ hv, hnil, hset, e2.trans hget⟩
      · rw [hget] at hnil2
        simp only [Option.getD_some] at hnil2
        rw [((SetLocation_spec _ l argIndex _ hset).1 (hX loc))] at hnil2
        cases hnil2
  · intro v hv
    rcases List.mem_append.mp hv with hv1 | hv2
    · obtain ⟨n, hn, hnn⟩ := h1.2 v hv1
      rcases h2.1 v.2 with e2 | ⟨loc2, l2, hv2, hnil2, hset2, hget2⟩
      · exact ⟨n, e2.trans hn, hnn⟩
      · rw [hn] at hnil2
        simp only [Option.getD_some] at hnil2
        rw [hnn] at hnil2
        cases hnil2
    · exact h2.2 v hv2

/-- The body of the inner loop of `computeIntersectionNodes` on an allocated map
of merged nodes: it returns, and the map changes as `LabelledFrom` says. -/
theorem visitIntersection_spec (r : Relate) (argIndex : Nat) (edgeLoc : Location)
    (edgeInt : EdgeIntersection) (m : List (Coordinate × Node)) (hi : argIndex < 2)
    (hm : r.nodes = some m) :
    ∃ m1, r.visitIntersection argIndex edgeLoc edgeInt = some { r with nodes := some m1 } ∧
      LabelledFrom argIndex [(edgeLoc, edgeInt.Coordinate)] m m1 := by
  have hX : (if edgeLoc = .Boundary then Location.Boundary else .Interior) ≠ .None := by
    split_ifs <;> decide
  have hfresh : ∀ (old : Node) (m0 : List (Coordinate × Node)),
      (mapGet m edgeInt.Coordinate).getD (NewRelateNode edgeInt.Coordinate) = old →
      (∀ c, c ≠ edgeInt.Coordinate → mapGet m0 c = mapGet m c) →
      old.Label.IsNil argIndex = some true →
      ∃ m1, (match (if edgeLoc = .Boundary then old.SetLabelBoundary argIndex
          else (old.Label.SetLocation argIndex .Interior).map
            (fun l => { old with Label := l })) with
        | none => none
        | some node => some { r with nodes := some (mapPut m0 edgeInt.Coordinate node) }) =
          some { r with nodes := some m1 } ∧
        LabelledFrom argIndex [(edgeLoc, edgeInt.Coordinate)] m m1 := by
    intro old m0 hold hm0 hnil
    obtain ⟨l, hl, hre⟩ := relabel_nil old argIndex edgeLoc hi hnil
    refine ⟨mapPut m0 edgeInt.Coordinate { old with Label := l }, by rw [hre], ?_, ?_⟩
    · intro c
      by_cases hc : c = edgeInt.Coordinate
      · subst hc
        right
        refine ⟨edgeLoc, l, List.mem_singleton_self _, ?_, ?_, ?_⟩
        · rw [hold]; exact hnil
        · rw [hold]; exact hl
        · rw [hold]; exact mapGet_mapPut_self _ _ _
      · left
        rw [mapGet_mapPut_ne _ _ _ _ hc]
        exact hm0 c hc
    · intro v hv
      rw [List.mem_singleton] at hv
      subst hv
      exact ⟨_, mapGet_mapPut_self _ _ _, (SetLocation_spec _ l argIndex _ hl).1 hX⟩
  rcases hfound : mapGet m edgeInt.Coordinate with _ | node
  · simp only [Relate.visitIntersection, hm, hfound,
      NewRelateNode_IsNil edgeInt.Coordinate argIndex hi]
    exact hfresh (NewRelateNode edgeInt.Coordinate) _ (by rw [hfound]; rfl)
      (fun c hc => mapGet_mapPut_ne _ _ _ _ hc) (NewRelateNode_IsNil _ _ hi)
  · obtain ⟨b, hb⟩ := Label_IsNil_isSome node.Label argIndex hi
    cases b
    · simp only [Relate.visitIntersection, hm, hfound, hb]
      refine ⟨m, rfl, fun c => Or.inl rfl, ?_⟩
      intro v hv
      rw [List.mem_singleton] at hv
      subst hv
      exact ⟨node, hfound, hb⟩
    · simp only [Relate.visitIntersection, hm, hfound, hb]
      exact hfresh node m (by rw [hfound]; rfl) (fun c _ => rfl) hb

/-- The inner loop of `computeIntersectionNodes` over the intersections of one
edge. -/
theorem computeIntersectionNodesEdge_spec (argIndex : Nat) (edgeLoc : Location)
    (hi : argIndex < 2) (l : List (EdgeIntersection × EdgeIntersection)) :
    ∀ (r : Relate) (m : List (Coordinate × Node)), r.nodes = some m →
      ∃ m1, Relate.computeIntersectionNodesEdge argIndex edgeLoc l r
          = some { r with nodes := some m1 } ∧
        LabelledFrom argIndex (l.map (fun p => (edgeLoc, p.2.Coordinate))) m m1 := by
  induction l with
  | nil =>
    intro r m hm
    refine ⟨m, ?_, LabelledFrom_refl argIndex m⟩
    cases r
    simp only [Relate.computeIntersectionNodesEdge] at *
    simp [hm]
  | cons p rest ih =>
    intro r m hm
    obtain ⟨m1, hv, hl1⟩ := visitIntersection_spec r argIndex edgeLoc p.2 m hi hm
    obtain ⟨m2, hrest, hl2⟩ := ih { r with nodes := some m1 } m1 rfl
    refine ⟨m2, by simp only [Relate.computeIntersectionNodesEdge, hv, hrest], ?_⟩
    exact LabelledFrom_trans argIndex _ _ m m1 m2 hl1 hl2

/-- The outer loop of `computeIntersectionNodes` over the edges of the graph: the
visits are the intersections of the edges, each with the On-location of its
edge. -/
theorem computeIntersectionNodesLoop_spec (argIndex : Nat) (hi : argIndex < 2)
    (edges : List Edge) :
    ∀ (r : Relate) (m : List (Coordinate × Node)), r.nodes = some m →
      ∃ m1 visits, Relate.computeIntersectionNodesLoop argIndex edges r
          = some { r with nodes := some m1 } ∧
        LabelledFrom argIndex visits m m1 ∧
        ∀ v, v ∈ visits ↔ ∃ edge ∈ edges, ∃ p ∈ edge.eiList.nodeMap,
          edge.Label.LocationAt argIndex .On = some v.1 ∧ v.2 = p.2.Coordinate := by
  induction edges with
  | nil =>
    intro r m hm
    refine ⟨m, [], ?_, LabelledFrom_refl argIndex m, by simp⟩
    cases r
    simp only [Relate.computeIntersectionNodesLoop] at *
    simp [hm]
  | cons edge rest ih =>
    intro r m hm
    obtain ⟨edgeLoc, hloc⟩ := LocationAt_isSome edge.Label argIndex .On hi
    obtain ⟨m1, he, hl1⟩ :=
      computeIntersectionNodesEdge_spec argIndex edgeLoc hi edge.eiList.nodeMap r m hm
    obtain ⟨m2, visits, hrest, hl2, hchar⟩ := ih { r with nodes := some m1 } m1 rfl
    refine ⟨m2, _ ++ visits, by simp only [Relate.computeIntersectionNodesLoop, hloc, he, hrest],
      LabelledFrom_trans argIndex _ _ m m1 m2 hl1 hl2, ?_⟩
    intro v
    rw [List.mem_append, hchar v, List.mem_map]
    constructor
    · rintro (⟨p, hp, rfl⟩ | ⟨e, he1, p, hp, h1, h2⟩)
      · exact ⟨edge, List.mem_cons_self _ _, p, hp, hloc, rfl⟩
      · exact ⟨e, List.mem_cons_of_mem _ he1, p, hp, h1, h2⟩
    · rintro ⟨e, he1, p, hp, h1, h2⟩
      rcases List.mem_cons.mp he1 with rfl | hmem
      · left
        rw [hloc] at h1
        cases h1
        exact ⟨p, hp, Prod.ext rfl h2.symm⟩
      · exact Or.inr ⟨e, hmem, p, hp, h1, h2⟩

/-- C35: on an allocated map of merged nodes `computeIntersectionNodes(argIndex)`
returns, and: a merged node whose label at `argIndex` is not nil stays as it is;
an entry that is new or changed belongs to the coordinate of an intersection of an
edge of the graph, had the nil label at `argIndex`, and has there the On-location
Boundary when the On-location of that edge is Boundary and Interior otherwise,
with Left and Right still `LocationNone`; the label at the other index of every
merged node is the one it had (nil for a new node); and every coordinate of an
intersection has a merged node whose label at `argIndex` is not nil. -/
theorem computeIntersectionNodes_labels (r : Relate) (argIndex : Nat) (g : Graph)
    (m : List (Coordinate × Node)) (hg : r.graphAt argIndex = some g)
    (hm : r.nodes = some m) :
    ∃ m1, r.computeIntersectionNodes argIndex = some { r with nodes := some m1 } ∧
      (∀ c n, mapGet m c = some n → n.Label.IsNil argIndex = some false →
        mapGet m1 c = some n) ∧
      (∀ c n1, mapGet m1 c = some n1 → mapGet m1 c ≠ mapGet m c →
        ((mapGet m c).getD (NewRelateNode c)).Label.IsNil argIndex = some true ∧
        ∃ edge ∈ g.edges, ∃ p ∈ edge.eiList.nodeMap, p.2.Coordinate = c ∧
          ∃ loc, edge.Label.LocationAt argIndex .On = some loc ∧
            n1.Label.get argIndex =
              some (On (if loc = .Boundary then .Boundary else .Interior))) ∧
      (∀ c n1, mapGet m1 c = some n1 →
        n1.Label.get (1 - argIndex) =
          ((mapGet m c).getD (NewRelateNode c)).Label.get (1 - argIndex)) ∧
      (∀ edge ∈ g.edges, ∀ p ∈ edge.eiList.nodeMap,
        ∃ n1, mapGet m1 p.2.Coordinate = some n1 ∧ n1.Label.IsNil argIndex = some false) := by
  have hi : argIndex < 2 := by
    unfold Relate.graphAt at hg
    by_contra hge
    have h0 : argIndex ≠ 0 := by omega
    have h1 : argIndex ≠ 1 := by omega
    simp [h0, h1] at hg
  obtain ⟨m1, visits, hloop, ⟨hstep, hcov⟩, hchar⟩ :=
    computeIntersectionNodesLoop_spec argIndex hi g.edges r m hm
  refine ⟨m1, by simp only [Relate.computeIntersectionNodes, hg, hloop], ?_, ?_, ?_, ?_⟩
  · intro c n hn hnn
    rcases hstep c with e | ⟨loc, l, _, hnil, _, _⟩
    · exact e.trans hn
    · rw [hn] at hnil
      simp only [Option.getD_some] at hnil
      rw [hnn] at hnil
      cases hnil
  · intro c n1 hn1 hne
    rcases hstep c with e | ⟨loc, l, hv, hnil, hset, hget⟩
    · exact absurd e hne
    · obtain ⟨edge, hedge, p, hp, hloc, hc⟩ := (hchar (loc, c)).mp hv
      refine ⟨hnil, edge, hedge, p, hp, hc.symm, loc, hloc, ?_⟩
      rw [hget] at hn1
      cases hn1
      exact (SetLocation_spec _ l argIndex _ hset).2.2 hnil
  · intro c n1 hn1
    rcases hstep c with e | ⟨loc, l, hv, hnil, hset, hget⟩
    · rw [← e, hn1]
      rfl
    · rw [hget] at hn1
      cases hn1
      exact (SetLocation_spec _ l argIndex _ hset).2.1 (1 - argIndex) (by omega)
  · intro edge hedge p hp
    obtain ⟨loc, hloc⟩ := LocationAt_isSome edge.Label argIndex .On hi
    exact hcov (loc, p.2.Coordinate) ((hchar _).mpr ⟨edge, hedge, p, hp, hloc, rfl⟩)

/-- Witness of C35 on the relate of a line string with one recorded intersection
and an empty map of merged nodes. -/
theorem computeIntersectionNodes_labels_witness :
    ∃ m1, crossedRelate.computeIntersectionNodes 0
        = some { crossedRelate with nodes := some m1 } ∧
      (∀ c n, mapGet ([] : List (Coordinate × Node)) c = some n →
        n.Label.IsNil 0 = some false → mapGet m1 c = some n) ∧
      (∀ c n1, mapGet m1 c = some n1 → mapGet m1 c ≠ mapGet [] c →
        ((mapGet [] c).getD (NewRelateNode c)).Label.IsNil 0 = some true ∧
        ∃ edge ∈ crossedRelate.graphs.1.edges, ∃ p ∈ edge.eiList.nodeMap, p.2.Coordinate = c ∧
          ∃ loc, edge.Label.LocationAt 0 .On = some loc ∧
            n1.Label.get 0 = some (On (if loc = .Boundary then .Boundary else .Interior))) ∧
      (∀ c n1, mapGet m1 c = some n1 →
        n1.Label.get (1 - 0) = ((mapGet [] c).getD (NewRelateNode c)).Label.get (1 - 0)) ∧
      (∀ edge ∈ crossedRelate.graphs.1.edges, ∀ p ∈ edge.eiList.nodeMap,
        ∃ n1, mapGet m1 p.2.Coordinate = some n1 ∧ n1.Label.IsNil 0 = some false) :=
  computeIntersectionNodes_labels crossedRelate 0 crossedRelate.graphs.1 [] rfl rfl

/-- The merged nodes after `computeIntersectionNodes(0)` on the relate of the
witness: one node, at `(2,0)`, with the On-location Interior at index 0. -/
theorem computeIntersectionNodes_example :
    (crossedRelate.computeIntersectionNodes 0).map Relate.nodes =
      some (some [(pt 2 0,
        { Point := pt 2 0,
          Label := { loc0 := On .Interior, loc1 := NewTopologyLocation } })]) := by
  simp [crossedRelate, Relate.computeIntersectionNodes, Relate.graphAt, graphLiteral,
    Relate.computeIntersectionNodesLoop, Relate.computeIntersectionNodesEdge,
    Relate.visitIntersection, EdgeIntersectionList.Add, NewEdgeIntersectionList, mapGet,
    mapPut, Label.LocationAt, Label.get, TopologyLocation.get, On, NewTopologyLocation,
    NewRelateNode, NewNode, NewLabel, Label.IsNil, TopologyLocation.IsNil,
    Label.SetLocation, Label.set]

/-! ## `SegmentIntersector.AddIntersections` -/

/-- A key found by `mapGet` is the key of an entry. -/
theorem mapGet_some_mem {κ ν : Type} [DecidableEq κ] (m : List (κ × ν)) (k : κ) (v : ν)
    (h : mapGet m k = some v) : (k, v) ∈ m := by
  induction m with
  | nil => simp [mapGet] at h
  | cons p rest ih =>
    obtain ⟨k1, v1⟩ := p
    by_cases h1 : k1 = k
    · subst h1
      simp only [mapGet, if_true, Option.some.injEq] at h
      subst h
      exact List.mem_cons_self _ _
    · simp only [mapGet, h1, if_false] at h
      exact List.mem_cons_of_mem _ (ih h)

/-- After `m[k] = v` the map has the key `k`, and every key it had. -/
theorem mapPut_keys {κ ν : Type} [DecidableEq κ] (m : List (κ × ν)) (k : κ) (v : ν) :
    (k, v) ∈ mapPut m k v ∧ ∀ p ∈ m, ∃ q ∈ mapPut m k v, q.1 = p.1 := by
  induction m with
  | nil => simp [mapPut]
  | cons p rest ih =>
    obtain ⟨k1, v1⟩ := p
    by_cases h1 : k1 = k
    · subst h1
      simp only [mapPut, if_true]
      refine ⟨List.mem_cons_self _ _, ?_⟩
      intro p hp
      rcases List.mem_cons.mp hp with rfl | hmem
      · exact ⟨_, List.mem_cons_self _ _, rfl⟩
      · exact ⟨p, List.mem_cons_of_mem _ hmem, rfl⟩
    · simp only [mapPut, h1, if_false]
      refine ⟨List.mem_cons_of_mem _ ih.1, ?_⟩
      intro p hp
      rcases List.mem_cons.mp hp with rfl | hmem
      · exact ⟨_, List.mem_cons_self _ _, rfl⟩
      · obtain ⟨q, hq, hqk⟩ := ih.2 p hmem
        exact ⟨q, List.mem_cons_of_mem _ hq, hqk⟩

/-- After `Add(intPt, segmentIndex, dist)` the list has an entry for `intPt`, and
an entry for every key it had. -/
theorem EdgeIntersectionList_Add_keys (eil : EdgeIntersectionList) (intPt : Coordinate)
    (segmentIndex : Nat) (dist : ℚ) :
    (∃ p ∈ (eil.Add intPt segmentIndex dist).1.nodeMap, p.1.Coordinate = intPt) ∧
    (∀ p ∈ eil.nodeMap, ∃ q ∈ (eil.Add intPt segmentIndex dist).1.nodeMap, q.1 = p.1) := by
  unfold EdgeIntersectionList.Add
  rcases hget : mapGet eil.nodeMap
      { Coordinate := intPt, SegmentIndex := segmentIndex, Distance := dist } with _ | stored
  · simp only [hget]
    exact ⟨⟨_, (mapPut_keys _ _ _).1, rfl⟩, (mapPut_keys _ _ _).2⟩
  · simp only [hget]
    exact ⟨⟨_, mapGet_some_mem _ _ _ hget, rfl⟩, fun p hp => ⟨p, hp, rfl⟩⟩

/-- A call of `AddIntersection` that returns leaves the coordinates of the edge,
records the intersection point number `intIndex`, and keeps what was recorded. -/
theorem AddIntersection_records (e e1 : Edge) (li : RobustLineIntersector)
    (segmentIndex geomIndex intIndex : Nat)
    (h : e.AddIntersection li segmentIndex geomIndex intIndex = some e1) :
    e1.Coordinates = e.Coordinates ∧
    (∀ c, li.IntersectionAt intIndex = some c → e1.Recorded c) ∧
    (∀ c, e.Recorded c → e1.Recorded c) := by
  unfold Edge.AddIntersection at h
  rcases hp : li.IntersectionAt intIndex with _ | intPt
  · simp [hp] at h
  · rcases hd : li.EdgeDistance geomIndex intIndex with _ | dist
    · simp [hp, hd] at h
    · simp only [hp, hd, Option.some.injEq] at h
      subst h
      refine ⟨rfl, ?_, ?_⟩
      · intro c hc
        cases hc
        exact (EdgeIntersectionList_Add_keys _ _ _ _).1
      · rintro c ⟨p, hp1, hpc⟩
        obtain ⟨q, hq, hqk⟩ := (EdgeIntersectionList_Add_keys e.eiList intPt _ _).2 p hp1
        exact ⟨q, hq, by rw [hqk]; exact hpc⟩

/-- A call of `Edge.AddIntersections` that returns leaves the coordinates of the
edge, records every intersection point the line intersector reports, and keeps
what was recorded. -/
theorem Edge_AddIntersections_records (e e1 : Edge) (li : RobustLineIntersector)
    (segmentIndex geomIndex : Nat) (h : e.AddIntersections li segmentIndex geomIndex = some e1) :
    e1.Coordinates = e.Coordinates ∧
    (∀ c ∈ li.reported, e1.Recorded c) ∧
    (∀ c, e.Recorded c → e1.Recorded c) := by
  unfold Edge.AddIntersections RobustLineIntersector.NumIntersections at h
  unfold RobustLineIntersector.reported
  rcases hr : li.result
  · simp only [hr, LineIntersectionResult.toNat, List.range_zero, List.foldlM_nil] at h
    cases h
    exact ⟨rfl, by simp, fun c hc => hc⟩
  · have h1 : List.range 1 = [0] := by decide
    simp only [hr, LineIntersectionResult.toNat, h1, List.foldlM_cons, List.foldlM_nil] at h
    rcases ha : e.AddIntersection li segmentIndex geomIndex 0 with _ | ea
    · simp [ha] at h
    · simp only [ha, Option.bind_eq_bind, Option.some_bind, Option.pure_def,
        Option.some.injEq] at h
      subst h
      obtain ⟨hc, hrec, hkeep⟩ := AddIntersection_records e ea li segmentIndex geomIndex 0 ha
      refine ⟨hc, ?_, hkeep⟩
      intro c hcm
      rw [List.mem_singleton] at hcm
      subst hcm
      exact hrec _ (by simp [RobustLineIntersector.IntersectionAt])
  · have h2 : List.range 2 = [0, 1] := by decide
    simp only [hr, LineIntersectionResult.toNat, h2, List.foldlM_cons, List.foldlM_nil] at h
    rcases ha : e.AddIntersection li segmentIndex geomIndex 0 with _ | ea
    · simp [ha] at h
    · rcases hb : ea.AddIntersection li segmentIndex geomIndex 1 with _ | eb
      · simp [ha, hb] at h
      · simp only [ha, hb, Option.bind_eq_bind, Option.some_bind, Option.pure_def,
          Option.some.injEq] at h
        subst h
        obtain ⟨hc, hrec, hkeep⟩ := AddIntersection_records e ea li segmentIndex geomIndex 0 ha
        obtain ⟨hc1, hrec1, hkeep1⟩ :=
          AddIntersection_records ea eb li segmentIndex geomIndex 1 hb
        refine ⟨hc1.trans hc, ?_, fun c h0 => hkeep1 c (hkeep c h0)⟩
        intro c hcm
        simp only [List.mem_cons, List.mem_singleton, List.not_mem_nil, or_false] at hcm
        rcases hcm with rfl | rfl
        · exact hkeep1 _ (hrec _ (by simp [RobustLineIntersector.IntersectionAt]))
        · exact hrec1 _ (by simp [RobustLineIntersector.IntersectionAt])

/-- The two calls of `Edge.AddIntersections` that `AddIntersections` makes: when
they return, both edges have every reported intersection point recorded. -/
theorem recordIntersections_records (li : RobustLineIntersector) (edges edges1 : List Edge)
    (e0 s0 e1 s1 : Nat) (h : recordIntersections li edges e0 s0 e1 s1 = some edges1) :
    ∃ a b, edges1[e0]? = some a ∧ edges1[e1]? = some b ∧
      ∀ c ∈ li.reported, a.Recorded c ∧ b.Recorded c := by
  unfold recordIntersections at h
  rcases h0 : edges[e0]? with _ | edge0
  · simp [h0] at h
  · rcases ha : edge0.AddIntersections li s0 0 with _ | a
    · simp [h0, ha] at h
    · rcases h1 : (edges.set e0 a)[e1]? with _ | edge1
      · simp [h0, ha, h1] at h
      · rcases hb : edge1.AddIntersections li s1 1 with _ | b
        · simp [h0, ha, h1, hb] at h
        · simp only [h0, ha, h1, hb, Option.some.injEq] at h
          subst h
          obtain ⟨_, hreca, _⟩ := Edge_AddIntersections_records edge0 a li s0 0 ha
          obtain ⟨_, hrecb, hkeepb⟩ := Edge_AddIntersections_records edge1 b li s1 1 hb
          have hlen0 : e0 < edges.length := by
            by_contra hge
            rw [List.getElem?_eq_none (not_lt.mp hge)] at h0
            cases h0
          have hlen1 : e1 < (edges.set e0 a).length := by
            by_contra hge
            rw [List.getElem?_eq_none (not_lt.mp hge)] at h1
            cases h1
          by_cases he : e0 = e1
          · subst he
            have hedge1 : edge1 = a := by
              rw [List.getElem?_set_self hlen0] at h1
              cases h1
              rfl
            subst hedge1
            refine ⟨b, b, List.getElem?_set_self hlen1, List.getElem?_set_self hlen1, ?_⟩
            intro c hc
            exact ⟨hrecb c hc, hrecb c hc⟩
          · refine ⟨a, b, ?_, List.getElem?_set_self hlen1, ?_⟩
            · rw [List.getElem?_set_ne (Ne.symm he), List.getElem?_set_self hlen0]
            · intro c hc
              exact ⟨hreca c hc, hrecb c hc⟩

/-- The assignment `e.Isolated = false` changes neither the coordinates nor the
intersection list of an edge of the store. -/
theorem clearIsolated_getElem? (edges : List Edge) (e k : Nat) :
    ((clearIsolated edges e)[k]?).map Edge.Coordinates = (edges[k]?).map Edge.Coordinates ∧
    ((clearIsolated edges e)[k]?).map Edge.eiList = (edges[k]?).map Edge.eiList := by
  unfold clearIsolated
  rcases he : edges[e]? with _ | edge
  · exact ⟨rfl, rfl⟩
  · simp only [List.getElem?_set]
    by_cases hk : e = k
    · subst hk
      have hlen : e < edges.length := by
        by_contra hge
        rw [List.getElem?_eq_none (not_lt.mp hge)] at he
        cases he
      simp [hlen, he]
    · simp [hk]

/-- The result of `isTrivialIntersection` depends on the line intersector and on
the coordinates of the edge `e0` only. -/
theorem isTrivialIntersection_congr (si si1 : SegmentIntersector) (edges edges1 : List Edge)
    (e0 e1 : Nat) (i j : Int) (hli : si1.lineIntersector = si.lineIntersector)
    (hc : (edges1[e0]?).map Edge.Coordinates = (edges[e0]?).map Edge.Coordinates) :
    si1.isTrivialIntersection edges1 e0 i e1 j = si.isTrivialIntersection edges e0 i e1 j := by
  unfold SegmentIntersector.isTrivialIntersection
  rw [hli]
  rcases h1 : edges1[e0]? with _ | a <;> rcases h0 : edges[e0]? with _ | b <;>
    simp only [h1, h0, Option.map_none', Option.map_some', Option.some.injEq] at hc
  · rfl
  · cases hc
  · cases hc
  · simp only [h1, h0, Edge.Closed, hc]

/-- C32: for two segments that `AddIntersections` does not skip, whose
intersection the line intersector reports and `isTrivialIntersection` does not
call trivial.  When `includeProper` is set or the intersection is not proper, a
call that returns leaves both edges with every reported intersection point
recorded in their intersection lists.  When `includeProper` is not set and the
intersection is proper, the call returns, the intersection list of every edge is
as before, and `hasProper` is set. -/
theorem AddIntersections_records
    (compute : RobustLineIntersector → Coordinate → Coordinate → Coordinate → Coordinate →
      RobustLineIntersector)
    (si : SegmentIntersector) (edges : List Edge) (e0 e1 s0 s1 : Nat) (edge0 edge1 : Edge)
    (p00 p01 p10 p11 : Coordinate)
    (hne : ¬ (e0 = e1 ∧ s0 = s1))
    (h0 : edges[e0]? = some edge0) (h1 : edges[e1]? = some edge1)
    (hp00 : edge0.Coordinates[s0]? = some p00) (hp01 : edge0.Coordinates[s0 + 1]? = some p01)
    (hp10 : edge1.Coordinates[s1]? = some p10) (hp11 : edge1.Coordinates[s1 + 1]? = some p11)
    (hhas : (compute si.lineIntersector p00 p01 p10 p11).HasIntersection = true)
    (hnt : SegmentIntersector.isTrivialIntersection
      { si with lineIntersector := compute si.lineIntersector p00 p01 p10 p11 }
      edges e0 s0 e1 s1 = some false) :
    ((si.includeProper = true ∨ (compute si.lineIntersector p00 p01 p10 p11).IsProper = false) →
      ∀ si1 edges1, si.AddIntersections compute edges e0 s0 e1 s1 = some (si1, edges1) →
        si1.hasIntersection = true ∧
        ∃ a b, edges1[e0]? = some a ∧ edges1[e1]? = some b ∧
          ∀ c ∈ (compute si.lineIntersector p00 p01 p10 p11).reported,
            a.Recorded c ∧ b.Recorded c) ∧
    ((si.includeProper = false ∧ (compute si.lineIntersector p00 p01 p10 p11).IsProper = true) →
      ∃ si1 edges1, si.AddIntersections compute edges e0 s0 e1 s1 = some (si1, edges1) ∧
        si1.hasIntersection = true ∧ si1.hasProper = true ∧
        ∀ k : Nat, (edges1[k]?).map Edge.eiList = (edges[k]?).map Edge.eiList) := by
  have hne1 : ¬ (e0 = e1 ∧ (s0 : Int) = (s1 : Int)) := by
    intro h
    exact hne ⟨h.1, by exact_mod_cast h.2⟩
  have hneg : ¬ ((s0 : Int) < 0 ∨ (s1 : Int) < 0) := by omega
  have hcl : ∀ k : Nat, ((if si.recordIsolated = true then clearIsolated (clearIsolated edges e0) e1
      else edges)[k]?).map Edge.Coordinates = (edges[k]?).map Edge.Coordinates ∧
      ((if si.recordIsolated = true then clearIsolated (clearIsolated edges e0) e1
      else edges)[k]?).map Edge.eiList = (edges[k]?).map Edge.eiList := by
    intro k
    split_ifs
    · exact ⟨((clearIsolated_getElem? _ e1 k).1).trans (clearIsolated_getElem? _ e0 k).1,
        ((clearIsolated_getElem? _ e1 k).2).trans (clearIsolated_getElem? _ e0 k).2⟩
    · exact ⟨rfl, rfl⟩
  have htriv : ∀ si2 : SegmentIntersector,
      si2.lineIntersector = compute si.lineIntersector p00 p01 p10 p11 →
      si2.isTrivialIntersection
        (if si.recordIsolated = true then clearIsolated (clearIsolated edges e0) e1 else edges)
        e0 s0 e1 s1 = some false := by
    intro si2 h2
    rw [isTrivialIntersection_congr
      { si with lineIntersector := compute si.lineIntersector p00 p01 p10 p11 } si2 edges _
      e0 e1 s0 s1 h2 (hcl e0).1]
    exact hnt
  constructor
  · intro hrec si1 edges1 hres
    unfold SegmentIntersector.AddIntersections at hres
    simp only [hne1, hneg, if_false, Int.toNat_natCast, h0, h1, hp00, hp01, hp10, hp11, hhas,
      if_true] at hres
    rw [htriv _ rfl] at hres
    have hcond : (si.includeProper ||
        !(compute si.lineIntersector p00 p01 p10 p11).IsProper) = true := by
      rcases hrec with h | h <;> simp [h]
    simp only [hcond, if_true] at hres
    rcases hr : recordIntersections (compute si.lineIntersector p00 p01 p10 p11)
        (if si.recordIsolated = true then clearIsolated (clearIsolated edges e0) e1 else edges)
        e0 s0 e1 s1 with _ | es
    · simp [hr] at hres
    · simp only [hr] at hres
      have hedges : es = edges1 := by
        split_ifs at hres <;> simp only [Option.some.injEq, Prod.mk.injEq] at hres <;>
          exact hres.2
      have hsi : si1.hasIntersection = true := by
        split_ifs at hres <;> simp only [Option.some.injEq, Prod.mk.injEq] at hres <;>
          rw [← hres.1]
      subst hedges
      exact ⟨hsi, recordIntersections_records _ _ _ e0 s0 e1 s1 hr⟩
  · rintro ⟨hinc, hprop⟩
    unfold SegmentIntersector.AddIntersections
    simp only [hne1, hneg, if_false, Int.toNat_natCast, h0, h1, hp00, hp01, hp10, hp11, hhas,
      if_true]
    rw [htriv _ rfl]
    simp only [hinc, hprop, Bool.not_true, Bool.or_false, Bool.or_self, Bool.false_eq_true,
      if_false, if_true]
    refine ⟨_, _, rfl, ?_, ?_, fun k => (hcl k).2⟩
    · split_ifs <;> rfl
    · split_ifs <;> rfl

/-- Witness of C32: the segment `(0,0)-(2,0)` of one edge and the segment
`(2,0)-(0,5)` of another meet in the point `(2,0)`, which is no proper
intersection. -/
theorem AddIntersections_records_witness :
    (((NewSegmentIntersector NewRobustLineIntersector false true false).includeProper = true ∨
        (RobustLineIntersector.ComputeIntersection
          (NewSegmentIntersector NewRobustLineIntersector false true false).lineIntersector
          (pt 0 0) (pt 2 0) (pt 2 0) (pt 0 5)).IsProper = false) →
      ∀ si1 edges1,
        (NewSegmentIntersector NewRobustLineIntersector false true false).AddIntersections
          RobustLineIntersector.ComputeIntersection
          [NewEdge [pt 0 0, pt 2 0], NewEdge [pt 2 0, pt 0 5]] 0 (0 : Nat) 1 (0 : Nat)
            = some (si1, edges1) →
        si1.hasIntersection = true ∧
        ∃ a b, edges1[0]? = some a ∧ edges1[1]? = some b ∧
          ∀ c ∈ (RobustLineIntersector.ComputeIntersection
              (NewSegmentIntersector NewRobustLineIntersector false true false).lineIntersector
              (pt 0 0) (pt 2 0) (pt 2 0) (pt 0 5)).reported,
            a.Recorded c ∧ b.Recorded c) ∧
    (((NewSegmentIntersector NewRobustLineIntersector false true false).includeProper = false ∧
        (RobustLineIntersector.ComputeIntersection
          (NewSegmentIntersector NewRobustLineIntersector false true false).lineIntersector
          (pt 0 0) (pt 2 0) (pt 2 0) (pt 0 5)).IsProper = true) →
      ∃ si1 edges1,
        (NewSegmentIntersector NewRobustLineIntersector false true false).AddIntersections
          RobustLineIntersector.ComputeIntersection
          [NewEdge [pt 0 0, pt 2 0], NewEdge [pt 2 0, pt 0 5]] 0 (0 : Nat) 1 (0 : Nat)
            = some (si1, edges1) ∧
        si1.hasIntersection = true ∧ si1.hasProper = true ∧
        ∀ k : Nat, (edges1[k]?).map Edge.eiList =
          (([NewEdge [pt 0 0, pt 2 0], NewEdge [pt 2 0, pt 0 5]] : List Edge)[k]?).map
            Edge.eiList) :=
  AddIntersections_records RobustLineIntersector.ComputeIntersection
    (NewSegmentIntersector NewRobustLineIntersector false true false)
    [NewEdge [pt 0 0, pt 2 0], NewEdge [pt 2 0, pt 0 5]] 0 1 0 0
    (NewEdge [pt 0 0, pt 2 0]) (NewEdge [pt 2 0, pt 0 5]) (pt 0 0) (pt 2 0) (pt 2 0) (pt 0 5)
    (by decide) rfl rfl rfl rfl rfl rfl
    (by
      show (NewRobustLineIntersector.ComputeIntersection (pt 0 0) (pt 2 0) (pt 2 0)
        (pt 0 5)).HasIntersection = true
      rw [intersector_at_vertex]
      rfl)
    (by simp [SegmentIntersector.isTrivialIntersection])

/-- The call of the witness of C32 returns: the point `(2,0)` is in the
intersection list of both edges, and `hasProper` stays unset. -/
theorem AddIntersections_example :
    ((NewSegmentIntersector NewRobustLineIntersector false true false).AddIntersections
        RobustLineIntersector.ComputeIntersection
        [NewEdge [pt 0 0, pt 2 0], NewEdge [pt 2 0, pt 0 5]] 0 0 1 0).map
      (fun res => (res.1.hasIntersection, res.1.hasProper,
        res.2.map (fun e => e.eiList.nodeMap.map (fun p => p.1)))) =
      some (true, false,
        [[{ Coordinate := pt 2 0, SegmentIndex := 0, Distance := 2 }],
         [{ Coordinate := pt 2 0, SegmentIndex := 1, Distance := 0 }]]) := by
  have h1 : List.range 1 = [0] := by decide
  have a1 : (pt 2 0).Equals2D (pt 2 0) = false := by decide
  have a2 : (pt 2 0).Equals2D (pt 0 5) = true := by decide
  have d1 : computeEdgeDistance (pt 2 0) (pt 0 0) (pt 2 0) = some 2 := by
    norm_num [computeEdgeDistance, Coordinate.Equals, pt]
  have d2 : computeEdgeDistance (pt 2 0) (pt 2 0) (pt 0 5) = some 0 := by
    norm_num [computeEdgeDistance, Coordinate.Equals, pt]
  simp [SegmentIntersector.AddIntersections, NewEdge, intersector_at_vertex,
    RobustLineIntersector.HasIntersection, RobustLineIntersector.IsProper,
    SegmentIntersector.isTrivialIntersection, clearIsolated, recordIntersections,
    Edge.AddIntersections, RobustLineIntersector.NumIntersections,
    LineIntersectionResult.toNat, h1, Edge.AddIntersection,
    RobustLineIntersector.IntersectionAt, RobustLineIntersector.EdgeDistance, d1, d2, a1, a2,
    EdgeIntersectionList.Add, NewEdgeIntersectionList, mapGet, mapPut, NewSegmentIntersector]

end Graph

end Geoz
